import Mathlib

/-!
# Mercury NA OFI plugin (`src/na/na_ofi.c`): shallow embedding

The C functions of the plugin are embedded as Lean functions of the same name.

* Memory blocks are lists of byte cells (`List Nat`, a cell is read modulo 256),
  struct fields are read little-endian at the offsets of the LP64 Linux ABI
  (`struct sockaddr_in` is 16 bytes, `struct na_ofi_gni_addr` is 48 bytes).
* Undefined behaviour of the C program (NULL dereference, failed `assert`,
  access outside a block, use after free) is the error side of
  `Except Fault`.
* Everything the plugin asks of the outside (allocator, fabric library,
  other threads) is answered by an `Env`, a deterministic function of the
  log of calls made so far; the log is part of the `World`.
-/

namespace NaOfi

/-! ## Basic types -/

/-- Modelled from the spec: the return codes of the NA layer (`na_return_t`, declared
in `na_types.h`, which is not among the sources), the fixed enumeration of
section 6.1. -/
inductive na_return_t
  | NA_SUCCESS | NA_NOMEM | NA_TIMEOUT | NA_CANCELED | NA_INVALID_ARG
  | NA_OVERFLOW | NA_PROTOCOL_ERROR | NA_PROTONOSUPPORT | NA_ADDRNOTAVAIL
  | NA_NOENTRY | NA_BUSY | NA_FAULT | NA_MSGSIZE | NA_OPNOTSUPPORTED | NA_AGAIN
  deriving DecidableEq, Repr

open na_return_t

/-- Ways in which the C program leaves defined behaviour (`bad_conversion` is
the conversion of a floating value outside the range of the integer type);
`out_of_fuel` is not one of them but the end of the fuel given to an unbounded
loop. -/
inductive Fault
  | null_deref | assert_fail | out_of_bounds | use_after_free | out_of_fuel | bad_conversion
  deriving DecidableEq, Repr

/-- Address formats of the fabric library (`enum` in `rdma/fabric.h`). -/
def FI_SOCKADDR_IN : Nat := 2
def FI_ADDR_GNI : Nat := 6
def FI_ADDR_PSMX2 : Nat := 10

/-- Size in bytes of `struct na_ofi_sin_addr` (a `struct sockaddr_in`). -/
def sizeof_na_ofi_sin_addr : Nat := 16
/-- Size in bytes of `struct na_ofi_psm2_addr` (two 64-bit words). -/
def sizeof_na_ofi_psm2_addr : Nat := 16
/-- Size in bytes of `struct na_ofi_gni_addr`. -/
def sizeof_na_ofi_gni_addr : Nat := 48

/-! ## Memory blocks -/

/-- Little-endian value of a run of byte cells. -/
def le_val : List Nat → Nat
  | [] => 0
  | b :: bs => b % 256 + 256 * le_val bs

/-- The `n` little-endian bytes of `v` (what `memcpy` sees of an integer). -/
def le_bytes : Nat → Nat → List Nat
  | 0, _ => []
  | n + 1, v => v % 256 :: le_bytes n (v / 256)

/-- Read an `n`-byte little-endian integer at offset `off` of a block. -/
def load (m : List Nat) (off n : Nat) : Except Fault Nat :=
  if off + n ≤ m.length then .ok (le_val ((m.drop off).take n))
  else .error Fault.out_of_bounds

/-- The `memcpy(dst, src, n)` of the first `n` bytes of `src` over the start of `dst`. -/
def memcpy (dst src : List Nat) (n : Nat) : Except Fault (List Nat) :=
  if n ≤ src.length ∧ n ≤ dst.length then .ok (src.take n ++ dst.drop n)
  else .error Fault.out_of_bounds

/-! ## Key derivation (`na_ofi_addr_to_key` and helpers) -/

/-- Field `sin.sin_port` (offset 2, 16 bits) of a `struct na_ofi_sin_addr`. -/
def sin_port (addr : List Nat) : Except Fault Nat := load addr 2 2
/-- Field `sin.sin_addr.s_addr` (offset 4, 32 bits) of a `struct na_ofi_sin_addr`. -/
def sin_s_addr (addr : List Nat) : Except Fault Nat := load addr 4 4
/-- Field `addr0` (offset 0, 64 bits) of a `struct na_ofi_psm2_addr`. -/
def psm2_addr0 (addr : List Nat) : Except Fault Nat := load addr 0 8
/-- Field `device_addr` (offset 0, 32 bits) of a `struct na_ofi_gni_addr`. -/
def gni_device_addr (addr : List Nat) : Except Fault Nat := load addr 0 4
/-- Field `cdm_id` (offset 4, 32 bits) of a `struct na_ofi_gni_addr`. -/
def gni_cdm_id (addr : List Nat) : Except Fault Nat := load addr 4 4

/-- The `na_ofi_sin_to_key`: `((na_uint64_t) s_addr) << 32 | sin_port`. -/
def na_ofi_sin_to_key (addr : List Nat) : Except Fault Nat := do
  let s_addr ← sin_s_addr addr
  let port ← sin_port addr
  pure ((((s_addr % 2 ^ 64) <<< 32) % 2 ^ 64) ||| port)

/-- The `na_ofi_psm2_to_key`: the first 64 bits (`addr0`). -/
def na_ofi_psm2_to_key (addr : List Nat) : Except Fault Nat :=
  psm2_addr0 addr

/-- The `na_ofi_gni_to_key`: `((na_uint64_t) device_addr) << 32 | cdm_id`. -/
def na_ofi_gni_to_key (addr : List Nat) : Except Fault Nat := do
  let device_addr ← gni_device_addr addr
  let cdm_id ← gni_cdm_id addr
  pure ((((device_addr % 2 ^ 64) <<< 32) % 2 ^ 64) ||| cdm_id)

/-- The `na_ofi_addr_to_key`: the switch on the address format, with its asserts. -/
def na_ofi_addr_to_key (addr_format : Nat) (addr : List Nat) (len : Nat) :
    Except Fault Nat :=
  if addr_format = FI_SOCKADDR_IN then
    if len = sizeof_na_ofi_sin_addr then na_ofi_sin_to_key addr
    else .error Fault.assert_fail
  else if addr_format = FI_ADDR_PSMX2 then
    if len = sizeof_na_ofi_sin_addr then na_ofi_sin_to_key addr
    else .error Fault.assert_fail
  else if addr_format = FI_ADDR_GNI then
    if len = sizeof_na_ofi_gni_addr then na_ofi_gni_to_key addr
    else .error Fault.assert_fail
  else .ok 0

/-! ## C library: `sscanf`, `inet_pton`, byte order -/

/-- Conversion directives of the `sscanf` formats the plugin uses: an ordinary
character, a negated scanset `%[^...]` (assigned or suppressed with `*`, with
an optional maximum width), and an unsigned integer conversion (`%u`, `%x`,
`%hu`: optional width, base, width in bits of the object stored into). -/
inductive ScanDir
  | lit (c : Char)
  | scanset (assign : Bool) (width : Option Nat) (excl : List Char)
  | uint (width : Option Nat) (base : Nat) (bits : Nat)

/-- A value stored by an assigning `sscanf` conversion. -/
inductive ScanVal
  | str (s : List Char)
  | num (n : Nat)
  deriving DecidableEq, Repr

/-- The `isspace` of the C locale. -/
def isspace (c : Char) : Bool :=
  c.toNat = 32 || (9 ≤ c.toNat && c.toNat ≤ 13)

/-- Value of a digit character in the given base, if it is one. -/
def digit_val (base : Nat) (c : Char) : Option Nat :=
  let n := c.toNat
  let v : Option Nat :=
    if 48 ≤ n ∧ n ≤ 57 then some (n - 48)
    else if 97 ≤ n ∧ n ≤ 102 then some (n - 87)
    else if 65 ≤ n ∧ n ≤ 70 then some (n - 55)
    else none
  match v with
  | some d => if d < base then some d else none
  | none => none

/-- Longest run of at most `w` digits at the head of the input, and the rest. -/
def scan_digits (base : Nat) : Nat → List Char → List Nat × List Char
  | 0, cs => ([], cs)
  | _ + 1, [] => ([], [])
  | w + 1, c :: cs =>
    match digit_val base c with
    | some d => (d :: (scan_digits base w cs).1, (scan_digits base w cs).2)
    | none => ([], c :: cs)

/-- Result of one numeric conversion: `none` is a matching failure, otherwise
the value stored (as `strtoul` computes it, saturating at `ULONG_MAX`, a leading
minus negating modulo 2^64, then truncated to the object) and the rest of the
input. The input is non-empty after white space is skipped (checked by the caller). -/
def scan_uint (width : Option Nat) (base bits : Nat) (cs : List Char) :
    Option (Nat × List Char) :=
  let w := width.getD cs.length
  let s : Bool × List Char × Nat :=
    match cs with
    | c :: r =>
      if c = Char.ofNat 45 ∧ 1 ≤ w then (true, r, w - 1)
      else if c = Char.ofNat 43 ∧ 1 ≤ w then (false, r, w - 1)
      else (false, cs, w)
    | [] => (false, cs, w)
  let p : List Char × Nat :=
    match s.2.1 with
    | z :: x :: r =>
      if base = 16 ∧ z = Char.ofNat 48 ∧ (x = Char.ofNat 120 ∨ x = Char.ofNat 88) ∧ 2 ≤ s.2.2
      then (r, s.2.2 - 2) else (s.2.1, s.2.2)
    | _ => (s.2.1, s.2.2)
  let ds := scan_digits base p.2 p.1
  if ds.1 = [] then none
  else
    let v := ds.1.foldl (fun a d => a * base + d) 0
    let u := if 2 ^ 64 ≤ v then 2 ^ 64 - 1 else if s.1 then (2 ^ 64 - v) % 2 ^ 64 else v
    some (u % 2 ^ bits, ds.2)

/-- The `sscanf` loop over the directives: remaining input and values assigned
so far; returns the return value of `sscanf` (number of items assigned, or
`EOF = -1` on an input failure with nothing assigned) and the values. -/
def sscanf_go : List ScanDir → List Char → List ScanVal → Int × List ScanVal
  | [], _, vals => (vals.length, vals)
  | ScanDir.lit c :: fmt, inp, vals =>
    match inp with
    | [] => (if vals = [] then -1 else vals.length, vals)
    | x :: r => if x = c then sscanf_go fmt r vals else (vals.length, vals)
  | ScanDir.scanset assign width excl :: fmt, inp, vals =>
    match inp with
    | [] => (if vals = [] then -1 else vals.length, vals)
    | _ :: _ =>
      let s := (inp.take (width.getD inp.length)).takeWhile (fun ch => !excl.contains ch)
      if s = [] then (vals.length, vals)
      else sscanf_go fmt (inp.drop s.length) (if assign then vals ++ [ScanVal.str s] else vals)
  | ScanDir.uint width base bits :: fmt, inp, vals =>
    match inp.dropWhile isspace with
    | [] => (if vals = [] then -1 else vals.length, vals)
    | c :: cs =>
      match scan_uint width base bits (c :: cs) with
      | none => (vals.length, vals)
      | some (v, rest) => sscanf_go fmt rest (vals ++ [ScanVal.num v])

/-- The `sscanf(str, fmt, ...)`. -/
def sscanf (str : String) (fmt : List ScanDir) : Int × List ScanVal :=
  sscanf_go fmt str.toList []

/-- Directives for a run of ordinary characters. -/
def lits (s : String) : List ScanDir := s.toList.map ScanDir.lit

/-- The glibc `inet_pton4` loop: octets completed so far (most recent first),
the octet under construction, `saw_digit`, and the number of octets started. -/
def inet_pton4_go : List Char → List Nat → Nat → Bool → Nat → Option (List Nat)
  | [], done, cur, _, octets => if octets < 4 then none else some (done.reverse ++ [cur])
  | ch :: src, done, cur, saw_digit, octets =>
    if 48 ≤ ch.toNat ∧ ch.toNat ≤ 57 then
      let new := cur * 10 + (ch.toNat - 48)
      if saw_digit ∧ cur = 0 then none
      else if new > 255 then none
      else if ¬ saw_digit then
        if octets + 1 > 4 then none else inet_pton4_go src done new true (octets + 1)
      else inet_pton4_go src done new saw_digit octets
    else if ch = Char.ofNat 46 ∧ saw_digit then
      if octets = 4 then none else inet_pton4_go src (cur :: done) 0 false octets
    else none

/-- The `inet_pton(AF_INET, src, dst)`: the four address bytes in network order
(return value 1), or `none` (return value 0). -/
def inet_pton (src : List Char) : Option (List Nat) :=
  inet_pton4_go src [] 0 false 0

/-- The `htons` of a little-endian host: swap the two bytes of a 16-bit value. -/
def htons (x : Nat) : Nat := (x % 256) * 256 + (x / 256) % 256

/-- The `ntohs` of a little-endian host. -/
def ntohs (x : Nat) : Nat := htons x

/-- Overwrite `n` bytes at offset `off` of a block with the little-endian bytes of `v`. -/
def store (m : List Nat) (off n v : Nat) : Except Fault (List Nat) :=
  if off + n ≤ m.length then .ok (m.take off ++ le_bytes n v ++ m.drop (off + n))
  else .error Fault.out_of_bounds

/-- Overwrite the bytes at offset `off` of a block with the given bytes. -/
def store_bytes (m : List Nat) (off : Nat) (bs : List Nat) : Except Fault (List Nat) :=
  if off + bs.length ≤ m.length then .ok (m.take off ++ bs ++ m.drop (off + bs.length))
  else .error Fault.out_of_bounds

/-! ## Provider table (`NA_OFI_PROV_TYPES`) -/

/-- The `enum na_ofi_prov_type` generated by the X-macro. -/
inductive na_ofi_prov_type
  | NA_OFI_PROV_NULL | NA_OFI_PROV_SOCKETS | NA_OFI_PROV_TCP | NA_OFI_PROV_PSM2
  | NA_OFI_PROV_VERBS | NA_OFI_PROV_GNI | NA_OFI_PROV_MAX
  deriving DecidableEq, Repr

open na_ofi_prov_type

def NA_OFI_VERIFY_PROV_DOM : Nat := 1 <<< 0
def NA_OFI_WAIT_SET : Nat := 1 <<< 1
def NA_OFI_WAIT_FD : Nat := 1 <<< 2
def NA_OFI_SKIP_SIGNAL : Nat := 1 <<< 4
def NA_OFI_DOMAIN_LOCK : Nat := 1 <<< 5
def NA_OFI_NO_SEP : Nat := 1 <<< 6

/-- Column `b` of the table: `na_ofi_prov_name[]`. -/
def na_ofi_prov_name : na_ofi_prov_type → String
  | NA_OFI_PROV_NULL => ""
  | NA_OFI_PROV_SOCKETS => "sockets"
  | NA_OFI_PROV_TCP => "tcp;ofi_rxm"
  | NA_OFI_PROV_PSM2 => "psm2"
  | NA_OFI_PROV_VERBS => "verbs;ofi_rxm"
  | NA_OFI_PROV_GNI => "gni"
  | NA_OFI_PROV_MAX => ""

/-- Column `c` of the table: `na_ofi_prov_alt_name[]`. -/
def na_ofi_prov_alt_name : na_ofi_prov_type → String
  | NA_OFI_PROV_TCP => "tcp"
  | NA_OFI_PROV_VERBS => "verbs"
  | _ => ""

/-- Column `d` of the table: `na_ofi_prov_addr_format[]`. -/
def na_ofi_prov_addr_format : na_ofi_prov_type → Nat
  | NA_OFI_PROV_NULL => 0
  | NA_OFI_PROV_SOCKETS => FI_SOCKADDR_IN
  | NA_OFI_PROV_TCP => FI_SOCKADDR_IN
  | NA_OFI_PROV_PSM2 => FI_ADDR_PSMX2
  | NA_OFI_PROV_VERBS => FI_SOCKADDR_IN
  | NA_OFI_PROV_GNI => FI_ADDR_GNI
  | NA_OFI_PROV_MAX => 0

/-- Column `g` of the table: `na_ofi_prov_flags[]`. -/
def na_ofi_prov_flags : na_ofi_prov_type → Nat
  | NA_OFI_PROV_NULL => 0
  | NA_OFI_PROV_SOCKETS => NA_OFI_VERIFY_PROV_DOM ||| NA_OFI_WAIT_FD
  | NA_OFI_PROV_TCP => NA_OFI_WAIT_FD ||| NA_OFI_NO_SEP ||| NA_OFI_SKIP_SIGNAL
  | NA_OFI_PROV_PSM2 => NA_OFI_DOMAIN_LOCK ||| NA_OFI_WAIT_FD
  | NA_OFI_PROV_VERBS =>
    NA_OFI_VERIFY_PROV_DOM ||| NA_OFI_WAIT_FD ||| NA_OFI_NO_SEP ||| NA_OFI_SKIP_SIGNAL
  | NA_OFI_PROV_GNI => NA_OFI_WAIT_SET
  | NA_OFI_PROV_MAX => 0

/-- The entries of the table in index order (what `i++` walks through). -/
def prov_types_from_zero : List na_ofi_prov_type :=
  [NA_OFI_PROV_NULL, NA_OFI_PROV_SOCKETS, NA_OFI_PROV_TCP, NA_OFI_PROV_PSM2,
   NA_OFI_PROV_VERBS, NA_OFI_PROV_GNI, NA_OFI_PROV_MAX]

/-- The `while` loop of `na_ofi_prov_name_to_type`, started at the head of the
given entries; running off the table is an out-of-bounds read. -/
def prov_name_scan (prov_name : String) : List na_ofi_prov_type → Except Fault na_ofi_prov_type
  | [] => .error Fault.out_of_bounds
  | i :: rest =>
    if na_ofi_prov_name i ≠ prov_name ∧ na_ofi_prov_alt_name i ≠ prov_name
        ∧ i ≠ NA_OFI_PROV_MAX then prov_name_scan prov_name rest
    else .ok i

/-- The `na_ofi_prov_name_to_type`. -/
def na_ofi_prov_name_to_type (prov_name : String) : Except Fault na_ofi_prov_type := do
  let i ← prov_name_scan prov_name prov_types_from_zero
  pure (if i = NA_OFI_PROV_MAX then NA_OFI_PROV_NULL else i)

/-- The `na_ofi_addr_prov`: `sscanf(str, "%16[^:]://", fmt)`, then the table scan. -/
def na_ofi_addr_prov (str : String) : Except Fault na_ofi_prov_type :=
  match sscanf str (ScanDir.scanset true (some 16) [Char.ofNat 58] :: lits "://") with
  | (1, [ScanVal.str fmt]) => na_ofi_prov_name_to_type (String.mk fmt)
  | _ => .ok NA_OFI_PROV_NULL

/-! ## World, environment -/

/-- Fabric objects a domain closes with `fi_close`. -/
inductive Fid
  | mr | av | domain | fabric
  deriving DecidableEq, Repr

/-- Calls the plugin makes to the outside; the log keeps the most recent first. -/
inductive Call
  | alloc (size : Nat)
  | fi_getinfo (node service : String)
  | fi_av_insert (addr : Option (List Nat))
  | fi_av_remove (fi_addr : Nat)
  | fi_av_lookup (fi_addr addrlen : Nat)
  | fi_getname (addrlen : Nat)
  | fi_av_straddr (addr : List Nat)
  | fi_close (fid : Fid)
  | fi_tsend (ep buf len desc dest_addr tag op : Nat)
  | fi_trecv (ep buf len desc src_addr tag ignore op : Nat)
  | fi_writemsg (ep local_base len rma_dest rma_addr rma_key op flags : Nat)
  | fi_readmsg (ep local_base len rma_dest rma_addr rma_key op flags : Nat)
  | fi_cancel (ep op : Nat)
  | fi_cq_signal (cq : Nat)
  | fi_cq_readfrom (cq count : Nat)
  | fi_cq_readerr (cq : Nat)
  | na_cb_completion_add (context : Option Nat) (op : Nat)
  | fi_wait_open
  | fi_cq_open (wait_obj : Nat) (wait_set : Option Nat)
  | fi_tx_context (ep index : Nat)
  | fi_rx_context (ep index : Nat)
  | fi_ep_bind (ep cq flags : Nat)
  | fi_enable (ep : Nat)
  | fi_close_hdl (hdl : Nat)
  | fi_wait (wait_hdl : Nat) (timeout : Int)
  | hg_time_get_current
  | hg_mem_aligned_alloc (alignment size : Nat)
  | fi_mr_reg (buf len : Nat)
  deriving DecidableEq, Repr

/-- Modelled from the spec: the mercury hash table (`hg_hash_table_t`, whose
implementation is not among the sources) as used for the address cache, a
mapping from a 64-bit key to a fabric-address handle with at most one entry
per key. -/
abbrev hg_hash_table := List (Nat × Nat)

/-- Modelled from the spec: `hg_hash_table_lookup`, the value stored for the
key or `HG_HASH_TABLE_NULL` (`none`). -/
def hg_hash_table_lookup : hg_hash_table → Nat → Option Nat
  | [], _ => none
  | (k, v) :: ht, key => if k = key then some v else hg_hash_table_lookup ht key

/-- Modelled from the spec: the table without the entry of the key. -/
def hg_hash_table_erase : hg_hash_table → Nat → hg_hash_table
  | [], _ => []
  | (k, v) :: ht, key =>
    if k = key then hg_hash_table_erase ht key else (k, v) :: hg_hash_table_erase ht key

/-- Modelled from the spec: the table after a successful `hg_hash_table_insert`
(one entry per key, a previous entry for the key is replaced). -/
def hg_hash_table_put (ht : hg_hash_table) (key value : Nat) : hg_hash_table :=
  (key, value) :: hg_hash_table_erase ht key

/-- Modelled from the spec: `hg_hash_table_remove`, the table without the key
and 1 if the key had an entry, the table as it was and 0 otherwise. -/
def hg_hash_table_remove (ht : hg_hash_table) (key : Nat) : hg_hash_table × Int :=
  match hg_hash_table_lookup ht key with
  | some _ => (hg_hash_table_erase ht key, 1)
  | none => (ht, 0)

/-- The `struct na_ofi_domain`: the fields the embedded functions use. The
fabric handles are recorded as present (non-NULL) or not; `freed` is set when
`na_ofi_domain_close` has released the record. -/
structure na_ofi_domain where
  prov_type : na_ofi_prov_type
  prov_name : String
  src_addrlen : Nat
  refcount : Int
  addr_ht : hg_hash_table
  fi_mr : Bool
  fi_av : Bool
  fi_domain : Bool
  fi_fabric : Bool
  freed : Bool

/-- The `struct na_ofi_addr`. Its `domain` pointer is the one domain of the
world; `addr` and `uri` are `none` when the pointer is NULL. -/
structure na_ofi_addr where
  addr : Option (List Nat)
  addrlen : Nat
  uri : Option String
  fi_addr : Nat
  ht_key : Nat
  refcount : Int
  self : Bool
  remove : Bool
  deriving DecidableEq, Repr

/-- The `struct na_ofi_endpoint`: the fields the embedded functions use
(`src_addr` is a pointer into the address heap, `unexpected_op_queue` one into
the heap of queues; the fabric handles `fi_ep` and `fi_cq` are numbers, 0 for
NULL). -/
structure na_ofi_endpoint where
  src_addr : Option Nat
  src_node : String
  src_service : String
  fi_ep : Nat
  fi_wait : Option Nat
  fi_cq : Nat
  unexpected_op_queue : Option Nat
  sep : Bool

/-- Modelled from the spec: the `na_cb_type_t` of the NA layer (`na.h` is not
among the sources), the kind of operation a completion callback reports. The
first constructor is the value 0 that `calloc` leaves. -/
inductive na_cb_type_t
  | NA_CB_LOOKUP | NA_CB_SEND_UNEXPECTED | NA_CB_RECV_UNEXPECTED | NA_CB_SEND_EXPECTED
  | NA_CB_RECV_EXPECTED | NA_CB_PUT | NA_CB_GET
  deriving DecidableEq, Repr

/-- The `struct na_ofi_op_id`. Pointers are `none` when NULL.
* `type`, `callback`, `arg`, `ret`: `completion_data.callback` and the fields
  of `completion_data.callback_info`;
* `cb_lookup_addr`, `cb_actual_buf_size`, `cb_source`, `cb_tag`: the members
  `lookup` and `recv_unexpected` of `completion_data.callback_info.info`;
* `lookup_addr`, `buf`, `buf_size`, `msg_size`, `tag`: the members of the union
  `info` (`recv_unexpected` and `recv_expected` have the same layout and share
  the last four);
* `status` holds the bits `NA_OFI_OP_COMPLETED` and `NA_OFI_OP_CANCELED`.
The address of the embedded `fi_ctx` stands for the operation in fabric calls. -/
structure na_ofi_op_id where
  type : na_cb_type_t
  callback : Nat
  arg : Nat
  ret : na_return_t
  cb_lookup_addr : Option Nat
  cb_actual_buf_size : Nat
  cb_source : Option Nat
  cb_tag : Nat
  lookup_addr : Option Nat
  buf : Nat
  buf_size : Nat
  msg_size : Nat
  tag : Nat
  context : Option Nat
  addr : Option Nat
  status : Nat
  refcount : Int
  deriving DecidableEq, Repr

/-- The `struct na_ofi_context`: fabric handles are numbers,
`unexpected_op_queue` is a pointer into the heap of queues. -/
structure na_ofi_context where
  fi_tx : Nat
  fi_rx : Nat
  fi_cq : Nat
  fi_wait : Option Nat
  unexpected_op_queue : Option Nat
  idx : Nat
  deriving DecidableEq, Repr

/-- The `struct na_ofi_mem_pool`: `base` is the address of the slab (and of
the pool header at its start), `mr_hdl` the MR handle (`none` for NULL),
`node_list` the addresses of the free nodes, head first. -/
structure na_ofi_mem_pool where
  base : Nat
  mr_hdl : Option Nat
  block_size : Nat
  node_list : List Nat
  deriving DecidableEq, Repr

/-- State of the program: the log of outside calls (most recent first), the
domain and endpoint of the plugin class, the heap of address objects
(`none` at a pointer that is not allocated or was freed), the heaps of
operation IDs, of contexts and of operation queues (a `struct na_ofi_queue` is
the list of the operation IDs in it, head first), the completion queue of
the NA layer (the operation IDs whose `completion_data` was added, most recent
first), and the other fields of `struct na_ofi_class`: the number of contexts
(a `na_uint8_t`), `max_contexts`, `no_wait`, and `buf_pool`, the queue of
memory pools, head first. `mr_local` is whether the `mr_mode` of the provider
of the domain has `FI_MR_LOCAL`. -/
structure World where
  calls : List Call
  domain : na_ofi_domain
  endpoint : na_ofi_endpoint
  addrs : Nat → Option na_ofi_addr
  addr_next : Nat
  ops : Nat → Option na_ofi_op_id
  op_next : Nat
  ctxs : Nat → Option na_ofi_context
  queues : Nat → Option (List Nat)
  completions : List Nat
  ctx_next : Nat
  queue_next : Nat
  contexts : Nat
  max_contexts : Nat
  no_wait : Bool
  buf_pool : List na_ofi_mem_pool
  mr_local : Bool

/-- The `struct fi_cq_tagged_entry` of the fabric library: `op_context` is the
operation ID that `container_of` recovers from the context cookie (`none`
when that is NULL). -/
structure fi_cq_tagged_entry where
  op_context : Option Nat
  flags : Nat
  len : Nat
  buf : Nat
  data : Nat
  tag : Nat
  deriving DecidableEq, Repr

/-- The `struct fi_cq_err_entry` of the fabric library: the fields the plugin
reads (`err_data` is the block the error data pointer refers to). -/
structure fi_cq_err_entry where
  op_context : Option Nat
  flags : Nat
  len : Nat
  buf : Nat
  data : Nat
  tag : Nat
  err : Int
  err_data : List Nat
  err_data_size : Nat
  deriving DecidableEq, Repr

/-- The `struct fi_info` returned by `fi_getinfo`: the field the plugin reads. -/
structure fi_info where
  dest_addr : Option (List Nat)

/-- The outside world. Every answer may depend on the log of the calls made
before.
* `alloc`: whether `malloc` / `calloc` / `strdup` of that size returns non-NULL;
* `fi_getinfo node service`: `none` for a non-zero return code, else the info returned;
* `fi_av_insert addr`: the return code and the handle stored through `fi_addr`;
* `fi_av_remove fi_addr`, `fi_close fid`: the return code;
* `fi_av_lookup fi_addr addrlen`, `fi_getname addrlen`: the return code, the
  bytes written to the buffer and the length stored through `addrlen`;
* `fi_av_straddr addr`: the printable address (its length plus one is stored
  through `len`);
* `inet_addr`, `atoi`: the C library functions, not interpreted;
* `race`: what other threads did to the address hash table between the release
  of the read lock and the acquisition of the write lock;
* `fabric_post c`: the return code of the `fi_tsend` / `fi_trecv` /
  `fi_writemsg` / `fi_readmsg` call `c`;
* `fi_cancel ep op`, `fi_cq_signal cq`: the return code;
* `fi_cq_readfrom cq count`: the return code and the events with their source
  addresses written to the arrays;
* `fi_cq_readerr cq`: the return code and the error entry;
* `na_cb_completion_add context op`: the return code of the NA layer;
* `mem p`: the bytes a user buffer holds, as the fabric left them;
* `fabric_call c`: the return code of the fabric call `c` (`fi_wait_open`,
  `fi_cq_open`, `fi_tx_context`, `fi_rx_context`, `fi_ep_bind`, `fi_enable`,
  `fi_close` of a handle, `fi_wait`, `fi_mr_reg`) and the handle it stores, if
  it opens an object;
* `hg_time_get_current`: the time in seconds;
* `hg_mem_aligned_alloc alignment size`: the address of the block, `none` for
  NULL; `hg_mem_get_page_size`: the page size. -/
structure Env where
  alloc : List Call → Nat → Bool
  fi_getinfo : List Call → String → String → Option fi_info
  fi_av_insert : List Call → Option (List Nat) → Int × Nat
  fi_av_remove : List Call → Nat → Int
  fi_av_lookup : List Call → Nat → Nat → Int × List Nat × Nat
  fi_getname : List Call → Nat → Int × List Nat × Nat
  fi_av_straddr : List Call → List Nat → String
  fi_close : List Call → Fid → Int
  inet_addr : String → Nat
  atoi : String → Int
  race : List Call → hg_hash_table → hg_hash_table
  fabric_post : List Call → Call → Int
  fi_cancel : List Call → Nat → Nat → Int
  fi_cq_signal : List Call → Nat → Int
  fi_cq_readfrom : List Call → Nat → Nat → Int × List (fi_cq_tagged_entry × Nat)
  fi_cq_readerr : List Call → Nat → Int × fi_cq_err_entry
  na_cb_completion_add : List Call → Option Nat → Nat → na_return_t
  mem : List Call → Nat → List Nat
  fabric_call : List Call → Call → Int × Nat
  hg_time_get_current : List Call → Rat
  hg_mem_aligned_alloc : List Call → Nat → Nat → Option Nat
  hg_mem_get_page_size : Nat

/-- Append a call to the log. -/
def World.log (w : World) (c : Call) : World :=
  { w with calls := c :: w.calls }

/-- A `malloc` / `calloc` / `strdup`: logged, the environment says whether it succeeds. -/
def alloc (E : Env) (w : World) (size : Nat) : World × Bool :=
  (w.log (Call.alloc size), E.alloc w.calls size)

/-- Modelled from the spec: the value of an `hg_atomic_int32_t` counter after
`hg_atomic_incr32` / `hg_atomic_decr32` (`mercury_atomic.h` is not among the
sources): the 32-bit two's complement wrap of the exact result. -/
def wrap32 (x : Int) : Int := (x + 2 ^ 31) % 2 ^ 32 - 2 ^ 31

/-- The `FI_ADDR_UNSPEC` of the fabric library, `(uint64_t) -1`. -/
def FI_ADDR_UNSPEC : Nat := 2 ^ 64 - 1

/-- Error numbers of the fabric library used by the plugin. -/
def FI_ETOOSMALL : Int := 257

/-! ## URI parsing (`na_ofi_str_to_addr`) -/

/-- The `i`-th stored value as a number (0 if there is none). -/
def nth_num (vals : List ScanVal) (i : Nat) : Nat :=
  match vals.get? i with
  | some (ScanVal.num n) => n
  | _ => 0

/-- The `i`-th stored value as a string (empty if there is none). -/
def nth_str (vals : List ScanVal) (i : Nat) : List Char :=
  match vals.get? i with
  | some (ScanVal.str s) => s
  | _ => []

/-- Format `"%*[^:]://"`, the common head of the address formats. -/
def fmt_head : List ScanDir :=
  ScanDir.scanset false none [Char.ofNat 58] :: lits "://"

/-- The `na_ofi_str_to_sin`: returns the world, the return code, `*addr` and `*len`. -/
def na_ofi_str_to_sin (E : Env) (w : World) (str : String) (addr : Option (List Nat)) :
    Except Fault (World × na_return_t × Option (List Nat) × Nat) := do
  let len := sizeof_na_ofi_sin_addr
  let (w1, ok) := alloc E w len
  if ¬ ok then pure (w1, NA_NOMEM, addr, len) else
  -- sin_family = AF_INET
  let blk ← store (List.replicate len 0) 0 2 2
  let r1 := sscanf str (fmt_head ++ lits ":" ++ [ScanDir.uint none 10 16])
  let r2 := sscanf str (fmt_head ++ [ScanDir.scanset true (some 15) [Char.ofNat 58]]
    ++ lits ":" ++ [ScanDir.uint none 10 16])
  let r3 := sscanf str (fmt_head ++ [ScanDir.scanset true (some 15) [Char.ofNat 58, Char.ofNat 47]])
  if r1.1 = 1 then
    let blk ← store blk 2 2 (htons (nth_num r1.2 0))
    pure (w1, NA_SUCCESS, some blk, len)
  else if r2.1 = 2 then
    match inet_pton (nth_str r2.2 0) with
    | none => pure (w1, NA_PROTONOSUPPORT, addr, len)
    | some ip =>
      let blk ← store_bytes blk 4 ip
      let blk ← store blk 2 2 (htons (nth_num r2.2 1))
      pure (w1, NA_SUCCESS, some blk, len)
  else if r3.1 = 1 then
    match inet_pton (nth_str r3.2 0) with
    | none => pure (w1, NA_PROTONOSUPPORT, addr, len)
    | some ip =>
      let blk ← store_bytes blk 4 ip
      let blk ← store blk 2 2 (htons 0)
      pure (w1, NA_SUCCESS, some blk, len)
  else pure (w1, NA_PROTONOSUPPORT, addr, len)

/-- The `NA_OFI_GNI_AV_STR_ADDR_VERSION`. -/
def NA_OFI_GNI_AV_STR_ADDR_VERSION : Nat := 1

/-- The `na_ofi_str_to_gni`: returns the world, the return code, `*addr` and `*len`. -/
def na_ofi_str_to_gni (E : Env) (w : World) (str : String) (addr : Option (List Nat)) :
    Except Fault (World × na_return_t × Option (List Nat) × Nat) := do
  let len := sizeof_na_ofi_gni_addr
  let (w1, ok) := alloc E w len
  if ¬ ok then pure (w1, NA_NOMEM, addr, len) else
  let r := sscanf str (fmt_head ++ [ScanDir.uint (some 4) 10 32]
    ++ lits ":0x" ++ [ScanDir.uint (some 8) 16 32]
    ++ lits ":0x" ++ [ScanDir.uint (some 8) 16 32]
    ++ lits ":" ++ [ScanDir.uint (some 2) 10 32]
    ++ lits ":0x" ++ [ScanDir.uint (some 6) 16 32]
    ++ lits ":0x" ++ [ScanDir.uint (some 8) 16 32]
    ++ lits ":" ++ [ScanDir.uint (some 2) 10 32])
  if r.1 ≠ 7 then pure (w1, NA_PROTONOSUPPORT, addr, len)
  else if nth_num r.2 0 ≠ NA_OFI_GNI_AV_STR_ADDR_VERSION then
    pure (w1, NA_PROTONOSUPPORT, addr, len)
  else
    let blk ← store (List.replicate len 0) 0 4 (nth_num r.2 1)
    let blk ← store blk 4 4 (nth_num r.2 2)
    let blk ← store blk 8 1 (nth_num r.2 3 &&& 0xff)
    let blk ← store blk 9 3 (nth_num r.2 4 &&& 0xffffff)
    let blk ← store blk 12 4 (nth_num r.2 5)
    let blk ← store blk 16 1 (nth_num r.2 6 &&& 0xff)
    pure (w1, NA_SUCCESS, some blk, len)

/-- The `na_ofi_str_to_addr`: the switch on the address format (PSM2 goes to
the socket parser); `addr` and `len` are the values of `*addr` and `*len` on entry. -/
def na_ofi_str_to_addr (E : Env) (w : World) (str : String) (addr_format : Nat)
    (addr : Option (List Nat)) (len : Nat) :
    Except Fault (World × na_return_t × Option (List Nat) × Nat) :=
  if addr_format = FI_SOCKADDR_IN then na_ofi_str_to_sin E w str addr
  else if addr_format = FI_ADDR_PSMX2 then na_ofi_str_to_sin E w str addr
  else if addr_format = FI_ADDR_GNI then na_ofi_str_to_gni E w str addr
  else .ok (w, NA_PROTONOSUPPORT, addr, len)

/-! ## Address vector and address hash table -/

/-- The `inet_ntoa` of an `s_addr` held in network byte order on a little-endian host. -/
def inet_ntoa (s_addr : Nat) : String :=
  toString (s_addr % 256) ++ "." ++ toString (s_addr / 256 % 256) ++ "."
    ++ toString (s_addr / 65536 % 256) ++ "." ++ toString (s_addr / 16777216 % 256)

/-- The part of `na_ofi_av_insert` after the PSM2 branch, from
`na_ofi_domain_lock` on: `tmp_info` is still NULL (`none`) unless the branch
set it, and the argument `tmp_info->dest_addr` of `fi_av_insert` dereferences
it. The domain lock is not modelled. -/
def na_ofi_av_insert_tail (E : Env) (w : World) (tmp_info : Option fi_info) :
    Except Fault (World × na_return_t × Nat) :=
  match tmp_info with
  | none => .error Fault.null_deref
  | some info =>
    let res := E.fi_av_insert w.calls info.dest_addr
    let w1 := w.log (Call.fi_av_insert info.dest_addr)
    if res.1 < 0 then .ok (w1, NA_PROTOCOL_ERROR, res.2)
    else .ok (w1, NA_SUCCESS, res.2)

/-- The `na_ofi_av_insert`: returns the world, the return code and `*fi_addr`
(`fi_addr` is its value on entry). -/
def na_ofi_av_insert (E : Env) (w : World) (addr : List Nat) (_addrlen : Nat)
    (fi_addr : Nat) : Except Fault (World × na_return_t × Nat) := do
  if na_ofi_prov_addr_format w.domain.prov_type = FI_ADDR_PSMX2 then
    let s_addr ← sin_s_addr addr
    let port ← sin_port addr
    let node_str := inet_ntoa s_addr
    let service_str := toString (ntohs port)
    -- Resolve node / service
    let w1 := w.log (Call.fi_getinfo node_str service_str)
    match E.fi_getinfo w.calls node_str service_str with
    | none => pure (w1, NA_PROTOCOL_ERROR, fi_addr)
    | some info => na_ofi_av_insert_tail E w1 (some info)
  else na_ofi_av_insert_tail E w none

/-- Modelled from the spec: `hg_hash_table_insert` of the mercury hash table (not
among the sources): the table allocates an entry (24 bytes: key, value,
next), returns 0 if that fails and 1 after storing. -/
def hg_hash_table_insert (E : Env) (w : World) (key value : Nat) : World × Int :=
  let r := alloc E w 24
  if r.2 then
    ({ r.1 with domain := { r.1.domain with
        addr_ht := hg_hash_table_put r.1.domain.addr_ht key value } }, 1)
  else (r.1, 0)

/-- The `na_ofi_addr_ht_lookup`: returns the world, the return code, `*fi_addr`
and `*addr_key` (`fi_addr` is the value of `*fi_addr` on entry). -/
def na_ofi_addr_ht_lookup (E : Env) (w : World) (addr_format : Nat) (addr : List Nat)
    (addrlen : Nat) (fi_addr : Nat) : Except Fault (World × na_return_t × Nat × Nat) := do
  -- Generate key
  let addr_key ← na_ofi_addr_to_key addr_format addr addrlen
  if addr_key = 0 then pure (w, NA_PROTONOSUPPORT, fi_addr, addr_key) else
  -- Lookup key (read lock)
  match hg_hash_table_lookup w.domain.addr_ht addr_key with
  | some v => pure (w, NA_SUCCESS, v, addr_key)
  | none =>
    -- Insert addr into AV if key not found
    let (w1, rc, fa) ← na_ofi_av_insert E w addr addrlen fi_addr
    if rc ≠ NA_SUCCESS then pure (w1, NA_PROTOCOL_ERROR, fa, addr_key) else
    -- write lock taken: the table is what the other threads left
    let w2 : World := { w1 with domain := { w1.domain with
      addr_ht := E.race w1.calls w1.domain.addr_ht } }
    match hg_hash_table_lookup w2.domain.addr_ht addr_key with
    | some v =>
      -- in race condition, use addr in HT and remove the new addr from AV
      let rc := E.fi_av_remove w2.calls fa
      let w3 := w2.log (Call.fi_av_remove fa)
      if rc ≠ 0 then pure (w3, NA_PROTOCOL_ERROR, fa, addr_key)
      else pure (w3, NA_SUCCESS, v, addr_key)
    | none =>
      let (w3, ok1) := alloc E w2 8
      if ¬ ok1 then pure (w3, NA_NOMEM, fa, addr_key) else
      let (w4, ok2) := alloc E w3 8
      if ¬ ok2 then pure (w4, NA_NOMEM, fa, addr_key) else
      let (w5, rc) := hg_hash_table_insert E w4 addr_key fa
      if rc = 0 then pure (w5, NA_NOMEM, fa, addr_key)
      else pure (w5, NA_SUCCESS, fa, addr_key)

/-- The `na_ofi_addr_ht_remove`: returns the world and the return code. -/
def na_ofi_addr_ht_remove (E : Env) (w : World) (fi_addr addr_key : Nat) :
    World × na_return_t :=
  let r := hg_hash_table_remove w.domain.addr_ht addr_key
  if r.2 ≠ 1 then (w, NA_NOENTRY)
  else
    let w1 : World := { w with domain := { w.domain with addr_ht := r.1 } }
    let rc := E.fi_av_remove w1.calls fi_addr
    let w2 := w1.log (Call.fi_av_remove fi_addr)
    if rc ≠ 0 then (w2, NA_PROTOCOL_ERROR) else (w2, NA_SUCCESS)

/-- A freshly allocated block of `n` bytes after the provider wrote `bs` to it. -/
def fill (n : Nat) (bs : List Nat) : List Nat := (bs ++ List.replicate n 0).take n

/-- One pass of `na_ofi_av_lookup` from `retry:` with the given `addrlen`;
`none` in the place of the result means `goto retry` with the new length. -/
def na_ofi_av_lookup_pass (E : Env) (w : World) (fi_addr addrlen : Nat) (retried : Bool) :
    World × Option (na_return_t × Option (List Nat) × Nat) × Nat :=
  let r := alloc E w addrlen
  if ¬ r.2 then (r.1, some (NA_NOMEM, none, addrlen), addrlen)
  else
    let res := E.fi_av_lookup r.1.calls fi_addr addrlen
    let w1 := r.1.log (Call.fi_av_lookup fi_addr addrlen)
    if res.1 = - FI_ETOOSMALL ∧ retried = false then (w1, none, res.2.2)
    else if res.1 ≠ 0 then (w1, some (NA_PROTOCOL_ERROR, none, res.2.2), res.2.2)
    else (w1, some (NA_SUCCESS, some (fill addrlen res.2.1), res.2.2), res.2.2)

/-- The `na_ofi_av_lookup`: returns the world, the return code and, on success,
`*addr_ptr` and `*addrlen_ptr`. -/
def na_ofi_av_lookup (E : Env) (w : World) (fi_addr : Nat) :
    World × na_return_t × Option (List Nat) × Nat :=
  let p1 := na_ofi_av_lookup_pass E w fi_addr w.domain.src_addrlen false
  match p1.2.1 with
  | some res => (p1.1, res)
  | none =>
    let p2 := na_ofi_av_lookup_pass E p1.1 fi_addr p1.2.2 true
    match p2.2.1 with
    | some res => (p2.1, res)
    | none => (p2.1, NA_PROTOCOL_ERROR, none, p2.2.2)

/-! ## Domain and address objects -/

/-- One `if (handle) { rc = fi_close(...); check; handle = NULL; }` step of
`na_ofi_domain_close`: the world and whether to go on. -/
def close_fid (E : Env) (w : World) (present : Bool) (fid : Fid) : World × Bool :=
  if present then ((w.log (Call.fi_close fid)), decide (E.fi_close w.calls fid = 0))
  else (w, true)

/-- The `na_ofi_domain_close`. -/
def na_ofi_domain_close (E : Env) (w : World) : World × na_return_t :=
  let rc := wrap32 (w.domain.refcount - 1)
  let w0 : World := { w with domain := { w.domain with refcount := rc } }
  if rc ≠ 0 then (w0, NA_SUCCESS)
  else
    let c1 := close_fid E w0 w0.domain.fi_mr Fid.mr
    if ¬ c1.2 then (c1.1, NA_PROTOCOL_ERROR) else
    let w1 : World := { c1.1 with domain := { c1.1.domain with fi_mr := false } }
    let c2 := close_fid E w1 w1.domain.fi_av Fid.av
    if ¬ c2.2 then (c2.1, NA_PROTOCOL_ERROR) else
    let w2 : World := { c2.1 with domain := { c2.1.domain with fi_av := false } }
    let c3 := close_fid E w2 w2.domain.fi_domain Fid.domain
    if ¬ c3.2 then (c3.1, NA_PROTOCOL_ERROR) else
    let w3 : World := { c3.1 with domain := { c3.1.domain with fi_domain := false } }
    let c4 := close_fid E w3 w3.domain.fi_fabric Fid.fabric
    if ¬ c4.2 then (c4.1, NA_PROTOCOL_ERROR) else
    ({ c4.1 with domain := { c4.1.domain with
        fi_fabric := false, addr_ht := [], freed := true } }, NA_SUCCESS)

/-- Read the address object a pointer refers to. -/
def World.get_addr (w : World) (p : Nat) : Except Fault na_ofi_addr :=
  match w.addrs p with
  | some a => .ok a
  | none => .error Fault.use_after_free

/-- Write (or, with `none`, free) the address object a pointer refers to. -/
def World.set_addr (w : World) (p : Nat) (a : Option na_ofi_addr) : World :=
  { w with addrs := Function.update w.addrs p a }

/-- Size in bytes of `struct na_ofi_addr`. -/
def sizeof_na_ofi_addr : Nat := 56

/-- The address object `na_ofi_addr_alloc` initializes: `calloc` zeroes every
field, then the reference count is set to 1. -/
def fresh_addr : na_ofi_addr :=
  { addr := none, addrlen := 0, uri := none, fi_addr := 0, ht_key := 0, refcount := 1,
    self := false, remove := false }

/-- The `na_ofi_addr_alloc`: returns the world and the pointer (`none` for NULL). -/
def na_ofi_addr_alloc (E : Env) (w : World) : World × Option Nat :=
  let r := alloc E w sizeof_na_ofi_addr
  if ¬ r.2 then (r.1, none)
  else
    let p := r.1.addr_next
    ({ r.1 with
        domain := { r.1.domain with refcount := wrap32 (r.1.domain.refcount + 1) },
        addrs := Function.update r.1.addrs p (some fresh_addr),
        addr_next := p + 1 }, some p)

/-- The `na_ofi_addr_addref`. -/
def na_ofi_addr_addref (w : World) (p : Nat) : Except Fault World := do
  let a ← w.get_addr p
  if a.refcount = 0 then throw Fault.assert_fail
  pure (w.set_addr p (some { a with refcount := wrap32 (a.refcount + 1) }))

/-- The `na_ofi_addr_decref`. -/
def na_ofi_addr_decref (E : Env) (w : World) (p : Nat) : Except Fault World := do
  let a ← w.get_addr p
  if ¬ (a.refcount > 0) then throw Fault.assert_fail
  let rc := wrap32 (a.refcount - 1)
  let w1 := w.set_addr p (some { a with refcount := rc })
  -- If there are more references, return
  if rc ≠ 0 then pure w1 else
  let w2 := if a.remove then (na_ofi_addr_ht_remove E w1 a.fi_addr a.ht_key).1 else w1
  let w3 := (na_ofi_domain_close E w2).1
  pure (w3.set_addr p none)

/-! ## Lookup, self, dup, free -/

/-- Free an address object on an error path: `free(addr->addr); free(addr->uri);
free(addr)` (the domain reference taken by `na_ofi_addr_alloc` is not touched). -/
def free_addr (w : World) (p : Nat) : World := w.set_addr p none

/-- The `na_ofi_addr_lookup2`: returns the world, the return code and `*addr`
(`none` when it is not written). -/
def na_ofi_addr_lookup2 (E : Env) (w : World) (name : String) :
    Except Fault (World × na_return_t × Option Nat) := do
  -- Check provider from name
  let prov ← na_ofi_addr_prov name
  if prov ≠ w.domain.prov_type then pure (w, NA_INVALID_ARG, none) else
  -- Allocate addr
  match na_ofi_addr_alloc E w with
  | (w1, none) => pure (w1, NA_NOMEM, none)
  | (w1, some p) =>
    let a ← w1.get_addr p
    -- strdup(name)
    let (w2, ok) := alloc E w1 (name.length + 1)
    if ¬ ok then pure (free_addr w2 p, NA_NOMEM, none) else
    let a := { a with uri := some name }
    let w2 := w2.set_addr p (some a)
    -- Convert name to address
    let (w3, ret, addr, addrlen) ← na_ofi_str_to_addr E w2 name
      (na_ofi_prov_addr_format w2.domain.prov_type) a.addr a.addrlen
    let a := { a with addr := addr, addrlen := addrlen }
    let w3 := w3.set_addr p (some a)
    if ret ≠ NA_SUCCESS then pure (free_addr w3 p, ret, none) else
    match addr with
    | none => throw Fault.null_deref
    | some blk =>
      -- Lookup address
      let (w4, ret, fi_addr, ht_key) ← na_ofi_addr_ht_lookup E w3
        (na_ofi_prov_addr_format w3.domain.prov_type) blk addrlen a.fi_addr
      let a := { a with fi_addr := fi_addr, ht_key := ht_key }
      let w4 := w4.set_addr p (some a)
      if ret ≠ NA_SUCCESS then pure (free_addr w4 p, ret, none) else
      pure (w4, NA_SUCCESS, some p)

/-- The `na_ofi_addr_self`: returns the world, the return code and `*addr`. -/
def na_ofi_addr_self (w : World) : Except Fault (World × na_return_t × Nat) := do
  match w.endpoint.src_addr with
  | none => throw Fault.null_deref
  | some p =>
    let w1 ← na_ofi_addr_addref w p
    pure (w1, NA_SUCCESS, p)

/-- The `na_ofi_addr_dup`: returns the world, the return code and `*new_addr`. -/
def na_ofi_addr_dup (w : World) (addr : Nat) : Except Fault (World × na_return_t × Nat) := do
  let w1 ← na_ofi_addr_addref w addr
  pure (w1, NA_SUCCESS, addr)

/-- The `na_ofi_addr_free`. -/
def na_ofi_addr_free (E : Env) (w : World) (addr : Nat) : Except Fault (World × na_return_t) := do
  let w1 ← na_ofi_addr_decref E w addr
  pure (w1, NA_SUCCESS)

/-- The `na_ofi_addr_set_remove`. -/
def na_ofi_addr_set_remove (w : World) (addr : Nat) : Except Fault (World × na_return_t) := do
  let a ← w.get_addr addr
  pure (w.set_addr addr (some { a with remove := true }), NA_SUCCESS)

/-- The `na_ofi_addr_is_self`. -/
def na_ofi_addr_is_self (w : World) (addr : Nat) : Except Fault Bool := do
  let a ← w.get_addr addr
  pure a.self

/-! ## URI generation and the endpoint address -/

/-- The `NA_OFI_MAX_URI_LEN`. -/
def NA_OFI_MAX_URI_LEN : Nat := 128

/-- The `snprintf(buf, size, ...)` into a zero-filled buffer: the string left in
the buffer (at most `size - 1` characters) and the return value (the length
of the untruncated output). -/
def snprintf (size : Nat) (out : List Char) : List Char × Int :=
  (out.take (size - 1), out.length)

/-- The `strstr(hay, needle) != NULL`. -/
def strstr (hay needle : List Char) : Bool :=
  match hay with
  | [] => needle.isEmpty
  | c :: cs => needle.isPrefixOf (c :: cs) || strstr cs needle

/-- What `save_ptr` points to after `strtok_r(s, delim, &save_ptr)` with a
one-character delimiter: leading delimiters are skipped, the token runs to the
next delimiter, and the rest starts after it (or is empty). -/
def strtok_r_rest (s : List Char) (delim : Char) : List Char :=
  ((s.dropWhile (fun c => c = delim)).dropWhile (fun c => c ≠ delim)).drop 1

/-- The `na_ofi_get_uri`: returns the world, the return code and `*uri_ptr`
(`none` when it is not written). -/
def na_ofi_get_uri (E : Env) (w : World) (addr : List Nat) :
    World × na_return_t × Option String :=
  let colon := Char.ofNat 58
  let slash := Char.ofNat 47
  -- the world after the branch, and `fi_addr_str_ptr` or the error of the branch
  let r : World × Except na_return_t (List Char) :=
    if w.domain.prov_type = NA_OFI_PROV_PSM2 then
      (w, .ok (snprintf NA_OFI_MAX_URI_LEN
        (w.endpoint.src_node.toList ++ [colon] ++ w.endpoint.src_service.toList)).1)
    else
      let full := (E.fi_av_straddr w.calls addr).toList
      let w1 := w.log (Call.fi_av_straddr addr)
      let fi_addr_strlen := full.length + 1
      let fi_addr_str := full.take (NA_OFI_MAX_URI_LEN - 1)
      if fi_addr_strlen > NA_OFI_MAX_URI_LEN then (w1, .error NA_PROTOCOL_ERROR)
      else if strstr fi_addr_str [colon, slash, slash] then
        let rest := strtok_r_rest fi_addr_str colon
        if rest.take 2 ≠ [slash, slash] then (w1, .error NA_PROTONOSUPPORT)
        else (w1, .ok (rest.drop 2))
      else (w1, .ok fi_addr_str)
  match r.2 with
  | .error e => (r.1, e, none)
  | .ok fi_addr_str_ptr =>
    -- Generate URI
    let out := snprintf NA_OFI_MAX_URI_LEN
      (w.domain.prov_name.toList ++ [colon, slash, slash] ++ fi_addr_str_ptr)
    if out.2 < 0 ∨ out.2 > NA_OFI_MAX_URI_LEN then (r.1, NA_OVERFLOW, none)
    else
      -- Dup URI
      let d := alloc E r.1 (out.1.length + 1)
      if ¬ d.2 then (d.1, NA_NOMEM, none)
      else (d.1, NA_SUCCESS, some (String.mk out.1))

/-- One pass of `na_ofi_get_ep_addr` from `retry:`: the world, the block, the
return code of `fi_getname` and the length it stored through `addrlen`;
`none` when `malloc` failed. -/
def na_ofi_get_ep_addr_pass (E : Env) (w : World) (addrlen : Nat) :
    World × Option (List Nat × Int × Nat) :=
  let r := alloc E w addrlen
  if ¬ r.2 then (r.1, none)
  else
    let res := E.fi_getname r.1.calls addrlen
    (r.1.log (Call.fi_getname addrlen), some (fill addrlen res.2.1, res.1, res.2.2))

/-- The `na_ofi_get_ep_addr`: returns the world, the return code and
`*na_ofi_addr_ptr` (`none` when it is not written). -/
def na_ofi_get_ep_addr (E : Env) (w : World) :
    Except Fault (World × na_return_t × Option Nat) := do
  match na_ofi_addr_alloc E w with
  | (w1, none) => pure (w1, NA_NOMEM, none)
  | (w1, some p) =>
    let a ← w1.get_addr p
    -- retry: at most one more pass, when the first one reports FI_ETOOSMALL
    let p1 := na_ofi_get_ep_addr_pass E w1 w1.domain.src_addrlen
    match p1.2 with
    | none => pure (free_addr p1.1 p, NA_NOMEM, none)
    | some (blk1, rc1, len1) =>
      let p2 : World × Option (List Nat × Int × Nat) :=
        if rc1 = - FI_ETOOSMALL then na_ofi_get_ep_addr_pass E p1.1 len1
        else (p1.1, some (blk1, rc1, len1))
      match p2.2 with
      | none => pure (free_addr p2.1 p, NA_NOMEM, none)
      | some (blk, _, addrlen) =>
        -- overwrite with the external ip:port for PSM2
        let blk ←
          if p2.1.domain.prov_type = NA_OFI_PROV_PSM2 then do
            let b ← store blk 4 4 (E.inet_addr p2.1.endpoint.src_node)
            store b 2 2 (htons ((E.atoi p2.1.endpoint.src_service % 65536).toNat))
          else pure blk
        let a := { a with addr := some blk, addrlen := addrlen, self := true }
        let w2 := p2.1.set_addr p (some a)
        -- Get URI from address
        let u := na_ofi_get_uri E w2 blk
        if u.2.1 ≠ NA_SUCCESS then pure (free_addr u.1 p, u.2.1, none)
        else pure (u.1.set_addr p (some { a with uri := u.2.2 }), NA_SUCCESS, some p)

/-! ## Address serialization -/

/-- The `sizeof(na_ofi_addr->addrlen)`, a `na_size_t`. -/
def sizeof_addrlen : Nat := 8

/-- The common head of the serialization functions: `if (!na_ofi_addr->addr)`
look the address up from the AV. Returns the world and `none` with the object
as it is when nothing fails, else the error. -/
def addr_from_av (E : Env) (w : World) (p : Nat) :
    Except Fault (World × Option na_return_t) := do
  let a ← w.get_addr p
  match a.addr with
  | some _ => pure (w, none)
  | none =>
    if a.fi_addr = FI_ADDR_UNSPEC then pure (w, some NA_ADDRNOTAVAIL) else
    let r := na_ofi_av_lookup E w a.fi_addr
    if r.2.1 ≠ NA_SUCCESS then pure (r.1, some r.2.1)
    else pure (r.1.set_addr p (some { a with addr := r.2.2.1, addrlen := r.2.2.2 }), none)

/-- The `na_ofi_addr_get_serialize_size`: returns the world and the size. -/
def na_ofi_addr_get_serialize_size (E : Env) (w : World) (addr : Nat) :
    Except Fault (World × Nat) := do
  let (w1, err) ← addr_from_av E w addr
  match err with
  | some _ => pure (w1, 0)
  | none =>
    let a ← w1.get_addr addr
    pure (w1, (a.addrlen + sizeof_addrlen) % 2 ^ 64)

/-- The `na_ofi_addr_serialize`: returns the world, the return code and the
contents of the block `buf` points to. -/
def na_ofi_addr_serialize (E : Env) (w : World) (buf : List Nat) (buf_size : Nat)
    (addr : Nat) : Except Fault (World × na_return_t × List Nat) := do
  let (w1, err) ← addr_from_av E w addr
  match err with
  | some e => pure (w1, e, buf)
  | none =>
    let a ← w1.get_addr addr
    let len := (a.addrlen + sizeof_addrlen) % 2 ^ 64
    if buf_size < len then pure (w1, NA_OVERFLOW, buf) else
    match a.addr with
    | none => throw Fault.null_deref
    | some blk =>
      let buf1 ← memcpy buf (le_bytes sizeof_addrlen a.addrlen) sizeof_addrlen
      if blk.length < a.addrlen then throw Fault.out_of_bounds
      let buf2 ← store_bytes buf1 sizeof_addrlen (blk.take a.addrlen)
      pure (w1, NA_SUCCESS, buf2)

/-- The `na_ofi_addr_deserialize` (`buf_size` is unused): returns the world,
the return code and `*addr` (`none` when it is not written). -/
def na_ofi_addr_deserialize (E : Env) (w : World) (buf : List Nat) (_buf_size : Nat) :
    Except Fault (World × na_return_t × Option Nat) := do
  -- Allocate addr
  match na_ofi_addr_alloc E w with
  | (w1, none) => pure (w1, NA_NOMEM, none)
  | (w1, some p) =>
    let a ← w1.get_addr p
    let addrlen ← load buf 0 sizeof_addrlen
    let a := { a with addrlen := addrlen }
    let (w2, ok) := alloc E w1 addrlen
    if ¬ ok then pure (free_addr w2 p, NA_NOMEM, none) else
    if buf.length < sizeof_addrlen + addrlen then throw Fault.out_of_bounds
    let blk := (buf.drop sizeof_addrlen).take addrlen
    let a := { a with addr := some blk }
    let w2 := w2.set_addr p (some a)
    -- Lookup address
    let (w3, ret, fi_addr, ht_key) ← na_ofi_addr_ht_lookup E w2
      (na_ofi_prov_addr_format w2.domain.prov_type) blk addrlen a.fi_addr
    let a := { a with fi_addr := fi_addr, ht_key := ht_key }
    let w3 := w3.set_addr p (some a)
    if ret ≠ NA_SUCCESS then pure (free_addr w3 p, ret, none) else
    pure (w3, NA_SUCCESS, some p)

/-- Equality of `Except` values is decidable when it is on both sides. -/
instance instDecidableEqExcept {ε α : Type} [DecidableEq ε] [DecidableEq α] :
    DecidableEq (Except ε α) := fun a b =>
  match a, b with
  | .ok x, .ok y => if h : x = y then isTrue (by rw [h]) else isFalse (fun e => h (by cases e; rfl))
  | .error x, .error y =>
    if h : x = y then isTrue (by rw [h]) else isFalse (fun e => h (by cases e; rfl))
  | .ok _, .error _ => isFalse (fun e => by cases e)
  | .error _, .ok _ => isFalse (fun e => by cases e)

/-! ## Reference definitions and sample inputs -/

/-- The key derivation in the words of the specification: `(word << 32) | low`
(`word` the IPv4 address or GNI device address, `low` the port or cdm id). -/
def spec_key (word low : Nat) : Nat := (word <<< 32) ||| low

/-- The serialized address in the words of the specification:
`[addrlen: 8 bytes little-endian][native-address: addrlen bytes]`. -/
def spec_serialized (native : List Nat) : List Nat :=
  le_bytes 8 native.length ++ native

/-- Whether a logged call is an `fi_av_insert`. -/
def Call.is_av_insert : Call → Bool
  | Call.fi_av_insert _ => true
  | _ => false

/-- Number of `fi_av_insert` calls in a log. -/
def av_inserts (cs : List Call) : Nat := cs.countP Call.is_av_insert

/-- The world after `n` calls of `na_ofi_addr_dup` on the same address. -/
def dup_n : Nat → World → Nat → Except Fault World
  | 0, w, _ => .ok w
  | n + 1, w, p => do
    let r ← na_ofi_addr_dup w p
    dup_n n r.1 p

/-- The world after `n` calls of `na_ofi_addr_free` on the same address. -/
def free_n (E : Env) : Nat → World → Nat → Except Fault World
  | 0, w, _ => .ok w
  | n + 1, w, p => do
    let r ← na_ofi_addr_free E w p
    free_n E n r.1 p

/-- Serialize an address into `buf`, then deserialize what was written: the
return codes of both calls, the world and the new address. -/
def addr_roundtrip (E : Env) (w : World) (buf : List Nat) (buf_size : Nat) (addr : Nat) :
    Except Fault (World × na_return_t × na_return_t × Option Nat) := do
  let s ← na_ofi_addr_serialize E w buf buf_size addr
  if s.2.1 ≠ NA_SUCCESS then pure (s.1, s.2.1, s.2.1, none) else
  let d ← na_ofi_addr_deserialize E s.1 s.2.2 buf_size
  pure (d.1, s.2.1, d.2.1, d.2.2)

/-- The `struct sockaddr_in` of 127.0.0.1 port 4000 (`AF_INET`, port and address
in network byte order, `sin_zero`). -/
def sample_sin_addr : List Nat := [2, 0, 15, 160, 127, 0, 0, 1, 0, 0, 0, 0, 0, 0, 0, 0]

/-- An environment in which every allocation and every fabric call succeeds:
`fi_getinfo` resolves to a 16-byte native address, `fi_av_insert` returns
handle 7, the endpoint name is the `sockaddr_in` of 10.0.0.1 port 4000, no
other thread touches the hash table, every post is accepted, the completion
queue of the fabric is empty (`-FI_EAGAIN`), the NA layer accepts every
completion, every other fabric call returns 0 and a new handle, the clock
stands still and aligned blocks are 16 MiB apart. -/
def env_ok : Env where
  alloc := fun _ _ => true
  fi_getinfo := fun _ _ _ =>
    some { dest_addr := some [1, 2, 3, 4, 5, 6, 7, 8, 9, 10, 11, 12, 13, 14, 15, 16] }
  fi_av_insert := fun _ _ => (1, 7)
  fi_av_remove := fun _ _ => 0
  fi_av_lookup := fun _ _ n => (0, [], n)
  fi_getname := fun _ _ => (0, [2, 0, 15, 160, 10, 0, 0, 1, 0, 0, 0, 0, 0, 0, 0, 0], 16)
  fi_av_straddr := fun _ _ => "fi_sockaddr_in://10.0.0.1:4000"
  fi_close := fun _ _ => 0
  inet_addr := fun _ => 16777226
  atoi := fun _ => 4000
  race := fun _ ht => ht
  fabric_post := fun _ _ => 0
  fi_cancel := fun _ _ _ => 0
  fi_cq_signal := fun _ _ => 0
  fi_cq_readfrom := fun _ _ _ => (-11, [])
  fi_cq_readerr := fun _ _ =>
    (0, { op_context := none, flags := 0, len := 0, buf := 0, data := 0, tag := 0, err := 0,
          err_data := [], err_data_size := 0 })
  na_cb_completion_add := fun _ _ _ => NA_SUCCESS
  mem := fun _ _ => []
  fabric_call := fun cs _ => (0, 100 + cs.length)
  hg_time_get_current := fun _ => 0
  hg_mem_aligned_alloc := fun cs _ _ => some (16777216 * (1 + cs.length))
  hg_mem_get_page_size := 4096

/-- A world just after initialization for the given provider: the class holds
the one reference to the domain, the address hash table holds the given
entries, no address object and no operation ID is allocated; context 0 is the
one context of a basic endpoint (transmit and receive handle 1, completion
queue 3, the unexpected-op queue 0, which is empty); `max_contexts` is 1, the
wait object is in use, there is no memory pool. -/
def world_of (prov : na_ofi_prov_type) (ht : hg_hash_table) : World where
  calls := []
  domain :=
    { prov_type := prov, prov_name := na_ofi_prov_name prov, src_addrlen := 16, refcount := 1,
      addr_ht := ht, fi_mr := false, fi_av := true, fi_domain := true, fi_fabric := true,
      freed := false }
  endpoint :=
    { src_addr := none, src_node := "10.0.0.1", src_service := "4000", fi_ep := 1,
      fi_wait := none, fi_cq := 3, unexpected_op_queue := some 0, sep := false }
  addrs := fun _ => none
  addr_next := 0
  ops := fun _ => none
  op_next := 0
  ctxs := fun c =>
    if c = 0 then
      some { fi_tx := 1, fi_rx := 1, fi_cq := 3, fi_wait := none,
             unexpected_op_queue := some 0, idx := 0 }
    else none
  queues := fun q => if q = 0 then some [] else none
  completions := []
  ctx_next := 1
  queue_next := 1
  contexts := 1
  max_contexts := 1
  no_wait := false
  buf_pool := []
  mr_local := false

/-- The world after the lookup of `psm2://127.0.0.1:4000` in a fresh PSM2 domain
with `env_ok`: the address object is at pointer 0 and its key is in the table. -/
def world_after_lookup : World :=
  match na_ofi_addr_lookup2 env_ok (world_of NA_OFI_PROV_PSM2 []) "psm2://127.0.0.1:4000" with
  | .ok r => r.1
  | .error _ => world_of NA_OFI_PROV_PSM2 []

/-- The address object of 127.0.0.1 port 4000 that this lookup returns. -/
def looked_up_addr : na_ofi_addr :=
  { addr := some sample_sin_addr, addrlen := 16, uri := some "psm2://127.0.0.1:4000",
    fi_addr := 7, ht_key := 72058139498815503, refcount := 1, self := false, remove := false }

/-- What `self_addr_roundtrip` reports: the return code of
`na_ofi_get_ep_addr`, the self address it built, the return codes of
`na_ofi_addr_serialize` and `na_ofi_addr_deserialize`, and the deserialized
address. -/
structure RoundtripReport where
  get_ep_addr_ret : na_return_t
  original : Option na_ofi_addr
  serialize_ret : na_return_t
  deserialize_ret : na_return_t
  deserialized : Option na_ofi_addr
  deriving DecidableEq, Repr

/-- Build the self address with `na_ofi_get_ep_addr` and take it through
`addr_roundtrip` with a zeroed buffer of 24 bytes. -/
def self_addr_roundtrip (E : Env) (w : World) : Except Fault RoundtripReport := do
  let g ← na_ofi_get_ep_addr E w
  match g.2.2 with
  | none => pure ⟨g.2.1, none, g.2.1, g.2.1, none⟩
  | some p =>
    let r ← addr_roundtrip E g.1 (List.replicate 24 0) 24 p
    pure ⟨g.2.1, g.1.addrs p, r.2.1, r.2.2.1, r.2.2.2.bind r.1.addrs⟩

/-! ## Memory handles -/

/-- The `struct na_ofi_mem_desc`: a 64-bit key, a `na_ptr_t` base, a
`na_size_t` size and a one-byte access flag, then `pad`, the 7 bytes of tail
padding that `memcpy` of the structure carries along. -/
structure na_ofi_mem_desc where
  fi_mr_key : Nat
  base : Nat
  size : Nat
  attr : Nat
  pad : List Nat
  deriving DecidableEq, Repr

/-- The `struct na_ofi_mem_handle` (`fi_mr` is `none` when NULL). -/
structure na_ofi_mem_handle where
  desc : na_ofi_mem_desc
  fi_mr : Option Nat
  deriving DecidableEq, Repr

/-- The `sizeof(struct na_ofi_mem_desc)`. -/
def sizeof_na_ofi_mem_desc : Nat := 32

/-- The `sizeof(struct na_ofi_mem_handle)`. -/
def sizeof_na_ofi_mem_handle : Nat := 40

/-- The 32 bytes of a descriptor in memory. -/
def na_ofi_mem_desc.bytes (d : na_ofi_mem_desc) : List Nat :=
  le_bytes 8 d.fi_mr_key ++ le_bytes 8 d.base ++ le_bytes 8 d.size ++ le_bytes 1 d.attr
    ++ fill 7 d.pad

/-- The descriptor that 32 bytes of memory hold. -/
def na_ofi_mem_desc.of_bytes (m : List Nat) : Except Fault na_ofi_mem_desc := do
  let fi_mr_key ← load m 0 8
  let base ← load m 8 8
  let size ← load m 16 8
  let attr ← load m 24 1
  if m.length < 32 then throw Fault.out_of_bounds
  pure { fi_mr_key := fi_mr_key, base := base, size := size, attr := attr,
         pad := (m.drop 25).take 7 }

/-- The `na_ofi_mem_handle_get_serialize_size`. -/
def na_ofi_mem_handle_get_serialize_size (_mem_handle : na_ofi_mem_handle) : Nat :=
  sizeof_na_ofi_mem_desc

/-- The `na_ofi_mem_handle_serialize`: returns the return code and the
contents of the block `buf` points to. -/
def na_ofi_mem_handle_serialize (buf : List Nat) (buf_size : Nat)
    (mem_handle : na_ofi_mem_handle) : Except Fault (na_return_t × List Nat) := do
  if buf_size < sizeof_na_ofi_mem_desc then pure (NA_OVERFLOW, buf) else
  -- Copy struct
  let buf1 ← memcpy buf mem_handle.desc.bytes sizeof_na_ofi_mem_desc
  pure (NA_SUCCESS, buf1)

/-- The `na_ofi_mem_handle_deserialize`: returns the world, the return code and
`*mem_handle` (`none` when it is not written). -/
def na_ofi_mem_handle_deserialize (E : Env) (w : World) (buf : List Nat) (buf_size : Nat) :
    Except Fault (World × na_return_t × Option na_ofi_mem_handle) := do
  if buf_size < sizeof_na_ofi_mem_desc then pure (w, NA_OVERFLOW, none) else
  let (w1, ok) := alloc E w sizeof_na_ofi_mem_handle
  if ¬ ok then pure (w1, NA_NOMEM, none) else
  -- Copy struct
  let desc ← na_ofi_mem_desc.of_bytes (buf.take sizeof_na_ofi_mem_desc)
  pure (w1, NA_SUCCESS, some { desc := desc, fi_mr := none })

/-! ## Operation IDs, contexts and queues -/

open na_cb_type_t

/-- Limits and flags of the plugin (`#define`s of `na_ofi.c`). -/
def NA_OFI_MAX_TAG : Nat := (1 <<< 30) - 1
def NA_OFI_UNEXPECTED_SIZE : Nat := 4096
def NA_OFI_EXPECTED_TAG_FLAG : Nat := 0x100000000
def NA_OFI_UNEXPECTED_TAG_IGNORE : Nat := 0x0FFFFFFFF
def NA_OFI_OP_COMPLETED : Nat := 1 <<< 0
def NA_OFI_OP_CANCELED : Nat := 1 <<< 1
def NA_OFI_SEP_RX_CTX_BITS : Nat := 8
def NA_OFI_CQ_EVENT_NUM : Nat := 16
def NA_OFI_CQ_MAX_ERR_DATA_SIZE : Nat := 48

/-- Completion flags of the fabric library (`rdma/fabric.h`). -/
def FI_RMA : Nat := 1 <<< 2
def FI_RECV : Nat := 1 <<< 10
def FI_SEND : Nat := 1 <<< 11
def FI_COMPLETION : Nat := 1 <<< 24
def FI_DELIVERY_COMPLETE : Nat := 1 <<< 28

/-- Error numbers of the fabric library and of `errno.h`. -/
def FI_EIO : Int := 5
def FI_EAGAIN : Int := 11
def ENOSYS : Int := 38
def FI_EADDRNOTAVAIL : Int := 99
def FI_ECANCELED : Int := 125
def FI_EAVAIL : Int := 259

/-- The C `~x` at type `uint64_t`. -/
def not64 (x : Nat) : Nat := 2 ^ 64 - 1 - x % 2 ^ 64

/-- The `fi_rx_addr` of the fabric library:
`((uint64_t) rx_index << (64 - rx_ctx_bits)) | fi_addr`. -/
def fi_rx_addr (fi_addr rx_index rx_ctx_bits : Nat) : Nat :=
  ((rx_index <<< (64 - rx_ctx_bits)) % 2 ^ 64) ||| fi_addr

/-- Read the operation ID a pointer refers to. -/
def World.get_op (w : World) (p : Nat) : Except Fault na_ofi_op_id :=
  match w.ops p with
  | some o => .ok o
  | none => .error Fault.use_after_free

/-- Write (or, with `none`, free) the operation ID a pointer refers to. -/
def World.set_op (w : World) (p : Nat) (o : Option na_ofi_op_id) : World :=
  { w with ops := Function.update w.ops p o }

/-- Read the plugin context a `na_context_t` pointer refers to (`NA_OFI_CONTEXT`). -/
def World.get_ctx (w : World) (p : Nat) : Except Fault na_ofi_context :=
  match w.ctxs p with
  | some c => .ok c
  | none => .error Fault.use_after_free

/-- Read the queue a pointer refers to. -/
def World.get_queue (w : World) (p : Option Nat) : Except Fault (Nat × List Nat) :=
  match p with
  | none => .error Fault.null_deref
  | some q =>
    match w.queues q with
    | some l => .ok (q, l)
    | none => .error Fault.use_after_free

/-- Write the queue a pointer refers to. -/
def World.set_queue (w : World) (q : Nat) (l : List Nat) : World :=
  { w with queues := Function.update w.queues q (some l) }

/-- Size in bytes of `struct na_ofi_op_id` (with the 64 bytes of the NA
layer's `struct na_cb_completion_data`). -/
def sizeof_na_ofi_op_id : Nat := 160

/-- The operation ID `na_ofi_op_create` initializes: `calloc` zeroes every
field, then the reference count is set to 1 and the status to completed. -/
def fresh_op : na_ofi_op_id :=
  { type := NA_CB_LOOKUP, callback := 0, arg := 0, ret := NA_SUCCESS, cb_lookup_addr := none,
    cb_actual_buf_size := 0, cb_source := none, cb_tag := 0, lookup_addr := none, buf := 0,
    buf_size := 0, msg_size := 0, tag := 0, context := none, addr := none,
    status := NA_OFI_OP_COMPLETED, refcount := 1 }

/-- The `na_ofi_op_create`: returns the world and the operation ID (`none` for NULL). -/
def na_ofi_op_create (E : Env) (w : World) : World × Option Nat :=
  let r := alloc E w sizeof_na_ofi_op_id
  if ¬ r.2 then (r.1, none)
  else
    let p := r.1.op_next
    ({ r.1 with ops := Function.update r.1.ops p (some fresh_op), op_next := p + 1 }, some p)

/-- The `na_ofi_op_id_addref`. -/
def na_ofi_op_id_addref (w : World) (p : Nat) : Except Fault World := do
  let o ← w.get_op p
  -- init as 1 when op_create
  if o.refcount = 0 then throw Fault.assert_fail
  pure (w.set_op p (some { o with refcount := wrap32 (o.refcount + 1) }))

/-- The `na_ofi_op_id_decref`. -/
def na_ofi_op_id_decref (w : World) (op : Option Nat) : Except Fault World :=
  match op with
  | none => pure w
  | some p => do
    let o ← w.get_op p
    if ¬ (o.refcount > 0) then throw Fault.assert_fail
    let rc := wrap32 (o.refcount - 1)
    -- If there are more references, return
    if rc ≠ 0 then pure (w.set_op p (some { o with refcount := rc })) else
    -- No more references, cleanup
    pure (w.set_op p none)

/-- The `na_ofi_op_destroy`. -/
def na_ofi_op_destroy (w : World) (op_id : Option Nat) : Except Fault (World × na_return_t) := do
  let w1 ← na_ofi_op_id_decref w op_id
  pure (w1, NA_SUCCESS)

/-- Modelled from the spec: `HG_QUEUE_REMOVE` of `mercury_queue.h` (not among
the sources) on a singly linked queue: the head is popped when it is the
element, else the links are followed up to the element, which runs into the
NULL that ends the queue when the element is not in it. -/
def hg_queue_remove (l : List Nat) (elm : Nat) : Except Fault (List Nat) :=
  if elm ∈ l then .ok (l.erase elm) else .error Fault.null_deref

/-- The `na_ofi_msg_unexpected_op_push`. -/
def na_ofi_msg_unexpected_op_push (w : World) (context op : Nat) : Except Fault World := do
  let ctx ← w.get_ctx context
  let (q, l) ← w.get_queue ctx.unexpected_op_queue
  pure (w.set_queue q (l ++ [op]))

/-- The `na_ofi_msg_unexpected_op_remove`. -/
def na_ofi_msg_unexpected_op_remove (w : World) (context op : Nat) : Except Fault World := do
  let ctx ← w.get_ctx context
  let (q, l) ← w.get_queue ctx.unexpected_op_queue
  let l1 ← hg_queue_remove l op
  pure (w.set_queue q l1)

/-! ## Completion -/

/-- Modelled from the spec: `na_cb_completion_add` of the NA layer (its
implementation is not among the sources) enqueues the completion data of the
operation on the completion queue of the RPC layer; it can fail, and then
nothing is enqueued. -/
def na_cb_completion_add (E : Env) (w : World) (context : Option Nat) (op : Nat) :
    World × na_return_t :=
  let ret := E.na_cb_completion_add w.calls context op
  let w1 := w.log (Call.na_cb_completion_add context op)
  if ret = NA_SUCCESS then ({ w1 with completions := op :: w1.completions }, ret)
  else (w1, ret)

/-- The `switch (callback_info->type)` of `na_ofi_complete`: the operation ID
with the callback info filled in, and the error that skips the completion
queue, if any. -/
def na_ofi_complete_info (o : na_ofi_op_id) : na_ofi_op_id × Option na_return_t :=
  match o.type with
  | NA_CB_LOOKUP => ({ o with cb_lookup_addr := o.lookup_addr }, none)
  | NA_CB_RECV_UNEXPECTED =>
    -- Fill callback info
    ({ o with cb_actual_buf_size := o.msg_size, cb_source := o.addr, cb_tag := o.tag }, none)
  | NA_CB_RECV_EXPECTED =>
    -- Check buf_size and msg_size
    if o.msg_size > o.buf_size then (o, some NA_MSGSIZE) else (o, none)
  | NA_CB_SEND_UNEXPECTED => (o, none)
  | NA_CB_SEND_EXPECTED => (o, none)
  | NA_CB_PUT => (o, none)
  | NA_CB_GET => (o, none)

/-- The end of `na_ofi_complete` before `out:`: an error raised in the switch
skips the completion queue, else the completion data is added to it. -/
def na_ofi_complete_add (E : Env) (w : World) (op : Nat)
    (r : na_ofi_op_id × Option na_return_t) : World × na_return_t :=
  match r.2 with
  | some e => (w, e)
  | none => na_cb_completion_add E w r.1.context op  -- Add OP to NA completion queue

/-- The `na_ofi_complete`. -/
def na_ofi_complete (E : Env) (w : World) (op : Nat) (op_ret : na_return_t) :
    Except Fault (World × na_return_t) := do
  let o ← w.get_op op
  let na_ofi_addr := o.addr
  -- Mark op id as completed before checking for cancelation
  let status := o.status ||| NA_OFI_OP_COMPLETED
  -- If it was canceled while being processed, set callback ret accordingly
  let op_ret :=
    if status &&& NA_OFI_OP_CANCELED ≠ 0 then (if op_ret = NA_SUCCESS then NA_CANCELED else op_ret)
    else op_ret
  -- Init callback info
  let r := na_ofi_complete_info { o with status := status, ret := op_ret }
  let c := na_ofi_complete_add E (w.set_op op (some r.1)) op r
  match na_ofi_addr with
  | some a =>
    let w2 ← na_ofi_addr_decref E c.1 a
    pure (w2, c.2)
  | none => pure c

/-! ## Completion queue events -/

/-- The `na_ofi_cq_process_send_event`. -/
def na_ofi_cq_process_send_event (w : World) (op : Nat) : Except Fault na_return_t := do
  let o ← w.get_op op
  if o.type ≠ NA_CB_SEND_EXPECTED ∧ o.type ≠ NA_CB_SEND_UNEXPECTED then pure NA_PROTOCOL_ERROR
  else pure NA_SUCCESS

/-- The `na_ofi_with_msg_hdr`. -/
def na_ofi_with_msg_hdr (w : World) : Bool :=
  na_ofi_prov_addr_format w.domain.prov_type = FI_SOCKADDR_IN

/-- The `na_ofi_cq_process_recv_unexpected_event` (`src_err_addr` is the block
the pointer refers to, `none` when it is NULL). -/
def na_ofi_cq_process_recv_unexpected_event (E : Env) (w : World) (context op : Nat)
    (src_addr : Nat) (src_err_addr : Option (List Nat)) (src_err_addrlen : Nat)
    (tag len : Nat) : Except Fault (World × na_return_t) := do
  let o ← w.get_op op
  if o.type ≠ NA_CB_RECV_UNEXPECTED then pure (w, NA_INVALID_ARG) else
  if tag > NA_OFI_MAX_TAG then pure (w, NA_OVERFLOW) else
  -- Allocate new address
  match na_ofi_addr_alloc E w with
  | (w1, none) => pure (w1, NA_NOMEM)
  | (w1, some p) =>
    let a ← w1.get_addr p
    -- Use src_addr when available
    let r ←
      if src_addr ≠ FI_ADDR_UNSPEC then
        pure (w1.set_addr p (some { a with fi_addr := src_addr }), NA_SUCCESS)
      else if src_err_addr.isSome ∧ src_err_addrlen ≠ 0 then do
        -- addr from error info
        let l ← na_ofi_addr_ht_lookup E w1 (na_ofi_prov_addr_format w1.domain.prov_type)
          (src_err_addr.getD []) src_err_addrlen a.fi_addr
        pure (l.1.set_addr p (some { a with fi_addr := l.2.2.1, ht_key := l.2.2.2 }), l.2.1)
      else if na_ofi_with_msg_hdr w1 then do
        -- addr from msg header
        let l ← na_ofi_addr_ht_lookup E w1 FI_SOCKADDR_IN (E.mem w1.calls o.buf)
          sizeof_na_ofi_sin_addr a.fi_addr
        pure (l.1.set_addr p (some { a with fi_addr := l.2.2.1, ht_key := l.2.2.2 }), l.2.1)
      else pure (w1, NA_PROTONOSUPPORT)
    if r.2 ≠ NA_SUCCESS then
      let w2 ← na_ofi_addr_decref E r.1 p
      pure (w2, r.2)
    else
      let w2 ← na_ofi_addr_addref r.1 p  -- decref in addr_free()
      let w3 := w2.set_op op
        (some { o with addr := some p, tag := tag % 2 ^ 32, msg_size := len })
      let w4 ← na_ofi_msg_unexpected_op_remove w3 context op
      pure (w4, NA_SUCCESS)

/-- The `na_ofi_cq_process_recv_expected_event`. -/
def na_ofi_cq_process_recv_expected_event (w : World) (op : Nat) (tag len : Nat) :
    Except Fault (World × na_return_t) := do
  let o ← w.get_op op
  if o.type ≠ NA_CB_RECV_EXPECTED then pure (w, NA_INVALID_ARG) else
  if o.tag ≠ tag &&& not64 NA_OFI_EXPECTED_TAG_FLAG then pure (w, NA_INVALID_ARG) else
  pure (w.set_op op (some { o with msg_size := len }), NA_SUCCESS)

/-- The `na_ofi_cq_process_rma_event`. -/
def na_ofi_cq_process_rma_event (w : World) (op : Nat) : Except Fault na_return_t := do
  let o ← w.get_op op
  if o.type ≠ NA_CB_PUT ∧ o.type ≠ NA_CB_GET then pure NA_INVALID_ARG
  else pure NA_SUCCESS

/-- The dispatch of `na_ofi_cq_process_event` on the flags and the tag of the
event, up to the call of `na_ofi_complete`. -/
def na_ofi_cq_dispatch_event (E : Env) (w : World) (context op : Nat)
    (cq_event : fi_cq_tagged_entry) (src_addr : Nat) (src_err_addr : Option (List Nat))
    (src_err_addrlen : Nat) : Except Fault (World × na_return_t) := do
  if cq_event.flags &&& FI_SEND ≠ 0 then
    let ret ← na_ofi_cq_process_send_event w op
    pure (w, ret)
  else if cq_event.flags &&& FI_RECV ≠ 0 then
    if cq_event.tag &&& not64 NA_OFI_UNEXPECTED_TAG_IGNORE ≠ 0 then
      na_ofi_cq_process_recv_expected_event w op cq_event.tag cq_event.len
    else
      na_ofi_cq_process_recv_unexpected_event E w context op src_addr src_err_addr
        src_err_addrlen cq_event.tag cq_event.len
  else if cq_event.flags &&& FI_RMA ≠ 0 then
    let ret ← na_ofi_cq_process_rma_event w op
    pure (w, ret)
  else pure (w, NA_PROTONOSUPPORT)

/-- The `na_ofi_cq_process_event`. -/
def na_ofi_cq_process_event (E : Env) (w : World) (context : Nat)
    (cq_event : fi_cq_tagged_entry) (src_addr : Nat) (src_err_addr : Option (List Nat))
    (src_err_addrlen : Nat) : Except Fault (World × na_return_t) := do
  match cq_event.op_context with
  | none => pure (w, NA_INVALID_ARG)
  | some op =>
    let o ← w.get_op op
    -- Cannot have an already completed operation ID, sanity check
    if o.status &&& NA_OFI_OP_COMPLETED ≠ 0 then pure (w, NA_FAULT) else
    let r ← na_ofi_cq_dispatch_event E w context op cq_event src_addr src_err_addr
      src_err_addrlen
    if r.2 ≠ NA_SUCCESS then pure r else
    -- Complete operation
    na_ofi_complete E r.1 op r.2

/-- What `na_ofi_cq_read` leaves in its out-parameters: the return code, the
events with their source addresses (`*actual_count` is their number),
`*src_err_addr` and `*src_err_addrlen`. -/
structure CqRead where
  ret : na_return_t
  events : List (fi_cq_tagged_entry × Nat)
  src_err_addr : Option (List Nat)
  src_err_addrlen : Nat
  deriving DecidableEq, Repr

/-- The `case FI_ECANCELED` of `na_ofi_cq_read`. -/
def na_ofi_cq_read_canceled (E : Env) (w : World) (context : Nat) (op_context : Option Nat) :
    Except Fault (World × na_return_t) := do
  match op_context with
  | none => pure (w, NA_INVALID_ARG)
  | some op =>
    let o ← w.get_op op
    if o.status &&& NA_OFI_OP_COMPLETED ≠ 0 then pure (w, NA_FAULT) else
    if ¬ (o.status &&& NA_OFI_OP_CANCELED ≠ 0) then pure (w, NA_FAULT) else
    -- Remove OP ID from OP queue if canceled
    let w1 ← if o.type = NA_CB_RECV_UNEXPECTED then na_ofi_msg_unexpected_op_remove w context op
      else pure w
    -- Complete operation in canceled state
    na_ofi_complete E w1 op NA_CANCELED

/-- The `na_ofi_cq_read`: `src_err_addr`, `src_err_addrlen` are the values of
`*src_err_addr` and `*src_err_addrlen` on entry, `*actual_count` is 0 on entry. -/
def na_ofi_cq_read (E : Env) (w : World) (context : Nat) (max_count : Nat)
    (src_err_addr : Option (List Nat)) (src_err_addrlen : Nat) :
    Except Fault (World × CqRead) := do
  let ctx ← w.get_ctx context
  let cq_hdl := ctx.fi_cq
  let r := E.fi_cq_readfrom w.calls cq_hdl max_count
  let w1 := w.log (Call.fi_cq_readfrom cq_hdl max_count)
  if r.1 > 0 then  -- events available
    if r.2.length < r.1.toNat then throw Fault.out_of_bounds
    pure (w1, ⟨NA_SUCCESS, r.2.take r.1.toNat, src_err_addr, 0⟩)
  else if r.1 = -FI_EAGAIN then  -- no event available
    pure (w1, ⟨NA_SUCCESS, [], src_err_addr, 0⟩)
  else if r.1 ≠ -FI_EAVAIL then pure (w1, ⟨NA_PROTOCOL_ERROR, [], src_err_addr, src_err_addrlen⟩)
  else
    -- Read error entry
    let e := E.fi_cq_readerr w1.calls cq_hdl
    let w2 := w1.log (Call.fi_cq_readerr cq_hdl)
    let cq_err := e.2
    if e.1 ≠ 1 then pure (w2, ⟨NA_PROTOCOL_ERROR, [], src_err_addr, src_err_addrlen⟩)
    else if cq_err.err = FI_ECANCELED then
      let c ← na_ofi_cq_read_canceled E w2 context cq_err.op_context
      pure (c.1, ⟨c.2, [], src_err_addr, src_err_addrlen⟩)
    else if cq_err.err = FI_EADDRNOTAVAIL then
      -- Copy addr information
      let (w3, ok) := alloc E w2 cq_err.err_data_size
      if ¬ ok then pure (w3, ⟨NA_NOMEM, [], src_err_addr, src_err_addrlen⟩) else
      let err_addr ← memcpy (List.replicate cq_err.err_data_size 0) cq_err.err_data
        cq_err.err_data_size
      -- Insert new source addr into AV if address was not found
      let i := E.fi_av_insert w3.calls (some err_addr)
      let w4 := w3.log (Call.fi_av_insert (some err_addr))
      if i.1 < 1 then pure (w4, ⟨NA_PROTOCOL_ERROR, [], src_err_addr, src_err_addrlen⟩) else
      -- Only one error event processed in that case
      pure (w4, ⟨NA_SUCCESS,
        [(⟨cq_err.op_context, cq_err.flags, cq_err.len, cq_err.buf, cq_err.data, cq_err.tag⟩,
          i.2)], some cq_err.err_data, cq_err.err_data_size⟩)
    else if cq_err.err = FI_EIO then
      pure (w2, ⟨NA_PROTOCOL_ERROR, [], src_err_addr, src_err_addrlen⟩)
    else
      -- Ignore errors from OFI that we cannot handle
      pure (w2, ⟨NA_SUCCESS, [], src_err_addr, src_err_addrlen⟩)

/-- The `for` loop of `na_ofi_progress` over the events read. -/
def na_ofi_progress_events (E : Env) (context : Nat) (src_err_addr : Option (List Nat))
    (src_err_addrlen : Nat) :
    World → List (fi_cq_tagged_entry × Nat) → Except Fault (World × na_return_t)
  | w, [] => pure (w, NA_SUCCESS)
  | w, (cq_event, src_addr) :: rest => do
    let r ← na_ofi_cq_process_event E w context cq_event src_addr src_err_addr src_err_addrlen
    if r.2 ≠ NA_SUCCESS then pure r
    else na_ofi_progress_events E context src_err_addr src_err_addrlen r.1 rest

/-- The `NA_OFI_MAX_EINTR_RETRY` and the error numbers `na_ofi_progress` tests. -/
def NA_OFI_MAX_EINTR_RETRY : Nat := 1000
def FI_EINTR : Int := 4
def FI_ETIMEDOUT : Int := 110

/-- The loop `do { rc = fi_wait(...); } while (rc == -FI_EINTR && retry_cnt++ < NA_OFI_MAX_EINTR_RETRY)`
of `na_ofi_progress`; the first argument is the number of retries still allowed. -/
def na_ofi_progress_wait (E : Env) (wait_hdl : Nat) (ms : Int) : Nat → World → World × Int
  | 0, w => (w.log (Call.fi_wait wait_hdl ms), (E.fabric_call w.calls (Call.fi_wait wait_hdl ms)).1)
  | n + 1, w =>
    let rc := (E.fabric_call w.calls (Call.fi_wait wait_hdl ms)).1
    let w1 := w.log (Call.fi_wait wait_hdl ms)
    if rc = -FI_EINTR then na_ofi_progress_wait E wait_hdl ms n w1 else (w1, rc)

/-- The `if (timeout) { ... }` at the head of the loop body of
`na_ofi_progress`: the world, the time `t1`, and how the body goes on: `none`
to read the CQ, `some none` for `break`, `some (some ret)` for `goto out` with
that return code. The `(int)` conversion of `remaining * 1000.0` is defined
only within the range of `int`. -/
def na_ofi_progress_head (E : Env) (w : World) (context timeout : Nat) (remaining : Rat) :
    Except Fault (World × Rat × Option (Option na_return_t)) := do
  if timeout = 0 then pure (w, 0, none) else
  let ctx ← w.get_ctx context
  let t1 := E.hg_time_get_current w.calls
  let w1 := w.log Call.hg_time_get_current
  match ctx.fi_wait with
  | none => pure (w1, t1, none)
  | some wait_hdl =>
    -- Wait in wait set if provider does not support wait on FDs
    let ms := (remaining * 1000).floor
    if ms < -2 ^ 31 ∨ 2 ^ 31 ≤ ms then throw Fault.bad_conversion
    let r := na_ofi_progress_wait E wait_hdl ms NA_OFI_MAX_EINTR_RETRY w1
    if r.2 = -FI_ETIMEDOUT then pure (r.1, t1, some none)
    else if r.2 ≠ 0 then pure (r.1, t1, some (some NA_PROTOCOL_ERROR))
    else pure (r.1, t1, none)

/-- The `do { ... } while (remaining > 0 && ret != NA_SUCCESS)` loop of
`na_ofi_progress`; `ret` is the value of the variable at the start of the
body. The `double` `remaining` is kept as an exact rational; `fuel` bounds
the number of runs of the body. -/
def na_ofi_progress_loop (E : Env) (context timeout : Nat) :
    Nat → World → Rat → na_return_t → Except Fault (World × na_return_t)
  | 0, _, _, _ => .error Fault.out_of_fuel
  | fuel + 1, w, remaining, ret => do
    let h ← na_ofi_progress_head E w context timeout remaining
    match h.2.2 with
    | some (some e) => pure (h.1, e)
    | some none => pure (h.1, ret)
    | none =>
      -- Read from CQ
      let r ← na_ofi_cq_read E h.1 context NA_OFI_CQ_EVENT_NUM
        (some (List.replicate NA_OFI_CQ_MAX_ERR_DATA_SIZE 0)) NA_OFI_CQ_MAX_ERR_DATA_SIZE
      if r.2.ret ≠ NA_SUCCESS then pure (r.1, r.2.ret) else
      let t : World × Rat :=
        if timeout ≠ 0 then
          (r.1.log Call.hg_time_get_current,
            remaining - (E.hg_time_get_current r.1.calls - h.2.1))
        else (r.1, remaining)
      if r.2.events = [] then
        -- Return NA_TIMEOUT if no events
        if t.2 ≤ 0 then pure (t.1, NA_TIMEOUT)
        else if t.2 > 0 ∧ NA_TIMEOUT ≠ NA_SUCCESS then
          na_ofi_progress_loop E context timeout fuel t.1 t.2 NA_TIMEOUT
        else pure (t.1, NA_TIMEOUT)
      else
        let p ← na_ofi_progress_events E context r.2.src_err_addr r.2.src_err_addrlen t.1
          r.2.events
        if p.2 ≠ NA_SUCCESS then pure p
        else if t.2 > 0 ∧ p.2 ≠ NA_SUCCESS then
          na_ofi_progress_loop E context timeout fuel p.1 t.2 p.2
        else pure p

/-- The `na_ofi_progress`. -/
def na_ofi_progress (E : Env) (fuel : Nat) (w : World) (context timeout : Nat) :
    Except Fault (World × na_return_t) :=
  na_ofi_progress_loop E context timeout fuel w ((timeout : Rat) / 1000) NA_TIMEOUT

/-! ## Posting messages and RMA operations -/

/-- The `na_ofi_msg_get_max_unexpected_size` (built without the GNI extension
header `NA_OFI_HAS_EXT_GNI_H`). -/
def na_ofi_msg_get_max_unexpected_size : Nat := NA_OFI_UNEXPECTED_SIZE

/-- The `na_ofi_msg_get_max_tag`. -/
def na_ofi_msg_get_max_tag : Nat := NA_OFI_MAX_TAG

/-- The loop around every fabric post,
`do { rc = post; if (rc == -FI_EAGAIN) na_ofi_progress(na_class, context, 0); else break; } while (1)`:
the world and the return code that ends it. The loop of the program has no
bound; `fuel` bounds the number of posts here (and the loop of each
`na_ofi_progress` it calls). -/
def post_retry (E : Env) (context : Nat) (c : Call) : Nat → World → Except Fault (World × Int)
  | 0, _ => .error Fault.out_of_fuel
  | fuel + 1, w => do
    let rc := E.fabric_post w.calls c
    let w1 := w.log c
    if rc = -FI_EAGAIN then
      let p ← na_ofi_progress E (fuel + 1) w1 context 0
      post_retry E context c fuel p.1
    else pure (w1, rc)

/-- The `na_ofi_msg_send_unexpected`: `op_id` is `none` when `op_id` is NULL or
`NA_OP_ID_IGNORE` or `*op_id` is `NA_OP_ID_NULL`. -/
def na_ofi_msg_send_unexpected (E : Env) (fuel : Nat) (w : World)
    (context callback arg buf buf_size plugin_data dest_addr dest_id tag : Nat)
    (op_id : Option Nat) : Except Fault (World × na_return_t) := do
  let ctx ← w.get_ctx context
  let ep_hdl := ctx.fi_tx
  -- Check op_id
  match op_id with
  | none => pure (w, NA_INVALID_ARG)
  | some op =>
    let w1 ← na_ofi_op_id_addref w op
    let o ← w1.get_op op
    let w2 := w1.set_op op (some { o with
      context := some context, type := NA_CB_SEND_UNEXPECTED, callback := callback, arg := arg })
    let w3 ← na_ofi_addr_addref w2 dest_addr  -- decref in na_ofi_complete()
    let o ← w3.get_op op
    let w4 := w3.set_op op (some { o with addr := some dest_addr, status := 0 })
    -- Specify target receive context
    let a ← w4.get_addr dest_addr
    let fi_addr := fi_rx_addr a.fi_addr dest_id NA_OFI_SEP_RX_CTX_BITS
    -- Post the FI unexpected send request
    let r ← post_retry E context (Call.fi_tsend ep_hdl buf buf_size plugin_data fi_addr tag op)
      fuel w4
    if r.2 ≠ 0 then
      let w5 ← na_ofi_addr_decref E r.1 dest_addr
      let w6 ← na_ofi_op_id_decref w5 (some op)
      pure (w6, NA_PROTOCOL_ERROR)
    else pure (r.1, NA_SUCCESS)

/-- The `na_ofi_msg_recv_unexpected`. -/
def na_ofi_msg_recv_unexpected (E : Env) (fuel : Nat) (w : World)
    (context callback arg buf buf_size plugin_data : Nat) (op_id : Option Nat) :
    Except Fault (World × na_return_t) := do
  let ctx ← w.get_ctx context
  let ep_hdl := ctx.fi_rx
  -- Check op_id
  match op_id with
  | none => pure (w, NA_INVALID_ARG)
  | some op =>
    let w1 ← na_ofi_op_id_addref w op
    let o ← w1.get_op op
    let w2 := w1.set_op op (some { o with
      context := some context, type := NA_CB_RECV_UNEXPECTED, callback := callback, arg := arg,
      addr := none,  -- Make sure the addr is reset
      status := 0, buf := buf, buf_size := buf_size })
    let w3 ← na_ofi_msg_unexpected_op_push w2 context op
    -- Post the FI unexpected recv request
    let r ← post_retry E context
      (Call.fi_trecv ep_hdl buf buf_size plugin_data FI_ADDR_UNSPEC 1
        NA_OFI_UNEXPECTED_TAG_IGNORE op) fuel w3
    if r.2 ≠ 0 then
      let w4 ← na_ofi_msg_unexpected_op_remove r.1 context op
      let w5 ← na_ofi_op_id_decref w4 (some op)
      pure (w5, NA_PROTOCOL_ERROR)
    else pure (r.1, NA_SUCCESS)

/-- The `na_ofi_msg_send_expected`. -/
def na_ofi_msg_send_expected (E : Env) (fuel : Nat) (w : World)
    (context callback arg buf buf_size plugin_data dest_addr dest_id tag : Nat)
    (op_id : Option Nat) : Except Fault (World × na_return_t) := do
  let ctx ← w.get_ctx context
  let ep_hdl := ctx.fi_tx
  -- Check op_id
  match op_id with
  | none => pure (w, NA_INVALID_ARG)
  | some op =>
    let w1 ← na_ofi_op_id_addref w op
    let o ← w1.get_op op
    let w2 := w1.set_op op (some { o with
      context := some context, type := NA_CB_SEND_EXPECTED, callback := callback, arg := arg })
    let w3 ← na_ofi_addr_addref w2 dest_addr  -- decref in na_ofi_complete()
    let o ← w3.get_op op
    let w4 := w3.set_op op (some { o with addr := some dest_addr, status := 0 })
    -- Specify target receive context
    let a ← w4.get_addr dest_addr
    let fi_addr := fi_rx_addr a.fi_addr dest_id NA_OFI_SEP_RX_CTX_BITS
    -- Post the FI expected send request
    let r ← post_retry E context
      (Call.fi_tsend ep_hdl buf buf_size plugin_data fi_addr (NA_OFI_EXPECTED_TAG_FLAG ||| tag) op)
      fuel w4
    if r.2 ≠ 0 then
      let w5 ← na_ofi_addr_decref E r.1 dest_addr
      let w6 ← na_ofi_op_id_decref w5 (some op)
      pure (w6, NA_PROTOCOL_ERROR)
    else pure (r.1, NA_SUCCESS)

/-- The `na_ofi_msg_recv_expected`. -/
def na_ofi_msg_recv_expected (E : Env) (fuel : Nat) (w : World)
    (context callback arg buf buf_size plugin_data source_addr source_id tag : Nat)
    (op_id : Option Nat) : Except Fault (World × na_return_t) := do
  let ctx ← w.get_ctx context
  let ep_hdl := ctx.fi_rx
  -- Check op_id
  match op_id with
  | none => pure (w, NA_INVALID_ARG)
  | some op =>
    let w1 ← na_ofi_op_id_addref w op
    let o ← w1.get_op op
    let w2 := w1.set_op op (some { o with
      context := some context, type := NA_CB_RECV_EXPECTED, callback := callback, arg := arg,
      status := 0 })
    let w3 ← na_ofi_addr_addref w2 source_addr  -- decref in na_ofi_complete()
    let o ← w3.get_op op
    let w4 := w3.set_op op (some { o with
      addr := some source_addr, buf := buf, buf_size := buf_size, tag := tag })
    -- Specify target receive context
    let a ← w4.get_addr source_addr
    let fi_addr := fi_rx_addr a.fi_addr source_id NA_OFI_SEP_RX_CTX_BITS
    -- Post the FI expected recv request
    let r ← post_retry E context
      (Call.fi_trecv ep_hdl buf buf_size plugin_data fi_addr (NA_OFI_EXPECTED_TAG_FLAG ||| tag)
        0 op) fuel w4
    if r.2 ≠ 0 then
      let w5 ← na_ofi_addr_decref E r.1 source_addr
      let w6 ← na_ofi_op_id_decref w5 (some op)
      pure (w6, NA_PROTOCOL_ERROR)
    else pure (r.1, NA_SUCCESS)

/-- The `fi_mr_desc` of the fabric library, which reads a field of the handle. -/
def fi_mr_desc (fi_mr : Option Nat) : Except Fault Nat :=
  match fi_mr with
  | none => .error Fault.null_deref
  | some m => .ok m

/-- The `na_ofi_put`. The initializers of the local variables read the local
memory handle and the remote address before the operation ID is checked. -/
def na_ofi_put (E : Env) (fuel : Nat) (w : World) (context callback arg : Nat)
    (local_mem_handle : na_ofi_mem_handle) (local_offset : Nat)
    (remote_mem_handle : na_ofi_mem_handle) (remote_offset length remote_addr remote_id : Nat)
    (op_id : Option Nat) : Except Fault (World × na_return_t) := do
  let ctx ← w.get_ctx context
  let ep_hdl := ctx.fi_tx
  let _local_desc ← fi_mr_desc local_mem_handle.fi_mr
  let iov_base := (local_mem_handle.desc.base + local_offset) % 2 ^ 64
  let rma_addr := (remote_mem_handle.desc.base + remote_offset) % 2 ^ 64
  let a ← w.get_addr remote_addr
  let msg_addr := fi_rx_addr a.fi_addr remote_id NA_OFI_SEP_RX_CTX_BITS
  -- Check op_id
  match op_id with
  | none => pure (w, NA_INVALID_ARG)
  | some op =>
    let w1 ← na_ofi_op_id_addref w op
    let o ← w1.get_op op
    let w2 := w1.set_op op (some { o with
      context := some context, type := NA_CB_PUT, callback := callback, arg := arg,
      status := 0 })
    let w3 ← na_ofi_addr_addref w2 remote_addr  -- for na_ofi_complete()
    let o ← w3.get_op op
    let w4 := w3.set_op op (some { o with addr := some remote_addr })
    -- Post the OFI RMA write
    let r ← post_retry E context
      (Call.fi_writemsg ep_hdl iov_base length msg_addr rma_addr
        remote_mem_handle.desc.fi_mr_key op (FI_COMPLETION ||| FI_DELIVERY_COMPLETE)) fuel w4
    if r.2 ≠ 0 then
      let w5 ← na_ofi_addr_decref E r.1 remote_addr
      let w6 ← na_ofi_op_id_decref w5 (some op)
      pure (w6, NA_PROTOCOL_ERROR)
    else pure (r.1, NA_SUCCESS)

/-- The `na_ofi_get`. -/
def na_ofi_get (E : Env) (fuel : Nat) (w : World) (context callback arg : Nat)
    (local_mem_handle : na_ofi_mem_handle) (local_offset : Nat)
    (remote_mem_handle : na_ofi_mem_handle) (remote_offset length remote_addr remote_id : Nat)
    (op_id : Option Nat) : Except Fault (World × na_return_t) := do
  let ctx ← w.get_ctx context
  let ep_hdl := ctx.fi_tx
  let _local_desc ← fi_mr_desc local_mem_handle.fi_mr
  let iov_base := (local_mem_handle.desc.base + local_offset) % 2 ^ 64
  let rma_addr := (remote_mem_handle.desc.base + remote_offset) % 2 ^ 64
  let a ← w.get_addr remote_addr
  let msg_addr := fi_rx_addr a.fi_addr remote_id NA_OFI_SEP_RX_CTX_BITS
  -- Check op_id
  match op_id with
  | none => pure (w, NA_INVALID_ARG)
  | some op =>
    let w1 ← na_ofi_op_id_addref w op
    let o ← w1.get_op op
    let w2 := w1.set_op op (some { o with
      context := some context, type := NA_CB_GET, callback := callback, arg := arg,
      status := 0 })
    let w3 ← na_ofi_addr_addref w2 remote_addr  -- for na_ofi_complete()
    let o ← w3.get_op op
    let w4 := w3.set_op op (some { o with addr := some remote_addr })
    -- Post the OFI RMA read
    let r ← post_retry E context
      (Call.fi_readmsg ep_hdl iov_base length msg_addr rma_addr
        remote_mem_handle.desc.fi_mr_key op FI_COMPLETION) fuel w4
    if r.2 ≠ 0 then
      let w5 ← na_ofi_addr_decref E r.1 remote_addr
      let w6 ← na_ofi_op_id_decref w5 (some op)
      pure (w6, NA_PROTOCOL_ERROR)
    else pure (r.1, NA_SUCCESS)

/-! ## Cancel -/

/-- The `switch` of `na_ofi_cancel` on the type of the operation: the endpoint
to cancel on, `none` for a type that cannot be canceled. -/
def na_ofi_cancel_ep (ctx : na_ofi_context) : na_cb_type_t → Option Nat
  | NA_CB_RECV_UNEXPECTED => some ctx.fi_rx
  | NA_CB_RECV_EXPECTED => some ctx.fi_rx
  | NA_CB_SEND_UNEXPECTED => some ctx.fi_tx
  | NA_CB_SEND_EXPECTED => some ctx.fi_tx
  | NA_CB_PUT => some ctx.fi_tx
  | NA_CB_GET => some ctx.fi_tx
  | NA_CB_LOOKUP => none

/-- The `na_ofi_cancel`. The return code of `fi_cancel` is not looked at. -/
def na_ofi_cancel (E : Env) (w : World) (context op_id : Nat) :
    Except Fault (World × na_return_t) := do
  let o ← w.get_op op_id
  -- Exit if op has already completed
  if o.status ≠ 0 then pure (w, NA_SUCCESS) else
  let w1 := w.set_op op_id (some { o with status := NA_OFI_OP_CANCELED })
  if o.type = NA_CB_LOOKUP then pure (w1, NA_INVALID_ARG) else
  let ctx ← w1.get_ctx context
  match na_ofi_cancel_ep ctx o.type with
  | none => pure (w1, NA_INVALID_ARG)
  | some fi_ep =>
    let w2 := w1.log (Call.fi_cancel fi_ep op_id)
    -- Work around segfault on fi_cq_signal() in some providers
    if na_ofi_prov_flags w2.domain.prov_type &&& NA_OFI_SKIP_SIGNAL = 0 then
      -- Signal CQ to wake up and no longer wait on FD
      let rc_signal := E.fi_cq_signal w2.calls ctx.fi_cq
      let w3 := w2.log (Call.fi_cq_signal ctx.fi_cq)
      if rc_signal ≠ 0 ∧ rc_signal ≠ -ENOSYS then pure (w3, NA_PROTOCOL_ERROR)
      else pure (w3, NA_SUCCESS)
    else pure (w2, NA_SUCCESS)

/-! ## Reference definitions and sample inputs for operations -/

/-- The part of the state that belongs to operations: the operation IDs, the
contexts, the queues and the completion queue of the NA layer. -/
def World.op_state (w : World) :
    (Nat → Option na_ofi_op_id) × Nat × (Nat → Option na_ofi_context)
      × (Nat → Option (List Nat)) × List Nat :=
  (w.ops, w.op_next, w.ctxs, w.queues, w.completions)

/-- A peer address with fabric handle 7 and one reference. -/
def peer_addr : na_ofi_addr :=
  { fresh_addr with fi_addr := 7 }

/-- A world of the given provider with the operation ID `o` at pointer 0, the
peer address `peer_addr` at pointer 0 (holding a reference to the domain) and
the given unexpected-op queue of context 0. -/
def world_with (prov : na_ofi_prov_type) (o : na_ofi_op_id) (queue : List Nat) : World :=
  { world_of prov [] with
    domain := { (world_of prov []).domain with refcount := 2 }
    addrs := fun p => if p = 0 then some peer_addr else none
    addr_next := 1
    ops := fun p => if p = 0 then some o else none
    op_next := 1
    queues := fun q => if q = 0 then some queue else none }

/-- An environment like `env_ok` in which the fabric rejects every post with
`-FI_EIO`. -/
def env_post_fails : Env :=
  { env_ok with fabric_post := fun _ _ => -5 }

/-- An environment like `env_ok` whose completion queue holds an error entry:
`fi_cq_readfrom` returns `-FI_EAVAIL` and `fi_cq_readerr` delivers an
`FI_ECANCELED` entry for operation ID 0. -/
def env_cq_canceled : Env :=
  { env_ok with
    fi_cq_readfrom := fun _ _ _ => (-259, [])
    fi_cq_readerr := fun _ _ =>
      (1, { op_context := some 0, flags := 0, len := 0, buf := 0, data := 0, tag := 0,
            err := 125, err_data := [], err_data_size := 0 }) }

/-- The world after `na_ofi_msg_recv_expected` posted operation ID 0 (fresh
from `na_ofi_op_create`) on context 0 for a 64-byte buffer, peer address 0 and
tag 5, the fabric accepting the post. -/
def world_posted_recv_expected : World :=
  match na_ofi_msg_recv_expected env_ok 1 (world_with NA_OFI_PROV_SOCKETS fresh_op [])
      0 0 0 0 64 0 0 0 5 (some 0) with
  | .ok r => r.1
  | .error _ => world_with NA_OFI_PROV_SOCKETS fresh_op []

/-- The operation ID 0 of `world_posted_recv_expected`. -/
def posted_recv_expected_op : na_ofi_op_id :=
  { fresh_op with
    type := NA_CB_RECV_EXPECTED, context := some 0, addr := some 0, status := 0, buf_size := 64,
    tag := 5, refcount := 2 }

/-- The world after `na_ofi_msg_recv_unexpected` posted operation ID 0 (fresh
from `na_ofi_op_create`) on context 0 for a 64-byte buffer, the fabric
accepting the post. -/
def world_posted_recv_unexpected : World :=
  match na_ofi_msg_recv_unexpected env_ok 1 (world_with NA_OFI_PROV_SOCKETS fresh_op [])
      0 0 0 0 64 0 (some 0) with
  | .ok r => r.1
  | .error _ => world_with NA_OFI_PROV_SOCKETS fresh_op []

/-! ## Contexts -/

/-- Wait objects and bind flags of the fabric library (`rdma/fabric.h`,
`rdma/fi_eq.h`). -/
def FI_WAIT_NONE : Nat := 0
def FI_WAIT_UNSPEC : Nat := 1
def FI_WAIT_SET : Nat := 2
def FI_WAIT_FD : Nat := 3
def FI_TRANSMIT : Nat := FI_SEND

/-- Sizes in bytes of `struct na_ofi_context` and `struct na_ofi_queue`. -/
def sizeof_na_ofi_context : Nat := 48
def sizeof_na_ofi_queue : Nat := 24

/-- The `na_ofi_with_sep`. -/
def na_ofi_with_sep (w : World) : Bool := w.endpoint.sep

/-- Write (or, with `none`, free) the context a pointer refers to. -/
def World.set_ctx (w : World) (p : Nat) (c : Option na_ofi_context) : World :=
  { w with ctxs := Function.update w.ctxs p c }

/-- A fabric call that returns a code and may store a handle: logged, the
environment gives both. -/
def fabric_call (E : Env) (w : World) (c : Call) : World × Int × Nat :=
  (w.log c, E.fabric_call w.calls c)

/-- The `if (!priv->no_wait)` block of `na_ofi_context_create`: the world, and
the context with `cq_attr.wait_obj` and `cq_attr.wait_set`, or the return
code with which the block leaves to `error:`. -/
def na_ofi_context_wait_obj (E : Env) (w : World) (ctx : na_ofi_context) :
    World × Except na_return_t (na_ofi_context × Nat × Option Nat) :=
  if ¬ w.no_wait then
    if na_ofi_prov_flags w.domain.prov_type &&& NA_OFI_WAIT_FD ≠ 0 then
      (w, .ok (ctx, FI_WAIT_FD, none))  -- Wait on fd
    else
      -- Open wait set for other providers.
      let r := fabric_call E w Call.fi_wait_open
      if r.2.1 ≠ 0 then (r.1, .error NA_PROTOCOL_ERROR)
      else (r.1, .ok ({ ctx with fi_wait := some r.2.2 }, FI_WAIT_SET, some r.2.2))
  else (w, .ok (ctx, FI_WAIT_NONE, none))

/-- The fabric calls of `na_ofi_context_create` from `fi_cq_open` on: the
world and the context filled in, or the return code with which they leave to
`error:`. -/
def na_ofi_context_open (E : Env) (w : World) (ctx : na_ofi_context) (id : Nat)
    (wait_obj : Nat) (wait_set : Option Nat) : World × Except na_return_t na_ofi_context :=
  let cq := fabric_call E w (Call.fi_cq_open wait_obj wait_set)
  if cq.2.1 < 0 then (cq.1, .error NA_PROTOCOL_ERROR) else
  let ctx := { ctx with fi_cq := cq.2.2 }
  let tx := fabric_call E cq.1 (Call.fi_tx_context w.endpoint.fi_ep id)
  if tx.2.1 < 0 then (tx.1, .error NA_PROTOCOL_ERROR) else
  let ctx := { ctx with fi_tx := tx.2.2 }
  let rx := fabric_call E tx.1 (Call.fi_rx_context w.endpoint.fi_ep id)
  if rx.2.1 < 0 then (rx.1, .error NA_PROTOCOL_ERROR) else
  let ctx := { ctx with fi_rx := rx.2.2 }
  let b1 := fabric_call E rx.1 (Call.fi_ep_bind ctx.fi_tx ctx.fi_cq FI_TRANSMIT)
  if b1.2.1 < 0 then (b1.1, .error NA_PROTOCOL_ERROR) else
  let b2 := fabric_call E b1.1 (Call.fi_ep_bind ctx.fi_rx ctx.fi_cq FI_RECV)
  if b2.2.1 < 0 then (b2.1, .error NA_PROTOCOL_ERROR) else
  let e1 := fabric_call E b2.1 (Call.fi_enable ctx.fi_tx)
  if e1.2.1 < 0 then (e1.1, .error NA_PROTOCOL_ERROR) else
  let e2 := fabric_call E e1.1 (Call.fi_enable ctx.fi_rx)
  if e2.2.1 < 0 then (e2.1, .error NA_PROTOCOL_ERROR) else
  (e2.1, .ok ctx)

/-- The branch of `na_ofi_context_create` for a scalable endpoint from the
check of the counters on: the world and the context filled in, or the return
code with which the branch leaves to `error:`. -/
def na_ofi_context_create_sep (E : Env) (w : World) (ctx : na_ofi_context) (id : Nat) :
    World × Except na_return_t na_ofi_context :=
  if w.contexts ≥ w.max_contexts ∨ id ≥ w.max_contexts then (w, .error NA_OPNOTSUPPORTED) else
  match na_ofi_context_wait_obj E w ctx with
  | (w1, .error e) => (w1, .error e)
  | (w1, .ok (ctx, wait_obj, wait_set)) => na_ofi_context_open E w1 ctx id wait_obj wait_set

/-- The `na_ofi_context_create`: returns the world, the return code and
`*context` (`none` when it is not written). `id` is a `na_uint8_t`. -/
def na_ofi_context_create (E : Env) (w : World) (id : Nat) :
    World × na_return_t × Option Nat :=
  let a := alloc E w sizeof_na_ofi_context
  if ¬ a.2 then (a.1, NA_NOMEM, none) else
  let p := a.1.ctx_next
  let w1 : World := { a.1 with ctx_next := p + 1 }
  let ctx : na_ofi_context :=
    { fi_tx := 0, fi_rx := 0, fi_cq := 0, fi_wait := none, unexpected_op_queue := none,
      idx := id }
  -- If not using SEP, just point to endpoint objects
  if ¬ na_ofi_with_sep w1 then
    let ctx := { ctx with
      fi_tx := w1.endpoint.fi_ep, fi_rx := w1.endpoint.fi_ep, fi_cq := w1.endpoint.fi_cq,
      fi_wait := w1.endpoint.fi_wait, unexpected_op_queue := w1.endpoint.unexpected_op_queue }
    (({ w1 with contexts := (w1.contexts + 1) % 256 } : World).set_ctx p (some ctx),
      NA_SUCCESS, some p)
  else
    let qa := alloc E w1 sizeof_na_ofi_queue
    if ¬ qa.2 then (qa.1, NA_NOMEM, none) else
    let q := qa.1.queue_next
    -- Initialize queue / mutex
    let w2 : World :=
      { qa.1 with queue_next := q + 1, queues := Function.update qa.1.queues q (some []) }
    let r := na_ofi_context_create_sep E w2 { ctx with unexpected_op_queue := some q } id
    match r.2 with
    | .error e =>
      -- error: free the queue and the context
      ({ r.1 with queues := Function.update r.1.queues q none }, e, none)
    | .ok ctx =>
      (({ r.1 with contexts := (r.1.contexts + 1) % 256 } : World).set_ctx p (some ctx),
        NA_SUCCESS, some p)

/-- One `if (handle) { rc = fi_close(...); check; handle = NULL; }` step of
`na_ofi_context_destroy`: the world and whether to go on. -/
def close_hdl (E : Env) (w : World) (hdl : Nat) : World × Bool :=
  if hdl ≠ 0 then
    let r := fabric_call E w (Call.fi_close_hdl hdl)
    (r.1, decide (r.2.1 = 0))
  else (w, true)

/-- The same step for the wait set of a context, whose pointer is `none` when
NULL. -/
def close_wait (E : Env) (w : World) (fi_wait : Option Nat) : World × Bool :=
  match fi_wait with
  | some hdl =>
    let r := fabric_call E w (Call.fi_close_hdl hdl)
    (r.1, decide (r.2.1 = 0))
  | none => (w, true)

/-- The closing of the handles of a context in `na_ofi_context_destroy` (scalable
endpoint): the world, with the handles closed so far set to NULL in the
context, and whether all were closed. -/
def na_ofi_context_close (E : Env) (w : World) (p : Nat) (ctx : na_ofi_context) :
    World × Bool :=
  let c1 := close_hdl E w ctx.fi_tx
  if ¬ c1.2 then c1 else
  let ctx := { ctx with fi_tx := 0 }
  let w1 := c1.1.set_ctx p (some ctx)
  let c2 := close_hdl E w1 ctx.fi_rx
  if ¬ c2.2 then c2 else
  let ctx := { ctx with fi_rx := 0 }
  let w2 := c2.1.set_ctx p (some ctx)
  -- Close wait set
  let c3 := close_wait E w2 ctx.fi_wait
  if ¬ c3.2 then c3 else
  let ctx := { ctx with fi_wait := none }
  let w3 := c3.1.set_ctx p (some ctx)
  -- Close completion queue
  let c4 := close_hdl E w3 ctx.fi_cq
  if ¬ c4.2 then c4 else
  let ctx := { ctx with fi_cq := 0 }
  (c4.1.set_ctx p (some ctx), true)

/-- The `na_ofi_context_destroy`. -/
def na_ofi_context_destroy (E : Env) (w : World) (context : Nat) :
    Except Fault (World × na_return_t) := do
  let ctx ← w.get_ctx context
  if na_ofi_with_sep w then
    -- Check that unexpected op queue is empty
    let (q, l) ← w.get_queue ctx.unexpected_op_queue
    if l ≠ [] then pure (w, NA_BUSY) else
    let c := na_ofi_context_close E w context ctx
    if ¬ c.2 then pure (c.1, NA_PROTOCOL_ERROR) else
    let w1 : World := { c.1 with queues := Function.update c.1.queues q none }
    pure (({ w1 with contexts := (w1.contexts + 256 - 1) % 256 } : World).set_ctx context none,
      NA_SUCCESS)
  else
    pure (({ w with contexts := (w.contexts + 256 - 1) % 256 } : World).set_ctx context none,
      NA_SUCCESS)

/-! ## Memory pool -/

/-- The `NA_OFI_MEM_BLOCK_COUNT`. -/
def NA_OFI_MEM_BLOCK_COUNT : Nat := 256

/-- The `sizeof(struct na_ofi_mem_pool)` and the
`offsetof(struct na_ofi_mem_node, block)`. -/
def sizeof_na_ofi_mem_pool : Nat := 48
def offsetof_na_ofi_mem_node_block : Nat := 8

/-- The `na_ofi_mem_alloc`: returns the world, the block (`none` for NULL) and
`*mr_hdl`, which is written only when the memory is registered (`mr_hdl` is
its value on entry). -/
def na_ofi_mem_alloc (E : Env) (w : World) (size : Nat) (mr_hdl : Option Nat) :
    World × Option Nat × Option Nat :=
  let page_size := E.hg_mem_get_page_size
  -- Allocate backend buffer
  let mem_ptr := E.hg_mem_aligned_alloc w.calls page_size size
  let w1 := w.log (Call.hg_mem_aligned_alloc page_size size)
  match mem_ptr with
  | none => (w1, none, mr_hdl)
  | some m =>
    -- Register memory if FI_MR_LOCAL is set and provider uses it
    if w1.mr_local then
      let r := fabric_call E w1 (Call.fi_mr_reg m size)
      if r.2.1 ≠ 0 then (r.1, none, mr_hdl) else (r.1, some m, some r.2.2)
    else (w1, some m, mr_hdl)

/-- The address of node `i` of a pool at `base`:
`(char *) pool + sizeof(struct na_ofi_mem_pool) + i * (offsetof(struct na_ofi_mem_node, block) + block_size)`,
the offset computed at type `na_size_t`. -/
def na_ofi_mem_node_at (base block_size i : Nat) : Nat :=
  base + sizeof_na_ofi_mem_pool
    + (i * ((offsetof_na_ofi_mem_node_block + block_size) % 2 ^ 64)) % 2 ^ 64

/-- The `pool_size` that `na_ofi_mem_pool_create` computes, a `na_size_t`. -/
def na_ofi_mem_pool_size (block_size block_count : Nat) : Nat :=
  (block_size * block_count + sizeof_na_ofi_mem_pool
    + block_count * offsetof_na_ofi_mem_node_block) % 2 ^ 64

/-- The `na_ofi_mem_pool_create`: returns the world and the pool (`none` for NULL). -/
def na_ofi_mem_pool_create (E : Env) (w : World) (block_size block_count : Nat) :
    World × Option na_ofi_mem_pool :=
  let pool_size := na_ofi_mem_pool_size block_size block_count
  let a := na_ofi_mem_alloc E w pool_size none
  match a.2.1 with
  | none => (a.1, none)
  | some base =>
    -- Assign nodes and insert them to free list
    (a.1, some { base := base, mr_hdl := a.2.2, block_size := block_size,
                 node_list := (List.range block_count).map
                   (na_ofi_mem_node_at base block_size) })

/-- The `HG_QUEUE_FOREACH` of `na_ofi_mem_pool_alloc`: the index of the first
pool whose free list is not empty. -/
def first_pool_with_node : List na_ofi_mem_pool → Option Nat
  | [] => none
  | p :: ps =>
    if p.node_list ≠ [] then some 0 else (first_pool_with_node ps).map (fun i => i + 1)

/-- The `na_ofi_mem_pool_alloc`: returns the world, the block (`none` for
NULL) and `*mr_hdl` (`mr_hdl` is its value on entry). `fuel` bounds the number
of passes from `retry:`. -/
def na_ofi_mem_pool_alloc (E : Env) (size : Nat) (mr_hdl : Option Nat) :
    Nat → World → Except Fault (World × Option Nat × Option Nat)
  | 0, _ => .error Fault.out_of_fuel
  | fuel + 1, w => do
    -- Check whether we can get a block from one of the pools
    let c : World × Nat ←
      match first_pool_with_node w.buf_pool with
      | some i => pure (w, i)
      | none =>
        -- If not, allocate and register a new pool
        let r := na_ofi_mem_pool_create E w na_ofi_msg_get_max_unexpected_size
          NA_OFI_MEM_BLOCK_COUNT
        match r.2 with
        | none => throw Fault.null_deref
        | some pool =>
          pure (({ r.1 with buf_pool := r.1.buf_pool ++ [pool] } : World), r.1.buf_pool.length)
    match c.1.buf_pool.get? c.2 with
    | none => throw Fault.null_deref
    | some pool =>
      if size > pool.block_size then pure (c.1, none, mr_hdl) else
      -- Pick a node from one of the available pools
      match pool.node_list with
      | [] => na_ofi_mem_pool_alloc E size mr_hdl fuel c.1
      | node :: rest =>
        pure (({ c.1 with buf_pool := c.1.buf_pool.set c.2 { pool with node_list := rest } }
            : World),
          some (node + offsetof_na_ofi_mem_node_block), pool.mr_hdl)

/-- The `container_of(mem_ptr, struct na_ofi_mem_node, block)`. -/
def na_ofi_mem_node_of (mem_ptr : Nat) : Nat := mem_ptr - offsetof_na_ofi_mem_node_block

/-- The `HG_QUEUE_FOREACH` of `na_ofi_mem_pool_free`: the node is pushed to the
tail of the free list of the first pool with that MR handle. -/
def push_to_pool (node : Nat) (mr_hdl : Option Nat) :
    List na_ofi_mem_pool → List na_ofi_mem_pool
  | [] => []
  | p :: ps =>
    if p.mr_hdl = mr_hdl then { p with node_list := p.node_list ++ [node] } :: ps
    else p :: push_to_pool node mr_hdl ps

/-- The `na_ofi_mem_pool_free`. -/
def na_ofi_mem_pool_free (w : World) (mem_ptr : Nat) (mr_hdl : Option Nat) : World :=
  -- Put the node back to the pool
  { w with buf_pool := push_to_pool (na_ofi_mem_node_of mem_ptr) mr_hdl w.buf_pool }

/-! ## Lookup with callback -/

/-- The `error:` path of `na_ofi_addr_lookup`. -/
def na_ofi_addr_lookup_error (E : Env) (w : World) (op : Nat) (na_ofi_addr : Option Nat)
    (ret : na_return_t) : Except Fault (World × na_return_t) := do
  let w1 ← na_ofi_op_id_decref w (some op)
  match na_ofi_addr with
  | none => pure (w1, ret)
  | some a =>
    let w2 ← na_ofi_addr_decref E w1 a
    let w3 ← na_ofi_addr_decref E w2 a
    pure (w3, ret)

/-- The `na_ofi_addr_lookup`. -/
def na_ofi_addr_lookup (E : Env) (w : World) (context callback arg : Nat) (name : String)
    (op_id : Option Nat) : Except Fault (World × na_return_t) := do
  -- Check op_id
  match op_id with
  | none => pure (w, NA_INVALID_ARG)
  | some op =>
    let w1 ← na_ofi_op_id_addref w op
    let o ← w1.get_op op
    let w2 := w1.set_op op (some { o with
      context := some context, type := NA_CB_LOOKUP, callback := callback, arg := arg,
      status := 0 })
    -- Lookup addr
    let l ← na_ofi_addr_lookup2 E w2 name
    if l.2.1 ≠ NA_SUCCESS then na_ofi_addr_lookup_error E l.1 op l.2.2 l.2.1 else
    match l.2.2 with
    | none => throw Fault.null_deref
    | some a =>
      -- One extra refcount to be decref in na_ofi_complete().
      let w3 ← na_ofi_addr_addref l.1 a
      let o ← w3.get_op op
      let w4 := w3.set_op op (some { o with addr := some a, lookup_addr := some a })
      -- As the fi_av_insert is blocking, always complete here
      let c ← na_ofi_complete E w4 op l.2.1
      if c.2 ≠ NA_SUCCESS then na_ofi_addr_lookup_error E c.1 op (some a) c.2 else
      pure c

/-! ## Reference definitions for contexts -/

/-- A call of the context interface of the plugin. -/
inductive ContextCall
  | create (id : Nat)
  | destroy (context : Nat)
  deriving DecidableEq, Repr

/-- One call of the context interface: the world and the return code. -/
def context_call (E : Env) (w : World) : ContextCall → Except Fault (World × na_return_t)
  | ContextCall.create id =>
    let r := na_ofi_context_create E w id
    pure (r.1, r.2.1)
  | ContextCall.destroy context => na_ofi_context_destroy E w context

/-- The world after a sequence of calls of the context interface. -/
def context_calls (E : Env) : World → List ContextCall → Except Fault World
  | w, [] => pure w
  | w, c :: cs => do
    let r ← context_call E w c
    context_calls E r.1 cs

/-- Number of contexts that are allocated and not freed. -/
def live_contexts (w : World) : Nat :=
  ((List.range w.ctx_next).filter (fun p => (w.ctxs p).isSome)).length

/-! ## Reference definitions for progress -/

/-- Whether a logged call is an `fi_wait`. -/
def Call.is_fi_wait : Call → Bool
  | Call.fi_wait _ _ => true
  | _ => false

/-- Whether a logged call is an `fi_cq_readfrom`. -/
def Call.is_cq_readfrom : Call → Bool
  | Call.fi_cq_readfrom _ _ => true
  | _ => false

/-- Number of `fi_wait` calls in a log. -/
def fi_waits (cs : List Call) : Nat := cs.countP Call.is_fi_wait

/-- Number of `fi_cq_readfrom` calls in a log. -/
def cq_reads (cs : List Call) : Nat := cs.countP Call.is_cq_readfrom

/-- The part of the state that progress and the unexpected-op queues are
about: the numbers of `fi_wait` and `fi_cq_readfrom` calls made, the contexts,
the queues and the completion queue of the NA layer. -/
def World.progress_state (w : World) :
    Nat × Nat × (Nat → Option na_ofi_context) × (Nat → Option (List Nat)) × List Nat :=
  (fi_waits w.calls, cq_reads w.calls, w.ctxs, w.queues, w.completions)

/-- One pass of progress in the words of the specification: one read of the
completion queue, `NA_TIMEOUT` when it yields no event, else the events are
processed in order. -/
def progress_once (E : Env) (w : World) (context : Nat) : Except Fault (World × na_return_t) := do
  let r ← na_ofi_cq_read E w context NA_OFI_CQ_EVENT_NUM
    (some (List.replicate NA_OFI_CQ_MAX_ERR_DATA_SIZE 0)) NA_OFI_CQ_MAX_ERR_DATA_SIZE
  if r.2.ret ≠ NA_SUCCESS then pure (r.1, r.2.ret) else
  if r.2.events = [] then pure (r.1, NA_TIMEOUT) else
  na_ofi_progress_events E context r.2.src_err_addr r.2.src_err_addrlen r.1 r.2.events

/-! ## Sample inputs for contexts, pools, lookup and URIs -/

/-- A world just after initialization on a scalable endpoint (provider
sockets) with the given context count and `max_contexts`: no context and no
queue is allocated. -/
def world_sep (contexts max_contexts : Nat) : World :=
  { world_of NA_OFI_PROV_SOCKETS [] with
    endpoint := { (world_of NA_OFI_PROV_SOCKETS []).endpoint with
      fi_cq := 0, unexpected_op_queue := none, sep := true }
    ctxs := fun _ => none
    queues := fun _ => none
    ctx_next := 0
    queue_next := 0
    contexts := contexts
    max_contexts := max_contexts }

/-- Five calls of the context interface: two contexts are created, a third is
refused, the first is destroyed and created anew. -/
def sample_context_calls : List ContextCall :=
  [ContextCall.create 0, ContextCall.create 1, ContextCall.create 1, ContextCall.destroy 0,
   ContextCall.create 0]

/-- The world after `sample_context_calls` on a scalable endpoint with
`max_contexts` 2. -/
def world_sep_after_calls : World :=
  match context_calls env_ok (world_sep 0 2) sample_context_calls with
  | .ok w => w
  | .error _ => world_sep 0 2

/-- The world after, on a scalable endpoint with `max_contexts` 2, context 0
was created and `na_ofi_msg_recv_unexpected` posted a fresh operation ID on it
for a 64-byte buffer: the unexpected-op queue of the context holds the
operation. -/
def world_sep_posted : World :=
  let c := na_ofi_context_create env_ok (world_sep 0 2) 0
  let o := na_ofi_op_create env_ok c.1
  match na_ofi_msg_recv_unexpected env_ok 1 o.1 0 0 0 0 64 0 (some 0) with
  | .ok r => r.1
  | .error _ => c.1

/-- The pool of 256 blocks of 4096 bytes that `na_ofi_mem_pool_create` returns
in the world after initialization with `env_ok`, whose allocator places the
slab at 16 MiB. -/
def sample_pool : na_ofi_mem_pool :=
  { base := 16777216, mr_hdl := none, block_size := 4096,
    node_list := (List.range 256).map (na_ofi_mem_node_at 16777216 4096) }

/-- The operation ID 0 of `world_posted_recv_unexpected`. -/
def posted_recv_unexpected_op : na_ofi_op_id :=
  { fresh_op with
    type := NA_CB_RECV_UNEXPECTED, context := some 0, status := 0, buf_size := 64, refcount := 2 }

/-- A receive event of 10 bytes with tag 1 from the source with handle 7 for
operation ID 0. -/
def sample_recv_event : fi_cq_tagged_entry :=
  { op_context := some 0, flags := FI_RECV, len := 10, buf := 0, data := 0, tag := 1 }

/-- The `service_str` of `na_ofi_initialize`: when `na_info->host_name` holds a
colon, `strtok_r(host_name, ":", &service_str)` leaves in it the part of the
host name after the first colon; it is handed to `na_ofi_endpoint_open`, which
duplicates it as `src_service` when it is not empty. Its length is checked
nowhere. -/
def host_name_service_str (host_name : String) : Option String :=
  if strstr host_name.toList [Char.ofNat 58] then
    some (String.mk (strtok_r_rest host_name.toList (Char.ofNat 58)))
  else none

/-- A service string of 112 characters that `strtoul` and `atoi` read as 4000:
108 zeros, then `4000`. -/
def long_service : String := String.mk (List.replicate 108 (Char.ofNat 48)) ++ "4000"

/-- A PSM2 world whose endpoint was opened for the host name
`10.0.0.1:<long_service>`: the node is `10.0.0.1` (at most 15 characters, as
`inet_ntop` writes it), the service is the `service_str` of
`na_ofi_initialize`; the URI `psm2://10.0.0.1:<long_service>` has 128
characters. -/
def world_long_service : World :=
  { world_of NA_OFI_PROV_PSM2 [] with
    endpoint := { (world_of NA_OFI_PROV_PSM2 []).endpoint with
      src_service := (host_name_service_str ("10.0.0.1:" ++ long_service)).getD "" } }

/-- An environment like `env_ok` in which another thread maps the key of
127.0.0.1 port 4000 to handle 9 between the two locks of
`na_ofi_addr_ht_lookup`. -/
def env_race : Env :=
  { env_ok with race := fun _ ht => hg_hash_table_put ht 72058139498815503 9 }

/-- An environment like `env_ok` in which the NA layer refuses every
completion with `NA_NOMEM`. -/
def env_completion_fails : Env :=
  { env_ok with na_cb_completion_add := fun _ _ _ => NA_NOMEM }

/-! ## Reference definitions and sample inputs for the retry loop and the queues -/

/-- The events of one read, all processed, in the words of the specification:
each event in turn is handed to `na_ofi_cq_process_event`, which returns
`NA_SUCCESS`; the value is the state after the last event, `none` when an event
is not processed with `NA_SUCCESS`. -/
def events_processed (E : Env) (context : Nat) (src_err_addr : Option (List Nat))
    (src_err_addrlen : Nat) (w : World) (events : List (fi_cq_tagged_entry × Nat)) :
    Option World :=
  events.foldlM (fun w1 e =>
    match na_ofi_cq_process_event E w1 context e.1 e.2 src_err_addr src_err_addrlen with
    | .ok (w2, NA_SUCCESS) => some w2
    | _ => none) w

/-- An environment like `env_ok` whose completion queue delivers the receive
event `sample_recv_event` from the source with handle 7 at every read. -/
def env_cq_event : Env :=
  { env_ok with fi_cq_readfrom := fun _ _ _ => (1, [(sample_recv_event, 7)]) }

/-- An environment like `env_ok` with a busy fabric: a post made before the
completion queue was read is answered with `-FI_EAGAIN`, a post made after it
with `-FI_EIO`, and every read of the completion queue delivers the given
event from the given source. -/
def env_busy (cq_event : fi_cq_tagged_entry) (src_addr : Nat) : Env :=
  { env_ok with
    fabric_post := fun cs _ => if cq_reads cs = 0 then -11 else -5
    fi_cq_readfrom := fun _ _ _ => (1, [(cq_event, src_addr)]) }

/-- The world in which operation ID 1 was created and
`na_ofi_msg_recv_unexpected` posted operation ID 0 on context 0, the fabric
accepting the post: the unexpected-op queue of the context holds operation 0. -/
def world_queued_and_fresh : World :=
  match na_ofi_msg_recv_unexpected env_ok 1
      (na_ofi_op_create env_ok (world_with NA_OFI_PROV_SOCKETS fresh_op [])).1
      0 0 0 0 64 0 (some 0) with
  | .ok r => r.1
  | .error _ => world_with NA_OFI_PROV_SOCKETS fresh_op []

/-- The invariant of the unexpected-op queues in the words of the
specification: an operation is at most once in a queue and in at most one
queue, and an operation in a queue is an unexpected receive that is posted
and not completed. -/
def queue_inv (w : World) : Prop :=
  (∀ q l, w.queues q = some l → l.Nodup) ∧
  (∀ q l p, w.queues q = some l → p ∈ l →
    ∃ o, w.ops p = some o ∧ o.status &&& NA_OFI_OP_COMPLETED = 0 ∧
      o.type = NA_CB_RECV_UNEXPECTED) ∧
  (∀ q1 q2 l1 l2 p, w.queues q1 = some l1 → w.queues q2 = some l2 → p ∈ l1 → p ∈ l2 →
    q1 = q2)

/-- The invariant of the queues, with the operation `op` in no queue. -/
def queue_out (op : Nat) (w : World) : Prop :=
  queue_inv w ∧ ∀ q l, w.queues q = some l → op ∉ l

/-- A call of a caller of the plugin that posts an operation, cancels one or
makes progress on a context. -/
inductive QueueCall
  | msg_send_unexpected (context callback arg buf buf_size plugin_data dest_addr dest_id
      tag op : Nat)
  | msg_recv_unexpected (context callback arg buf buf_size plugin_data op : Nat)
  | msg_send_expected (context callback arg buf buf_size plugin_data dest_addr dest_id
      tag op : Nat)
  | msg_recv_expected (context callback arg buf buf_size plugin_data source_addr source_id
      tag op : Nat)
  | put (context callback arg : Nat) (local_mem_handle : na_ofi_mem_handle)
      (local_offset : Nat) (remote_mem_handle : na_ofi_mem_handle)
      (remote_offset length remote_addr remote_id op : Nat)
  | get (context callback arg : Nat) (local_mem_handle : na_ofi_mem_handle)
      (local_offset : Nat) (remote_mem_handle : na_ofi_mem_handle)
      (remote_offset length remote_addr remote_id op : Nat)
  | cancel (context op : Nat)
  | progress (context timeout : Nat)

/-- Modelled from the spec: "`post_*`: on entry, caller asserts op is
COMPLETED". The post functions of `na_ofi.c` do not read the status before
they reset it; the assertion is the caller's. -/
def assert_completed (w : World) (op : Nat) : Except Fault Unit := do
  let o ← w.get_op op
  if o.status &&& NA_OFI_OP_COMPLETED = 0 then throw Fault.assert_fail
  pure ()

/-- One call of a caller that keeps to the assertion of `assert_completed`:
the world after it. -/
def queue_call (E : Env) (fuel : Nat) (w : World) : QueueCall → Except Fault World
  | QueueCall.msg_send_unexpected context callback arg buf buf_size plugin_data dest_addr dest_id
      tag op => do
    assert_completed w op
    let r ← na_ofi_msg_send_unexpected E fuel w context callback arg buf buf_size plugin_data
      dest_addr dest_id tag (some op)
    pure r.1
  | QueueCall.msg_recv_unexpected context callback arg buf buf_size plugin_data op => do
    assert_completed w op
    let r ← na_ofi_msg_recv_unexpected E fuel w context callback arg buf buf_size plugin_data
      (some op)
    pure r.1
  | QueueCall.msg_send_expected context callback arg buf buf_size plugin_data dest_addr dest_id
      tag op => do
    assert_completed w op
    let r ← na_ofi_msg_send_expected E fuel w context callback arg buf buf_size plugin_data
      dest_addr dest_id tag (some op)
    pure r.1
  | QueueCall.msg_recv_expected context callback arg buf buf_size plugin_data source_addr
      source_id tag op => do
    assert_completed w op
    let r ← na_ofi_msg_recv_expected E fuel w context callback arg buf buf_size plugin_data
      source_addr source_id tag (some op)
    pure r.1
  | QueueCall.put context callback arg local_mem_handle local_offset remote_mem_handle
      remote_offset length remote_addr remote_id op => do
    assert_completed w op
    let r ← na_ofi_put E fuel w context callback arg local_mem_handle local_offset
      remote_mem_handle remote_offset length remote_addr remote_id (some op)
    pure r.1
  | QueueCall.get context callback arg local_mem_handle local_offset remote_mem_handle
      remote_offset length remote_addr remote_id op => do
    assert_completed w op
    let r ← na_ofi_get E fuel w context callback arg local_mem_handle local_offset
      remote_mem_handle remote_offset length remote_addr remote_id (some op)
    pure r.1
  | QueueCall.cancel context op => do
    let r ← na_ofi_cancel E w context op
    pure r.1
  | QueueCall.progress context timeout => do
    let r ← na_ofi_progress E fuel w context timeout
    pure r.1

/-- The world after a sequence of such calls. -/
def queue_calls (E : Env) (fuel : Nat) : World → List QueueCall → Except Fault World
  | w, [] => pure w
  | w, c :: cs => do
    let w1 ← queue_call E fuel w c
    queue_calls E fuel w1 cs

/-! ## Theorems -/

/-! ### Memory blocks -/

theorem le_val_lt (l : List Nat) : le_val l < 256 ^ l.length := by
  induction l with
  | nil => simp [le_val]
  | cons b bs ih =>
    simp only [le_val, List.length_cons, pow_succ]
    have := Nat.mod_lt b (show 256 > 0 by norm_num)
    omega

theorem load_ok (m : List Nat) (off n : Nat) (h : off + n ≤ m.length) :
    ∃ v, load m off n = .ok v ∧ v < 256 ^ n := by
  refine ⟨le_val ((m.drop off).take n), by simp [load, h], ?_⟩
  have := le_val_lt ((m.drop off).take n)
  have hl : ((m.drop off).take n).length = n := by
    simp [List.length_take, List.length_drop]; omega
  rwa [hl] at this

theorem le_bytes_length (n v : Nat) : (le_bytes n v).length = n := by
  induction n generalizing v with
  | zero => rfl
  | succ n ih => simp [le_bytes, ih]

theorem le_val_le_bytes (n v : Nat) : le_val (le_bytes n v) = v % 256 ^ n := by
  induction n generalizing v with
  | zero => simp [le_bytes, le_val, Nat.mod_one]
  | succ n ih =>
    simp only [le_bytes, le_val, ih, Nat.mod_mod, pow_succ]
    rw [Nat.mul_comm (256 ^ n) 256, Nat.mod_mul]

theorem store_inv {m m' : List Nat} {off n v : Nat} (h : store m off n v = .ok m') :
    m'.length = m.length := by
  unfold store at h
  split at h
  · injection h with h; subst h
    simp [le_bytes_length]; omega
  · exact Except.noConfusion h

theorem store_bytes_inv {m m' bs : List Nat} {off : Nat} (h : store_bytes m off bs = .ok m') :
    m'.length = m.length := by
  unfold store_bytes at h
  split at h
  · injection h with h; subst h
    simp; omega
  · exact Except.noConfusion h

/-! ### Key derivation -/

theorem key_word_low (word low : Nat) (hw : word < 2 ^ 32) (hl : low < 2 ^ 32) :
    ((((word % 2 ^ 64) <<< 32) % 2 ^ 64) ||| low) = spec_key word low ∧
    spec_key word low = word * 2 ^ 32 + low := by
  have h1 : word % 2 ^ 64 = word := Nat.mod_eq_of_lt (by omega)
  have h2 : (word <<< 32) % 2 ^ 64 = word <<< 32 := by
    rw [Nat.shiftLeft_eq]; exact Nat.mod_eq_of_lt (by omega)
  have h3 : spec_key word low = word * 2 ^ 32 + low := by
    unfold spec_key
    rw [Nat.shiftLeft_eq, Nat.mul_comm, ← Nat.mul_add_lt_is_or hl]
  exact ⟨by rw [h1, h2]; rfl, h3⟩

/-- For a well-sized native address of any of the three formats, the key is
the reference `(word << 32) | low` of the two 32-bit-bounded fields read from it. -/
theorem addr_to_key_fields (addr_format : Nat) (addr : List Nat) (len : Nat)
    (hfmt : addr_format = FI_SOCKADDR_IN ∨ addr_format = FI_ADDR_PSMX2
      ∨ addr_format = FI_ADDR_GNI)
    (hlen : addr.length = len)
    (hsize : len = if addr_format = FI_ADDR_GNI then sizeof_na_ofi_gni_addr
      else sizeof_na_ofi_sin_addr) :
    ∃ word low,
      (if addr_format = FI_ADDR_GNI
        then gni_device_addr addr = .ok word ∧ gni_cdm_id addr = .ok low
        else sin_s_addr addr = .ok word ∧ sin_port addr = .ok low) ∧
      na_ofi_addr_to_key addr_format addr len = .ok (spec_key word low) ∧
      word < 2 ^ 32 ∧ low < 2 ^ 32 ∧ spec_key word low = word * 2 ^ 32 + low := by
  have hne1 : ¬ (FI_SOCKADDR_IN = FI_ADDR_GNI) := by decide
  have hne2 : ¬ (FI_ADDR_PSMX2 = FI_ADDR_GNI) := by decide
  have hne3 : ¬ (FI_ADDR_PSMX2 = FI_SOCKADDR_IN) := by decide
  have hne4 : ¬ (FI_ADDR_GNI = FI_SOCKADDR_IN) := by decide
  have hne5 : ¬ (FI_ADDR_GNI = FI_ADDR_PSMX2) := by decide
  rcases hfmt with hf | hf | hf
  · subst hf
    simp only [hne1, if_false] at hsize ⊢
    have h16 : addr.length = 16 := by rw [hlen, hsize]; rfl
    obtain ⟨s, hs, hs'⟩ := load_ok addr 4 4 (by omega)
    obtain ⟨p, hp, hp'⟩ := load_ok addr 2 2 (by omega)
    have k := key_word_low s p (by omega) (by omega)
    refine ⟨s, p, ⟨hs, hp⟩, ?_, by omega, by omega, k.2⟩
    simp only [na_ofi_addr_to_key, hsize, if_true, na_ofi_sin_to_key, sin_s_addr, sin_port, hs, hp,
      bind, Except.bind, pure, Except.pure, k.1]
  · subst hf
    simp only [hne2, if_false] at hsize ⊢
    have h16 : addr.length = 16 := by rw [hlen, hsize]; rfl
    obtain ⟨s, hs, hs'⟩ := load_ok addr 4 4 (by omega)
    obtain ⟨p, hp, hp'⟩ := load_ok addr 2 2 (by omega)
    have k := key_word_low s p (by omega) (by omega)
    refine ⟨s, p, ⟨hs, hp⟩, ?_, by omega, by omega, k.2⟩
    simp only [na_ofi_addr_to_key, hne3, hsize, if_true, if_false, na_ofi_sin_to_key, sin_s_addr,
      sin_port, hs, hp, bind, Except.bind, pure, Except.pure, k.1]
  · subst hf
    simp only [if_true] at hsize ⊢
    have h48 : addr.length = 48 := by rw [hlen, hsize]; rfl
    obtain ⟨s, hs, hs'⟩ := load_ok addr 0 4 (by omega)
    obtain ⟨p, hp, hp'⟩ := load_ok addr 4 4 (by omega)
    have k := key_word_low s p (by omega) (by omega)
    refine ⟨s, p, ⟨hs, hp⟩, ?_, by omega, by omega, k.2⟩
    simp only [na_ofi_addr_to_key, hne4, hne5, hsize, if_true, if_false, na_ofi_gni_to_key,
      gni_device_addr, gni_cdm_id, hs, hp, bind, Except.bind, pure, Except.pure, k.1]

/-- C3: for a well-sized native address of the IPv4 socket format (16 bytes)
or the GNI format (48 bytes), `na_ofi_addr_to_key` returns the reference key
`(word << 32) | low`, where `word` is `sin_addr.s_addr` resp. `device_addr` and
`low` is `sin_port` resp. `cdm_id`; the key fits in 64 bits, its high 32 bits
are `word` and its low 32 bits are `low`. -/
theorem na_ofi_addr_to_key_eq_reference (addr_format : Nat) (addr : List Nat) (len : Nat)
    (hfmt : addr_format = FI_SOCKADDR_IN ∨ addr_format = FI_ADDR_GNI)
    (hlen : addr.length = len)
    (hsize : len = if addr_format = FI_ADDR_GNI then sizeof_na_ofi_gni_addr
      else sizeof_na_ofi_sin_addr) :
    ∃ word low,
      (if addr_format = FI_ADDR_GNI
        then gni_device_addr addr = .ok word ∧ gni_cdm_id addr = .ok low
        else sin_s_addr addr = .ok word ∧ sin_port addr = .ok low) ∧
      na_ofi_addr_to_key addr_format addr len = .ok (spec_key word low) ∧
      spec_key word low < 2 ^ 64 ∧ spec_key word low / 2 ^ 32 = word ∧
      spec_key word low % 2 ^ 32 = low := by
  obtain ⟨word, low, hf, hk, hw, hl, he⟩ := addr_to_key_fields addr_format addr len
    (by rcases hfmt with h | h <;> simp [h]) hlen hsize
  refine ⟨word, low, hf, hk, ?_, ?_, ?_⟩ <;> rw [he] <;> omega

/-- C3, at the `sockaddr_in` of 127.0.0.1 port 4000. -/
theorem na_ofi_addr_to_key_eq_reference_witness :
    na_ofi_addr_to_key FI_SOCKADDR_IN sample_sin_addr 16 = .ok 72058139498815503 ∧
    ∃ word low,
      (if FI_SOCKADDR_IN = FI_ADDR_GNI
        then gni_device_addr sample_sin_addr = .ok word ∧ gni_cdm_id sample_sin_addr = .ok low
        else sin_s_addr sample_sin_addr = .ok word ∧ sin_port sample_sin_addr = .ok low) ∧
      na_ofi_addr_to_key FI_SOCKADDR_IN sample_sin_addr 16 = .ok (spec_key word low) ∧
      spec_key word low < 2 ^ 64 ∧ spec_key word low / 2 ^ 32 = word ∧
      spec_key word low % 2 ^ 32 = low :=
  ⟨by decide, na_ofi_addr_to_key_eq_reference FI_SOCKADDR_IN sample_sin_addr 16
    (Or.inl rfl) (by decide) (by decide)⟩

/-- C4 fails as stated: for the PSM2 format the key of the 16-byte address of
127.0.0.1 port 4000 is the socket key 0x0100007f0000a00f, not its first 64 bits
(`addr0` = 0x0100007fa00f0002). -/
theorem psm2_key_differs_from_addr0 :
    sample_sin_addr.length = sizeof_na_ofi_psm2_addr ∧
    na_ofi_addr_to_key FI_ADDR_PSMX2 sample_sin_addr sizeof_na_ofi_psm2_addr
      = .ok 72058139498815503 ∧
    na_ofi_psm2_to_key sample_sin_addr = .ok 72058142184112130 ∧
    na_ofi_addr_to_key FI_ADDR_PSMX2 sample_sin_addr sizeof_na_ofi_psm2_addr
      ≠ na_ofi_psm2_to_key sample_sin_addr := by
  decide

/-- C4 as amended: for the PSM2 format `na_ofi_addr_to_key` returns what
`na_ofi_sin_to_key` computes on the 16-byte address read as a `sockaddr_in`,
that is the reference key `(s_addr << 32) | sin_port`. -/
theorem psm2_key_is_socket_key (addr : List Nat) :
    na_ofi_addr_to_key FI_ADDR_PSMX2 addr sizeof_na_ofi_sin_addr = na_ofi_sin_to_key addr ∧
    na_ofi_sin_to_key addr
      = (do let s ← sin_s_addr addr; let p ← sin_port addr; pure (spec_key s p)) := by
  constructor
  · simp [na_ofi_addr_to_key, FI_ADDR_PSMX2, FI_SOCKADDR_IN]
  · by_cases h : 8 ≤ addr.length
    · obtain ⟨s, hs, hs'⟩ := load_ok addr 4 4 (by omega)
      obtain ⟨p, hp, hp'⟩ := load_ok addr 2 2 (by omega)
      have k := key_word_low s p (by omega) (by omega)
      simp only [na_ofi_sin_to_key, sin_s_addr, sin_port, hs, hp, bind, Except.bind, pure,
        Except.pure, k.1]
    · have : load addr 4 4 = .error Fault.out_of_bounds := by
        simp [load]; omega
      simp only [na_ofi_sin_to_key, sin_s_addr, this, bind, Except.bind]

/-! ### URI parsing -/

theorem na_ofi_str_to_sin_inv {E : Env} {w w' : World} {str : String}
    {a0 a' : Option (List Nat)} {ret : na_return_t} {l' : Nat}
    (h : na_ofi_str_to_sin E w str a0 = .ok (w', ret, a', l')) :
    l' = sizeof_na_ofi_sin_addr ∧
    (ret = NA_SUCCESS → ∃ blk, a' = some blk ∧ blk.length = sizeof_na_ofi_sin_addr) := by
  unfold na_ofi_str_to_sin at h
  simp only [bind, Except.bind, pure, Except.pure] at h
  repeat' split at h
  all_goals first
    | (exact Except.noConfusion h)
    | (simp only [Except.ok.injEq, Prod.mk.injEq] at h
       obtain ⟨-, rfl, rfl, rfl⟩ := h
       refine ⟨rfl, fun hr => ?_⟩
       first
         | (refine ⟨_, rfl, ?_⟩
            have hA := store_inv ‹store (List.replicate _ _) 0 2 _ = Except.ok _›
            have hC := store_inv ‹store _ 2 2 _ = Except.ok _›
            first
              | (have hB := store_bytes_inv ‹store_bytes _ 4 _ = Except.ok _›
                 simp only [List.length_replicate] at hA
                 omega)
              | (simp only [List.length_replicate] at hA
                 omega))
         | exact na_return_t.noConfusion hr)

theorem na_ofi_str_to_gni_inv {E : Env} {w w' : World} {str : String}
    {a0 a' : Option (List Nat)} {ret : na_return_t} {l' : Nat}
    (h : na_ofi_str_to_gni E w str a0 = .ok (w', ret, a', l')) :
    l' = sizeof_na_ofi_gni_addr ∧
    (ret = NA_SUCCESS → ∃ blk, a' = some blk ∧ blk.length = sizeof_na_ofi_gni_addr) := by
  unfold na_ofi_str_to_gni at h
  simp only [bind, Except.bind, pure, Except.pure] at h
  repeat' split at h
  all_goals first
    | (exact Except.noConfusion h)
    | (simp only [Except.ok.injEq, Prod.mk.injEq] at h
       obtain ⟨-, rfl, rfl, rfl⟩ := h
       refine ⟨rfl, fun hr => ?_⟩
       first
         | exact na_return_t.noConfusion hr
         | (refine ⟨_, rfl, ?_⟩
            have h1 := store_inv ‹store (List.replicate _ _) 0 4 _ = Except.ok _›
            have h2 := store_inv ‹store _ 4 4 _ = Except.ok _›
            have h3 := store_inv ‹store _ 8 1 _ = Except.ok _›
            have h4 := store_inv ‹store _ 9 3 _ = Except.ok _›
            have h5 := store_inv ‹store _ 12 4 _ = Except.ok _›
            have h6 := store_inv ‹store _ 16 1 _ = Except.ok _›
            simp only [List.length_replicate] at h1
            omega))

/-! ### Address vector and hash table -/

theorem hg_hash_table_lookup_erase_self (ht : hg_hash_table) (key : Nat) :
    hg_hash_table_lookup (hg_hash_table_erase ht key) key = none := by
  induction ht with
  | nil => rfl
  | cons e ht ih =>
    obtain ⟨k, v⟩ := e
    by_cases h : k = key
    · simp [hg_hash_table_erase, h, ih]
    · simp [hg_hash_table_erase, h, hg_hash_table_lookup, ih]

theorem hg_hash_table_lookup_put (ht : hg_hash_table) (key value : Nat) :
    hg_hash_table_lookup (hg_hash_table_put ht key value) key = some value := by
  simp [hg_hash_table_put, hg_hash_table_lookup]

theorem na_ofi_av_insert_tail_inv {E : Env} {w w1 : World} {ti : Option fi_info}
    {ret : na_return_t} {fa : Nat}
    (h : na_ofi_av_insert_tail E w ti = .ok (w1, ret, fa)) :
    ∃ info, ti = some info ∧ w1 = w.log (Call.fi_av_insert info.dest_addr) ∧
      fa = (E.fi_av_insert w.calls info.dest_addr).2 ∧
      (ret = NA_SUCCESS ∨ ret = NA_PROTOCOL_ERROR) := by
  unfold na_ofi_av_insert_tail at h
  split at h
  · exact Except.noConfusion h
  · rename_i info
    dsimp only at h
    split at h <;>
    · simp only [Except.ok.injEq, Prod.mk.injEq] at h
      obtain ⟨rfl, rfl, rfl⟩ := h
      exact ⟨info, rfl, rfl, rfl, by simp⟩

theorem na_ofi_av_insert_inv {E : Env} {w w1 : World} {addr : List Nat} {len fi : Nat}
    {ret : na_return_t} {fa : Nat}
    (h : na_ofi_av_insert E w addr len fi = .ok (w1, ret, fa)) :
    w1.domain = w.domain ∧ w1.addrs = w.addrs ∧ w1.addr_next = w.addr_next ∧
    w1.endpoint = w.endpoint ∧
    na_ofi_prov_addr_format w.domain.prov_type = FI_ADDR_PSMX2 ∧
    (ret = NA_SUCCESS → av_inserts w1.calls = av_inserts w.calls + 1) := by
  unfold na_ofi_av_insert at h
  simp only [bind, Except.bind, pure, Except.pure] at h
  split at h
  · rename_i hfmt
    repeat' split at h
    all_goals first
      | exact Except.noConfusion h
      | (simp only [Except.ok.injEq, Prod.mk.injEq] at h
         obtain ⟨rfl, rfl, rfl⟩ := h
         exact ⟨rfl, rfl, rfl, rfl, hfmt, fun hr => na_return_t.noConfusion hr⟩)
      | (obtain ⟨info, -, rfl, -, -⟩ := na_ofi_av_insert_tail_inv h
         refine ⟨rfl, rfl, rfl, rfl, hfmt, fun _ => ?_⟩
         simp [World.log, av_inserts, Call.is_av_insert])
  · obtain ⟨info, hi, -⟩ := na_ofi_av_insert_tail_inv h
    cases hi

theorem na_ofi_addr_ht_lookup_inv {E : Env} {w w1 : World} {fmt : Nat} {addr : List Nat}
    {len fi fi1 key1 : Nat} {ret : na_return_t}
    (h : na_ofi_addr_ht_lookup E w fmt addr len fi = .ok (w1, ret, fi1, key1)) :
    na_ofi_addr_to_key fmt addr len = .ok key1 ∧
    (w1.addrs = w.addrs ∧ w1.addr_next = w.addr_next ∧ w1.endpoint = w.endpoint ∧
      w1.domain.refcount = w.domain.refcount ∧ w1.domain.prov_type = w.domain.prov_type ∧
      w1.domain.prov_name = w.domain.prov_name ∧
      w1.domain.src_addrlen = w.domain.src_addrlen) ∧
    (ret = NA_SUCCESS →
      key1 ≠ 0 ∧ hg_hash_table_lookup w1.domain.addr_ht key1 = some fi1 ∧
      av_inserts w1.calls = av_inserts w.calls +
        (if hg_hash_table_lookup w.domain.addr_ht key1 = none then 1 else 0)) := by
  unfold na_ofi_addr_ht_lookup at h
  simp only [bind, Except.bind, pure, Except.pure] at h
  split at h
  · exact Except.noConfusion h
  · rename_i key hkey
    split at h
    · simp only [Except.ok.injEq, Prod.mk.injEq] at h
      obtain ⟨rfl, rfl, rfl, rfl⟩ := h
      exact ⟨hkey, ⟨rfl, rfl, rfl, rfl, rfl, rfl, rfl⟩, fun hr => na_return_t.noConfusion hr⟩
    · rename_i hk0
      split at h
      · rename_i v hv
        simp only [Except.ok.injEq, Prod.mk.injEq] at h
        obtain ⟨rfl, rfl, rfl, rfl⟩ := h
        exact ⟨hkey, ⟨rfl, rfl, rfl, rfl, rfl, rfl, rfl⟩, fun _ => ⟨hk0, hv, by simp [hv]⟩⟩
      · rename_i hmiss
        split at h
        · exact Except.noConfusion h
        · rename_i r hins
          obtain ⟨wi, rc, fa⟩ := r
          obtain ⟨hd, ha, hn, he, -, hcnt⟩ := na_ofi_av_insert_inv hins
          simp only [alloc, hg_hash_table_insert, World.log] at h
          repeat' split at h
          all_goals
            simp only [Except.ok.injEq, Prod.mk.injEq] at h
            obtain ⟨rfl, rfl, rfl, rfl⟩ := h
            refine ⟨hkey, ⟨ha, hn, he, by simp [hd], by simp [hd], by simp [hd],
              by simp [hd]⟩, fun hr => ?_⟩
          all_goals first
            | exact na_return_t.noConfusion hr
            | (refine ⟨hk0, ?_, ?_⟩
               · first
                   | assumption
                   | simp [hg_hash_table_lookup_put]
               · have := hcnt (by simp_all)
                 simp [hmiss, av_inserts, Call.is_av_insert] at this ⊢
                 omega)
            | (exfalso; simp_all)

/-! ### Parsed URIs and their keys -/

theorem except_map_ok {ε α β : Type} {f : α → β} {x : Except ε α} {b : β}
    (h : x.map f = .ok b) : ∃ a, x = .ok a ∧ f a = b := by
  cases x with
  | error e => exact Except.noConfusion h
  | ok a => exact ⟨a, rfl, by simpa [Except.map] using h⟩

theorem na_ofi_str_to_addr_inv {E : Env} {w w' : World} {str : String} {fmt : Nat}
    {a0 a' : Option (List Nat)} {l0 l' : Nat}
    (h : na_ofi_str_to_addr E w str fmt a0 l0 = .ok (w', NA_SUCCESS, a', l')) :
    (fmt = FI_SOCKADDR_IN ∨ fmt = FI_ADDR_PSMX2 ∨ fmt = FI_ADDR_GNI) ∧
    ∃ blk, a' = some blk ∧ blk.length = l' ∧
      l' = if fmt = FI_ADDR_GNI then sizeof_na_ofi_gni_addr else sizeof_na_ofi_sin_addr := by
  have hne1 : ¬ (FI_SOCKADDR_IN = FI_ADDR_GNI) := by decide
  have hne2 : ¬ (FI_ADDR_PSMX2 = FI_ADDR_GNI) := by decide
  unfold na_ofi_str_to_addr at h
  split at h
  · rename_i hf
    obtain ⟨hl, hb⟩ := na_ofi_str_to_sin_inv h
    obtain ⟨blk, rfl, hbl⟩ := hb rfl
    subst hf
    exact ⟨Or.inl rfl, blk, rfl, by rw [hbl, hl], by simp [hne1, hl]⟩
  · split at h
    · rename_i hf
      obtain ⟨hl, hb⟩ := na_ofi_str_to_sin_inv h
      obtain ⟨blk, rfl, hbl⟩ := hb rfl
      subst hf
      exact ⟨Or.inr (Or.inl rfl), blk, rfl, by rw [hbl, hl], by simp [hne2, hl]⟩
    · split at h
      · rename_i hf
        obtain ⟨hl, hb⟩ := na_ofi_str_to_gni_inv h
        obtain ⟨blk, rfl, hbl⟩ := hb rfl
        subst hf
        exact ⟨Or.inr (Or.inr rfl), blk, rfl, by rw [hbl, hl], by simp [hl]⟩
      · simp only [Except.ok.injEq, Prod.mk.injEq] at h
        exact absurd h.2.1 (by decide)

/-- C5 fails as stated: `sockets://0.0.0.0:0` is parsed successfully by
`na_ofi_str_to_addr` (to the all-zero `sockaddr_in`), yet its key is 0 and
`na_ofi_addr_ht_lookup` rejects it with `NA_PROTONOSUPPORT`. -/
theorem parsed_uri_with_zero_key :
    (na_ofi_str_to_addr env_ok (world_of NA_OFI_PROV_SOCKETS []) "sockets://0.0.0.0:0"
        FI_SOCKADDR_IN none 0).map (fun r => r.2)
      = .ok (NA_SUCCESS, some [2, 0, 0, 0, 0, 0, 0, 0, 0, 0, 0, 0, 0, 0, 0, 0], 16) ∧
    na_ofi_addr_to_key FI_SOCKADDR_IN [2, 0, 0, 0, 0, 0, 0, 0, 0, 0, 0, 0, 0, 0, 0, 0] 16 = .ok 0 ∧
    (na_ofi_addr_ht_lookup env_ok (world_of NA_OFI_PROV_SOCKETS []) FI_SOCKADDR_IN
        [2, 0, 0, 0, 0, 0, 0, 0, 0, 0, 0, 0, 0, 0, 0, 0] 16 0).map (fun r => r.2.1)
      = .ok NA_PROTONOSUPPORT := by
  decide

/-- C5 as amended: when `na_ofi_str_to_addr` parses a URI successfully, the
key of the parsed address is `(word << 32) | low` of its address word and
port / cdm id, and it is zero exactly when both of them are zero. -/
theorem parsed_key_zero_iff (E : Env) (w : World) (str : String) (addr_format : Nat)
    (addr0 : Option (List Nat)) (len0 : Nat)
    (h : (na_ofi_str_to_addr E w str addr_format addr0 len0).map (fun r => r.2.1)
      = .ok NA_SUCCESS) :
    ∃ w' blk len word low,
      na_ofi_str_to_addr E w str addr_format addr0 len0 = .ok (w', NA_SUCCESS, some blk, len) ∧
      (if addr_format = FI_ADDR_GNI
        then gni_device_addr blk = .ok word ∧ gni_cdm_id blk = .ok low
        else sin_s_addr blk = .ok word ∧ sin_port blk = .ok low) ∧
      na_ofi_addr_to_key addr_format blk len = .ok (spec_key word low) ∧
      (spec_key word low = 0 ↔ word = 0 ∧ low = 0) := by
  obtain ⟨⟨w', ret, a', l'⟩, hr, hret⟩ := except_map_ok h
  simp only at hret
  subst hret
  obtain ⟨hfmt, blk, rfl, hlen, hsize⟩ := na_ofi_str_to_addr_inv hr
  obtain ⟨word, low, hf, hk, hw, hl, he⟩ := addr_to_key_fields addr_format blk l' hfmt hlen hsize
  exact ⟨w', blk, l', word, low, hr, hf, hk, by rw [he]; omega⟩

/-- C5 as amended, at `sockets://127.0.0.1:4000`. -/
theorem parsed_key_zero_iff_witness :
    (na_ofi_str_to_addr env_ok (world_of NA_OFI_PROV_SOCKETS []) "sockets://127.0.0.1:4000"
        FI_SOCKADDR_IN none 0).map (fun r => r.2.1) = .ok NA_SUCCESS ∧
    ∃ w' blk len word low,
      na_ofi_str_to_addr env_ok (world_of NA_OFI_PROV_SOCKETS []) "sockets://127.0.0.1:4000"
        FI_SOCKADDR_IN none 0 = .ok (w', NA_SUCCESS, some blk, len) ∧
      (if FI_SOCKADDR_IN = FI_ADDR_GNI
        then gni_device_addr blk = .ok word ∧ gni_cdm_id blk = .ok low
        else sin_s_addr blk = .ok word ∧ sin_port blk = .ok low) ∧
      na_ofi_addr_to_key FI_SOCKADDR_IN blk len = .ok (spec_key word low) ∧
      (spec_key word low = 0 ↔ word = 0 ∧ low = 0) :=
  ⟨by decide, parsed_key_zero_iff env_ok (world_of NA_OFI_PROV_SOCKETS [])
    "sockets://127.0.0.1:4000" FI_SOCKADDR_IN none 0 (by decide)⟩

/-! ### Address cache: lookup, AV insert, remove -/

theorem na_ofi_addr_ht_lookup_hit {E : Env} {w : World} {fmt : Nat} {addr : List Nat}
    {len key v : Nat} (fi : Nat) (hkey : na_ofi_addr_to_key fmt addr len = .ok key)
    (h0 : key ≠ 0) (hv : hg_hash_table_lookup w.domain.addr_ht key = some v) :
    na_ofi_addr_ht_lookup E w fmt addr len fi = .ok (w, NA_SUCCESS, v, key) := by
  unfold na_ofi_addr_ht_lookup
  simp only [bind, Except.bind, pure, Except.pure, hkey, h0, if_false, hv]

/-- C1: if `na_ofi_addr_ht_lookup` succeeds on a native address, the key it
returns is non-zero and a second lookup of the same address in the resulting
state succeeds with the same handle and key and leaves the state as it is (no
call to the fabric, the hash table unchanged); the first lookup made one
`fi_av_insert` call if the key was not in the table and none otherwise, so the
two lookups together insert into the address vector exactly once on a fresh
key. -/
theorem na_ofi_addr_ht_lookup_twice (E : Env) (w : World) (addr_format : Nat)
    (addr : List Nat) (addrlen fi_addr0 fi_addr0' : Nat)
    (h : (na_ofi_addr_ht_lookup E w addr_format addr addrlen fi_addr0).map (fun r => r.2.1)
      = .ok NA_SUCCESS) :
    ∃ w1 fi_addr addr_key,
      na_ofi_addr_ht_lookup E w addr_format addr addrlen fi_addr0
        = .ok (w1, NA_SUCCESS, fi_addr, addr_key) ∧
      addr_key ≠ 0 ∧
      na_ofi_addr_ht_lookup E w1 addr_format addr addrlen fi_addr0'
        = .ok (w1, NA_SUCCESS, fi_addr, addr_key) ∧
      av_inserts w1.calls = av_inserts w.calls +
        (if hg_hash_table_lookup w.domain.addr_ht addr_key = none then 1 else 0) := by
  obtain ⟨⟨w1, ret, fi1, key1⟩, hr, hret⟩ := except_map_ok h
  simp only at hret
  subst hret
  obtain ⟨hkey, -, hs⟩ := na_ofi_addr_ht_lookup_inv hr
  obtain ⟨h0, hv, hcnt⟩ := hs rfl
  exact ⟨w1, fi1, key1, hr, h0, na_ofi_addr_ht_lookup_hit _ hkey h0 hv, hcnt⟩

/-- C1, at the first lookup of 127.0.0.1 port 4000 in a PSM2 domain with an
empty table (the lookup inserts into the address vector once). -/
theorem na_ofi_addr_ht_lookup_twice_witness :
    (na_ofi_addr_ht_lookup env_ok (world_of NA_OFI_PROV_PSM2 []) FI_ADDR_PSMX2
        sample_sin_addr 16 0).map (fun r => r.2.1) = .ok NA_SUCCESS ∧
    ∃ w1 fi_addr addr_key,
      na_ofi_addr_ht_lookup env_ok (world_of NA_OFI_PROV_PSM2 []) FI_ADDR_PSMX2
        sample_sin_addr 16 0 = .ok (w1, NA_SUCCESS, fi_addr, addr_key) ∧
      addr_key ≠ 0 ∧
      na_ofi_addr_ht_lookup env_ok w1 FI_ADDR_PSMX2 sample_sin_addr 16 0
        = .ok (w1, NA_SUCCESS, fi_addr, addr_key) ∧
      av_inserts w1.calls = av_inserts (world_of NA_OFI_PROV_PSM2 []).calls +
        (if hg_hash_table_lookup (world_of NA_OFI_PROV_PSM2 []).domain.addr_ht addr_key = none
          then 1 else 0) :=
  ⟨by decide, na_ofi_addr_ht_lookup_twice env_ok (world_of NA_OFI_PROV_PSM2 []) FI_ADDR_PSMX2
    sample_sin_addr 16 0 0 (by decide)⟩

/-- For a provider whose address format is not PSM2, `na_ofi_av_insert`
dereferences the NULL `tmp_info` before any fabric call. -/
theorem na_ofi_av_insert_non_psm2 (E : Env) (w : World) (addr : List Nat) (addrlen fi : Nat)
    (h : na_ofi_prov_addr_format w.domain.prov_type ≠ FI_ADDR_PSMX2) :
    na_ofi_av_insert E w addr addrlen fi = .error Fault.null_deref := by
  unfold na_ofi_av_insert
  simp only [h, if_false, na_ofi_av_insert_tail]

/-- C2, the code at the failing input: in a sockets domain `na_ofi_av_insert`
of the 16 bytes of 127.0.0.1 port 4000 dereferences the NULL `tmp_info` and
makes no `fi_av_insert` call (the same holds for the tcp, verbs and gni
providers), while in a PSM2 domain the address is resolved through
`fi_getinfo` and the resolved address, not the caller's bytes, is inserted. -/
theorem na_ofi_av_insert_sockets_null_deref :
    (na_ofi_av_insert env_ok (world_of NA_OFI_PROV_SOCKETS []) sample_sin_addr 16 0).map
        (fun r => (r.2, r.1.calls)) = .error Fault.null_deref ∧
    (na_ofi_av_insert env_ok (world_of NA_OFI_PROV_TCP []) sample_sin_addr 16 0).map
        (fun r => (r.2, r.1.calls)) = .error Fault.null_deref ∧
    (na_ofi_av_insert env_ok (world_of NA_OFI_PROV_VERBS []) sample_sin_addr 16 0).map
        (fun r => (r.2, r.1.calls)) = .error Fault.null_deref ∧
    (na_ofi_av_insert env_ok (world_of NA_OFI_PROV_GNI []) sample_sin_addr 16 0).map
        (fun r => (r.2, r.1.calls)) = .error Fault.null_deref ∧
    (na_ofi_av_insert env_ok (world_of NA_OFI_PROV_PSM2 []) sample_sin_addr 16 0).map
        (fun r => (r.2, r.1.calls))
      = .ok ((NA_SUCCESS, 7),
          [Call.fi_av_insert (some [1, 2, 3, 4, 5, 6, 7, 8, 9, 10, 11, 12, 13, 14, 15, 16]),
           Call.fi_getinfo "127.0.0.1" "4000"]) := by
  decide

/-- When the key has an entry, `na_ofi_addr_ht_remove` deletes it and then
calls `fi_av_remove` on the handle. -/
theorem na_ofi_addr_ht_remove_present (E : Env) (w : World) (fi_addr addr_key v : Nat)
    (h : hg_hash_table_lookup w.domain.addr_ht addr_key = some v) :
    (na_ofi_addr_ht_remove E w fi_addr addr_key).1.calls
      = Call.fi_av_remove fi_addr :: w.calls ∧
    hg_hash_table_lookup (na_ofi_addr_ht_remove E w fi_addr addr_key).1.domain.addr_ht addr_key
      = none ∧
    (na_ofi_addr_ht_remove E w fi_addr addr_key).2
      = (if E.fi_av_remove w.calls fi_addr ≠ 0 then NA_PROTOCOL_ERROR else NA_SUCCESS) := by
  unfold na_ofi_addr_ht_remove hg_hash_table_remove
  simp only [h]
  split
  · rename_i hc; exact absurd rfl hc
  · split <;> simp_all [World.log, hg_hash_table_lookup_erase_self]

/-- When the key has no entry, `na_ofi_addr_ht_remove` returns `NA_NOENTRY` and
changes nothing. -/
theorem na_ofi_addr_ht_remove_absent (E : Env) (w : World) (fi_addr addr_key : Nat)
    (h : hg_hash_table_lookup w.domain.addr_ht addr_key = none) :
    na_ofi_addr_ht_remove E w fi_addr addr_key = (w, NA_NOENTRY) := by
  unfold na_ofi_addr_ht_remove hg_hash_table_remove
  simp [h]

/-- In a domain with the PSM2 address format whose resolver answers,
`na_ofi_addr_ht_lookup` of a 16-byte address whose key is not in the table
returns, having made one `fi_av_insert` call. -/
theorem na_ofi_addr_ht_lookup_miss_psm2 (E : Env) (w : World) (addr : List Nat)
    (fi0 key : Nat) (hfmt : na_ofi_prov_addr_format w.domain.prov_type = FI_ADDR_PSMX2)
    (hlen : addr.length = 16)
    (hkey : na_ofi_addr_to_key FI_ADDR_PSMX2 addr 16 = .ok key) (hk0 : key ≠ 0)
    (hmiss : hg_hash_table_lookup w.domain.addr_ht key = none)
    (hres : ∀ node service, E.fi_getinfo w.calls node service ≠ none) :
    ∃ r, na_ofi_addr_ht_lookup E w FI_ADDR_PSMX2 addr 16 fi0 = .ok r ∧
      av_inserts r.1.calls = av_inserts w.calls + 1 := by
  obtain ⟨s, hs, _⟩ := load_ok addr 4 4 (by omega)
  obtain ⟨p, hp, _⟩ := load_ok addr 2 2 (by omega)
  have hins : ∃ w1 rc fa, na_ofi_av_insert E w addr 16 fi0 = .ok (w1, rc, fa) ∧
      av_inserts w1.calls = av_inserts w.calls + 1 := by
    cases hinfo : E.fi_getinfo w.calls (inet_ntoa s) (toString (ntohs p)) with
    | none => exact absurd hinfo (hres _ _)
    | some info =>
      unfold na_ofi_av_insert na_ofi_av_insert_tail
      simp only [hfmt, if_true, sin_s_addr, sin_port, hs, hp, bind, Except.bind, pure,
        Except.pure, hinfo]
      split
      all_goals
        refine ⟨_, _, _, rfl, ?_⟩
        simp [av_inserts, Call.is_av_insert, World.log]
  obtain ⟨w1, rc, fa, hi, hcnt⟩ := hins
  unfold na_ofi_addr_ht_lookup
  simp only [hkey, bind, Except.bind, pure, Except.pure, hk0, if_false, hmiss, hi]
  simp only [alloc, hg_hash_table_insert, World.log]
  repeat' split
  all_goals
    refine ⟨_, rfl, ?_⟩
    simp [av_inserts, Call.is_av_insert] at hcnt ⊢
    omega

/-- The address hash table changes in `na_ofi_addr_ht_lookup` only after
`na_ofi_av_insert` returned, which it does only in a domain with the PSM2
address format (for the other formats it dereferences the NULL `tmp_info`). -/
theorem na_ofi_addr_ht_lookup_table_psm2 (E : Env) (w : World) (addr_format : Nat)
    (addr : List Nat) (addrlen fi0 : Nat) (r : World × na_return_t × Nat × Nat)
    (h : na_ofi_addr_ht_lookup E w addr_format addr addrlen fi0 = .ok r)
    (hne : r.1.domain.addr_ht ≠ w.domain.addr_ht) :
    na_ofi_prov_addr_format w.domain.prov_type = FI_ADDR_PSMX2 := by
  unfold na_ofi_addr_ht_lookup at h
  simp only [bind, Except.bind, pure, Except.pure] at h
  split at h
  · exact Except.noConfusion h
  split at h
  · have h := (Except.ok.inj h).symm
    subst h
    exact absurd rfl hne
  split at h
  · have h := (Except.ok.inj h).symm
    subst h
    exact absurd rfl hne
  split at h
  · exact Except.noConfusion h
  · rename_i ri hins
    obtain ⟨wi, rc, fa⟩ := ri
    exact (na_ofi_av_insert_inv hins).2.2.2.2.1

/-- C6: for every key that has an entry in the address hash table,
`na_ofi_addr_ht_remove` deletes the entry and calls `fi_av_remove` on the
handle (its one call), so that a lookup of the key in the table it leaves
misses; every `na_ofi_addr_ht_lookup` of an address with that key that then
returns `NA_SUCCESS` has made exactly one `fi_av_insert` call and has entered
the key again with the handle it returns; and in a domain with the PSM2
address format, the only domains in which `na_ofi_addr_ht_lookup` ever
changes the table (last part), the next lookup of a 16-byte address with that
key returns having made exactly one `fi_av_insert` call, when the resolver
answers. For every key that has no entry, `na_ofi_addr_ht_remove` returns
`NA_NOENTRY` in the unchanged world: no call, the table as it was. -/
theorem na_ofi_addr_ht_remove_then_lookup (E : Env) (w : World) (fi_addr addr_key : Nat) :
    (∀ v, hg_hash_table_lookup w.domain.addr_ht addr_key = some v →
      (na_ofi_addr_ht_remove E w fi_addr addr_key).1.calls
        = Call.fi_av_remove fi_addr :: w.calls ∧
      (na_ofi_addr_ht_remove E w fi_addr addr_key).1.domain.addr_ht
        = hg_hash_table_erase w.domain.addr_ht addr_key ∧
      hg_hash_table_lookup (na_ofi_addr_ht_remove E w fi_addr addr_key).1.domain.addr_ht
        addr_key = none ∧
      (na_ofi_addr_ht_remove E w fi_addr addr_key).2
        = (if E.fi_av_remove w.calls fi_addr ≠ 0 then NA_PROTOCOL_ERROR else NA_SUCCESS) ∧
      (∀ (addr_format : Nat) (addr : List Nat) (addrlen fi0 : Nat)
          (r : World × na_return_t × Nat × Nat),
        na_ofi_addr_to_key addr_format addr addrlen = .ok addr_key →
        na_ofi_addr_ht_lookup E (na_ofi_addr_ht_remove E w fi_addr addr_key).1 addr_format addr
          addrlen fi0 = .ok r →
        r.2.1 = NA_SUCCESS →
        av_inserts r.1.calls
          = av_inserts (na_ofi_addr_ht_remove E w fi_addr addr_key).1.calls + 1 ∧
        hg_hash_table_lookup r.1.domain.addr_ht addr_key = some r.2.2.1) ∧
      (∀ (addr : List Nat) (fi0 : Nat),
        na_ofi_prov_addr_format w.domain.prov_type = FI_ADDR_PSMX2 → addr.length = 16 →
        addr_key ≠ 0 →
        na_ofi_addr_to_key FI_ADDR_PSMX2 addr 16 = .ok addr_key →
        (∀ node service,
          E.fi_getinfo (Call.fi_av_remove fi_addr :: w.calls) node service ≠ none) →
        ∃ r, na_ofi_addr_ht_lookup E (na_ofi_addr_ht_remove E w fi_addr addr_key).1
            FI_ADDR_PSMX2 addr 16 fi0 = .ok r ∧
          av_inserts r.1.calls
            = av_inserts (na_ofi_addr_ht_remove E w fi_addr addr_key).1.calls + 1)) ∧
    (hg_hash_table_lookup w.domain.addr_ht addr_key = none →
      na_ofi_addr_ht_remove E w fi_addr addr_key = (w, NA_NOENTRY)) ∧
    (∀ (W : World) (addr_format : Nat) (addr : List Nat) (addrlen fi0 : Nat)
        (r : World × na_return_t × Nat × Nat),
      na_ofi_addr_ht_lookup E W addr_format addr addrlen fi0 = .ok r →
      r.1.domain.addr_ht ≠ W.domain.addr_ht →
      na_ofi_prov_addr_format W.domain.prov_type = FI_ADDR_PSMX2) := by
  refine ⟨fun v hv => ?_, na_ofi_addr_ht_remove_absent E w fi_addr addr_key,
    fun W addr_format addr addrlen fi0 r h hne =>
      na_ofi_addr_ht_lookup_table_psm2 E W addr_format addr addrlen fi0 r h hne⟩
  obtain ⟨h1, h2, h3⟩ := na_ofi_addr_ht_remove_present E w fi_addr addr_key v hv
  have hd : (na_ofi_addr_ht_remove E w fi_addr addr_key).1.domain
      = { w.domain with addr_ht := hg_hash_table_erase w.domain.addr_ht addr_key } := by
    unfold na_ofi_addr_ht_remove hg_hash_table_remove
    simp only [hv]
    split
    · rename_i hc; exact absurd rfl hc
    · split <;> rfl
  refine ⟨h1, by rw [hd], h2, h3, ?_, ?_⟩
  · intro addr_format addr addrlen fi0 r hkey hr hs
    obtain ⟨w2, ret, fi1, key1⟩ := r
    obtain ⟨hk, -, hsucc⟩ := na_ofi_addr_ht_lookup_inv hr
    rw [hkey] at hk
    have hk := Except.ok.inj hk
    subst hk
    obtain ⟨-, hv2, hcnt⟩ := hsucc hs
    rw [h2] at hcnt
    exact ⟨by simpa using hcnt, hv2⟩
  · intro addr fi0 hprov hlen hk0 hkey hres
    refine na_ofi_addr_ht_lookup_miss_psm2 E _ addr fi0 addr_key ?_ hlen hkey hk0 h2 ?_
    · rw [hd]; exact hprov
    · rw [h1]; exact hres

/-- C6, witness: in a PSM2 domain whose table maps the key of 127.0.0.1 port
4000 to handle 5, after `na_ofi_addr_ht_remove` of that key the lookup of the
address returns `NA_SUCCESS` with the new handle 7 after one `fi_av_insert`,
and the table maps the key to 7. -/
theorem na_ofi_addr_ht_remove_then_lookup_witness :
    hg_hash_table_lookup (world_of NA_OFI_PROV_PSM2 [(72058139498815503, 5)]).domain.addr_ht
      72058139498815503 = some 5 ∧
    (∃ r, na_ofi_addr_ht_lookup env_ok
        (na_ofi_addr_ht_remove env_ok (world_of NA_OFI_PROV_PSM2 [(72058139498815503, 5)]) 5
          72058139498815503).1 FI_ADDR_PSMX2 sample_sin_addr 16 0 = .ok r ∧
      av_inserts r.1.calls
        = av_inserts (na_ofi_addr_ht_remove env_ok
            (world_of NA_OFI_PROV_PSM2 [(72058139498815503, 5)]) 5
            72058139498815503).1.calls + 1) ∧
    (na_ofi_addr_ht_lookup env_ok
        (na_ofi_addr_ht_remove env_ok (world_of NA_OFI_PROV_PSM2 [(72058139498815503, 5)])
          5 72058139498815503).1
        FI_ADDR_PSMX2 sample_sin_addr 16 0).map
        (fun r => (r.2.1, r.2.2.1, r.1.domain.addr_ht, r.1.calls))
      = .ok (NA_SUCCESS, 7, [(72058139498815503, 7)],
          [Call.alloc 24, Call.alloc 8, Call.alloc 8,
           Call.fi_av_insert (some [1, 2, 3, 4, 5, 6, 7, 8, 9, 10, 11, 12, 13, 14, 15, 16]),
           Call.fi_getinfo "127.0.0.1" "4000", Call.fi_av_remove 5]) :=
  ⟨by decide,
    ((na_ofi_addr_ht_remove_then_lookup env_ok
      (world_of NA_OFI_PROV_PSM2 [(72058139498815503, 5)]) 5 72058139498815503).1 5
      (by decide)).2.2.2.2.2 sample_sin_addr 0 rfl (by decide) (by decide) (by decide)
      (fun _ _ => by simp [env_ok]),
    by decide⟩

/-! ### Frame lemmas -/

theorem na_ofi_str_to_sin_world {E : Env} {w w' : World} {str : String}
    {a0 a' : Option (List Nat)} {ret : na_return_t} {l' : Nat}
    (h : na_ofi_str_to_sin E w str a0 = .ok (w', ret, a', l')) :
    w' = w.log (Call.alloc sizeof_na_ofi_sin_addr) := by
  unfold na_ofi_str_to_sin at h
  simp only [bind, Except.bind, pure, Except.pure, alloc] at h
  repeat' split at h
  all_goals first
    | (exact Except.noConfusion h)
    | (simp only [Except.ok.injEq, Prod.mk.injEq] at h
       exact h.1.symm)

theorem na_ofi_str_to_gni_world {E : Env} {w w' : World} {str : String}
    {a0 a' : Option (List Nat)} {ret : na_return_t} {l' : Nat}
    (h : na_ofi_str_to_gni E w str a0 = .ok (w', ret, a', l')) :
    w' = w.log (Call.alloc sizeof_na_ofi_gni_addr) := by
  unfold na_ofi_str_to_gni at h
  simp only [bind, Except.bind, pure, Except.pure, alloc] at h
  repeat' split at h
  all_goals first
    | (exact Except.noConfusion h)
    | (simp only [Except.ok.injEq, Prod.mk.injEq] at h
       exact h.1.symm)

theorem na_ofi_str_to_addr_world {E : Env} {w w' : World} {str : String} {fmt : Nat}
    {a0 a' : Option (List Nat)} {ret : na_return_t} {l0 l' : Nat}
    (h : na_ofi_str_to_addr E w str fmt a0 l0 = .ok (w', ret, a', l')) :
    w'.domain = w.domain ∧ w'.addrs = w.addrs ∧ w'.addr_next = w.addr_next ∧
    w'.endpoint = w.endpoint := by
  unfold na_ofi_str_to_addr at h
  repeat' split at h
  · rw [na_ofi_str_to_sin_world h]; exact ⟨rfl, rfl, rfl, rfl⟩
  · rw [na_ofi_str_to_sin_world h]; exact ⟨rfl, rfl, rfl, rfl⟩
  · rw [na_ofi_str_to_gni_world h]; exact ⟨rfl, rfl, rfl, rfl⟩
  · simp only [Except.ok.injEq, Prod.mk.injEq] at h
    rw [← h.1]; exact ⟨rfl, rfl, rfl, rfl⟩

theorem wrap32_id {x : Int} (h1 : -2 ^ 31 ≤ x) (h2 : x < 2 ^ 31) : wrap32 x = x := by
  unfold wrap32
  omega

theorem close_fid_frame (E : Env) (w : World) (present : Bool) (fid : Fid) :
    (close_fid E w present fid).1.domain = w.domain ∧
    (close_fid E w present fid).1.addrs = w.addrs ∧
    (close_fid E w present fid).1.addr_next = w.addr_next := by
  unfold close_fid
  split <;> exact ⟨rfl, rfl, rfl⟩

theorem na_ofi_domain_close_inv (E : Env) (w : World) :
    (na_ofi_domain_close E w).1.domain.refcount = wrap32 (w.domain.refcount - 1) ∧
    (na_ofi_domain_close E w).1.addrs = w.addrs ∧
    (na_ofi_domain_close E w).1.addr_next = w.addr_next := by
  unfold na_ofi_domain_close
  dsimp only
  split
  · exact ⟨rfl, rfl, rfl⟩
  · split
    · simp only [(close_fid_frame _ _ _ _).1, (close_fid_frame _ _ _ _).2.1,
        (close_fid_frame _ _ _ _).2.2, and_self]
    · split
      · simp only [(close_fid_frame _ _ _ _).1, (close_fid_frame _ _ _ _).2.1,
          (close_fid_frame _ _ _ _).2.2, and_self]
      · split
        · simp only [(close_fid_frame _ _ _ _).1, (close_fid_frame _ _ _ _).2.1,
            (close_fid_frame _ _ _ _).2.2, and_self]
        · split
          · simp only [(close_fid_frame _ _ _ _).1, (close_fid_frame _ _ _ _).2.1,
              (close_fid_frame _ _ _ _).2.2, and_self]
          · simp only [(close_fid_frame _ _ _ _).1, (close_fid_frame _ _ _ _).2.1,
              (close_fid_frame _ _ _ _).2.2, and_self]

/-! ### Address objects and reference counts -/

theorem na_ofi_addr_alloc_inv {E : Env} {w w1 : World} {p? : Option Nat}
    (h : na_ofi_addr_alloc E w = (w1, p?)) :
    (p? = none → w1.domain = w.domain ∧ w1.addrs = w.addrs ∧ w1.addr_next = w.addr_next) ∧
    (∀ p, p? = some p → p = w.addr_next ∧
      w1.addrs = Function.update w.addrs p (some fresh_addr) ∧
      w1.domain.refcount = wrap32 (w.domain.refcount + 1) ∧
      w1.domain.prov_type = w.domain.prov_type ∧
      w1.domain.addr_ht = w.domain.addr_ht) := by
  unfold na_ofi_addr_alloc at h
  simp only [alloc, World.log] at h
  split at h
  · simp only [Prod.mk.injEq] at h
    obtain ⟨rfl, rfl⟩ := h
    exact ⟨fun _ => ⟨rfl, rfl, rfl⟩, fun p hp => Option.noConfusion hp⟩
  · simp only [Prod.mk.injEq] at h
    obtain ⟨rfl, rfl⟩ := h
    refine ⟨fun hp => Option.noConfusion hp, fun p hp => ?_⟩
    injection hp with hp
    subst hp
    exact ⟨rfl, rfl, rfl, rfl, rfl⟩

theorem na_ofi_addr_lookup2_inv {E : Env} {w w1 : World} {name : String} {p? : Option Nat}
    (h : na_ofi_addr_lookup2 E w name = .ok (w1, NA_SUCCESS, p?)) :
    ∃ p a, p? = some p ∧ w1.addrs p = some a ∧ a.refcount = 1 ∧ a.self = false ∧
      a.remove = false ∧ w1.domain.refcount = wrap32 (w.domain.refcount + 1) := by
  unfold na_ofi_addr_lookup2 at h
  simp only [bind, Except.bind, pure, Except.pure] at h
  repeat' split at h
  all_goals first
    | (exact Except.noConfusion h)
    | (simp only [Except.ok.injEq, Prod.mk.injEq] at h
       exact absurd h.2.1 (by decide))
    | (simp only [Except.ok.injEq, Prod.mk.injEq] at h
       exact absurd h.2.1 ‹_ ≠ NA_SUCCESS›)
    | skip
  rename_i _ prov hprov hpe _ wa p halloc _ a hget hok _ r3 hstr hr3 _ blk hblk _ r4 hht hr4
  simp only [Except.ok.injEq, Prod.mk.injEq] at h
  obtain ⟨rfl, -, rfl⟩ := h
  obtain ⟨-, hal⟩ := na_ofi_addr_alloc_inv halloc
  obtain ⟨-, haddrs, hrc, -, -⟩ := hal p rfl
  have ha : a = fresh_addr := by
    unfold World.get_addr at hget
    rw [haddrs, Function.update_same] at hget
    injection hget with hget
    exact hget.symm
  subst ha
  obtain ⟨hd3, -, -, -⟩ := na_ofi_str_to_addr_world hstr
  obtain ⟨-, ⟨-, -, -, hrc4, -, -, -⟩, -⟩ := na_ofi_addr_ht_lookup_inv hht
  refine ⟨p, ⟨r3.2.2.1, r3.2.2.2, some name, r4.2.2.1, r4.2.2.2, 1, false, false⟩,
    rfl, ?_, rfl, rfl, rfl, ?_⟩
  · simp only [World.set_addr, Function.update_same]
    rfl
  · simp only [World.set_addr] at hrc4 hd3 ⊢
    rw [hrc4, hd3]
    simpa [alloc, World.log] using hrc

theorem na_ofi_addr_addref_ok {w : World} {p : Nat} {a : na_ofi_addr}
    (ha : w.addrs p = some a) (h0 : 0 < a.refcount) (h1 : a.refcount + 1 < 2 ^ 31) :
    na_ofi_addr_addref w p
      = .ok (w.set_addr p (some { a with refcount := a.refcount + 1 })) := by
  unfold na_ofi_addr_addref World.get_addr
  have hne : ¬ a.refcount = 0 := by omega
  simp only [ha, bind, Except.bind, pure, Except.pure, hne, if_false,
    wrap32_id (x := a.refcount + 1) (by omega) h1]

theorem na_ofi_addr_decref_more {E : Env} {w : World} {p : Nat} {a : na_ofi_addr}
    (ha : w.addrs p = some a) (h0 : 1 < a.refcount) (h1 : a.refcount < 2 ^ 31) :
    na_ofi_addr_decref E w p
      = .ok (w.set_addr p (some { a with refcount := a.refcount - 1 })) := by
  unfold na_ofi_addr_decref World.get_addr
  have hpos : a.refcount > 0 := by omega
  have hw : wrap32 (a.refcount - 1) = a.refcount - 1 := wrap32_id (by omega) (by omega)
  have hne : a.refcount - 1 ≠ 0 := by omega
  simp only [ha, bind, Except.bind, pure, Except.pure, hpos, not_true_eq_false, if_false, hw,
    hne, ne_eq, not_false_eq_true, if_true]

theorem na_ofi_addr_decref_last {E : Env} {w : World} {p : Nat} {a : na_ofi_addr}
    (ha : w.addrs p = some a) (h1 : a.refcount = 1) (hr : a.remove = false) :
    na_ofi_addr_decref E w p
      = .ok ((na_ofi_domain_close E (w.set_addr p (some { a with refcount := 0 }))).1.set_addr
          p none) := by
  unfold na_ofi_addr_decref World.get_addr
  have hw : wrap32 0 = 0 := by decide
  simp [ha, bind, Except.bind, pure, Except.pure, h1, hr, hw]

theorem dup_n_ok (n : Nat) (p : Nat) : ∀ (w : World) (a : na_ofi_addr),
    w.addrs p = some a → 0 < a.refcount → a.refcount + n < 2 ^ 31 →
    ∃ w', dup_n n w p = .ok w' ∧
      w'.addrs p = some { a with refcount := a.refcount + n } ∧ w'.domain = w.domain := by
  induction n with
  | zero =>
    intro w a ha _ _
    exact ⟨w, rfl, by simpa using ha, rfl⟩
  | succ n ih =>
    intro w a ha h0 h1
    have hstep := na_ofi_addr_addref_ok ha h0 (by omega)
    obtain ⟨w', hw', ha', hd'⟩ := ih (w.set_addr p (some { a with refcount := a.refcount + 1 }))
      { a with refcount := a.refcount + 1 }
      (by simp [World.set_addr]) (by simp; omega) (by simp; omega)
    refine ⟨w', ?_, ?_, ?_⟩
    · simp only [dup_n, na_ofi_addr_dup, hstep, bind, Except.bind, pure, Except.pure]
      exact hw'
    · rw [ha']
      simp only [Nat.cast_add, Nat.cast_one]
      congr 2
      omega
    · rw [hd']; rfl

theorem free_n_alive (E : Env) (j : Nat) (p : Nat) : ∀ (w : World) (a : na_ofi_addr),
    w.addrs p = some a → (j : Int) < a.refcount → a.refcount < 2 ^ 31 →
    ∃ w', free_n E j w p = .ok w' ∧
      w'.addrs p = some { a with refcount := a.refcount - j } ∧ w'.domain = w.domain := by
  induction j with
  | zero =>
    intro w a ha _ _
    exact ⟨w, rfl, by simpa using ha, rfl⟩
  | succ j ih =>
    intro w a ha h0 h1
    have hstep := na_ofi_addr_decref_more (E := E) ha (by omega) h1
    obtain ⟨w', hw', ha', hd'⟩ := ih (w.set_addr p (some { a with refcount := a.refcount - 1 }))
      { a with refcount := a.refcount - 1 }
      (by simp [World.set_addr]) (by simp; omega) (by simp; omega)
    refine ⟨w', ?_, ?_, ?_⟩
    · simp only [free_n, na_ofi_addr_free, hstep, bind, Except.bind, pure, Except.pure]
      exact hw'
    · rw [ha']
      simp only [Nat.cast_add, Nat.cast_one]
      congr 2
      omega
    · rw [hd']; rfl

theorem free_n_destroys (E : Env) (m : Nat) (p : Nat) : ∀ (w : World) (a : na_ofi_addr),
    w.addrs p = some a → a.refcount = m + 1 → a.remove = false → (m : Int) + 1 < 2 ^ 31 →
    ∃ w', free_n E (m + 1) w p = .ok w' ∧ w'.addrs p = none ∧
      w'.domain.refcount = wrap32 (w.domain.refcount - 1) := by
  induction m with
  | zero =>
    intro w a ha h1 hr _
    have hstep := na_ofi_addr_decref_last (E := E) ha (by simpa using h1) hr
    refine ⟨(na_ofi_domain_close E
      (w.set_addr p (some { a with refcount := 0 }))).1.set_addr p none, ?_, ?_, ?_⟩
    · simp only [free_n, na_ofi_addr_free, hstep, bind, Except.bind, pure, Except.pure]
    · simp [World.set_addr]
    · simp only [World.set_addr]
      rw [(na_ofi_domain_close_inv E _).1]
  | succ m ih =>
    intro w a ha h1 hr hb
    have hstep := na_ofi_addr_decref_more (E := E) ha (by rw [h1]; push_cast; omega)
      (by rw [h1]; push_cast; omega)
    obtain ⟨w', hw', ha', hd'⟩ := ih (w.set_addr p (some { a with refcount := a.refcount - 1 }))
      { a with refcount := a.refcount - 1 }
      (by simp [World.set_addr]) (by simp [h1]) hr (by push_cast at hb ⊢; omega)
    refine ⟨w', ?_, ha', ?_⟩
    · rw [free_n]
      simp only [na_ofi_addr_free, hstep, bind, Except.bind, pure, Except.pure]
      exact hw'
    · rw [hd']; rfl

/-! ### Lookup from URI, dup, free -/

/-- C7: when `na_ofi_addr_lookup2` succeeds (domain reference count a valid
`int32` below `INT32_MAX`), the address returned has reference count exactly 1,
is not self and not marked remove, and the domain reference count is one
higher than before; one `na_ofi_addr_free` then destroys the address and
brings the domain reference count back. After `k` further `na_ofi_addr_dup`
calls (`k + 1` within `int32`) the reference count is `k + 1`, the address is
still allocated after any `j ≤ k` frees (with count `k + 1 - j`) and is
destroyed by the `k + 1`-th free, which also restores the domain count. -/
theorem na_ofi_addr_lookup2_refcount (E : Env) (w : World) (name : String) (k : Nat)
    (hdom : -2 ^ 31 ≤ w.domain.refcount ∧ w.domain.refcount + 1 < 2 ^ 31)
    (hk : (k : Int) + 1 < 2 ^ 31)
    (h : (na_ofi_addr_lookup2 E w name).map (fun r => r.2.1) = .ok NA_SUCCESS) :
    ∃ w1 p a,
      na_ofi_addr_lookup2 E w name = .ok (w1, NA_SUCCESS, some p) ∧
      w1.addrs p = some a ∧ a.refcount = 1 ∧ a.self = false ∧ a.remove = false ∧
      w1.domain.refcount = w.domain.refcount + 1 ∧
      (∃ w2, na_ofi_addr_free E w1 p = .ok (w2, NA_SUCCESS) ∧ w2.addrs p = none ∧
        w2.domain.refcount = w.domain.refcount) ∧
      (∃ wk ak, dup_n k w1 p = .ok wk ∧ wk.addrs p = some ak ∧ ak.refcount = k + 1 ∧
        (∀ j, j ≤ k → ∃ wj aj, free_n E j wk p = .ok wj ∧ wj.addrs p = some aj ∧
          aj.refcount = k + 1 - j) ∧
        (∃ wf, free_n E (k + 1) wk p = .ok wf ∧ wf.addrs p = none ∧
          wf.domain.refcount = w.domain.refcount)) := by
  obtain ⟨⟨w1, ret, p?⟩, hr, hret⟩ := except_map_ok h
  simp only at hret
  subst hret
  obtain ⟨p, a, rfl, ha, hrc, hself, hrem, hd⟩ := na_ofi_addr_lookup2_inv hr
  have hd1 : w1.domain.refcount = w.domain.refcount + 1 := by
    rw [hd]; exact wrap32_id (by omega) hdom.2
  have hback : wrap32 (w1.domain.refcount - 1) = w.domain.refcount := by
    rw [hd1]
    have : w.domain.refcount + 1 - 1 = w.domain.refcount := by omega
    rw [this]; exact wrap32_id hdom.1 (by omega)
  refine ⟨w1, p, a, hr, ha, hrc, hself, hrem, hd1, ?_, ?_⟩
  · obtain ⟨w2, hf, hn, hd2⟩ := free_n_destroys E 0 p w1 a ha (by simpa using hrc) hrem
      (by norm_num)
    refine ⟨w2, ?_, hn, by rw [hd2, hback]⟩
    simp only [free_n, bind, Except.bind, pure, Except.pure] at hf
    split at hf
    · exact Except.noConfusion hf
    · rename_i r hfr
      obtain ⟨wr, rr⟩ := r
      simp only [Except.ok.injEq] at hf
      subst hf
      unfold na_ofi_addr_free at hfr ⊢
      simp only [bind, Except.bind, pure, Except.pure] at hfr ⊢
      split at hfr
      · exact Except.noConfusion hfr
      · simp only [Except.ok.injEq, Prod.mk.injEq] at hfr
        rw [hfr.1]
  · obtain ⟨wk, hwk, hak, hdk⟩ := dup_n_ok k p w1 a ha (by omega) (by omega)
    refine ⟨wk, _, hwk, hak, by simp [hrc]; ring, ?_, ?_⟩
    · intro j hj
      obtain ⟨wj, hwj, haj, -⟩ := free_n_alive E j p wk _ hak
        (by simp only [hrc]; omega) (by simp only [hrc]; omega)
      exact ⟨wj, _, hwj, haj, by simp [hrc]; ring⟩
    · obtain ⟨wf, hwf, hn, hdf⟩ := free_n_destroys E k p wk _ hak (by simp [hrc]; ring)
        hrem hk
      exact ⟨wf, hwf, hn, by rw [hdf, hdk, hback]⟩

/-- C7, at the lookup of `psm2://127.0.0.1:4000` in a PSM2 domain, with two dups. -/
theorem na_ofi_addr_lookup2_refcount_witness :
    ((-2 ^ 31 ≤ (world_of NA_OFI_PROV_PSM2 []).domain.refcount ∧
        (world_of NA_OFI_PROV_PSM2 []).domain.refcount + 1 < 2 ^ 31) ∧
      ((2 : Nat) : Int) + 1 < 2 ^ 31 ∧
      (na_ofi_addr_lookup2 env_ok (world_of NA_OFI_PROV_PSM2 []) "psm2://127.0.0.1:4000").map
        (fun r => r.2.1) = .ok NA_SUCCESS) ∧
    ∃ w1 p a,
      na_ofi_addr_lookup2 env_ok (world_of NA_OFI_PROV_PSM2 []) "psm2://127.0.0.1:4000"
        = .ok (w1, NA_SUCCESS, some p) ∧
      w1.addrs p = some a ∧ a.refcount = 1 ∧ a.self = false ∧ a.remove = false ∧
      w1.domain.refcount = (world_of NA_OFI_PROV_PSM2 []).domain.refcount + 1 ∧
      (∃ w2, na_ofi_addr_free env_ok w1 p = .ok (w2, NA_SUCCESS) ∧ w2.addrs p = none ∧
        w2.domain.refcount = (world_of NA_OFI_PROV_PSM2 []).domain.refcount) ∧
      (∃ wk ak, dup_n 2 w1 p = .ok wk ∧ wk.addrs p = some ak ∧ ak.refcount = (2 : Nat) + 1 ∧
        (∀ j, j ≤ 2 → ∃ wj aj, free_n env_ok j wk p = .ok wj ∧ wj.addrs p = some aj ∧
          aj.refcount = (2 : Nat) + 1 - j) ∧
        (∃ wf, free_n env_ok (2 + 1) wk p = .ok wf ∧ wf.addrs p = none ∧
          wf.domain.refcount = (world_of NA_OFI_PROV_PSM2 []).domain.refcount)) :=
  ⟨⟨by decide, by decide, by decide⟩,
    na_ofi_addr_lookup2_refcount env_ok (world_of NA_OFI_PROV_PSM2 []) "psm2://127.0.0.1:4000" 2
      (by decide) (by decide) (by decide)⟩

/-- C8, the code at the failing input: in a sockets domain with reference
count 1, `na_ofi_addr_lookup2` of `sockets://x` (malformed address part) returns
`NA_PROTONOSUPPORT` and of `sockets://0.0.0.0:0` (cache lookup rejects key 0)
returns `NA_PROTONOSUPPORT`, both without writing `*addr` and with the address
object freed, but the domain reference count is left at 2; only the
wrong-prefix error (`tcp://1.2.3.4:5`, `NA_INVALID_ARG`) leaves it at 1. -/
theorem na_ofi_addr_lookup2_error_leaks_domain_ref :
    (world_of NA_OFI_PROV_SOCKETS []).domain.refcount = 1 ∧
    (na_ofi_addr_lookup2 env_ok (world_of NA_OFI_PROV_SOCKETS []) "sockets://x").map
        (fun r => (r.2, r.1.addrs 0, r.1.domain.refcount))
      = .ok ((NA_PROTONOSUPPORT, none), none, 2) ∧
    (na_ofi_addr_lookup2 env_ok (world_of NA_OFI_PROV_SOCKETS []) "sockets://0.0.0.0:0").map
        (fun r => (r.2, r.1.addrs 0, r.1.domain.refcount))
      = .ok ((NA_PROTONOSUPPORT, none), none, 2) ∧
    (na_ofi_addr_lookup2 env_ok (world_of NA_OFI_PROV_SOCKETS []) "tcp://1.2.3.4:5").map
        (fun r => (r.2, r.1.addrs 0, r.1.domain.refcount))
      = .ok ((NA_INVALID_ARG, none), none, 1) := by
  decide

/-! ### Address serialization -/

theorem addr_from_av_some {E : Env} {w : World} {p : Nat} {a : na_ofi_addr} {blk : List Nat}
    (ha : w.addrs p = some a) (hb : a.addr = some blk) :
    addr_from_av E w p = .ok (w, none) := by
  unfold addr_from_av World.get_addr
  simp only [ha, hb, bind, Except.bind, pure, Except.pure]

theorem na_ofi_addr_get_serialize_size_ok {E : Env} {w : World} {p : Nat} {a : na_ofi_addr}
    {blk : List Nat} (ha : w.addrs p = some a) (hb : a.addr = some blk)
    (h64 : a.addrlen + 8 < 2 ^ 64) :
    na_ofi_addr_get_serialize_size E w p = .ok (w, 8 + a.addrlen) := by
  unfold na_ofi_addr_get_serialize_size
  simp only [addr_from_av_some ha hb, bind, Except.bind, pure, Except.pure, World.get_addr, ha,
    sizeof_addrlen, Nat.mod_eq_of_lt h64, Nat.add_comm]

theorem na_ofi_addr_serialize_overflow {E : Env} {w : World} {p : Nat} {a : na_ofi_addr}
    {blk buf : List Nat} {buf_size : Nat} (ha : w.addrs p = some a) (hb : a.addr = some blk)
    (h64 : a.addrlen + 8 < 2 ^ 64) (hsz : buf_size < 8 + a.addrlen) :
    na_ofi_addr_serialize E w buf buf_size p = .ok (w, NA_OVERFLOW, buf) := by
  unfold na_ofi_addr_serialize
  have : buf_size < a.addrlen + 8 := by omega
  simp only [addr_from_av_some ha hb, bind, Except.bind, pure, Except.pure, World.get_addr, ha,
    sizeof_addrlen, Nat.mod_eq_of_lt h64, this, if_true]

theorem na_ofi_addr_serialize_ok {E : Env} {w : World} {p : Nat} {a : na_ofi_addr}
    {blk buf : List Nat} {buf_size : Nat} (ha : w.addrs p = some a) (hb : a.addr = some blk)
    (hl : blk.length = a.addrlen) (h64 : a.addrlen + 8 < 2 ^ 64)
    (hsz : 8 + a.addrlen ≤ buf_size) (hbuf : buf_size ≤ buf.length) :
    na_ofi_addr_serialize E w buf buf_size p
      = .ok (w, NA_SUCCESS, spec_serialized blk ++ buf.drop (8 + a.addrlen)) := by
  unfold na_ofi_addr_serialize
  have h1 : ¬ buf_size < a.addrlen + 8 := by omega
  have h2 : ¬ blk.length < a.addrlen := by omega
  have h3 : memcpy buf (le_bytes 8 a.addrlen) 8 = .ok (le_bytes 8 a.addrlen ++ buf.drop 8) := by
    unfold memcpy
    have : 8 ≤ (le_bytes 8 a.addrlen).length ∧ 8 ≤ buf.length := by
      rw [le_bytes_length]; omega
    rw [if_pos this, List.take_of_length_le (by rw [le_bytes_length])]
  have h4 : store_bytes (le_bytes 8 a.addrlen ++ buf.drop 8) 8 (blk.take a.addrlen)
      = .ok (spec_serialized blk ++ buf.drop (8 + a.addrlen)) := by
    unfold store_bytes spec_serialized
    have ht : blk.take a.addrlen = blk := List.take_of_length_le (by omega)
    rw [ht]
    have : 8 + blk.length ≤ (le_bytes 8 a.addrlen ++ buf.drop 8).length := by
      simp [le_bytes_length]; omega
    rw [if_pos this]
    congr 1
    have e1 : (le_bytes 8 a.addrlen ++ buf.drop 8).take 8 = le_bytes 8 a.addrlen := by
      rw [List.take_append_of_le_length (by rw [le_bytes_length])]
      exact List.take_of_length_le (by rw [le_bytes_length])
    have e2 : (le_bytes 8 a.addrlen ++ buf.drop 8).drop (8 + blk.length)
        = buf.drop (8 + a.addrlen) := by
      rw [List.drop_append_eq_append_drop, le_bytes_length]
      rw [List.drop_of_length_le (by rw [le_bytes_length]; omega)]
      simp [List.drop_drop, hl]
    rw [e1, e2, hl]
  simp only [addr_from_av_some ha hb, bind, Except.bind, pure, Except.pure, World.get_addr, ha,
    sizeof_addrlen, Nat.mod_eq_of_lt h64, h1, if_false, hb, h3, h2, h4]

theorem na_ofi_addr_deserialize_inv {E : Env} {w w' : World} {buf : List Nat} {bs L : Nat}
    {q? : Option Nat} (hload : load buf 0 sizeof_addrlen = .ok L)
    (h : na_ofi_addr_deserialize E w buf bs = .ok (w', NA_SUCCESS, q?)) :
    ∃ q b, q? = some q ∧ w'.addrs q = some b ∧ b.addrlen = L ∧
      b.addr = some ((buf.drop sizeof_addrlen).take L) ∧ b.refcount = 1 ∧
      na_ofi_addr_to_key (na_ofi_prov_addr_format w.domain.prov_type)
        ((buf.drop sizeof_addrlen).take L) L = .ok b.ht_key ∧
      b.ht_key ≠ 0 ∧ hg_hash_table_lookup w'.domain.addr_ht b.ht_key = some b.fi_addr := by
  unfold na_ofi_addr_deserialize at h
  simp only [bind, Except.bind, pure, Except.pure, hload] at h
  repeat' split at h
  all_goals first
    | (exact Except.noConfusion h)
    | (simp only [Except.ok.injEq, Prod.mk.injEq] at h
       exact absurd h.2.1 (by decide))
    | (simp only [Except.ok.injEq, Prod.mk.injEq] at h
       exact absurd h.2.1 ‹_ ≠ NA_SUCCESS›)
    | skip
  rename_i _ wa q halloc _ a hget hok hlen _ r4 hht hr4
  simp only [Except.ok.injEq, Prod.mk.injEq] at h
  obtain ⟨rfl, -, rfl⟩ := h
  obtain ⟨-, hal⟩ := na_ofi_addr_alloc_inv halloc
  obtain ⟨-, haddrs, -, hpt, -⟩ := hal q rfl
  have ha : a = fresh_addr := by
    unfold World.get_addr at hget
    rw [haddrs, Function.update_same] at hget
    injection hget with hget
    exact hget.symm
  subst ha
  obtain ⟨hkey, -, hs⟩ := na_ofi_addr_ht_lookup_inv hht
  obtain ⟨h0, hv, -⟩ := hs (by simpa using hr4)
  refine ⟨q, ⟨some ((buf.drop sizeof_addrlen).take L), L, none, r4.2.2.1, r4.2.2.2, 1, false,
    false⟩, rfl, ?_, rfl, rfl, rfl, ?_, h0, ?_⟩
  · simp only [World.set_addr, Function.update_same]
    rfl
  · simpa [World.set_addr, alloc, World.log, hpt] using hkey
  · simpa [World.set_addr] using hv

theorem na_ofi_addr_deserialize_hit {E : Env} {w : World} {buf : List Nat} (bs : Nat)
    {L key v : Nat}
    (halloc : ∀ cs n, E.alloc cs n = true)
    (hload : load buf 0 sizeof_addrlen = .ok L) (hlen : sizeof_addrlen + L ≤ buf.length)
    (hkey : na_ofi_addr_to_key (na_ofi_prov_addr_format w.domain.prov_type)
      ((buf.drop sizeof_addrlen).take L) L = .ok key)
    (h0 : key ≠ 0) (hv : hg_hash_table_lookup w.domain.addr_ht key = some v) :
    ∃ w', na_ofi_addr_deserialize E w buf bs = .ok (w', NA_SUCCESS, some w.addr_next) ∧
      w'.addrs w.addr_next = some ⟨some ((buf.drop sizeof_addrlen).take L), L, none, v, key, 1,
        false, false⟩ := by
  unfold na_ofi_addr_deserialize
  have hl : ¬ buf.length < sizeof_addrlen + L := by omega
  simp only [na_ofi_addr_alloc, alloc, halloc, World.log, World.get_addr, bind, Except.bind, pure,
    Except.pure, hload, Function.update_same, not_true_eq_false, if_false, hl, World.set_addr]
  simp only [na_ofi_addr_ht_lookup, bind, Except.bind, pure, Except.pure, hkey, h0, if_false, hv,
    ne_eq, not_true_eq_false]
  refine ⟨_, rfl, ?_⟩
  simp only [Function.update_same]
  rfl

/-! ### Serialization round trip -/

theorem load_serialized (blk rest : List Nat) (h64 : blk.length < 2 ^ 64) :
    load (spec_serialized blk ++ rest) 0 sizeof_addrlen = .ok blk.length ∧
    ((spec_serialized blk ++ rest).drop sizeof_addrlen).take blk.length = blk := by
  unfold spec_serialized sizeof_addrlen
  constructor
  · unfold load
    have hlen : 0 + 8 ≤ (le_bytes 8 blk.length ++ blk ++ rest).length := by
      simp [le_bytes_length]
    rw [if_pos hlen, List.drop_zero, List.append_assoc,
      List.take_append_of_le_length (by rw [le_bytes_length]),
      List.take_of_length_le (by rw [le_bytes_length]), le_val_le_bytes]
    congr 1
    exact Nat.mod_eq_of_lt (by norm_num; omega)
  · rw [List.append_assoc, List.drop_append_eq_append_drop, le_bytes_length,
      List.drop_of_length_le (by rw [le_bytes_length])]
    simp

/-- C10: for an address holding native bytes of length `L` (`L + 8` a valid
`na_size_t`), `na_ofi_addr_get_serialize_size` returns exactly `8 + L`; with
`buf_size ≥ 8 + L` (and a buffer of at least `buf_size` bytes)
`na_ofi_addr_serialize` succeeds and leaves in the buffer the reference
encoding, the 8 little-endian bytes of `L` followed by the `L` native bytes,
with everything from offset `8 + L` on as it was; with `buf_size < 8 + L` it
returns `NA_OVERFLOW` and the buffer is as it was. Neither changes the state. -/
theorem na_ofi_addr_serialize_eq_reference (E : Env) (w : World) (p : Nat) (a : na_ofi_addr)
    (blk buf : List Nat) (buf_size : Nat)
    (ha : w.addrs p = some a) (hb : a.addr = some blk) (hl : blk.length = a.addrlen)
    (h64 : a.addrlen + 8 < 2 ^ 64) (hbuf : buf_size ≤ buf.length) :
    na_ofi_addr_get_serialize_size E w p = .ok (w, 8 + a.addrlen) ∧
    (8 + a.addrlen ≤ buf_size →
      na_ofi_addr_serialize E w buf buf_size p
        = .ok (w, NA_SUCCESS, spec_serialized blk ++ buf.drop (8 + a.addrlen)) ∧
      (spec_serialized blk ++ buf.drop (8 + a.addrlen)).length = buf.length) ∧
    (buf_size < 8 + a.addrlen →
      na_ofi_addr_serialize E w buf buf_size p = .ok (w, NA_OVERFLOW, buf)) := by
  refine ⟨na_ofi_addr_get_serialize_size_ok ha hb h64, fun hsz => ⟨?_, ?_⟩, fun hsz => ?_⟩
  · exact na_ofi_addr_serialize_ok ha hb hl h64 hsz hbuf
  · simp [spec_serialized, le_bytes_length]; omega
  · exact na_ofi_addr_serialize_overflow ha hb h64 hsz

/-- C10, at the looked-up address of 127.0.0.1 port 4000 and a 32-byte buffer
of which 24 bytes are offered. -/
theorem na_ofi_addr_serialize_eq_reference_witness :
    (world_after_lookup.addrs 0 = some looked_up_addr ∧
      looked_up_addr.addr = some sample_sin_addr ∧
      sample_sin_addr.length = looked_up_addr.addrlen ∧
      looked_up_addr.addrlen + 8 < 2 ^ 64 ∧ 24 ≤ (List.replicate 32 255).length) ∧
    na_ofi_addr_get_serialize_size env_ok world_after_lookup 0
      = .ok (world_after_lookup, 8 + looked_up_addr.addrlen) ∧
    (8 + looked_up_addr.addrlen ≤ 24 →
      na_ofi_addr_serialize env_ok world_after_lookup (List.replicate 32 255) 24 0
        = .ok (world_after_lookup, NA_SUCCESS,
            spec_serialized sample_sin_addr
              ++ (List.replicate 32 255).drop (8 + looked_up_addr.addrlen)) ∧
      (spec_serialized sample_sin_addr
        ++ (List.replicate 32 255).drop (8 + looked_up_addr.addrlen)).length
          = (List.replicate 32 255).length) ∧
    (24 < 8 + looked_up_addr.addrlen →
      na_ofi_addr_serialize env_ok world_after_lookup (List.replicate 32 255) 24 0
        = .ok (world_after_lookup, NA_OVERFLOW, List.replicate 32 255)) :=
  ⟨⟨by decide, by decide, by decide, by decide, by decide⟩,
    na_ofi_addr_serialize_eq_reference env_ok world_after_lookup 0 looked_up_addr sample_sin_addr
      (List.replicate 32 255) 24 (by decide) (by decide) (by decide) (by decide) (by decide)⟩

/-- C9 fails as stated: the self address that `na_ofi_get_ep_addr` builds (PSM2
domain, endpoint 10.0.0.1 port 4000) has `ht_key` 0; serializing it into a
24-byte buffer and deserializing gives an address with the same 16 native
bytes and length but `ht_key` 0x0100000a0000a00f. -/
theorem self_addr_roundtrip_changes_ht_key :
    self_addr_roundtrip env_ok (world_of NA_OFI_PROV_PSM2 [])
      = Except.ok
        { get_ep_addr_ret := NA_SUCCESS,
          original := some
            { addr := some [2, 0, 15, 160, 10, 0, 0, 1, 0, 0, 0, 0, 0, 0, 0, 0], addrlen := 16,
              uri := some "psm2://10.0.0.1:4000", fi_addr := 0, ht_key := 0, refcount := 1,
              self := true, remove := false },
          serialize_ret := NA_SUCCESS,
          deserialize_ret := NA_SUCCESS,
          deserialized := some
            { addr := some [2, 0, 15, 160, 10, 0, 0, 1, 0, 0, 0, 0, 0, 0, 0, 0], addrlen := 16,
              uri := none, fi_addr := 7, ht_key := 72057636987641871, refcount := 1,
              self := false, remove := false } } := by
  decide

/-- C9 as amended: for an address object holding native bytes of length `L`
and a buffer of `buf_size ≥ 8 + L` bytes, whenever serialization followed by
`na_ofi_addr_deserialize` returns `NA_SUCCESS`, the new address has the same
native length and the same native bytes, and its `ht_key` is the key
`na_ofi_addr_to_key` derives from those bytes, which is the original `ht_key`
whenever the original one was derived from its bytes (as for every address
from a lookup or a deserialization); and when that key is non-zero and in the
hash table and allocations succeed, the round trip does return `NA_SUCCESS`
with the same length, bytes, `ht_key` and fabric-address handle. -/
theorem addr_roundtrip_preserves (E : Env) (w : World) (p : Nat) (a : na_ofi_addr)
    (blk buf : List Nat) (buf_size : Nat)
    (ha : w.addrs p = some a) (hb : a.addr = some blk) (hl : blk.length = a.addrlen)
    (hsz : 8 + a.addrlen ≤ buf_size) (hbuf : buf_size ≤ buf.length) (h64 : buf_size < 2 ^ 64) :
    (∀ w' q?, addr_roundtrip E w buf buf_size p = .ok (w', NA_SUCCESS, NA_SUCCESS, q?) →
      ∃ q b, q? = some q ∧ w'.addrs q = some b ∧ b.addrlen = a.addrlen ∧ b.addr = some blk ∧
        na_ofi_addr_to_key (na_ofi_prov_addr_format w.domain.prov_type) blk a.addrlen
          = .ok b.ht_key ∧
        (na_ofi_addr_to_key (na_ofi_prov_addr_format w.domain.prov_type) blk a.addrlen
          = .ok a.ht_key → b.ht_key = a.ht_key)) ∧
    ((∀ cs n, E.alloc cs n = true) →
      na_ofi_addr_to_key (na_ofi_prov_addr_format w.domain.prov_type) blk a.addrlen
        = .ok a.ht_key →
      a.ht_key ≠ 0 → hg_hash_table_lookup w.domain.addr_ht a.ht_key = some a.fi_addr →
      ∃ w' q b, addr_roundtrip E w buf buf_size p = .ok (w', NA_SUCCESS, NA_SUCCESS, some q) ∧
        w'.addrs q = some b ∧ b.addrlen = a.addrlen ∧ b.addr = some blk ∧
        b.ht_key = a.ht_key ∧ b.fi_addr = a.fi_addr) := by
  have hser := na_ofi_addr_serialize_ok (E := E) ha hb hl (by omega) hsz hbuf
  obtain ⟨hload, hblk⟩ := load_serialized blk (buf.drop (8 + a.addrlen)) (by omega)
  have hrt : addr_roundtrip E w buf buf_size p
      = (do
        let d ← na_ofi_addr_deserialize E w
          (spec_serialized blk ++ buf.drop (8 + a.addrlen)) buf_size
        pure (d.1, NA_SUCCESS, d.2.1, d.2.2)) := by
    unfold addr_roundtrip
    simp only [hser, bind, Except.bind, pure, Except.pure, ne_eq, not_true_eq_false, if_false]
  constructor
  · intro w' q? h
    rw [hrt] at h
    simp only [bind, Except.bind, pure, Except.pure] at h
    split at h
    · exact Except.noConfusion h
    · rename_i d hd
      obtain ⟨wd, rd, qd⟩ := d
      simp only [Except.ok.injEq, Prod.mk.injEq] at h
      obtain ⟨rfl, -, rfl, rfl⟩ := h
      obtain ⟨q, b, rfl, hbq, hbl, hba, -, hkey, -, -⟩ := na_ofi_addr_deserialize_inv hload hd
      rw [hblk] at hba hkey
      rw [hl] at hbl hkey
      refine ⟨q, b, rfl, hbq, hbl, hba, hkey, fun hk => ?_⟩
      rw [hkey] at hk
      injection hk
  · intro halloc hkey h0 hv
    have hlen : sizeof_addrlen + blk.length
        ≤ (spec_serialized blk ++ buf.drop (8 + a.addrlen)).length := by
      simp [spec_serialized, le_bytes_length, sizeof_addrlen]
    obtain ⟨w', hd, hq⟩ := na_ofi_addr_deserialize_hit (E := E) buf_size halloc hload
      hlen (by rw [hblk, hl]; exact hkey) h0 hv
    refine ⟨w', w.addr_next, _, ?_, hq, hl, by rw [hblk], rfl, rfl⟩
    rw [hrt]
    simp only [hd, bind, Except.bind, pure, Except.pure]

/-- C9 as amended, at the looked-up address of 127.0.0.1 port 4000 and a
24-byte buffer. -/
theorem addr_roundtrip_preserves_witness :
    (world_after_lookup.addrs 0 = some looked_up_addr ∧
      looked_up_addr.addr = some sample_sin_addr ∧
      sample_sin_addr.length = looked_up_addr.addrlen ∧
      8 + looked_up_addr.addrlen ≤ 24 ∧ 24 ≤ (List.replicate 24 0).length ∧ 24 < 2 ^ 64) ∧
    (addr_roundtrip env_ok world_after_lookup (List.replicate 24 0) 24 0).map
        (fun r => (r.2.1, r.2.2.1, r.2.2.2.bind r.1.addrs))
      = .ok (NA_SUCCESS, NA_SUCCESS, some { looked_up_addr with uri := none }) ∧
    (∀ w' q?, addr_roundtrip env_ok world_after_lookup (List.replicate 24 0) 24 0
        = .ok (w', NA_SUCCESS, NA_SUCCESS, q?) →
      ∃ q b, q? = some q ∧ w'.addrs q = some b ∧ b.addrlen = looked_up_addr.addrlen ∧
        b.addr = some sample_sin_addr ∧
        na_ofi_addr_to_key (na_ofi_prov_addr_format world_after_lookup.domain.prov_type)
          sample_sin_addr looked_up_addr.addrlen = .ok b.ht_key ∧
        (na_ofi_addr_to_key (na_ofi_prov_addr_format world_after_lookup.domain.prov_type)
          sample_sin_addr looked_up_addr.addrlen = .ok looked_up_addr.ht_key →
          b.ht_key = looked_up_addr.ht_key)) :=
  ⟨⟨by decide, by decide, by decide, by decide, by decide, by decide⟩, by decide,
    (addr_roundtrip_preserves env_ok world_after_lookup 0 looked_up_addr sample_sin_addr
      (List.replicate 24 0) 24 (by decide) (by decide) (by decide) (by decide) (by decide)
      (by decide)).1⟩

/-! ### Operations: frame lemmas -/

theorem close_fid_op_state (E : Env) (w : World) (present : Bool) (fid : Fid) :
    (close_fid E w present fid).1.op_state = w.op_state := by
  unfold close_fid
  split <;> rfl

theorem na_ofi_domain_close_op_state (E : Env) (w : World) :
    (na_ofi_domain_close E w).1.op_state = w.op_state := by
  unfold na_ofi_domain_close
  dsimp only
  have hf : ∀ (w1 : World) (d : na_ofi_domain),
      ({ w1 with domain := d } : World).op_state = w1.op_state := fun _ _ => rfl
  repeat' split
  all_goals simp only [hf, close_fid_op_state]

theorem na_ofi_addr_ht_remove_op_state (E : Env) (w : World) (fi_addr addr_key : Nat) :
    (na_ofi_addr_ht_remove E w fi_addr addr_key).1.op_state = w.op_state := by
  unfold na_ofi_addr_ht_remove
  dsimp only
  repeat' split
  all_goals rfl

theorem na_ofi_addr_decref_frame (E : Env) (w : World) (p : Nat) (a : na_ofi_addr)
    (ha : w.addrs p = some a) (h0 : 0 < a.refcount) :
    ∃ w1, na_ofi_addr_decref E w p = .ok w1 ∧ w1.op_state = w.op_state := by
  unfold na_ofi_addr_decref World.get_addr
  simp only [ha, bind, Except.bind, pure, Except.pure, gt_iff_lt, h0, not_true_eq_false,
    if_false]
  split
  · exact ⟨_, rfl, rfl⟩
  · refine ⟨_, rfl, ?_⟩
    show (na_ofi_domain_close E _).1.op_state = _
    rw [na_ofi_domain_close_op_state]
    split
    · rw [na_ofi_addr_ht_remove_op_state]; rfl
    · rfl

theorem na_ofi_complete_info_fields (o : na_ofi_op_id) :
    (na_ofi_complete_info o).1.status = o.status ∧ (na_ofi_complete_info o).1.ret = o.ret ∧
    (na_ofi_complete_info o).1.refcount = o.refcount ∧
    (na_ofi_complete_info o).1.msg_size = o.msg_size ∧
    (na_ofi_complete_info o).1.type = o.type ∧ (na_ofi_complete_info o).1.addr = o.addr ∧
    (na_ofi_complete_info o).1.context = o.context := by
  unfold na_ofi_complete_info
  split <;> try split
  all_goals exact ⟨rfl, rfl, rfl, rfl, rfl, rfl, rfl⟩

theorem na_ofi_complete_info_err (o : na_ofi_op_id) (e : na_return_t)
    (h : (na_ofi_complete_info o).2 = some e) : e = NA_MSGSIZE := by
  unfold na_ofi_complete_info at h
  split at h
  case h_3 =>
    split at h
    · injection h with h; exact h.symm
    · exact Option.noConfusion h
  all_goals exact Option.noConfusion h

theorem na_cb_completion_add_frame (E : Env) (w : World) (context : Option Nat) (op : Nat) :
    (na_cb_completion_add E w context op).1.ops = w.ops ∧
    (na_cb_completion_add E w context op).1.addrs = w.addrs ∧
    (na_cb_completion_add E w context op).1.queues = w.queues ∧
    (na_cb_completion_add E w context op).1.ctxs = w.ctxs ∧
    (na_cb_completion_add E w context op).1.domain = w.domain ∧
    (na_cb_completion_add E w context op).1.completions
      = (if E.na_cb_completion_add w.calls context op = NA_SUCCESS then op :: w.completions
         else w.completions) ∧
    (na_cb_completion_add E w context op).2 = E.na_cb_completion_add w.calls context op := by
  unfold na_cb_completion_add
  dsimp only
  split <;> exact ⟨rfl, rfl, rfl, rfl, rfl, rfl, rfl⟩

/-- The state `na_ofi_complete` leaves: it returns when the operation ID is
live and its address is NULL or a live address with a positive reference
count; the operation ID then has its old status with `NA_OFI_OP_COMPLETED`
or-ed in and as callback return value `op_ret`, or `NA_CANCELED` in the place of
`NA_SUCCESS` when the canceled bit is set; a completion is enqueued exactly when
the switch on the type raised no error and the NA layer accepted it. -/
theorem na_ofi_complete_ok (E : Env) (w : World) (op : Nat) (o : na_ofi_op_id)
    (op_ret : na_return_t) (ho : w.ops op = some o)
    (ha : ∀ p, o.addr = some p → ∃ a, w.addrs p = some a ∧ 0 < a.refcount) :
    ∃ w1 ret o1, na_ofi_complete E w op op_ret = .ok (w1, ret) ∧
      w1.ops op = some o1 ∧
      o1 = (na_ofi_complete_info { o with
        status := o.status ||| NA_OFI_OP_COMPLETED,
        ret := if (o.status ||| NA_OFI_OP_COMPLETED) &&& NA_OFI_OP_CANCELED ≠ 0 then
            (if op_ret = NA_SUCCESS then NA_CANCELED else op_ret) else op_ret }).1 ∧
      (∀ q, q ≠ op → w1.ops q = w.ops q) ∧ w1.queues = w.queues ∧
      (w1.completions = w.completions ∨
        (w1.completions = op :: w.completions ∧ ret = NA_SUCCESS)) ∧
      (ret = NA_SUCCESS → w1.completions = op :: w.completions) := by
  have hget : w.get_op op = .ok o := by simp only [World.get_op, ho]
  unfold na_ofi_complete
  simp only [hget, bind, Except.bind]
  generalize hx : na_ofi_complete_info _ = x
  have hops : ∀ q, q ≠ op → (w.set_op op (some x.1)).ops q = w.ops q := by
    intro q hq
    simp only [World.set_op, Function.update_noteq hq]
  have hsame : (w.set_op op (some x.1)).ops op = some x.1 := by
    simp only [World.set_op, Function.update_same]
  -- the state before the address is released
  have hc : (na_ofi_complete_add E (w.set_op op (some x.1)) op x).1.ops
        = (w.set_op op (some x.1)).ops ∧
      (na_ofi_complete_add E (w.set_op op (some x.1)) op x).1.addrs = w.addrs ∧
      (na_ofi_complete_add E (w.set_op op (some x.1)) op x).1.queues = w.queues ∧
      ((na_ofi_complete_add E (w.set_op op (some x.1)) op x).1.completions = w.completions ∨
        ((na_ofi_complete_add E (w.set_op op (some x.1)) op x).1.completions
            = op :: w.completions ∧
          (na_ofi_complete_add E (w.set_op op (some x.1)) op x).2 = NA_SUCCESS)) ∧
      ((na_ofi_complete_add E (w.set_op op (some x.1)) op x).2 = NA_SUCCESS →
        (na_ofi_complete_add E (w.set_op op (some x.1)) op x).1.completions
          = op :: w.completions) := by
    unfold na_ofi_complete_add
    split
    · rename_i e he
      refine ⟨rfl, rfl, rfl, Or.inl rfl, ?_⟩
      intro hs
      have := na_ofi_complete_info_err _ e (by rw [hx]; exact he)
      rw [this] at hs
      exact na_return_t.noConfusion hs
    · have hf := na_cb_completion_add_frame E (w.set_op op (some x.1)) x.1.context op
      refine ⟨hf.1, hf.2.1, hf.2.2.1, ?_, ?_⟩
      · rw [hf.2.2.2.2.2.1, hf.2.2.2.2.2.2]
        split
        · exact Or.inr ⟨rfl, by assumption⟩
        · exact Or.inl rfl
      · intro hs
        rw [hf.2.2.2.2.2.2] at hs
        rw [hf.2.2.2.2.2.1, if_pos hs]
        rfl
  generalize na_ofi_complete_add E (w.set_op op (some x.1)) op x = c at hc ⊢
  obtain ⟨hcops, hcaddrs, hcq, hcc, hcs⟩ := hc
  cases hp : o.addr with
  | none =>
    refine ⟨c.1, c.2, x.1, rfl, by rw [hcops, hsame], rfl, ?_, hcq, hcc, hcs⟩
    intro q hq; rw [hcops]; exact hops q hq
  | some p =>
    obtain ⟨a, hwa, hpos⟩ := ha p hp
    obtain ⟨w2, hdec, hst⟩ := na_ofi_addr_decref_frame E c.1 p a (by rw [hcaddrs]; exact hwa) hpos
    have h1 := congrArg (fun s => s.1) hst
    have h2 := congrArg (fun s => s.2.2.2.1) hst
    have h3 := congrArg (fun s => s.2.2.2.2) hst
    simp only [World.op_state] at h1 h2 h3
    simp only [hdec, pure, Except.pure]
    refine ⟨w2, c.2, x.1, rfl, by rw [h1, hcops, hsame], rfl, ?_, by rw [h2, hcq],
      by rw [h3]; exact hcc, by rw [h3]; exact hcs⟩
    intro q hq; rw [h1, hcops]; exact hops q hq

/-! ### Error paths of the post functions -/

theorem na_ofi_op_id_addref_ok {w : World} {p : Nat} {o : na_ofi_op_id}
    (ho : w.ops p = some o) (h0 : 0 < o.refcount) (h1 : o.refcount + 1 < 2 ^ 31) :
    na_ofi_op_id_addref w p
      = .ok (w.set_op p (some { o with refcount := o.refcount + 1 })) := by
  unfold na_ofi_op_id_addref World.get_op
  have hne : ¬ o.refcount = 0 := by omega
  simp only [ho, bind, Except.bind, pure, Except.pure, hne, if_false,
    wrap32_id (x := o.refcount + 1) (by omega) h1]

theorem na_ofi_op_id_decref_more {w : World} {p : Nat} {o : na_ofi_op_id}
    (ho : w.ops p = some o) (h0 : 1 < o.refcount) (h1 : o.refcount < 2 ^ 31) :
    na_ofi_op_id_decref w (some p)
      = .ok (w.set_op p (some { o with refcount := o.refcount - 1 })) := by
  unfold na_ofi_op_id_decref World.get_op
  have hpos : o.refcount > 0 := by omega
  have hw : wrap32 (o.refcount - 1) = o.refcount - 1 := wrap32_id (by omega) (by omega)
  have hne : o.refcount - 1 ≠ 0 := by omega
  simp only [ho, bind, Except.bind, pure, Except.pure, hpos, not_true_eq_false, if_false, hw,
    hne, ne_eq, not_false_eq_true, if_true]

theorem post_retry_once (E : Env) (context : Nat) (c : Call) (fuel : Nat) (w : World)
    (h1 : E.fabric_post w.calls c ≠ -FI_EAGAIN) :
    post_retry E context c (fuel + 1) w = .ok (w.log c, E.fabric_post w.calls c) := by
  unfold post_retry
  simp only [bind, Except.bind, h1, if_false, pure, Except.pure]

theorem set_op_set_op (w : World) (p : Nat) (x y : Option na_ofi_op_id) :
    (w.set_op p x).set_op p y = w.set_op p y := by
  simp only [World.set_op, Function.update_idem]

theorem get_op_set_op (w : World) (p : Nat) (o : na_ofi_op_id) :
    (w.set_op p (some o)).get_op p = .ok o := by
  simp only [World.get_op, World.set_op, Function.update_same]

theorem get_op_set_addr (w : World) (p q : Nat) (a : Option na_ofi_addr) :
    (w.set_addr q a).get_op p = w.get_op p := rfl

theorem get_op_log (w : World) (p : Nat) (c : Call) : (w.log c).get_op p = w.get_op p := rfl

theorem get_addr_set_op (w : World) (p q : Nat) (o : Option na_ofi_op_id) :
    (w.set_op p o).get_addr q = w.get_addr q := rfl

theorem get_addr_set_addr (w : World) (p : Nat) (a : na_ofi_addr) :
    (w.set_addr p (some a)).get_addr p = .ok a := by
  simp only [World.get_addr, World.set_addr, Function.update_same]

theorem set_addr_set_addr (w : World) (p : Nat) (x y : Option na_ofi_addr) :
    (w.set_addr p x).set_addr p y = w.set_addr p y := by
  simp only [World.set_addr, Function.update_idem]

theorem na_ofi_msg_send_unexpected_error (E : Env) (fuel : Nat) (w : World)
    (context callback arg buf buf_size plugin_data peer peer_id tag op : Nat)
    (ctx : na_ofi_context) (o : na_ofi_op_id) (a : na_ofi_addr)
    (hctx : w.ctxs context = some ctx) (ho : w.ops op = some o) (ho0 : 0 < o.refcount)
    (ho1 : o.refcount + 1 < 2 ^ 31) (ha : w.addrs peer = some a) (ha0 : 0 < a.refcount)
    (ha1 : a.refcount + 1 < 2 ^ 31)
    (h0 : E.fabric_post w.calls (Call.fi_tsend ctx.fi_tx buf buf_size plugin_data
      (fi_rx_addr a.fi_addr peer_id NA_OFI_SEP_RX_CTX_BITS) tag op) ≠ 0)
    (h1 : E.fabric_post w.calls (Call.fi_tsend ctx.fi_tx buf buf_size plugin_data
      (fi_rx_addr a.fi_addr peer_id NA_OFI_SEP_RX_CTX_BITS) tag op) ≠ -FI_EAGAIN) :
    ∃ w1, na_ofi_msg_send_unexpected E (fuel + 1) w context callback arg buf buf_size plugin_data peer peer_id tag (some op) = .ok (w1, NA_PROTOCOL_ERROR) ∧
      w1.ops op = some { o with
        context := some context, type := NA_CB_SEND_UNEXPECTED, callback := callback,
        arg := arg, addr := some peer, status := 0 } ∧
      w1.addrs peer = some a ∧ w1.queues = w.queues ∧ w1.completions = w.completions ∧
      w1.calls = (Call.fi_tsend ctx.fi_tx buf buf_size plugin_data
      (fi_rx_addr a.fi_addr peer_id NA_OFI_SEP_RX_CTX_BITS) tag op) :: w.calls := by
  have hgc : w.get_ctx context = .ok ctx := by simp only [World.get_ctx, hctx]
  have hga : w.get_addr peer = .ok a := by simp only [World.get_addr, ha]
  have kaddref : ∀ W : World, W.addrs peer = some a → na_ofi_addr_addref W peer
      = .ok (W.set_addr peer (some { a with refcount := a.refcount + 1 })) :=
    fun W h => na_ofi_addr_addref_ok h ha0 ha1
  have kpost : ∀ (W : World) (c : Call), W.calls = w.calls →
      E.fabric_post w.calls c ≠ -FI_EAGAIN →
      post_retry E context c (fuel + 1) W = .ok (W.log c, E.fabric_post w.calls c) := by
    intro W c hW hc
    have := post_retry_once E context c fuel W (by rw [hW]; exact hc)
    rw [hW] at this; exact this
  unfold na_ofi_msg_send_unexpected
  simp only [hgc, hga, bind, Except.bind, na_ofi_op_id_addref_ok ho ho0 ho1,
    get_op_set_op, set_op_set_op]
  rw [kaddref]
  swap
  · exact ha
  simp only [get_op_set_addr, get_op_set_op, get_addr_set_op, get_addr_set_addr]
  rw [kpost]
  swap
  · rfl
  swap
  · exact h1
  simp only [h0, ne_eq, not_false_eq_true, if_true]
  rw [na_ofi_addr_decref_more (a := { a with refcount := a.refcount + 1 })]
  swap
  · show Function.update _ _ _ _ = _
    rw [Function.update_same]
  swap
  · show (1 : Int) < a.refcount + 1
    omega
  swap
  · exact ha1
  simp only []
  rw [na_ofi_op_id_decref_more (o := { o with
      context := some context, type := NA_CB_SEND_UNEXPECTED, callback := callback,
        arg := arg, addr := some peer, status := 0,
      refcount := o.refcount + 1 })]
  swap
  · show Function.update _ _ _ _ = _
    rw [Function.update_same]
  swap
  · show (1 : Int) < o.refcount + 1
    omega
  swap
  · exact ho1
  refine ⟨_, rfl, ?_, ?_, rfl, rfl, rfl⟩
  · simp only [World.set_op, Function.update_same, add_sub_cancel_right]
  · simp only [World.set_op, World.set_addr, World.log, Function.update_same,
      add_sub_cancel_right]

theorem load_le_bytes_at (pre post : List Nat) (n v : Nat) :
    load (pre ++ (le_bytes n v ++ post)) pre.length n = .ok (v % 256 ^ n) := by
  unfold load
  have hlen : pre.length + n ≤ (pre ++ (le_bytes n v ++ post)).length := by
    simp [le_bytes_length]
  rw [if_pos hlen, List.drop_left, List.take_append_of_le_length (by rw [le_bytes_length]),
    List.take_of_length_le (by rw [le_bytes_length]), le_val_le_bytes]

theorem fill_length (n : Nat) (bs : List Nat) : (fill n bs).length = n := by
  simp [fill]

theorem na_ofi_mem_desc_bytes_length (d : na_ofi_mem_desc) : d.bytes.length = 32 := by
  simp [na_ofi_mem_desc.bytes, le_bytes_length, fill_length]

theorem na_ofi_mem_desc_of_bytes (d : na_ofi_mem_desc) :
    na_ofi_mem_desc.of_bytes d.bytes = .ok
      { fi_mr_key := d.fi_mr_key % 2 ^ 64, base := d.base % 2 ^ 64, size := d.size % 2 ^ 64,
        attr := d.attr % 256, pad := fill 7 d.pad } := by
  have hl := na_ofi_mem_desc_bytes_length d
  have h0 := load_le_bytes_at [] (le_bytes 8 d.base ++ (le_bytes 8 d.size ++
    (le_bytes 1 d.attr ++ fill 7 d.pad))) 8 d.fi_mr_key
  have h1 := load_le_bytes_at (le_bytes 8 d.fi_mr_key) (le_bytes 8 d.size ++
    (le_bytes 1 d.attr ++ fill 7 d.pad)) 8 d.base
  have h2 := load_le_bytes_at (le_bytes 8 d.fi_mr_key ++ le_bytes 8 d.base)
    (le_bytes 1 d.attr ++ fill 7 d.pad) 8 d.size
  have h3 := load_le_bytes_at (le_bytes 8 d.fi_mr_key ++ le_bytes 8 d.base ++ le_bytes 8 d.size)
    (fill 7 d.pad) 1 d.attr
  have hp : (d.bytes.drop 25).take 7 = fill 7 d.pad := by
    have : d.bytes = (le_bytes 8 d.fi_mr_key ++ le_bytes 8 d.base ++ le_bytes 8 d.size
        ++ le_bytes 1 d.attr) ++ fill 7 d.pad := rfl
    rw [this, List.drop_left' (by simp [le_bytes_length]),
      List.take_of_length_le (by rw [fill_length])]
  simp only [List.length_append, le_bytes_length, List.length_nil, List.nil_append,
    List.append_assoc] at h0 h1 h2 h3
  unfold na_ofi_mem_desc.of_bytes
  rw [hp, hl]
  simp only [na_ofi_mem_desc.bytes, List.append_assoc, h0, h1, h2, h3, bind, Except.bind]
  norm_num [pure, Except.pure]

/-- C11: for every memory handle `h` whose descriptor fields fit their C types
and every buffer of at least `na_ofi_mem_handle_get_serialize_size h` bytes,
`na_ofi_mem_handle_serialize` succeeds and, when the allocation of the new
handle succeeds, `na_ofi_mem_handle_deserialize` of its output succeeds with a
handle whose MR key, base, size and access flag equal those of `h` and whose
local MR handle is NULL; with a `buf_size` below the descriptor size both
return `NA_OVERFLOW`, the buffer is as it was, no handle is produced and
nothing is allocated. -/
theorem na_ofi_mem_handle_roundtrip (E : Env) (w : World) (h : na_ofi_mem_handle)
    (buf : List Nat) (buf_size : Nat)
    (hkey : h.desc.fi_mr_key < 2 ^ 64) (hbase : h.desc.base < 2 ^ 64)
    (hsize : h.desc.size < 2 ^ 64) (hattr : h.desc.attr < 2 ^ 8)
    (hbs : na_ofi_mem_handle_get_serialize_size h ≤ buf_size) (hlen : buf_size ≤ buf.length)
    (halloc : E.alloc w.calls sizeof_na_ofi_mem_handle = true) :
    (∃ out w1 d, na_ofi_mem_handle_serialize buf buf_size h = .ok (NA_SUCCESS, out) ∧
      na_ofi_mem_handle_deserialize E w out buf_size = .ok (w1, NA_SUCCESS, some d) ∧
      d.desc.fi_mr_key = h.desc.fi_mr_key ∧ d.desc.base = h.desc.base ∧
      d.desc.size = h.desc.size ∧ d.desc.attr = h.desc.attr ∧ d.fi_mr = none) ∧
    (∀ (b : List Nat) (small : Nat), small < sizeof_na_ofi_mem_desc →
      na_ofi_mem_handle_serialize b small h = .ok (NA_OVERFLOW, b) ∧
      na_ofi_mem_handle_deserialize E w b small = .ok (w, NA_OVERFLOW, none)) := by
  have hbs' : ¬ buf_size < sizeof_na_ofi_mem_desc := by
    simp only [na_ofi_mem_handle_get_serialize_size] at hbs; omega
  have h32 : sizeof_na_ofi_mem_desc = 32 := rfl
  constructor
  · have hser : na_ofi_mem_handle_serialize buf buf_size h
        = .ok (NA_SUCCESS, h.desc.bytes ++ buf.drop 32) := by
      unfold na_ofi_mem_handle_serialize memcpy
      rw [if_neg hbs']
      have hc : sizeof_na_ofi_mem_desc ≤ h.desc.bytes.length ∧
          sizeof_na_ofi_mem_desc ≤ buf.length := by
        rw [na_ofi_mem_desc_bytes_length, h32]; omega
      simp only [bind, Except.bind, if_pos hc, pure, Except.pure]
      rw [h32, List.take_of_length_le (by rw [na_ofi_mem_desc_bytes_length])]
    refine ⟨_, (alloc E w sizeof_na_ofi_mem_handle).1,
      ⟨⟨h.desc.fi_mr_key % 2 ^ 64, h.desc.base % 2 ^ 64, h.desc.size % 2 ^ 64,
        h.desc.attr % 256, fill 7 h.desc.pad⟩, none⟩, hser, ?_, ?_⟩
    · unfold na_ofi_mem_handle_deserialize
      rw [if_neg hbs']
      have hok : (alloc E w sizeof_na_ofi_mem_handle).2 = true := halloc
      simp only [hok, not_true_eq_false, if_false, h32]
      rw [List.take_left' (na_ofi_mem_desc_bytes_length _), na_ofi_mem_desc_of_bytes]
      rfl
    · simp only [Nat.mod_eq_of_lt hkey, Nat.mod_eq_of_lt hbase, Nat.mod_eq_of_lt hsize]
      refine ⟨trivial, trivial, trivial, ?_, trivial⟩
      exact Nat.mod_eq_of_lt hattr
  · intro b small hsmall
    constructor
    · unfold na_ofi_mem_handle_serialize
      rw [if_pos hsmall]; rfl
    · unfold na_ofi_mem_handle_deserialize
      rw [if_pos hsmall]; rfl

/-- C11, at the memory handle of a registered 4096-byte region and a 40-byte
buffer. -/
theorem na_ofi_mem_handle_roundtrip_witness :
    ((77 : Nat) < 2 ^ 64 ∧ (4096 : Nat) < 2 ^ 64 ∧ (3 : Nat) < 2 ^ 8 ∧
      na_ofi_mem_handle_get_serialize_size ⟨⟨77, 4096, 4096, 3, [0, 0, 0, 0, 0, 0, 0]⟩, some 5⟩
        ≤ 40 ∧
      40 ≤ (List.replicate 40 0).length ∧
      env_ok.alloc (world_of NA_OFI_PROV_SOCKETS []).calls sizeof_na_ofi_mem_handle = true) ∧
    ∃ out w1 d,
      na_ofi_mem_handle_serialize (List.replicate 40 0) 40
        ⟨⟨77, 4096, 4096, 3, [0, 0, 0, 0, 0, 0, 0]⟩, some 5⟩ = .ok (NA_SUCCESS, out) ∧
      na_ofi_mem_handle_deserialize env_ok (world_of NA_OFI_PROV_SOCKETS []) out 40
        = .ok (w1, NA_SUCCESS, some d) ∧
      d.desc.fi_mr_key = 77 ∧ d.desc.base = 4096 ∧ d.desc.size = 4096 ∧ d.desc.attr = 3 ∧
      d.fi_mr = none :=
  ⟨⟨by decide, by decide, by decide, by decide, by decide, rfl⟩,
    (na_ofi_mem_handle_roundtrip env_ok (world_of NA_OFI_PROV_SOCKETS [])
      ⟨⟨77, 4096, 4096, 3, [0, 0, 0, 0, 0, 0, 0]⟩, some 5⟩ (List.replicate 40 0) 40
      (by decide) (by decide) (by decide) (by decide) (by decide) (by decide) rfl).1⟩

theorem not64_ignore : not64 NA_OFI_UNEXPECTED_TAG_IGNORE = 0xFFFFFFFF <<< 32 := by decide
theorem not64_flag : not64 NA_OFI_EXPECTED_TAG_FLAG = 2 ^ 64 - (2 ^ 32 + 1) := by decide

theorem and_not64_ignore_of_lt (x : Nat) (h : x < 2 ^ 32) :
    x &&& not64 NA_OFI_UNEXPECTED_TAG_IGNORE = 0 := by
  rw [not64_ignore]
  apply Nat.eq_of_testBit_eq
  intro i
  rw [Nat.testBit_and, Nat.testBit_shiftLeft, Nat.zero_testBit]
  by_cases hi : 32 ≤ i
  · have : x.testBit i = false :=
      Nat.testBit_lt_two_pow (lt_of_lt_of_le h (Nat.pow_le_pow_right (by norm_num) hi))
    simp [this]
  · simp [hi]

theorem flag_or_and_not64_ignore (t : Nat) :
    (NA_OFI_EXPECTED_TAG_FLAG ||| t) &&& not64 NA_OFI_UNEXPECTED_TAG_IGNORE ≠ 0 := by
  intro h
  have hb : ((NA_OFI_EXPECTED_TAG_FLAG ||| t) &&& not64 NA_OFI_UNEXPECTED_TAG_IGNORE).testBit 32
      = true := by
    rw [not64_ignore, Nat.testBit_and, Nat.testBit_or, Nat.testBit_shiftLeft]
    have : NA_OFI_EXPECTED_TAG_FLAG.testBit 32 = true := by decide
    simp [this]
  rw [h, Nat.zero_testBit] at hb
  exact Bool.noConfusion hb

theorem flag_or_and_not64_flag (t : Nat) (h : t < 2 ^ 32) :
    (NA_OFI_EXPECTED_TAG_FLAG ||| t) &&& not64 NA_OFI_EXPECTED_TAG_FLAG = t := by
  rw [not64_flag]
  apply Nat.eq_of_testBit_eq
  intro i
  rw [Nat.testBit_and, Nat.testBit_or, Nat.testBit_two_pow_sub_succ (by norm_num)]
  have hf : NA_OFI_EXPECTED_TAG_FLAG = 2 ^ 32 := by decide
  rw [hf, Nat.testBit_two_pow]
  by_cases hi : 32 ≤ i
  · have : t.testBit i = false :=
      Nat.testBit_lt_two_pow (lt_of_lt_of_le h (Nat.pow_le_pow_right (by norm_num) hi))
    by_cases h32 : 32 = i <;> simp [this, h32]
  · have h32 : ¬ 32 = i := by omega
    have h64 : i < 64 := by omega
    simp [h32, h64]


theorem post_retry_calls (E : Env) (context : Nat) (c : Call) (fuel : Nat) (w w1 : World)
    (rc : Int) (h : post_retry E context c fuel w = .ok (w1, rc)) :
    ∃ cs, w1.calls = c :: cs := by
  induction fuel generalizing w with
  | zero => exact Except.noConfusion h
  | succ n ih =>
    unfold post_retry at h
    simp only [bind, Except.bind, pure, Except.pure] at h
    split at h
    · split at h
      · exact Except.noConfusion h
      · exact ih _ h
    · injection h with h
      injection h with h1 h2
      exact ⟨w.calls, by rw [← h1]; rfl⟩

theorem na_ofi_msg_send_expected_tag (E : Env) (fuel : Nat) (w w1 : World)
    (context callback arg buf buf_size plugin_data dest_addr dest_id tag : Nat)
    (op_id : Option Nat)
    (h : na_ofi_msg_send_expected E fuel w context callback arg buf buf_size plugin_data
      dest_addr dest_id tag op_id = .ok (w1, NA_SUCCESS)) :
    ∃ ep fi_addr op cs, w1.calls = Call.fi_tsend ep buf buf_size plugin_data fi_addr
      (NA_OFI_EXPECTED_TAG_FLAG ||| tag) op :: cs := by
  unfold na_ofi_msg_send_expected at h
  simp only [bind, Except.bind, pure, Except.pure] at h
  repeat' split at h
  all_goals first
    | exact Except.noConfusion h
    | (injection h with h; injection h with h1 h2; exact na_return_t.noConfusion h2)
    | (injection h with h; injection h with h1 h2; subst h1
       rename_i r hr _
       obtain ⟨cs, hcs⟩ := post_retry_calls _ _ _ _ _ r.1 r.2 hr
       exact ⟨_, _, _, cs, hcs⟩)

theorem na_ofi_msg_send_unexpected_tag (E : Env) (fuel : Nat) (w w1 : World)
    (context callback arg buf buf_size plugin_data dest_addr dest_id tag : Nat)
    (op_id : Option Nat)
    (h : na_ofi_msg_send_unexpected E fuel w context callback arg buf buf_size plugin_data
      dest_addr dest_id tag op_id = .ok (w1, NA_SUCCESS)) :
    ∃ ep fi_addr op cs, w1.calls = Call.fi_tsend ep buf buf_size plugin_data fi_addr tag op
      :: cs := by
  unfold na_ofi_msg_send_unexpected at h
  simp only [bind, Except.bind, pure, Except.pure] at h
  repeat' split at h
  all_goals first
    | exact Except.noConfusion h
    | (injection h with h; injection h with h1 h2; exact na_return_t.noConfusion h2)
    | (injection h with h; injection h with h1 h2; subst h1
       rename_i r hr _
       obtain ⟨cs, hcs⟩ := post_retry_calls _ _ _ _ _ r.1 r.2 hr
       exact ⟨_, _, _, cs, hcs⟩)

/-- C20: for every user tag `t` up to `na_ofi_msg_get_max_tag` (`2^30 - 1`):
a successful `na_ofi_msg_send_expected` posts `fi_tsend` with the fabric tag
`NA_OFI_EXPECTED_TAG_FLAG | t` and a successful `na_ofi_msg_send_unexpected`
with the tag `t` itself; on a receive event `na_ofi_cq_process_event`
dispatches the first tag to `na_ofi_cq_process_recv_expected_event`, where the
tag with the flag bit cleared is `t` again, and the second tag to
`na_ofi_cq_process_recv_unexpected_event`, whose check `tag > NA_OFI_MAX_TAG`
it passes; and the expected tag of `t` is the unexpected tag of no user
tag. -/
theorem tag_protocol_disambiguation (t : Nat) (ht : t ≤ na_ofi_msg_get_max_tag) :
    (∀ (E : Env) (fuel : Nat) (w w1 : World)
        (context callback arg buf buf_size plugin_data dest_addr dest_id : Nat)
        (op_id : Option Nat),
      (na_ofi_msg_send_expected E fuel w context callback arg buf buf_size plugin_data
          dest_addr dest_id t op_id = .ok (w1, NA_SUCCESS) →
        ∃ ep fi_addr op cs, w1.calls = Call.fi_tsend ep buf buf_size plugin_data fi_addr
          (NA_OFI_EXPECTED_TAG_FLAG ||| t) op :: cs) ∧
      (na_ofi_msg_send_unexpected E fuel w context callback arg buf buf_size plugin_data
          dest_addr dest_id t op_id = .ok (w1, NA_SUCCESS) →
        ∃ ep fi_addr op cs, w1.calls = Call.fi_tsend ep buf buf_size plugin_data fi_addr t op
          :: cs)) ∧
    (∀ (E : Env) (w : World) (context op : Nat) (ev : fi_cq_tagged_entry) (src_addr : Nat)
        (src_err_addr : Option (List Nat)) (src_err_addrlen : Nat),
      ev.flags &&& FI_SEND = 0 → ev.flags &&& FI_RECV ≠ 0 →
      (ev.tag = NA_OFI_EXPECTED_TAG_FLAG ||| t →
        na_ofi_cq_dispatch_event E w context op ev src_addr src_err_addr src_err_addrlen
          = na_ofi_cq_process_recv_expected_event w op ev.tag ev.len ∧
        ev.tag &&& not64 NA_OFI_EXPECTED_TAG_FLAG = t) ∧
      (ev.tag = t →
        na_ofi_cq_dispatch_event E w context op ev src_addr src_err_addr src_err_addrlen
          = na_ofi_cq_process_recv_unexpected_event E w context op src_addr src_err_addr
              src_err_addrlen ev.tag ev.len ∧
        ¬ ev.tag > NA_OFI_MAX_TAG)) ∧
    (∀ t2 : Nat, t2 ≤ na_ofi_msg_get_max_tag → NA_OFI_EXPECTED_TAG_FLAG ||| t ≠ t2) := by
  have hmax : na_ofi_msg_get_max_tag = 2 ^ 30 - 1 := by decide
  have ht32 : t < 2 ^ 32 := by rw [hmax] at ht; omega
  refine ⟨fun E fuel w w1 context callback arg buf buf_size plugin_data dest_addr dest_id op_id =>
    ⟨na_ofi_msg_send_expected_tag E fuel w w1 context callback arg buf buf_size plugin_data
      dest_addr dest_id t op_id,
     na_ofi_msg_send_unexpected_tag E fuel w w1 context callback arg buf buf_size plugin_data
      dest_addr dest_id t op_id⟩, ?_, ?_⟩
  · intro E w context op ev src_addr src_err_addr src_err_addrlen hs hr
    constructor
    · intro htag
      have hx := flag_or_and_not64_ignore t
      constructor
      · unfold na_ofi_cq_dispatch_event
        simp only [hs, ne_eq, not_true_eq_false, if_false, hr, not_false_eq_true, if_true, htag,
          hx]
      · rw [htag]; exact flag_or_and_not64_flag t ht32
    · intro htag
      have hx := and_not64_ignore_of_lt t ht32
      constructor
      · unfold na_ofi_cq_dispatch_event
        simp only [hs, ne_eq, not_true_eq_false, if_false, hr, not_false_eq_true, if_true, htag,
          hx]
      · rw [htag]
        have : NA_OFI_MAX_TAG = 2 ^ 30 - 1 := by decide
        rw [this]; rw [hmax] at ht; omega
  · intro t2 ht2 heq
    have h1 := flag_or_and_not64_ignore t
    have h2 := and_not64_ignore_of_lt t2 (by rw [hmax] at ht2; omega)
    rw [heq] at h1
    exact h1 h2

/-- C20, at the user tag 5: the expected fabric tag is `0x100000005`. -/
theorem tag_protocol_disambiguation_witness :
    (5 : Nat) ≤ na_ofi_msg_get_max_tag ∧
    (∀ (E : Env) (w : World) (context op : Nat) (ev : fi_cq_tagged_entry) (src_addr : Nat)
        (src_err_addr : Option (List Nat)) (src_err_addrlen : Nat),
      ev.flags &&& FI_SEND = 0 → ev.flags &&& FI_RECV ≠ 0 →
      (ev.tag = NA_OFI_EXPECTED_TAG_FLAG ||| 5 →
        na_ofi_cq_dispatch_event E w context op ev src_addr src_err_addr src_err_addrlen
          = na_ofi_cq_process_recv_expected_event w op ev.tag ev.len ∧
        ev.tag &&& not64 NA_OFI_EXPECTED_TAG_FLAG = 5) ∧
      (ev.tag = 5 →
        na_ofi_cq_dispatch_event E w context op ev src_addr src_err_addr src_err_addrlen
          = na_ofi_cq_process_recv_unexpected_event E w context op src_addr src_err_addr
              src_err_addrlen ev.tag ev.len ∧
        ¬ ev.tag > NA_OFI_MAX_TAG)) :=
  ⟨by decide, (tag_protocol_disambiguation 5 (by decide)).2.1⟩

/-! ### Cancel -/

theorem na_ofi_op_create_inv {E : Env} {w w1 : World} {p : Nat}
    (h : na_ofi_op_create E w = (w1, some p)) :
    w1.ops p = some fresh_op ∧ p = w.op_next ∧ w1.addrs = w.addrs ∧ w1.domain = w.domain ∧
    (∀ q, q ≠ p → w1.ops q = w.ops q) := by
  unfold na_ofi_op_create at h
  dsimp only at h
  split at h
  · injection h with h1 h2; exact Option.noConfusion h2
  · injection h with h1 h2
    injection h2 with h2
    subst h1
    have h3 : (alloc E w sizeof_na_ofi_op_id).1.op_next = w.op_next := rfl
    refine ⟨?_, by rw [← h2, h3], rfl, rfl, ?_⟩
    · show Function.update _ _ _ p = _
      rw [h2, Function.update_same]
    · intro q hq
      show Function.update _ _ _ q = _
      rw [h2, Function.update_noteq hq]
      rfl

/-- C12: for every operation ID whose status is not 0, `na_ofi_cancel` returns
`NA_SUCCESS` and leaves the whole state as it was (status, reference count,
log of fabric calls: no `fi_cancel`, no `fi_cq_signal`); this holds for the
operation ID that `na_ofi_op_create` returns, which has reference count 1 and
status `NA_OFI_OP_COMPLETED`; for an operation ID with status 0 whose type is
not `NA_CB_LOOKUP`, on a live context, `na_ofi_cancel` returns with the status
exactly `NA_OFI_OP_CANCELED`, the other fields as they were, and has called
`fi_cancel`. -/
theorem na_ofi_cancel_status (E : Env) (w : World) (context op : Nat) (o : na_ofi_op_id)
    (ho : w.ops op = some o) :
    (o.status ≠ 0 → na_ofi_cancel E w context op = .ok (w, NA_SUCCESS)) ∧
    (∀ (w0 : World), na_ofi_op_create E w0 = (w, some op) →
      o.refcount = 1 ∧ o.status = NA_OFI_OP_COMPLETED ∧
      na_ofi_cancel E w context op = .ok (w, NA_SUCCESS)) ∧
    (o.status = 0 → o.type ≠ NA_CB_LOOKUP → ∀ ctx, w.ctxs context = some ctx →
      ∃ w1 ret ep, na_ofi_cancel E w context op = .ok (w1, ret) ∧
        w1.ops op = some { o with status := NA_OFI_OP_CANCELED } ∧
        Call.fi_cancel ep op ∈ w1.calls ∧
        (ret = NA_SUCCESS ∨ ret = NA_PROTOCOL_ERROR)) := by
  have hget : w.get_op op = .ok o := by simp only [World.get_op, ho]
  have hnz : o.status ≠ 0 → na_ofi_cancel E w context op = .ok (w, NA_SUCCESS) := by
    intro hs
    unfold na_ofi_cancel
    simp only [hget, bind, Except.bind, hs, ne_eq, not_false_eq_true, if_true, pure, Except.pure]
  refine ⟨hnz, ?_, ?_⟩
  · intro w0 hc
    have h1 := (na_ofi_op_create_inv hc).1
    rw [ho] at h1
    injection h1 with h1
    subst h1
    exact ⟨rfl, rfl, hnz (by decide)⟩
  · intro hs ht ctx hctx
    have hgc : (w.set_op op (some { o with status := NA_OFI_OP_CANCELED })).get_ctx context
        = .ok ctx := by
      simp only [World.get_ctx, World.set_op, hctx]
    have hop : ∀ w2 : World, w2.ops = (w.set_op op (some { o with
        status := NA_OFI_OP_CANCELED })).ops →
        w2.ops op = some { o with status := NA_OFI_OP_CANCELED } := by
      intro w2 h2
      rw [h2]
      simp only [World.set_op, Function.update_same]
    unfold na_ofi_cancel
    simp only [hget, bind, Except.bind, hs, ne_eq, not_true_eq_false, if_false, ht, hgc,
      pure, Except.pure]
    have hep : ∃ ep, na_ofi_cancel_ep ctx o.type = some ep := by
      cases hty : o.type <;> first
        | exact absurd hty ht
        | exact ⟨_, rfl⟩
    obtain ⟨ep, hep⟩ := hep
    simp only [hep]
    split
    · split
      · exact ⟨_, _, ep, rfl, hop _ rfl, by simp [World.log], Or.inr rfl⟩
      · exact ⟨_, _, ep, rfl, hop _ rfl, by simp [World.log], Or.inl rfl⟩
    · exact ⟨_, _, ep, rfl, hop _ rfl, by simp [World.log], Or.inl rfl⟩

/-- C12, at the operation ID that `na_ofi_op_create` returns in a sockets
world, and at the same operation ID made active (status 0) as a posted
expected send. -/
theorem na_ofi_cancel_status_witness :
    ((na_ofi_op_create env_ok (world_of NA_OFI_PROV_SOCKETS [])).1.ops 0 = some fresh_op ∧
      fresh_op.status ≠ 0) ∧
    na_ofi_cancel env_ok (na_ofi_op_create env_ok (world_of NA_OFI_PROV_SOCKETS [])).1 0 0
      = .ok ((na_ofi_op_create env_ok (world_of NA_OFI_PROV_SOCKETS [])).1, NA_SUCCESS) :=
  ⟨⟨rfl, by decide⟩,
    (na_ofi_cancel_status env_ok (na_ofi_op_create env_ok (world_of NA_OFI_PROV_SOCKETS [])).1
      0 0 fresh_op rfl).1 (by decide)⟩

/-! ### Completion -/

theorem or_completed_and_canceled (s : Nat) :
    (s ||| NA_OFI_OP_COMPLETED) &&& NA_OFI_OP_CANCELED = s &&& NA_OFI_OP_CANCELED := by
  have h1 : NA_OFI_OP_COMPLETED &&& NA_OFI_OP_CANCELED = 0 := by decide
  rw [Nat.and_comm, Nat.and_or_distrib_left, Nat.and_comm NA_OFI_OP_CANCELED NA_OFI_OP_COMPLETED,
    h1, Nat.or_zero, Nat.and_comm]

theorem lor_land_self (s c : Nat) : (s ||| c) &&& s = s := by
  apply Nat.eq_of_testBit_eq
  intro i
  rw [Nat.testBit_and, Nat.testBit_or]
  cases s.testBit i <;> simp

/-- What `na_ofi_complete` records, for every result value: on a live operation
ID whose address is NULL or a live address with a positive reference count it
returns and leaves the status at the old status with `NA_OFI_OP_COMPLETED`
or-ed in, which clears no bit; the callback's return value it records is the
passed-in result when the canceled bit is not set, `NA_CANCELED` when the
canceled bit is set and the passed-in result is `NA_SUCCESS`, and the
passed-in result when the canceled bit is set and the passed-in result is
another code. -/
theorem na_ofi_complete_status_ret (E : Env) (w : World) (op : Nat) (o : na_ofi_op_id)
    (op_ret : na_return_t) (ho : w.ops op = some o)
    (ha : ∀ p, o.addr = some p → ∃ a, w.addrs p = some a ∧ 0 < a.refcount) :
    ∃ w1 ret o1, na_ofi_complete E w op op_ret = .ok (w1, ret) ∧ w1.ops op = some o1 ∧
      o1.status = o.status ||| NA_OFI_OP_COMPLETED ∧ o1.status &&& o.status = o.status ∧
      (o.status &&& NA_OFI_OP_CANCELED = 0 → o1.ret = op_ret) ∧
      (o.status &&& NA_OFI_OP_CANCELED ≠ 0 → op_ret = NA_SUCCESS → o1.ret = NA_CANCELED) ∧
      (o.status &&& NA_OFI_OP_CANCELED ≠ 0 → op_ret ≠ NA_SUCCESS → o1.ret = op_ret) := by
  obtain ⟨w1, ret, o1, hc, hops, ho1, -⟩ := na_ofi_complete_ok E w op o op_ret ho ha
  have hf := na_ofi_complete_info_fields { o with
    status := o.status ||| NA_OFI_OP_COMPLETED,
    ret := if (o.status ||| NA_OFI_OP_COMPLETED) &&& NA_OFI_OP_CANCELED ≠ 0 then
        (if op_ret = NA_SUCCESS then NA_CANCELED else op_ret) else op_ret }
  rw [← ho1] at hf
  have hst : o1.status = o.status ||| NA_OFI_OP_COMPLETED := hf.1
  have hret := hf.2.1
  simp only [or_completed_and_canceled] at hret
  refine ⟨w1, ret, o1, hc, hops, hst, by rw [hst]; exact lor_land_self _ _, ?_, ?_, ?_⟩
  · intro h0
    rw [hret]; simp only [h0, ne_eq, not_true_eq_false, if_false]
  · intro h0 hs
    rw [hret]; simp only [h0, ne_eq, not_false_eq_true, if_true, hs]
  · intro h0 hs
    rw [hret]; simp only [h0, ne_eq, not_false_eq_true, if_true, hs, if_false]

/-- C13: for every live operation ID whose address is NULL or a live address
with a positive reference count, `na_ofi_complete` returns and leaves the
status at the old status with `NA_OFI_OP_COMPLETED` or-ed in, which clears no
bit; for every result its callers pass (`NA_SUCCESS` from
`na_ofi_cq_process_event` and `na_ofi_addr_lookup`, `NA_CANCELED` from the
`FI_ECANCELED` case of `na_ofi_cq_read`) it records `NA_CANCELED` as the
callback's return value when the canceled bit is set, and for every result
value it records the passed-in result when the canceled bit is not set. -/
theorem na_ofi_complete_status_canceled (E : Env) (w : World) (op : Nat) (o : na_ofi_op_id)
    (op_ret : na_return_t) (ho : w.ops op = some o)
    (ha : ∀ p, o.addr = some p → ∃ a, w.addrs p = some a ∧ 0 < a.refcount) :
    ∃ w1 ret o1, na_ofi_complete E w op op_ret = .ok (w1, ret) ∧ w1.ops op = some o1 ∧
      o1.status = o.status ||| NA_OFI_OP_COMPLETED ∧ o1.status &&& o.status = o.status ∧
      (o.status &&& NA_OFI_OP_CANCELED ≠ 0 → op_ret = NA_SUCCESS ∨ op_ret = NA_CANCELED →
        o1.ret = NA_CANCELED) ∧
      (o.status &&& NA_OFI_OP_CANCELED = 0 → o1.ret = op_ret) := by
  obtain ⟨w1, ret, o1, hc, hops, hst, hclr, h0, h1, h2⟩ :=
    na_ofi_complete_status_ret E w op o op_ret ho ha
  refine ⟨w1, ret, o1, hc, hops, hst, hclr, fun hcan hret => ?_, h0⟩
  rcases hret with hs | hs
  · exact h1 hcan hs
  · rw [h2 hcan (by rw [hs]; decide), hs]

/-- C13, witness: a canceled expected send with peer address 0 completed with
the result `NA_SUCCESS` ends with status 3 (canceled and completed) and the
return value `NA_CANCELED`; the same operation not canceled ends with status 1
and the return value `NA_SUCCESS`. -/
theorem na_ofi_complete_status_canceled_witness :
    ((world_with NA_OFI_PROV_SOCKETS
        { fresh_op with type := NA_CB_SEND_EXPECTED, status := NA_OFI_OP_CANCELED,
                        addr := some 0 } []).ops 0
      = some { fresh_op with type := NA_CB_SEND_EXPECTED, status := NA_OFI_OP_CANCELED,
                             addr := some 0 }) ∧
    (∃ w1 ret o1,
      na_ofi_complete env_ok
        (world_with NA_OFI_PROV_SOCKETS
          { fresh_op with type := NA_CB_SEND_EXPECTED, status := NA_OFI_OP_CANCELED,
                          addr := some 0 } []) 0 NA_SUCCESS = .ok (w1, ret) ∧
      w1.ops 0 = some o1 ∧ o1.status = NA_OFI_OP_CANCELED ||| NA_OFI_OP_COMPLETED ∧
      o1.status &&& NA_OFI_OP_CANCELED = NA_OFI_OP_CANCELED ∧
      (NA_OFI_OP_CANCELED &&& NA_OFI_OP_CANCELED ≠ 0 →
        NA_SUCCESS = NA_SUCCESS ∨ NA_SUCCESS = NA_CANCELED → o1.ret = NA_CANCELED) ∧
      (NA_OFI_OP_CANCELED &&& NA_OFI_OP_CANCELED = 0 → o1.ret = NA_SUCCESS)) ∧
    (na_ofi_complete env_ok
        (world_with NA_OFI_PROV_SOCKETS
          { fresh_op with type := NA_CB_SEND_EXPECTED, status := NA_OFI_OP_CANCELED,
                          addr := some 0 } []) 0 NA_SUCCESS).map
        (fun r => (r.1.ops 0).map (fun o => (o.status, o.ret)))
      = .ok (some (3, NA_CANCELED)) ∧
    (na_ofi_complete env_ok
        (world_with NA_OFI_PROV_SOCKETS
          { fresh_op with type := NA_CB_SEND_EXPECTED, status := 0, addr := some 0 } [])
          0 NA_SUCCESS).map
        (fun r => (r.1.ops 0).map (fun o => (o.status, o.ret)))
      = .ok (some (1, NA_SUCCESS)) :=
  ⟨rfl, na_ofi_complete_status_canceled env_ok _ 0
    { fresh_op with type := NA_CB_SEND_EXPECTED, status := NA_OFI_OP_CANCELED, addr := some 0 }
    NA_SUCCESS rfl
    (fun p hp => ⟨peer_addr, by
      have : p = 0 := by injection hp with hp; exact hp.symm
      subst this; rfl, by decide⟩), by decide, by decide⟩

/-! ### At most one completion per post -/

/-- C14: for every CQ event whose operation ID has the completed bit set,
`na_ofi_cq_process_event` returns `NA_FAULT` and leaves the whole state as it
was (no completion enqueued, status and reference counts unchanged); and when
`fi_cq_readfrom` reports an error entry available and `fi_cq_readerr` delivers
an `FI_ECANCELED` entry for an operation ID that is completed or is not
canceled, `na_ofi_cq_read` returns `NA_FAULT` with no event, having only logged
the two fabric calls: operation IDs, addresses, queues and the completion
queue of the NA layer are as they were. -/
theorem na_ofi_cq_completed_op_fault (E : Env) (w : World) (context op : Nat)
    (o : na_ofi_op_id) (ho : w.ops op = some o) :
    (o.status &&& NA_OFI_OP_COMPLETED ≠ 0 →
      ∀ (ev : fi_cq_tagged_entry) (src_addr : Nat) (src_err_addr : Option (List Nat))
        (src_err_addrlen : Nat), ev.op_context = some op →
        na_ofi_cq_process_event E w context ev src_addr src_err_addr src_err_addrlen
          = .ok (w, NA_FAULT)) ∧
    (o.status &&& NA_OFI_OP_COMPLETED ≠ 0 ∨ o.status &&& NA_OFI_OP_CANCELED = 0 →
      ∀ (ctx : na_ofi_context) (max_count : Nat) (evs : List (fi_cq_tagged_entry × Nat))
        (e : fi_cq_err_entry) (src_err_addr : Option (List Nat)) (src_err_addrlen : Nat),
        w.ctxs context = some ctx →
        E.fi_cq_readfrom w.calls ctx.fi_cq max_count = (-FI_EAVAIL, evs) →
        E.fi_cq_readerr (Call.fi_cq_readfrom ctx.fi_cq max_count :: w.calls) ctx.fi_cq = (1, e) →
        e.err = FI_ECANCELED → e.op_context = some op →
        ∃ w1, na_ofi_cq_read E w context max_count src_err_addr src_err_addrlen
            = .ok (w1, ⟨NA_FAULT, [], src_err_addr, src_err_addrlen⟩) ∧
          w1.ops = w.ops ∧ w1.addrs = w.addrs ∧ w1.queues = w.queues ∧
          w1.completions = w.completions ∧ w1.domain = w.domain ∧
          w1.calls = Call.fi_cq_readerr ctx.fi_cq :: Call.fi_cq_readfrom ctx.fi_cq max_count
            :: w.calls) := by
  have hget : w.get_op op = .ok o := by simp only [World.get_op, ho]
  constructor
  · intro hs ev src_addr src_err_addr src_err_addrlen hev
    unfold na_ofi_cq_process_event
    simp only [hev, hget, bind, Except.bind, hs, ne_eq, not_false_eq_true, if_true, pure,
      Except.pure]
  · intro hs ctx max_count evs e src_err_addr src_err_addrlen hctx hrf hre herr hop
    have hgc : w.get_ctx context = .ok ctx := by simp only [World.get_ctx, hctx]
    have hcan : na_ofi_cq_read_canceled E
        ((w.log (Call.fi_cq_readfrom ctx.fi_cq max_count)).log (Call.fi_cq_readerr ctx.fi_cq))
        context (some op)
        = .ok (((w.log (Call.fi_cq_readfrom ctx.fi_cq max_count)).log
            (Call.fi_cq_readerr ctx.fi_cq)), NA_FAULT) := by
      unfold na_ofi_cq_read_canceled
      have hget2 : ((w.log (Call.fi_cq_readfrom ctx.fi_cq max_count)).log
          (Call.fi_cq_readerr ctx.fi_cq)).get_op op = .ok o := hget
      simp only [hget2, bind, Except.bind, pure, Except.pure]
      rcases hs with hs | hs
      · simp only [hs, ne_eq, not_false_eq_true, if_true]
      · split
        · rfl
        · simp only [hs, ne_eq, not_true_eq_false, not_false_eq_true, if_true]
    have h1 : ¬ ((-FI_EAVAIL : Int) > 0) := by decide
    have h2 : ¬ ((-FI_EAVAIL : Int) = -FI_EAGAIN) := by decide
    have hcalls : (w.log (Call.fi_cq_readfrom ctx.fi_cq max_count)).calls
        = Call.fi_cq_readfrom ctx.fi_cq max_count :: w.calls := rfl
    refine ⟨(w.log (Call.fi_cq_readfrom ctx.fi_cq max_count)).log
      (Call.fi_cq_readerr ctx.fi_cq), ?_, rfl, rfl, rfl, rfl, rfl, rfl⟩
    unfold na_ofi_cq_read
    simp only [hgc, bind, Except.bind, hrf, h1, if_false, h2, ne_eq, not_true_eq_false, hcalls,
      hre, herr, if_true, hop, hcan, pure, Except.pure]

/-- C14, at a completed operation ID (fresh from `na_ofi_op_create`): a send
event that names it, and an `FI_ECANCELED` error entry that names it. -/
theorem na_ofi_cq_completed_op_fault_witness :
    ((world_with NA_OFI_PROV_SOCKETS fresh_op []).ops 0 = some fresh_op ∧
      fresh_op.status &&& NA_OFI_OP_COMPLETED ≠ 0) ∧
    na_ofi_cq_process_event env_ok (world_with NA_OFI_PROV_SOCKETS fresh_op []) 0
      ⟨some 0, FI_SEND, 0, 0, 0, 0⟩ 7 none 0
      = .ok (world_with NA_OFI_PROV_SOCKETS fresh_op [], NA_FAULT) ∧
    ∃ w1, na_ofi_cq_read env_cq_canceled (world_with NA_OFI_PROV_SOCKETS fresh_op []) 0 16
        none 0 = .ok (w1, ⟨NA_FAULT, [], none, 0⟩) ∧
      w1.ops = (world_with NA_OFI_PROV_SOCKETS fresh_op []).ops ∧
      w1.addrs = (world_with NA_OFI_PROV_SOCKETS fresh_op []).addrs ∧
      w1.queues = (world_with NA_OFI_PROV_SOCKETS fresh_op []).queues ∧
      w1.completions = (world_with NA_OFI_PROV_SOCKETS fresh_op []).completions ∧
      w1.domain = (world_with NA_OFI_PROV_SOCKETS fresh_op []).domain ∧
      w1.calls = Call.fi_cq_readerr 3 :: Call.fi_cq_readfrom 3 16
        :: (world_with NA_OFI_PROV_SOCKETS fresh_op []).calls :=
  ⟨⟨rfl, by decide⟩,
    (na_ofi_cq_completed_op_fault env_ok (world_with NA_OFI_PROV_SOCKETS fresh_op []) 0 0
      fresh_op rfl).1 (by decide) ⟨some 0, FI_SEND, 0, 0, 0, 0⟩ 7 none 0 rfl,
    (na_ofi_cq_completed_op_fault env_cq_canceled (world_with NA_OFI_PROV_SOCKETS fresh_op [])
      0 0 fresh_op rfl).2 (Or.inl (by decide)) ⟨1, 1, 3, none, some 0, 0⟩ 16 []
      ⟨some 0, 0, 0, 0, 0, 0, 125, [], 0⟩ none 0 rfl rfl rfl rfl rfl⟩

/-! ### Expected receive events -/

/-- C15: for an expected receive posted with tag `T` (operation ID of type
`NA_CB_RECV_EXPECTED` with `tag = T`, not completed) and every receive event
that names it: when the tag of the event with the expected-flag bit cleared
differs from `T`, `na_ofi_cq_process_event` returns `NA_INVALID_ARG` and leaves
the whole state as it was (message length not recorded, completed bit not set,
no completion enqueued); when the event is classified as expected and its tag
with the flag bit cleared is `T`, the message length is recorded, the
completed bit is set, and with return code `NA_SUCCESS` the completion is
enqueued. -/
theorem na_ofi_cq_recv_expected_tag (E : Env) (w : World) (context op : Nat)
    (o : na_ofi_op_id) (ev : fi_cq_tagged_entry) (src_addr : Nat)
    (src_err_addr : Option (List Nat)) (src_err_addrlen : Nat)
    (ho : w.ops op = some o) (hty : o.type = NA_CB_RECV_EXPECTED)
    (hst : o.status &&& NA_OFI_OP_COMPLETED = 0) (hev : ev.op_context = some op)
    (hs : ev.flags &&& FI_SEND = 0) (hr : ev.flags &&& FI_RECV ≠ 0) :
    (ev.tag &&& not64 NA_OFI_EXPECTED_TAG_FLAG ≠ o.tag →
      na_ofi_cq_process_event E w context ev src_addr src_err_addr src_err_addrlen
        = .ok (w, NA_INVALID_ARG)) ∧
    (ev.tag &&& not64 NA_OFI_UNEXPECTED_TAG_IGNORE ≠ 0 →
      ev.tag &&& not64 NA_OFI_EXPECTED_TAG_FLAG = o.tag →
      (∀ p, o.addr = some p → ∃ a, w.addrs p = some a ∧ 0 < a.refcount) →
      ∃ w1 ret o1,
        na_ofi_cq_process_event E w context ev src_addr src_err_addr src_err_addrlen
          = .ok (w1, ret) ∧
        w1.ops op = some o1 ∧ o1.status = o.status ||| NA_OFI_OP_COMPLETED ∧
        o1.msg_size = ev.len ∧ (ret = NA_SUCCESS → w1.completions = op :: w.completions)) := by
  have hget : w.get_op op = .ok o := by simp only [World.get_op, ho]
  have hne : ¬ o.type ≠ NA_CB_RECV_EXPECTED := by rw [hty]; exact fun h => h rfl
  have hnu : o.type ≠ NA_CB_RECV_UNEXPECTED := by rw [hty]; decide
  constructor
  · intro htag
    have htag' : o.tag ≠ ev.tag &&& not64 NA_OFI_EXPECTED_TAG_FLAG := fun h => htag h.symm
    unfold na_ofi_cq_process_event na_ofi_cq_dispatch_event
      na_ofi_cq_process_recv_expected_event na_ofi_cq_process_recv_unexpected_event
    have hd : ¬ NA_CB_RECV_EXPECTED = NA_CB_RECV_UNEXPECTED := by decide
    by_cases hx : ev.tag &&& not64 NA_OFI_UNEXPECTED_TAG_IGNORE = 0
    · simp only [hev, hget, bind, Except.bind, hst, ne_eq, not_true_eq_false, if_false, hs, hr,
        not_false_eq_true, if_true, pure, Except.pure, hty, hd, hx]
      rfl
    · simp only [hev, hget, bind, Except.bind, hst, ne_eq, not_true_eq_false, if_false, hs, hr,
        not_false_eq_true, if_true, pure, Except.pure, hty, htag', hx]
      rfl
  · intro hx htag ha
    have hw' : (w.set_op op (some { o with msg_size := ev.len })).ops op
        = some { o with msg_size := ev.len } := by
      simp only [World.set_op, Function.update_same]
    obtain ⟨w1, ret, o1, hc, hops, ho1, -, -, -, hcomp⟩ :=
      na_ofi_complete_ok E (w.set_op op (some { o with msg_size := ev.len })) op
        { o with msg_size := ev.len } NA_SUCCESS hw' ha
    have hf := na_ofi_complete_info_fields { o with
      msg_size := ev.len, status := o.status ||| NA_OFI_OP_COMPLETED,
      ret := if (o.status ||| NA_OFI_OP_COMPLETED) &&& NA_OFI_OP_CANCELED ≠ 0 then
        (if NA_SUCCESS = NA_SUCCESS then NA_CANCELED else NA_SUCCESS) else NA_SUCCESS }
    rw [← ho1] at hf
    refine ⟨w1, ret, o1, ?_, hops, hf.1, hf.2.2.2.1, hcomp⟩
    unfold na_ofi_cq_process_event na_ofi_cq_dispatch_event
      na_ofi_cq_process_recv_expected_event
    simp only [hev, hget, bind, Except.bind, hst, ne_eq, not_true_eq_false, if_false, hs, hr,
      not_false_eq_true, if_true, pure, Except.pure, hty, htag, hx]
    rw [hty] at hc
    exact hc

/-- C15, at the expected receive that `na_ofi_msg_recv_expected` posted with
tag 5: an event with fabric tag `0x100000006` is turned away, one with
`0x100000005` and 16 bytes completes it. -/
theorem na_ofi_cq_recv_expected_tag_witness :
    (world_posted_recv_expected.ops 0 = some posted_recv_expected_op ∧
      posted_recv_expected_op.type = NA_CB_RECV_EXPECTED ∧
      posted_recv_expected_op.status &&& NA_OFI_OP_COMPLETED = 0 ∧
      FI_RECV &&& FI_SEND = 0 ∧ FI_RECV &&& FI_RECV ≠ 0) ∧
    na_ofi_cq_process_event env_ok world_posted_recv_expected 0
      ⟨some 0, FI_RECV, 16, 0, 0, 0x100000006⟩ 7 none 0
      = .ok (world_posted_recv_expected, NA_INVALID_ARG) :=
  ⟨⟨by decide, by decide, by decide, by decide, by decide⟩,
    (na_ofi_cq_recv_expected_tag env_ok world_posted_recv_expected 0 0 posted_recv_expected_op
      ⟨some 0, FI_RECV, 16, 0, 0, 0x100000006⟩ 7 none 0 (by decide) (by decide) (by decide) rfl
      (by decide) (by decide)).1 (by decide)⟩

/-! ### Unexpected receive events -/

/-- C16, the code at the failing input: for the unexpected receive that
`na_ofi_msg_recv_unexpected` posted with a 64-byte buffer, an event of 4096
bytes from source handle 7 is accepted: `na_ofi_cq_process_recv_unexpected_event`
returns `NA_SUCCESS` and records the message size 4096 next to the buffer size
64, and `na_ofi_cq_process_event` completes the operation with
`actual_buf_size` 4096 and enqueues the completion. -/
theorem na_ofi_cq_recv_unexpected_accepts_longer_event :
    (na_ofi_cq_process_recv_unexpected_event env_ok world_posted_recv_unexpected 0 0 7 none 0
        1 4096).map (fun r => (r.2, (r.1.ops 0).map (fun o => (o.buf_size, o.msg_size))))
      = .ok (NA_SUCCESS, some (64, 4096)) ∧
    (na_ofi_cq_process_event env_ok world_posted_recv_unexpected 0
        ⟨some 0, FI_RECV, 4096, 0, 0, 1⟩ 7 none 0).map
        (fun r => (r.2, (r.1.ops 0).map (fun o => (o.status, o.buf_size, o.cb_actual_buf_size)),
          r.1.completions))
      = .ok (NA_SUCCESS, some (NA_OFI_OP_COMPLETED, 64, 4096), [0]) := by
  constructor <;> decide

/-! ### Size of an unexpected send -/

theorem na_ofi_msg_send_unexpected_ret (E : Env) (fuel : Nat) (w w1 : World)
    (context callback arg buf buf_size plugin_data peer peer_id tag : Nat)
    (op_id : Option Nat) (ret : na_return_t)
    (h : na_ofi_msg_send_unexpected E fuel w context callback arg buf buf_size plugin_data
      peer peer_id tag op_id = .ok (w1, ret)) :
    ret = NA_INVALID_ARG ∨ ret = NA_PROTOCOL_ERROR ∨ ret = NA_SUCCESS := by
  unfold na_ofi_msg_send_unexpected at h
  simp only [bind, Except.bind, pure, Except.pure] at h
  repeat' split at h
  all_goals first
    | exact Except.noConfusion h
    | (injection h with h; injection h with h1 h2; subst h2; simp)

theorem na_ofi_msg_send_unexpected_posted (E : Env) (fuel : Nat) (w : World)
    (context callback arg buf buf_size plugin_data peer peer_id tag op : Nat)
    (ctx : na_ofi_context) (o : na_ofi_op_id) (a : na_ofi_addr)
    (hctx : w.ctxs context = some ctx) (ho : w.ops op = some o) (ho0 : 0 < o.refcount)
    (ho1 : o.refcount + 1 < 2 ^ 31) (ha : w.addrs peer = some a) (ha0 : 0 < a.refcount)
    (ha1 : a.refcount + 1 < 2 ^ 31)
    (h0 : E.fabric_post w.calls (Call.fi_tsend ctx.fi_tx buf buf_size plugin_data
      (fi_rx_addr a.fi_addr peer_id NA_OFI_SEP_RX_CTX_BITS) tag op) = 0) :
    ∃ w1, na_ofi_msg_send_unexpected E (fuel + 1) w context callback arg buf buf_size
        plugin_data peer peer_id tag (some op) = .ok (w1, NA_SUCCESS) ∧
      w1.calls = (Call.fi_tsend ctx.fi_tx buf buf_size plugin_data
        (fi_rx_addr a.fi_addr peer_id NA_OFI_SEP_RX_CTX_BITS) tag op) :: w.calls := by
  have hgc : w.get_ctx context = .ok ctx := by simp only [World.get_ctx, hctx]
  have h1 : E.fabric_post w.calls (Call.fi_tsend ctx.fi_tx buf buf_size plugin_data
      (fi_rx_addr a.fi_addr peer_id NA_OFI_SEP_RX_CTX_BITS) tag op) ≠ -FI_EAGAIN := by
    rw [h0]; decide
  have kaddref : ∀ W : World, W.addrs peer = some a → na_ofi_addr_addref W peer
      = .ok (W.set_addr peer (some { a with refcount := a.refcount + 1 })) :=
    fun W h => na_ofi_addr_addref_ok h ha0 ha1
  have kpost : ∀ (W : World) (c : Call), W.calls = w.calls →
      E.fabric_post w.calls c ≠ -FI_EAGAIN →
      post_retry E context c (fuel + 1) W = .ok (W.log c, E.fabric_post w.calls c) := by
    intro W c hW hc
    have := post_retry_once E context c fuel W (by rw [hW]; exact hc)
    rw [hW] at this; exact this
  unfold na_ofi_msg_send_unexpected
  simp only [hgc, bind, Except.bind, na_ofi_op_id_addref_ok ho ho0 ho1,
    get_op_set_op, set_op_set_op]
  rw [kaddref]
  swap
  · exact ha
  simp only [get_op_set_addr, get_op_set_op, get_addr_set_op, get_addr_set_addr]
  rw [kpost]
  swap
  · rfl
  swap
  · exact h1
  simp only [h0, ne_eq, not_true_eq_false, if_false, pure, Except.pure]
  exact ⟨_, rfl, rfl⟩

/-- C17 fails as stated: with a `buf_size` of 5000, above
`na_ofi_msg_get_max_unexpected_size` (4096), `na_ofi_msg_send_unexpected` posts
`fi_tsend` with the 5000 bytes and returns `NA_SUCCESS`; the operation ID is
active (status 0) and holds a new reference of the destination address. -/
theorem na_ofi_msg_send_unexpected_posts_oversized :
    na_ofi_msg_get_max_unexpected_size < 5000 ∧
    (na_ofi_msg_send_unexpected env_ok 1 (world_with NA_OFI_PROV_SOCKETS fresh_op [])
        0 0 0 0 5000 0 0 0 5 (some 0)).map
        (fun r => (r.2, r.1.calls, (r.1.ops 0).map (fun o => o.status),
          (r.1.addrs 0).map (fun a => a.refcount)))
      = .ok (NA_SUCCESS, [Call.fi_tsend 1 0 5000 0 7 5 0], some 0, some 2) := by
  constructor <;> decide

/-- C17, amended: `na_ofi_msg_send_unexpected` makes no check of `buf_size`.
For every `buf_size` (also above `na_ofi_msg_get_max_unexpected_size`), with a
live context, a valid operation ID and a live destination address, it posts
`fi_tsend` with that `buf_size`; it returns `NA_SUCCESS` when the fabric accepts
the post and `NA_PROTOCOL_ERROR` when the fabric rejects it with a result other
than `-FI_EAGAIN`; and on no input does it return `NA_MSGSIZE`. -/
theorem na_ofi_msg_send_unexpected_any_size (E : Env) (fuel : Nat) (w : World)
    (context callback arg buf buf_size plugin_data peer peer_id tag op : Nat)
    (ctx : na_ofi_context) (o : na_ofi_op_id) (a : na_ofi_addr)
    (hctx : w.ctxs context = some ctx) (ho : w.ops op = some o) (ho0 : 0 < o.refcount)
    (ho1 : o.refcount + 1 < 2 ^ 31) (ha : w.addrs peer = some a) (ha0 : 0 < a.refcount)
    (ha1 : a.refcount + 1 < 2 ^ 31) :
    (E.fabric_post w.calls (Call.fi_tsend ctx.fi_tx buf buf_size plugin_data
        (fi_rx_addr a.fi_addr peer_id NA_OFI_SEP_RX_CTX_BITS) tag op) = 0 →
      ∃ w1, na_ofi_msg_send_unexpected E (fuel + 1) w context callback arg buf buf_size
          plugin_data peer peer_id tag (some op) = .ok (w1, NA_SUCCESS) ∧
        w1.calls = (Call.fi_tsend ctx.fi_tx buf buf_size plugin_data
          (fi_rx_addr a.fi_addr peer_id NA_OFI_SEP_RX_CTX_BITS) tag op) :: w.calls) ∧
    (E.fabric_post w.calls (Call.fi_tsend ctx.fi_tx buf buf_size plugin_data
        (fi_rx_addr a.fi_addr peer_id NA_OFI_SEP_RX_CTX_BITS) tag op) ≠ 0 →
      E.fabric_post w.calls (Call.fi_tsend ctx.fi_tx buf buf_size plugin_data
        (fi_rx_addr a.fi_addr peer_id NA_OFI_SEP_RX_CTX_BITS) tag op) ≠ -FI_EAGAIN →
      ∃ w1, na_ofi_msg_send_unexpected E (fuel + 1) w context callback arg buf buf_size
          plugin_data peer peer_id tag (some op) = .ok (w1, NA_PROTOCOL_ERROR) ∧
        w1.calls = (Call.fi_tsend ctx.fi_tx buf buf_size plugin_data
          (fi_rx_addr a.fi_addr peer_id NA_OFI_SEP_RX_CTX_BITS) tag op) :: w.calls) ∧
    (∀ (n : Nat) (w0 w1 : World) (op_id : Option Nat) (ret : na_return_t),
      na_ofi_msg_send_unexpected E n w0 context callback arg buf buf_size plugin_data peer
        peer_id tag op_id = .ok (w1, ret) → ret ≠ NA_MSGSIZE) := by
  refine ⟨fun h0 => na_ofi_msg_send_unexpected_posted E fuel w context callback arg buf buf_size
      plugin_data peer peer_id tag op ctx o a hctx ho ho0 ho1 ha ha0 ha1 h0, ?_, ?_⟩
  · intro h0 h1
    obtain ⟨w1, hr, -, -, -, -, hc⟩ := na_ofi_msg_send_unexpected_error E fuel w context callback
      arg buf buf_size plugin_data peer peer_id tag op ctx o a hctx ho ho0 ho1 ha ha0 ha1 h0 h1
    exact ⟨w1, hr, hc⟩
  · intro n w0 w1 op_id ret h hm
    rcases na_ofi_msg_send_unexpected_ret E n w0 w1 context callback arg buf buf_size
      plugin_data peer peer_id tag op_id ret h with h | h | h <;>
    · rw [h] at hm; exact na_return_t.noConfusion hm

/-- C17 amended, at a 5000-byte send on a fresh operation ID to peer address 0
with a fabric that accepts every post. -/
theorem na_ofi_msg_send_unexpected_any_size_witness :
    ((world_with NA_OFI_PROV_SOCKETS fresh_op []).ctxs 0
        = some ⟨1, 1, 3, none, some 0, 0⟩ ∧
      (world_with NA_OFI_PROV_SOCKETS fresh_op []).ops 0 = some fresh_op ∧
      (world_with NA_OFI_PROV_SOCKETS fresh_op []).addrs 0 = some peer_addr ∧
      env_ok.fabric_post [] (Call.fi_tsend 1 0 5000 0
        (fi_rx_addr peer_addr.fi_addr 0 NA_OFI_SEP_RX_CTX_BITS) 5 0) = 0) ∧
    ∃ w1, na_ofi_msg_send_unexpected env_ok (0 + 1) (world_with NA_OFI_PROV_SOCKETS fresh_op [])
        0 0 0 0 5000 0 0 0 5 (some 0) = .ok (w1, NA_SUCCESS) ∧
      w1.calls = (Call.fi_tsend 1 0 5000 0
        (fi_rx_addr peer_addr.fi_addr 0 NA_OFI_SEP_RX_CTX_BITS) 5 0) :: [] :=
  ⟨⟨rfl, rfl, rfl, rfl⟩,
    (na_ofi_msg_send_unexpected_any_size env_ok 0 (world_with NA_OFI_PROV_SOCKETS fresh_op [])
      0 0 0 0 5000 0 0 0 5 0 ⟨1, 1, 3, none, some 0, 0⟩ fresh_op peer_addr rfl rfl (by decide)
      (by decide) rfl (by decide) (by decide)).1 rfl⟩

/-! ### Status after a failed post -/

/-- C19, the code at the failing input: on an operation ID fresh from
`na_ofi_op_create` (status `NA_OFI_OP_COMPLETED`) with a fabric that rejects
every post with `-FI_EIO`, each of the six post functions returns
`NA_PROTOCOL_ERROR` and leaves the status at 0, not at `NA_OFI_OP_COMPLETED`;
a `na_ofi_cancel` after the failed `na_ofi_msg_send_unexpected` then marks the
operation ID canceled and calls `fi_cancel` and `fi_cq_signal` for the
operation that was not posted. -/
theorem post_error_leaves_status_active :
    fresh_op.status = NA_OFI_OP_COMPLETED ∧
    (na_ofi_msg_send_unexpected env_post_fails 1 (world_with NA_OFI_PROV_SOCKETS fresh_op [])
        0 0 0 0 64 0 0 0 5 (some 0)).map (fun r => (r.2, (r.1.ops 0).map (fun o => o.status)))
      = .ok (NA_PROTOCOL_ERROR, some 0) ∧
    (na_ofi_msg_recv_unexpected env_post_fails 1 (world_with NA_OFI_PROV_SOCKETS fresh_op [])
        0 0 0 0 64 0 (some 0)).map (fun r => (r.2, (r.1.ops 0).map (fun o => o.status)))
      = .ok (NA_PROTOCOL_ERROR, some 0) ∧
    (na_ofi_msg_send_expected env_post_fails 1 (world_with NA_OFI_PROV_SOCKETS fresh_op [])
        0 0 0 0 64 0 0 0 5 (some 0)).map (fun r => (r.2, (r.1.ops 0).map (fun o => o.status)))
      = .ok (NA_PROTOCOL_ERROR, some 0) ∧
    (na_ofi_msg_recv_expected env_post_fails 1 (world_with NA_OFI_PROV_SOCKETS fresh_op [])
        0 0 0 0 64 0 0 0 5 (some 0)).map (fun r => (r.2, (r.1.ops 0).map (fun o => o.status)))
      = .ok (NA_PROTOCOL_ERROR, some 0) ∧
    (na_ofi_put env_post_fails 1 (world_with NA_OFI_PROV_SOCKETS fresh_op []) 0 0 0
        ⟨⟨11, 4096, 64, 3, []⟩, some 9⟩ 0 ⟨⟨12, 8192, 64, 3, []⟩, none⟩ 0 64 0 0 (some 0)).map
        (fun r => (r.2, (r.1.ops 0).map (fun o => o.status)))
      = .ok (NA_PROTOCOL_ERROR, some 0) ∧
    (na_ofi_get env_post_fails 1 (world_with NA_OFI_PROV_SOCKETS fresh_op []) 0 0 0
        ⟨⟨11, 4096, 64, 3, []⟩, some 9⟩ 0 ⟨⟨12, 8192, 64, 3, []⟩, none⟩ 0 64 0 0 (some 0)).map
        (fun r => (r.2, (r.1.ops 0).map (fun o => o.status)))
      = .ok (NA_PROTOCOL_ERROR, some 0) ∧
    ((na_ofi_msg_send_unexpected env_post_fails 1 (world_with NA_OFI_PROV_SOCKETS fresh_op [])
        0 0 0 0 64 0 0 0 5 (some 0)).bind (fun r => na_ofi_cancel env_post_fails r.1 0 0)).map
        (fun c => (c.2, (c.1.ops 0).map (fun o => o.status), c.1.calls))
      = .ok (NA_SUCCESS, some NA_OFI_OP_CANCELED,
          [Call.fi_cq_signal 3, Call.fi_cancel 1 0, Call.fi_tsend 1 0 64 0 7 5 0]) := by
  refine ⟨by decide, by decide, by decide, by decide, by decide, by decide, by decide, by decide⟩

/-! ### Contexts -/

theorem na_ofi_context_wait_obj_calls (E : Env) (w : World) (ctx : na_ofi_context) :
    ∃ cs, (na_ofi_context_wait_obj E w ctx).1 = { w with calls := cs } := by
  refine ⟨(na_ofi_context_wait_obj E w ctx).1.calls, ?_⟩
  unfold na_ofi_context_wait_obj
  simp only [fabric_call, World.log]
  split_ifs <;> rfl

theorem na_ofi_context_open_calls (E : Env) (w : World) (ctx : na_ofi_context) (id : Nat)
    (wait_obj : Nat) (wait_set : Option Nat) :
    ∃ cs, (na_ofi_context_open E w ctx id wait_obj wait_set).1 = { w with calls := cs } := by
  refine ⟨(na_ofi_context_open E w ctx id wait_obj wait_set).1.calls, ?_⟩
  unfold na_ofi_context_open
  simp only [fabric_call, World.log]
  split_ifs <;> rfl

theorem na_ofi_context_create_sep_calls (E : Env) (w : World) (ctx : na_ofi_context)
    (id : Nat) :
    ∃ cs, (na_ofi_context_create_sep E w ctx id).1 = { w with calls := cs } := by
  unfold na_ofi_context_create_sep
  split_ifs
  · exact ⟨w.calls, rfl⟩
  · obtain ⟨cs1, h1⟩ := na_ofi_context_wait_obj_calls E w ctx
    rcases hw : na_ofi_context_wait_obj E w ctx with ⟨w1, e | ⟨c, o, s⟩⟩
    · rw [hw] at h1
      exact ⟨cs1, h1⟩
    · rw [hw] at h1
      simp only at h1 ⊢
      obtain ⟨cs2, h2⟩ := na_ofi_context_open_calls E w1 c id o s
      rw [h2, h1]
      exact ⟨cs2, rfl⟩

theorem na_ofi_context_wait_obj_error (E : Env) (w : World) (ctx : na_ofi_context)
    (e : na_return_t) (h : (na_ofi_context_wait_obj E w ctx).2 = .error e) :
    e = NA_PROTOCOL_ERROR := by
  unfold na_ofi_context_wait_obj at h
  simp only [fabric_call, World.log] at h
  split_ifs at h
  all_goals first
    | exact Except.noConfusion h
    | exact (Except.error.inj h).symm

theorem na_ofi_context_open_error (E : Env) (w : World) (ctx : na_ofi_context) (id : Nat)
    (wait_obj : Nat) (wait_set : Option Nat) (e : na_return_t)
    (h : (na_ofi_context_open E w ctx id wait_obj wait_set).2 = .error e) :
    e = NA_PROTOCOL_ERROR := by
  unfold na_ofi_context_open at h
  simp only [fabric_call, World.log] at h
  split_ifs at h
  all_goals first
    | exact Except.noConfusion h
    | exact (Except.error.inj h).symm

theorem na_ofi_context_create_sep_error (E : Env) (w : World) (ctx : na_ofi_context)
    (id : Nat) (e : na_return_t) (h : (na_ofi_context_create_sep E w ctx id).2 = .error e) :
    e = NA_OPNOTSUPPORTED ∨ e = NA_PROTOCOL_ERROR := by
  unfold na_ofi_context_create_sep at h
  split_ifs at h
  · exact Or.inl (Except.error.inj h).symm
  · rcases hw : na_ofi_context_wait_obj E w ctx with ⟨w1, e1 | ⟨c, o, s⟩⟩
    · rw [hw] at h
      have := na_ofi_context_wait_obj_error E w ctx e1 (by rw [hw])
      exact Or.inr ((Except.error.inj h).symm.trans this)
    · rw [hw] at h
      exact Or.inr (na_ofi_context_open_error E w1 c id o s e h)

theorem na_ofi_context_create_sep_full (E : Env) (w : World) (ctx : na_ofi_context)
    (id : Nat) (h : w.contexts ≥ w.max_contexts ∨ id ≥ w.max_contexts) :
    na_ofi_context_create_sep E w ctx id = (w, .error NA_OPNOTSUPPORTED) := by
  unfold na_ofi_context_create_sep
  rw [if_pos h]

theorem na_ofi_context_create_sep_ok (E : Env) (w : World) (ctx c : na_ofi_context)
    (id : Nat) (h : (na_ofi_context_create_sep E w ctx id).2 = .ok c) :
    w.contexts < w.max_contexts ∧ id < w.max_contexts := by
  by_contra hn
  rw [na_ofi_context_create_sep_full E w ctx id (by omega)] at h
  exact Except.noConfusion h


theorem live_count_succ (f : Nat → Option na_ofi_context) (n : Nat) :
    ((List.range (n + 1)).filter (fun p => (f p).isSome)).length =
      ((List.range n).filter (fun p => (f p).isSome)).length + (if (f n).isSome then 1 else 0) := by
  rw [List.range_succ, List.filter_append, List.length_append]
  by_cases h : (f n).isSome <;> simp [h]

theorem live_count_congr (f g : Nat → Option na_ofi_context) (n : Nat)
    (h : ∀ p, p < n → (f p).isSome = (g p).isSome) :
    ((List.range n).filter (fun p => (f p).isSome)).length =
      ((List.range n).filter (fun p => (g p).isSome)).length := by
  induction n with
  | zero => rfl
  | succ n ih =>
    rw [live_count_succ, live_count_succ, ih (fun p hp => h p (by omega)), h n (by omega)]

theorem live_count_update_none (f : Nat → Option na_ofi_context) (n p : Nat) (hp : p < n)
    (hs : (f p).isSome) :
    ((List.range n).filter (fun q => ((Function.update f p none) q).isSome)).length + 1 =
      ((List.range n).filter (fun q => (f q).isSome)).length := by
  induction n with
  | zero => omega
  | succ n ih =>
    rw [live_count_succ, live_count_succ]
    by_cases hpn : p = n
    · subst hpn
      rw [live_count_congr (Function.update f p none) f p
        (fun q hq => by rw [Function.update_noteq (by omega)])]
      simp [hs]
    · rw [Function.update_noteq (Ne.symm hpn)]
      have := ih (by omega)
      omega

theorem live_contexts_same (w w1 : World) (hn : w1.ctx_next = w.ctx_next)
    (hc : ∀ p, p < w.ctx_next → (w1.ctxs p).isSome = (w.ctxs p).isSome) :
    live_contexts w1 = live_contexts w := by
  unfold live_contexts
  rw [hn]
  exact live_count_congr _ _ _ hc

theorem live_contexts_alloc (w w1 : World) (hn : w1.ctx_next = w.ctx_next + 1)
    (hc : ∀ p, p < w.ctx_next → (w1.ctxs p).isSome = (w.ctxs p).isSome) :
    live_contexts w1 = live_contexts w + (if (w1.ctxs w.ctx_next).isSome then 1 else 0) := by
  unfold live_contexts
  rw [hn, live_count_succ, live_count_congr _ _ _ hc]

theorem live_contexts_free (w w1 : World) (p : Nat) (hn : w1.ctx_next = w.ctx_next)
    (hc : w1.ctxs = Function.update w.ctxs p none) (hp : p < w.ctx_next)
    (hs : (w.ctxs p).isSome) :
    live_contexts w1 + 1 = live_contexts w := by
  unfold live_contexts
  rw [hn, hc]
  exact live_count_update_none _ _ _ hp hs


theorem na_ofi_context_create_sep_ctxs (E : Env) (w : World) (ctx : na_ofi_context)
    (id : Nat) : (na_ofi_context_create_sep E w ctx id).1.ctxs = w.ctxs := by
  obtain ⟨cs, h⟩ := na_ofi_context_create_sep_calls E w ctx id
  rw [h]

theorem na_ofi_context_create_sep_ctx_next (E : Env) (w : World) (ctx : na_ofi_context)
    (id : Nat) : (na_ofi_context_create_sep E w ctx id).1.ctx_next = w.ctx_next := by
  obtain ⟨cs, h⟩ := na_ofi_context_create_sep_calls E w ctx id
  rw [h]

theorem na_ofi_context_create_sep_contexts (E : Env) (w : World) (ctx : na_ofi_context)
    (id : Nat) : (na_ofi_context_create_sep E w ctx id).1.contexts = w.contexts := by
  obtain ⟨cs, h⟩ := na_ofi_context_create_sep_calls E w ctx id
  rw [h]

theorem na_ofi_context_create_sep_max_contexts (E : Env) (w : World) (ctx : na_ofi_context)
    (id : Nat) : (na_ofi_context_create_sep E w ctx id).1.max_contexts = w.max_contexts := by
  obtain ⟨cs, h⟩ := na_ofi_context_create_sep_calls E w ctx id
  rw [h]

theorem na_ofi_context_create_sep_endpoint (E : Env) (w : World) (ctx : na_ofi_context)
    (id : Nat) : (na_ofi_context_create_sep E w ctx id).1.endpoint = w.endpoint := by
  obtain ⟨cs, h⟩ := na_ofi_context_create_sep_calls E w ctx id
  rw [h]

/-- The effect of `na_ofi_context_create` on a scalable endpoint on the
bookkeeping of contexts. -/
theorem na_ofi_context_create_sep_world (E : Env) (w : World) (id : Nat)
    (hsep : w.endpoint.sep = true) :
    (na_ofi_context_create E w id).1.endpoint = w.endpoint ∧
    (na_ofi_context_create E w id).1.max_contexts = w.max_contexts ∧
    ((∃ c, (na_ofi_context_create E w id).2 = (NA_SUCCESS, some w.ctx_next) ∧
        (na_ofi_context_create E w id).1.ctx_next = w.ctx_next + 1 ∧
        (na_ofi_context_create E w id).1.ctxs = Function.update w.ctxs w.ctx_next (some c) ∧
        w.contexts < w.max_contexts ∧ id < w.max_contexts ∧
        (na_ofi_context_create E w id).1.contexts = (w.contexts + 1) % 256) ∨
     ((na_ofi_context_create E w id).2.1 ≠ NA_SUCCESS ∧
        (na_ofi_context_create E w id).2.2 = none ∧
        w.ctx_next ≤ (na_ofi_context_create E w id).1.ctx_next ∧
        (na_ofi_context_create E w id).1.ctx_next ≤ w.ctx_next + 1 ∧
        (na_ofi_context_create E w id).1.ctxs = w.ctxs ∧
        (na_ofi_context_create E w id).1.contexts = w.contexts)) := by
  unfold na_ofi_context_create
  simp only [alloc, World.log, na_ofi_with_sep, hsep]
  by_cases ha : E.alloc w.calls sizeof_na_ofi_context = true
  · simp only [ha, not_true_eq_false, if_false]
    by_cases hq : E.alloc (Call.alloc sizeof_na_ofi_context :: w.calls) sizeof_na_ofi_queue = true
    · simp only [hq, not_true_eq_false, if_false]
      split
      · rename_i e he
        have hne : e ≠ NA_SUCCESS := by
          rcases na_ofi_context_create_sep_error E _ _ id e he with h | h <;> rw [h] <;> decide
        refine ⟨?_, ?_, Or.inr ⟨hne, rfl, ?_, ?_, ?_, ?_⟩⟩
        all_goals simp only [na_ofi_context_create_sep_ctxs, na_ofi_context_create_sep_ctx_next,
          na_ofi_context_create_sep_contexts, na_ofi_context_create_sep_max_contexts,
          na_ofi_context_create_sep_endpoint]
        all_goals first | rfl | omega
      · rename_i c hc
        have hok := na_ofi_context_create_sep_ok E _ _ _ id hc
        refine ⟨?_, ?_, Or.inl ⟨c, rfl, ?_, ?_, hok.1, hok.2, ?_⟩⟩
        all_goals simp only [World.set_ctx, na_ofi_context_create_sep_ctxs,
          na_ofi_context_create_sep_ctx_next,
          na_ofi_context_create_sep_contexts, na_ofi_context_create_sep_max_contexts,
          na_ofi_context_create_sep_endpoint]
    · simp only [hq, Bool.false_eq_true, not_false_eq_true, if_true]
      refine ⟨?_, ?_, Or.inr ⟨?_, ?_, ?_, ?_, ?_, ?_⟩⟩
      all_goals first | trivial | rfl | decide | simp
  · simp only [ha, Bool.false_eq_true, not_false_eq_true, if_true]
    refine ⟨?_, ?_, Or.inr ⟨?_, ?_, ?_, ?_, ?_, ?_⟩⟩
    all_goals first | trivial | rfl | decide | simp

theorem close_hdl_calls (E : Env) (w : World) (hdl : Nat) :
    ∃ cs, (close_hdl E w hdl).1 = { w with calls := cs } := by
  unfold close_hdl
  simp only [fabric_call, World.log]
  split_ifs
  · exact ⟨_, rfl⟩
  · exact ⟨w.calls, rfl⟩

theorem close_hdl_ctxs (E : Env) (w : World) (hdl : Nat) :
    (close_hdl E w hdl).1.ctxs = w.ctxs := by
  obtain ⟨cs, h⟩ := close_hdl_calls E w hdl
  rw [h]

theorem close_hdl_ctx_next (E : Env) (w : World) (hdl : Nat) :
    (close_hdl E w hdl).1.ctx_next = w.ctx_next := by
  obtain ⟨cs, h⟩ := close_hdl_calls E w hdl
  rw [h]

theorem close_hdl_contexts (E : Env) (w : World) (hdl : Nat) :
    (close_hdl E w hdl).1.contexts = w.contexts := by
  obtain ⟨cs, h⟩ := close_hdl_calls E w hdl
  rw [h]

theorem close_hdl_max_contexts (E : Env) (w : World) (hdl : Nat) :
    (close_hdl E w hdl).1.max_contexts = w.max_contexts := by
  obtain ⟨cs, h⟩ := close_hdl_calls E w hdl
  rw [h]

theorem close_hdl_endpoint (E : Env) (w : World) (hdl : Nat) :
    (close_hdl E w hdl).1.endpoint = w.endpoint := by
  obtain ⟨cs, h⟩ := close_hdl_calls E w hdl
  rw [h]

theorem close_hdl_queues (E : Env) (w : World) (hdl : Nat) :
    (close_hdl E w hdl).1.queues = w.queues := by
  obtain ⟨cs, h⟩ := close_hdl_calls E w hdl
  rw [h]

theorem close_wait_calls (E : Env) (w : World) (fi_wait : Option Nat) :
    ∃ cs, (close_wait E w fi_wait).1 = { w with calls := cs } := by
  unfold close_wait
  simp only [fabric_call, World.log]
  cases fi_wait with
  | some hdl => exact ⟨_, rfl⟩
  | none => exact ⟨w.calls, rfl⟩

theorem close_wait_ctxs (E : Env) (w : World) (fi_wait : Option Nat) :
    (close_wait E w fi_wait).1.ctxs = w.ctxs := by
  obtain ⟨cs, h⟩ := close_wait_calls E w fi_wait
  rw [h]

theorem close_wait_ctx_next (E : Env) (w : World) (fi_wait : Option Nat) :
    (close_wait E w fi_wait).1.ctx_next = w.ctx_next := by
  obtain ⟨cs, h⟩ := close_wait_calls E w fi_wait
  rw [h]

theorem close_wait_contexts (E : Env) (w : World) (fi_wait : Option Nat) :
    (close_wait E w fi_wait).1.contexts = w.contexts := by
  obtain ⟨cs, h⟩ := close_wait_calls E w fi_wait
  rw [h]

theorem close_wait_max_contexts (E : Env) (w : World) (fi_wait : Option Nat) :
    (close_wait E w fi_wait).1.max_contexts = w.max_contexts := by
  obtain ⟨cs, h⟩ := close_wait_calls E w fi_wait
  rw [h]

theorem close_wait_endpoint (E : Env) (w : World) (fi_wait : Option Nat) :
    (close_wait E w fi_wait).1.endpoint = w.endpoint := by
  obtain ⟨cs, h⟩ := close_wait_calls E w fi_wait
  rw [h]

theorem close_wait_queues (E : Env) (w : World) (fi_wait : Option Nat) :
    (close_wait E w fi_wait).1.queues = w.queues := by
  obtain ⟨cs, h⟩ := close_wait_calls E w fi_wait
  rw [h]

/-- What `na_ofi_context_close` leaves alone: all but the log and the handles
of the context it closes. -/
theorem na_ofi_context_close_frame (E : Env) (w : World) (p : Nat) (ctx : na_ofi_context) :
    (na_ofi_context_close E w p ctx).1.endpoint = w.endpoint ∧
    (na_ofi_context_close E w p ctx).1.max_contexts = w.max_contexts ∧
    (na_ofi_context_close E w p ctx).1.ctx_next = w.ctx_next ∧
    (na_ofi_context_close E w p ctx).1.contexts = w.contexts ∧
    (na_ofi_context_close E w p ctx).1.queues = w.queues ∧
    (∀ q, q ≠ p → (na_ofi_context_close E w p ctx).1.ctxs q = w.ctxs q) ∧
    ((w.ctxs p).isSome → ((na_ofi_context_close E w p ctx).1.ctxs p).isSome) := by
  unfold na_ofi_context_close
  simp only []
  split_ifs
  all_goals
    simp only [World.set_ctx, close_hdl_ctxs, close_hdl_ctx_next, close_hdl_contexts,
      close_hdl_max_contexts, close_hdl_endpoint, close_hdl_queues, close_wait_ctxs,
      close_wait_ctx_next, close_wait_contexts, close_wait_max_contexts, close_wait_endpoint,
      close_wait_queues]
    refine ⟨trivial, trivial, trivial, trivial, trivial, ?_, ?_⟩
    · intro q hq
      simp [Function.update_noteq hq]
    · intro h
      simp [h]


/-- The effect of `na_ofi_context_destroy` on a scalable endpoint. -/
theorem na_ofi_context_destroy_sep_world (E : Env) (w : World) (context : Nat)
    (r : World × na_return_t) (hsep : w.endpoint.sep = true)
    (h : na_ofi_context_destroy E w context = .ok r) :
    ∃ ctx q l, w.ctxs context = some ctx ∧ ctx.unexpected_op_queue = some q ∧
      w.queues q = some l ∧
      ((l ≠ [] ∧ r = (w, NA_BUSY)) ∨
       (l = [] ∧ r.2 = NA_PROTOCOL_ERROR ∧ r.1.endpoint = w.endpoint ∧
          r.1.max_contexts = w.max_contexts ∧ r.1.ctx_next = w.ctx_next ∧
          r.1.contexts = w.contexts ∧ r.1.queues = w.queues ∧
          (∀ p, p ≠ context → r.1.ctxs p = w.ctxs p) ∧ (r.1.ctxs context).isSome) ∨
       (l = [] ∧ r.2 = NA_SUCCESS ∧ r.1.endpoint = w.endpoint ∧
          r.1.max_contexts = w.max_contexts ∧ r.1.ctx_next = w.ctx_next ∧
          r.1.contexts = (w.contexts + 256 - 1) % 256 ∧
          r.1.queues = Function.update w.queues q none ∧
          (∀ p, p ≠ context → r.1.ctxs p = w.ctxs p) ∧ r.1.ctxs context = none)) := by
  unfold na_ofi_context_destroy at h
  simp only [World.get_ctx, World.get_queue, na_ofi_with_sep, hsep, bind, Except.bind, pure,
    Except.pure] at h
  rcases hc : w.ctxs context with _ | ctx
  · rw [hc] at h
    exact Except.noConfusion h
  rw [hc] at h
  simp only [if_true] at h
  rcases hq : ctx.unexpected_op_queue with _ | q
  · rw [hq] at h
    exact Except.noConfusion h
  rw [hq] at h
  simp only at h
  rcases hl : w.queues q with _ | l
  · rw [hl] at h
    exact Except.noConfusion h
  rw [hl] at h
  simp only at h
  refine ⟨ctx, q, l, rfl, hq, hl, ?_⟩
  have hf := na_ofi_context_close_frame E w context ctx
  by_cases hne : l = []
  · simp only [hne, ne_eq, not_true_eq_false, if_false] at h
    by_cases hcl : (na_ofi_context_close E w context ctx).2 = true
    · simp only [hcl, not_true_eq_false, if_false] at h
      have h := (Except.ok.inj h).symm
      subst h
      refine Or.inr (Or.inr ⟨hne, rfl, hf.1, hf.2.1, hf.2.2.1, ?_, ?_, ?_, ?_⟩)
      · simp only [World.set_ctx, hf.2.2.2.1]
      · simp only [World.set_ctx, hf.2.2.2.2.1]
      · intro p hp
        simp only [World.set_ctx, Function.update_noteq hp]
        exact hf.2.2.2.2.2.1 p hp
      · simp only [World.set_ctx, Function.update_same]
    · simp only [hcl, Bool.false_eq_true, not_false_eq_true, if_true] at h
      have h := (Except.ok.inj h).symm
      subst h
      exact Or.inr (Or.inl ⟨hne, rfl, hf.1, hf.2.1, hf.2.2.1, hf.2.2.2.1, hf.2.2.2.2.1,
        hf.2.2.2.2.2.1, hf.2.2.2.2.2.2 (by simp [hc])⟩)
  · simp only [ne_eq, hne, not_false_eq_true, if_true] at h
    exact Or.inl ⟨hne, (Except.ok.inj h).symm⟩


/-- One call of the context interface on a scalable endpoint keeps the
bookkeeping of contexts: the count is the number of live contexts and is at
most `max_contexts`. -/
theorem context_call_sep_inv (E : Env) (w : World) (c : ContextCall) (r : World × na_return_t)
    (hsep : w.endpoint.sep = true) (hmax : w.max_contexts < 256)
    (hfresh : ∀ p, w.ctx_next ≤ p → w.ctxs p = none)
    (hcount : w.contexts = live_contexts w) (hle : w.contexts ≤ w.max_contexts)
    (h : context_call E w c = .ok r) :
    r.1.endpoint.sep = true ∧ r.1.max_contexts = w.max_contexts ∧
    (∀ p, r.1.ctx_next ≤ p → r.1.ctxs p = none) ∧
    r.1.contexts = live_contexts r.1 ∧ r.1.contexts ≤ r.1.max_contexts := by
  cases c with
  | create id =>
    simp only [context_call, pure, Except.pure] at h
    have h := (Except.ok.inj h).symm
    subst h
    obtain ⟨hep, hmx, hcase⟩ := na_ofi_context_create_sep_world E w id hsep
    simp only
    refine ⟨by rw [hep]; exact hsep, hmx, ?_⟩
    rcases hcase with ⟨c, _, hn, hc, hlt, _, hcnt⟩ | ⟨_, _, hn1, hn2, hc, hcnt⟩
    · refine ⟨?_, ?_, ?_⟩
      · intro p hp
        rw [hc, Function.update_noteq (by omega)]
        exact hfresh p (by omega)
      · rw [hcnt, live_contexts_alloc w (na_ofi_context_create E w id).1 hn (fun p hp => by
          rw [hc, Function.update_noteq (by omega)]), hc, Function.update_same, ← hcount]
        simp only [Option.isSome_some, if_true]
        omega
      · rw [hcnt, hmx]
        omega
    · refine ⟨?_, ?_, ?_⟩
      · intro p hp
        rw [hc]
        exact hfresh p (by omega)
      · rw [hcnt, hcount]
        rcases Nat.eq_or_lt_of_le hn1 with heq | hlt
        · exact (live_contexts_same w _ heq.symm (fun p _ => by rw [hc])).symm
        · rw [live_contexts_alloc w (na_ofi_context_create E w id).1 (by omega)
            (fun p _ => by rw [hc]), hc, hfresh _ (le_refl _)]
          rfl
      · rw [hcnt, hmx]
        exact hle
  | destroy context =>
    simp only [context_call] at h
    obtain ⟨ctx, q, l, hctx, _, _, hcase⟩ := na_ofi_context_destroy_sep_world E w context r hsep h
    have hlt : context < w.ctx_next := by
      by_contra hn
      rw [hfresh context (by omega)] at hctx
      exact Option.noConfusion hctx
    rcases hcase with ⟨_, hr⟩ | ⟨_, _, hep, hmx, hn, hcnt, _, hc, hs⟩ |
      ⟨_, _, hep, hmx, hn, hcnt, _, hc, hs⟩
    · subst hr
      exact ⟨hsep, rfl, hfresh, hcount, hle⟩
    · refine ⟨by rw [hep]; exact hsep, hmx, ?_, ?_, by rw [hcnt, hmx]; exact hle⟩
      · intro p hp
        rw [hc p (by omega)]
        exact hfresh p (by omega)
      · rw [hcnt, hcount]
        refine (live_contexts_same w _ hn (fun p _ => ?_)).symm
        by_cases hp : p = context
        · subst hp
          rw [hs, hctx]
          rfl
        · rw [hc p hp]
    · have hfun : r.1.ctxs = Function.update w.ctxs context none := by
        funext p
        by_cases hp : p = context
        · subst hp
          rw [hs, Function.update_same]
        · rw [hc p hp, Function.update_noteq hp]
      have hlive := live_contexts_free w r.1 context hn hfun hlt (by rw [hctx]; rfl)
      refine ⟨by rw [hep]; exact hsep, hmx, ?_, ?_, ?_⟩
      · intro p hp
        by_cases hpc : p = context
        · subst hpc
          exact hs
        · rw [hc p hpc]
          exact hfresh p (by omega)
      · rw [hcnt]
        omega
      · rw [hcnt, hmx]
        omega

/-! ### The number of contexts -/

/-- C21, as stated, fails on a basic endpoint: in the world after
initialization with the default `max_contexts` 1, whose one context exists
(count 1), `na_ofi_context_create` succeeds again and raises the count to 2. -/
theorem na_ofi_context_create_basic_exceeds_max :
    (world_of NA_OFI_PROV_SOCKETS []).endpoint.sep = false ∧
    (world_of NA_OFI_PROV_SOCKETS []).contexts = 1 ∧
    (world_of NA_OFI_PROV_SOCKETS []).max_contexts = 1 ∧
    (na_ofi_context_create env_ok (world_of NA_OFI_PROV_SOCKETS []) 0).2 = (NA_SUCCESS, some 1) ∧
    (na_ofi_context_create env_ok (world_of NA_OFI_PROV_SOCKETS []) 0).1.contexts = 2 ∧
    (na_ofi_context_create env_ok (world_of NA_OFI_PROV_SOCKETS []) 0).1.max_contexts = 1 := by
  decide

/-- The world after a sequence of calls of the context interface on a scalable
endpoint keeps the bookkeeping of contexts. -/
theorem context_calls_sep_inv (E : Env) (calls : List ContextCall) :
    ∀ (w w1 : World), w.endpoint.sep = true → w.max_contexts < 256 →
    (∀ p, w.ctx_next ≤ p → w.ctxs p = none) →
    w.contexts = live_contexts w → w.contexts ≤ w.max_contexts →
    context_calls E w calls = .ok w1 →
    w1.endpoint.sep = true ∧ w1.max_contexts = w.max_contexts ∧
    w1.contexts = live_contexts w1 ∧ w1.contexts ≤ w1.max_contexts := by
  induction calls with
  | nil =>
    intro w w1 hsep _ _ hcount hle h
    simp only [context_calls, pure, Except.pure] at h
    have h := Except.ok.inj h
    subst h
    exact ⟨hsep, rfl, hcount, hle⟩
  | cons c cs ih =>
    intro w w1 hsep hmax hfresh hcount hle h
    simp only [context_calls, bind, Except.bind] at h
    rcases hc : context_call E w c with e | r
    · rw [hc] at h
      exact Except.noConfusion h
    · rw [hc] at h
      simp only at h
      obtain ⟨h1, h2, h3, h4, h5⟩ := context_call_sep_inv E w c r hsep hmax hfresh hcount hle hc
      obtain ⟨k1, k2, k3, k4⟩ := ih r.1 w1 h1 (by rw [h2]; exact hmax) h3 h4 h5 h
      exact ⟨k1, by rw [k2, h2], k3, k4⟩

/-- C21, amended: on a scalable endpoint whose context count is the number of
live contexts and at most `max_contexts`, after every sequence of
`na_ofi_context_create` / `na_ofi_context_destroy` calls the count is still
the number of live contexts and at most `max_contexts`; and there
`na_ofi_context_create` fails, writing no context and leaving the count as it
is, whenever the count has reached `max_contexts` or the id is not below
`max_contexts` (with `NA_OPNOTSUPPORTED` when its two allocations succeed).
On a basic endpoint `na_ofi_context_create` succeeds whenever its allocation
does, and increments the count (modulo 256). -/
theorem na_ofi_context_count_bounded_sep (E : Env) (w w1 : World) (calls : List ContextCall)
    (hsep : w.endpoint.sep = true) (hmax : w.max_contexts < 256)
    (hfresh : ∀ p, w.ctx_next ≤ p → w.ctxs p = none)
    (hcount : w.contexts = live_contexts w) (hle : w.contexts ≤ w.max_contexts)
    (hrun : context_calls E w calls = .ok w1) :
    w1.max_contexts = w.max_contexts ∧ w1.contexts = live_contexts w1 ∧
    w1.contexts ≤ w1.max_contexts ∧
    (∀ id, w1.contexts ≥ w1.max_contexts ∨ id ≥ w1.max_contexts →
      (na_ofi_context_create E w1 id).2.1 ≠ NA_SUCCESS ∧
      (na_ofi_context_create E w1 id).2.2 = none ∧
      (na_ofi_context_create E w1 id).1.contexts = w1.contexts ∧
      (E.alloc w1.calls sizeof_na_ofi_context = true →
        E.alloc (Call.alloc sizeof_na_ofi_context :: w1.calls) sizeof_na_ofi_queue = true →
        (na_ofi_context_create E w1 id).2.1 = NA_OPNOTSUPPORTED)) ∧
    (∀ (wb : World) id, wb.endpoint.sep = false →
      E.alloc wb.calls sizeof_na_ofi_context = true →
      (na_ofi_context_create E wb id).2 = (NA_SUCCESS, some wb.ctx_next) ∧
      (na_ofi_context_create E wb id).1.contexts = (wb.contexts + 1) % 256) := by
  obtain ⟨k1, k2, k3, k4⟩ := context_calls_sep_inv E calls w w1 hsep hmax hfresh hcount hle hrun
  refine ⟨k2, k3, k4, ?_, ?_⟩
  · intro id hid
    obtain ⟨_, _, hcase⟩ := na_ofi_context_create_sep_world E w1 id k1
    rcases hcase with ⟨c, _, _, _, hlt, hidlt, _⟩ | ⟨hne, hnone, _, _, _, hcnt⟩
    · omega
    · refine ⟨hne, hnone, hcnt, ?_⟩
      intro ha hq
      unfold na_ofi_context_create
      simp only [alloc, World.log, na_ofi_with_sep, k1, ha, hq, not_true_eq_false, if_false]
      have key : ∀ (W : World) (C : na_ofi_context), W.contexts = w1.contexts →
          W.max_contexts = w1.max_contexts →
          na_ofi_context_create_sep E W C id = (W, .error NA_OPNOTSUPPORTED) := by
        intro W C h1 h2
        exact na_ofi_context_create_sep_full E W C id (by rw [h1, h2]; exact hid)
      rw [key]
      · rfl
      · rfl
  · intro wb id hb ha
    unfold na_ofi_context_create
    simp only [alloc, World.log, na_ofi_with_sep, hb, ha, not_true_eq_false, if_false,
      Bool.false_eq_true, not_false_eq_true, if_true, World.set_ctx]
    exact ⟨trivial, trivial⟩

/-- C21, witness: `sample_context_calls` on a scalable endpoint with
`max_contexts` 2. -/
theorem na_ofi_context_count_bounded_sep_witness :
    world_sep_after_calls.max_contexts = (world_sep 0 2).max_contexts ∧
    world_sep_after_calls.contexts = live_contexts world_sep_after_calls ∧
    world_sep_after_calls.contexts ≤ world_sep_after_calls.max_contexts ∧
    (∀ id, world_sep_after_calls.contexts ≥ world_sep_after_calls.max_contexts ∨
        id ≥ world_sep_after_calls.max_contexts →
      (na_ofi_context_create env_ok world_sep_after_calls id).2.1 ≠ NA_SUCCESS ∧
      (na_ofi_context_create env_ok world_sep_after_calls id).2.2 = none ∧
      (na_ofi_context_create env_ok world_sep_after_calls id).1.contexts =
        world_sep_after_calls.contexts ∧
      (env_ok.alloc world_sep_after_calls.calls sizeof_na_ofi_context = true →
        env_ok.alloc (Call.alloc sizeof_na_ofi_context :: world_sep_after_calls.calls)
          sizeof_na_ofi_queue = true →
        (na_ofi_context_create env_ok world_sep_after_calls id).2.1 = NA_OPNOTSUPPORTED)) ∧
    (∀ (wb : World) id, wb.endpoint.sep = false →
      env_ok.alloc wb.calls sizeof_na_ofi_context = true →
      (na_ofi_context_create env_ok wb id).2 = (NA_SUCCESS, some wb.ctx_next) ∧
      (na_ofi_context_create env_ok wb id).1.contexts = (wb.contexts + 1) % 256) :=
  na_ofi_context_count_bounded_sep env_ok (world_sep 0 2) world_sep_after_calls
    sample_context_calls (by decide) (by decide) (fun _ _ => rfl) (by decide) (by decide)
    (by rfl)

/-! ### Destroying a context whose unexpected-op queue is not empty -/

/-- C22, as stated, fails on a basic endpoint: in the world where
`na_ofi_msg_recv_unexpected` posted operation ID 0 on context 0 (the queue
holds it), `na_ofi_context_destroy` returns `NA_SUCCESS`, decrements the
context count from 1 to 0 and frees the context; the operation stays in the
queue of the endpoint. -/
theorem na_ofi_context_destroy_basic_ignores_queue :
    world_posted_recv_unexpected.endpoint.sep = false ∧
    world_posted_recv_unexpected.queues 0 = some [0] ∧
    world_posted_recv_unexpected.contexts = 1 ∧
    (na_ofi_context_destroy env_ok world_posted_recv_unexpected 0).map
        (fun r => (r.2, r.1.contexts, r.1.ctxs 0, r.1.queues 0))
      = .ok (NA_SUCCESS, 0, none, some [0]) := by
  decide

/-- C22, amended: on a scalable endpoint, for a live context whose
unexpected-op queue is `l`: when `l` is not empty `na_ofi_context_destroy`
returns `NA_BUSY` and leaves the whole state as it was (count not
decremented, context not freed); when `l` is empty it returns `NA_SUCCESS` or
`NA_PROTOCOL_ERROR`; and whenever it returns `NA_SUCCESS` the queue was empty,
the context and its queue are freed and the count is decremented. On a basic
endpoint it returns `NA_SUCCESS` for every live context, without looking at
the queue. -/
theorem na_ofi_context_destroy_sep_busy (E : Env) (w : World) (context q : Nat)
    (ctx : na_ofi_context) (l : List Nat) (hsep : w.endpoint.sep = true)
    (hctx : w.ctxs context = some ctx) (hq : ctx.unexpected_op_queue = some q)
    (hl : w.queues q = some l) :
    (l ≠ [] → na_ofi_context_destroy E w context = .ok (w, NA_BUSY)) ∧
    (∃ r, na_ofi_context_destroy E w context = .ok r ∧
      (l = [] → r.2 = NA_SUCCESS ∨ r.2 = NA_PROTOCOL_ERROR) ∧
      (r.2 = NA_SUCCESS → l = [] ∧ r.1.ctxs context = none ∧ r.1.queues q = none ∧
        r.1.contexts = (w.contexts + 256 - 1) % 256)) ∧
    (∀ (wb : World) (c : Nat) (cb : na_ofi_context), wb.endpoint.sep = false →
      wb.ctxs c = some cb →
      ∃ wb1, na_ofi_context_destroy E wb c = .ok (wb1, NA_SUCCESS) ∧ wb1.ctxs c = none ∧
        wb1.queues = wb.queues ∧ wb1.contexts = (wb.contexts + 256 - 1) % 256) := by
  have hex : ∃ r, na_ofi_context_destroy E w context = .ok r := by
    unfold na_ofi_context_destroy
    simp only [World.get_ctx, World.get_queue, na_ofi_with_sep, hsep, bind, Except.bind, pure,
      Except.pure, hctx, hq, hl, if_true]
    split_ifs <;> exact ⟨_, rfl⟩
  obtain ⟨r, hr⟩ := hex
  obtain ⟨ctx1, q1, l1, h1, h2, h3, hcase⟩ :=
    na_ofi_context_destroy_sep_world E w context r hsep hr
  rw [hctx] at h1
  have h1 := Option.some.inj h1
  subst h1
  rw [hq] at h2
  have h2 := Option.some.inj h2
  subst h2
  rw [hl] at h3
  have h3 := Option.some.inj h3
  subst h3
  refine ⟨?_, ⟨r, hr, ?_, ?_⟩, ?_⟩
  · intro hne
    rcases hcase with ⟨_, h⟩ | ⟨h, _⟩ | ⟨h, _⟩
    · rw [hr, h]
    · exact absurd h hne
    · exact absurd h hne
  · intro he
    rcases hcase with ⟨h, _⟩ | ⟨_, h, _⟩ | ⟨_, h, _⟩
    · exact absurd he h
    · exact Or.inr h
    · exact Or.inl h
  · intro hs
    rcases hcase with ⟨_, h⟩ | ⟨_, h, _⟩ | ⟨h, _, _, _, _, hc, hqs, _, hcx⟩
    · rw [h] at hs
      exact na_return_t.noConfusion hs
    · rw [h] at hs
      exact na_return_t.noConfusion hs
    · refine ⟨h, hcx, ?_, hc⟩
      rw [hqs, Function.update_same]
  · intro wb c cb hb hc
    unfold na_ofi_context_destroy
    simp only [World.get_ctx, na_ofi_with_sep, hb, hc, bind, Except.bind, pure, Except.pure,
      Bool.false_eq_true, if_false]
    refine ⟨_, rfl, ?_, rfl, rfl⟩
    simp only [World.set_ctx, Function.update_same]

/-- C22, witness: `world_sep_posted`, whose context 0 has operation ID 0 in its
unexpected-op queue. -/
theorem na_ofi_context_destroy_sep_busy_witness :
    ([0] ≠ [] → na_ofi_context_destroy env_ok world_sep_posted 0
      = .ok (world_sep_posted, NA_BUSY)) ∧
    (∃ r, na_ofi_context_destroy env_ok world_sep_posted 0 = .ok r ∧
      ([0] = [] → r.2 = NA_SUCCESS ∨ r.2 = NA_PROTOCOL_ERROR) ∧
      (r.2 = NA_SUCCESS → [0] = [] ∧ r.1.ctxs 0 = none ∧ r.1.queues 0 = none ∧
        r.1.contexts = (world_sep_posted.contexts + 256 - 1) % 256)) ∧
    (∀ (wb : World) (c : Nat) (cb : na_ofi_context), wb.endpoint.sep = false →
      wb.ctxs c = some cb →
      ∃ wb1, na_ofi_context_destroy env_ok wb c = .ok (wb1, NA_SUCCESS) ∧ wb1.ctxs c = none ∧
        wb1.queues = wb.queues ∧ wb1.contexts = (wb.contexts + 256 - 1) % 256) :=
  na_ofi_context_destroy_sep_busy env_ok world_sep_posted 0 0
    { fi_tx := 103, fi_rx := 104, fi_cq := 102, fi_wait := none, unexpected_op_queue := some 0,
      idx := 0 } [0] (by decide) (by decide) (by rfl) (by decide)

/-! ### Memory pool -/

theorem na_ofi_mem_alloc_frame (E : Env) (w : World) (size : Nat) (mr_hdl : Option Nat) :
    ∃ cs, (na_ofi_mem_alloc E w size mr_hdl).1 = { w with calls := cs } := by
  unfold na_ofi_mem_alloc
  simp only [fabric_call, World.log]
  cases E.hg_mem_aligned_alloc w.calls E.hg_mem_get_page_size size with
  | none => exact ⟨_, rfl⟩
  | some m =>
    simp only
    split_ifs <;> exact ⟨_, rfl⟩

theorem na_ofi_mem_alloc_some (E : Env) (w : World) (size base : Nat) (mr_hdl : Option Nat)
    (h : (na_ofi_mem_alloc E w size mr_hdl).2.1 = some base) :
    E.hg_mem_aligned_alloc w.calls E.hg_mem_get_page_size size = some base := by
  unfold na_ofi_mem_alloc at h
  simp only [fabric_call, World.log] at h
  cases hm : E.hg_mem_aligned_alloc w.calls E.hg_mem_get_page_size size with
  | none =>
    rw [hm] at h
    exact Option.noConfusion h
  | some m =>
    rw [hm] at h
    simp only at h
    split_ifs at h
    all_goals exact h

/-- What `na_ofi_mem_pool_create` returns: the world differs in the log only;
a pool is at the address the allocator returned for `pool_size` bytes, has the
block size asked for, and its free list holds the `block_count` nodes in
index order. -/
theorem na_ofi_mem_pool_create_inv (E : Env) (w : World) (block_size block_count : Nat) :
    (∃ cs, (na_ofi_mem_pool_create E w block_size block_count).1 = { w with calls := cs }) ∧
    ∀ pool, (na_ofi_mem_pool_create E w block_size block_count).2 = some pool →
      E.hg_mem_aligned_alloc w.calls E.hg_mem_get_page_size
        (na_ofi_mem_pool_size block_size block_count) = some pool.base ∧
      pool.block_size = block_size ∧
      pool.node_list = (List.range block_count).map (na_ofi_mem_node_at pool.base block_size) := by
  unfold na_ofi_mem_pool_create
  simp only
  obtain ⟨cs, hcs⟩ := na_ofi_mem_alloc_frame E w (na_ofi_mem_pool_size block_size block_count) none
  cases hb : (na_ofi_mem_alloc E w (na_ofi_mem_pool_size block_size block_count) none).2.1 with
  | none =>
    refine ⟨⟨cs, hcs⟩, ?_⟩
    intro pool hp
    exact Option.noConfusion hp
  | some base =>
    refine ⟨⟨cs, hcs⟩, ?_⟩
    intro pool hp
    have hp := (Option.some.inj hp).symm
    subst hp
    exact ⟨na_ofi_mem_alloc_some E w _ base none hb, rfl, rfl⟩

theorem na_ofi_mem_pool_create_buf_pool (E : Env) (w : World) (block_size block_count : Nat) :
    (na_ofi_mem_pool_create E w block_size block_count).1.buf_pool = w.buf_pool := by
  obtain ⟨cs, h⟩ := (na_ofi_mem_pool_create_inv E w block_size block_count).1
  rw [h]

theorem first_pool_with_node_some (ps : List na_ofi_mem_pool) (i : Nat)
    (h : first_pool_with_node ps = some i) :
    ∃ pool node rest, ps.get? i = some pool ∧ pool.node_list = node :: rest := by
  induction ps generalizing i with
  | nil => exact Option.noConfusion h
  | cons p ps ih =>
    unfold first_pool_with_node at h
    split_ifs at h with hp
    · have h := (Option.some.inj h).symm
      subst h
      cases hl : p.node_list with
      | nil => exact absurd hl hp
      | cons node rest => exact ⟨p, node, rest, rfl, hl⟩
    · cases hf : first_pool_with_node ps with
      | none =>
        rw [hf] at h
        exact Option.noConfusion h
      | some j =>
        rw [hf] at h
        have h := (Option.some.inj h).symm
        subst h
        obtain ⟨pool, node, rest, h1, h2⟩ := ih j hf
        exact ⟨pool, node, rest, h1, h2⟩


/-- The `na_ofi_mem_pool_alloc` when a pool has a free node: the first such pool
decides. -/
theorem na_ofi_mem_pool_alloc_found (E : Env) (size : Nat) (mr_hdl : Option Nat) (fuel : Nat)
    (w : World) (i : Nat) (h : first_pool_with_node w.buf_pool = some i) :
    ∃ pool node rest, w.buf_pool.get? i = some pool ∧ pool.node_list = node :: rest ∧
      na_ofi_mem_pool_alloc E size mr_hdl (fuel + 1) w =
        if size > pool.block_size then .ok (w, none, mr_hdl)
        else .ok (({ w with buf_pool := w.buf_pool.set i { pool with node_list := rest } } : World),
          some (node + offsetof_na_ofi_mem_node_block), pool.mr_hdl) := by
  obtain ⟨pool, node, rest, h1, h2⟩ := first_pool_with_node_some w.buf_pool i h
  refine ⟨pool, node, rest, h1, h2, ?_⟩
  unfold na_ofi_mem_pool_alloc
  simp only [h, bind, Except.bind, pure, Except.pure, h1, h2]

/-- The `na_ofi_mem_pool_alloc` when no pool has a free node and the new pool
could not be allocated: the NULL pool is pushed to the queue. -/
theorem na_ofi_mem_pool_alloc_null (E : Env) (size : Nat) (mr_hdl : Option Nat) (fuel : Nat)
    (w : World) (h : first_pool_with_node w.buf_pool = none)
    (hc : (na_ofi_mem_pool_create E w na_ofi_msg_get_max_unexpected_size
      NA_OFI_MEM_BLOCK_COUNT).2 = none) :
    na_ofi_mem_pool_alloc E size mr_hdl (fuel + 1) w = .error Fault.null_deref := by
  unfold na_ofi_mem_pool_alloc
  simp only [h, hc, bind, Except.bind, pure, Except.pure, throw, throwThe, MonadExceptOf.throw]

/-- The `na_ofi_mem_pool_alloc` when no pool has a free node and a new pool is
created. -/
theorem na_ofi_mem_pool_alloc_new (E : Env) (size : Nat) (mr_hdl : Option Nat) (fuel : Nat)
    (w : World) (pool : na_ofi_mem_pool) (h : first_pool_with_node w.buf_pool = none)
    (hc : (na_ofi_mem_pool_create E w na_ofi_msg_get_max_unexpected_size
      NA_OFI_MEM_BLOCK_COUNT).2 = some pool) :
    ∃ w1 node rest, (∃ cs, w1 = { w with calls := cs }) ∧ pool.node_list = node :: rest ∧
      na_ofi_mem_pool_alloc E size mr_hdl (fuel + 1) w =
        if size > pool.block_size then
          .ok (({ w1 with buf_pool := w.buf_pool ++ [pool] } : World), none, mr_hdl)
        else .ok (({ w1 with buf_pool :=
              (w.buf_pool ++ [pool]).set w.buf_pool.length { pool with node_list := rest } }
            : World),
          some (node + offsetof_na_ofi_mem_node_block), pool.mr_hdl) := by
  obtain ⟨⟨cs, hcs⟩, hp⟩ := na_ofi_mem_pool_create_inv E w na_ofi_msg_get_max_unexpected_size
    NA_OFI_MEM_BLOCK_COUNT
  obtain ⟨_, _, hl⟩ := hp pool hc
  have hl2 : pool.node_list = na_ofi_mem_node_at pool.base na_ofi_msg_get_max_unexpected_size 0
      :: (List.range 255).map
        (na_ofi_mem_node_at pool.base na_ofi_msg_get_max_unexpected_size ∘ Nat.succ) := by
    rw [hl, show NA_OFI_MEM_BLOCK_COUNT = 255 + 1 from rfl, List.range_succ_eq_map,
      List.map_cons, List.map_map]
  refine ⟨{ w with calls := cs }, _, _, ⟨cs, rfl⟩, hl2, ?_⟩
  unfold na_ofi_mem_pool_alloc
  simp only [h, hc, bind, Except.bind, pure, Except.pure, hcs, List.get?_eq_getElem?]
  rw [List.getElem?_append_right (le_refl _)]
  simp only [Nat.sub_self, List.getElem?_cons_zero, hl2]


/-- A block returned by `na_ofi_mem_pool_alloc` is the `block` member of the
node popped from the head of a free list. -/
theorem na_ofi_mem_pool_alloc_popped (E : Env) (size : Nat) (mr_hdl : Option Nat) (fuel : Nat)
    (w w1 : World) (ptr : Nat) (m : Option Nat)
    (h : na_ofi_mem_pool_alloc E size mr_hdl (fuel + 1) w = .ok (w1, some ptr, m)) :
    ∃ pools i pool node rest, (pools = w.buf_pool ∨ ∃ p, pools = w.buf_pool ++ [p]) ∧
      pools.get? i = some pool ∧ pool.node_list = node :: rest ∧ size ≤ pool.block_size ∧
      m = pool.mr_hdl ∧ w1.buf_pool = pools.set i { pool with node_list := rest } ∧
      ptr = node + offsetof_na_ofi_mem_node_block := by
  cases hf : first_pool_with_node w.buf_pool with
  | some i =>
    obtain ⟨pool, node, rest, h1, h2, h3⟩ := na_ofi_mem_pool_alloc_found E size mr_hdl fuel w i hf
    rw [h3] at h
    split_ifs at h with hs
    · have h := Except.ok.inj h
      simp only [Prod.mk.injEq] at h
      exact Option.noConfusion h.2.1
    · have h := Except.ok.inj h
      simp only [Prod.mk.injEq, Option.some.injEq] at h
      obtain ⟨hw, hp, hm⟩ := h
      subst hw
      exact ⟨w.buf_pool, i, pool, node, rest, Or.inl rfl, h1, h2, by omega, hm.symm, rfl,
        hp.symm⟩
  | none =>
    cases hc : (na_ofi_mem_pool_create E w na_ofi_msg_get_max_unexpected_size
        NA_OFI_MEM_BLOCK_COUNT).2 with
    | none =>
      rw [na_ofi_mem_pool_alloc_null E size mr_hdl fuel w hf hc] at h
      exact Except.noConfusion h
    | some pool =>
      obtain ⟨w2, node, rest, _, h2, h3⟩ :=
        na_ofi_mem_pool_alloc_new E size mr_hdl fuel w pool hf hc
      rw [h3] at h
      have hget : (w.buf_pool ++ [pool]).get? w.buf_pool.length = some pool := by
        rw [List.get?_eq_getElem?, List.getElem?_append_right (le_refl _)]
        simp
      split_ifs at h with hs
      · have h := Except.ok.inj h
        simp only [Prod.mk.injEq] at h
        exact Option.noConfusion h.2.1
      · have h := Except.ok.inj h
        simp only [Prod.mk.injEq, Option.some.injEq] at h
        obtain ⟨hw, hp, hm⟩ := h
        subst hw
        exact ⟨w.buf_pool ++ [pool], _, pool, node, rest, Or.inr ⟨pool, rfl⟩, hget, h2, by omega,
          hm.symm, rfl, hp.symm⟩

theorem map_block_size_set (ps : List na_ofi_mem_pool) (i : Nat) (pool : na_ofi_mem_pool)
    (rest : List Nat) (h : ps.get? i = some pool) :
    (ps.set i { pool with node_list := rest }).map (fun p => p.block_size)
      = ps.map (fun p => p.block_size) := by
  induction ps generalizing i with
  | nil => rfl
  | cons p ps ih =>
    cases i with
    | zero =>
      simp only [List.get?_cons_zero, Option.some.injEq] at h
      subst h
      rfl
    | succ i =>
      simp only [List.get?_cons_succ] at h
      simp only [List.set_cons_succ, List.map_cons, ih i h]

theorem map_block_size_push_to_pool (node : Nat) (mr_hdl : Option Nat)
    (ps : List na_ofi_mem_pool) :
    (push_to_pool node mr_hdl ps).map (fun p => p.block_size)
      = ps.map (fun p => p.block_size) := by
  induction ps with
  | nil => rfl
  | cons p ps ih =>
    unfold push_to_pool
    split_ifs
    · rfl
    · simp only [List.map_cons, ih]

/-! ### Blocks of the memory pool -/

/-- C23: `na_ofi_mem_pool_alloc`, when the pool it may have to create can be
allocated, returns (for every fuel of at least one pass). The block comes
from the pool list `pools`: the list as it was, or, when no pool had a free
block, the list with a new pool at its tail, which has block size
`NA_OFI_UNEXPECTED_SIZE` = 4096 and `NA_OFI_MEM_BLOCK_COUNT` = 256 free
blocks. A block returned is the head of the free list of a pool of `pools`
whose `block_size` is at least the requested size, and only that node leaves
a free list; NULL is returned exactly when the size exceeds the block size of
the pool chosen, and then no free list changes (in particular for a size
above 4096 when all pools have that block size). The block sizes of the pools
are the same after the call, and after a following `na_ofi_mem_pool_free`. -/
theorem na_ofi_mem_pool_alloc_block_size (E : Env) (w : World) (size : Nat)
    (mr_hdl : Option Nat) (fuel : Nat)
    (hnew : first_pool_with_node w.buf_pool = none →
      (na_ofi_mem_pool_create E w na_ofi_msg_get_max_unexpected_size
        NA_OFI_MEM_BLOCK_COUNT).2 ≠ none) :
    ∃ w1 blk m pools,
      na_ofi_mem_pool_alloc E size mr_hdl (fuel + 1) w = .ok (w1, blk, m) ∧
      (pools = w.buf_pool ∨
        ∃ pool, (na_ofi_mem_pool_create E w na_ofi_msg_get_max_unexpected_size
            NA_OFI_MEM_BLOCK_COUNT).2 = some pool ∧
          pool.block_size = NA_OFI_UNEXPECTED_SIZE ∧
          pool.node_list.length = NA_OFI_MEM_BLOCK_COUNT ∧ pools = w.buf_pool ++ [pool]) ∧
      w1.buf_pool.map (fun p => p.block_size) = pools.map (fun p => p.block_size) ∧
      (∀ b, blk = some b → ∃ i pool node rest, pools.get? i = some pool ∧
        size ≤ pool.block_size ∧ pool.node_list = node :: rest ∧
        b = node + offsetof_na_ofi_mem_node_block ∧ m = pool.mr_hdl ∧
        w1.buf_pool = pools.set i { pool with node_list := rest }) ∧
      (blk = none → w1.buf_pool = pools ∧
        ∃ i pool, pools.get? i = some pool ∧ size > pool.block_size) ∧
      ((∀ p, p ∈ w.buf_pool → p.block_size = NA_OFI_UNEXPECTED_SIZE) →
        size > NA_OFI_UNEXPECTED_SIZE → blk = none) ∧
      (∀ ptr h, (na_ofi_mem_pool_free w1 ptr h).buf_pool.map (fun p => p.block_size)
        = w1.buf_pool.map (fun p => p.block_size)) := by
  have hfree : ∀ (W : World) ptr h,
      (na_ofi_mem_pool_free W ptr h).buf_pool.map (fun p => p.block_size)
        = W.buf_pool.map (fun p => p.block_size) := by
    intro W ptr h
    exact map_block_size_push_to_pool _ _ _
  cases hf : first_pool_with_node w.buf_pool with
  | some i =>
    obtain ⟨pool, node, rest, h1, h2, h3⟩ := na_ofi_mem_pool_alloc_found E size mr_hdl fuel w i hf
    by_cases hs : size > pool.block_size
    · rw [if_pos hs] at h3
      refine ⟨w, none, mr_hdl, w.buf_pool, h3, Or.inl rfl, rfl, ?_, ?_, ?_, hfree w⟩
      · intro b hb
        exact Option.noConfusion hb
      · intro _
        exact ⟨rfl, i, pool, h1, hs⟩
      · intro _ _
        rfl
    · rw [if_neg hs] at h3
      refine ⟨_, _, _, w.buf_pool, h3, Or.inl rfl, map_block_size_set _ _ _ _ h1, ?_, ?_, ?_,
        hfree _⟩
      · intro b hb
        exact ⟨i, pool, node, rest, h1, by omega, h2, (Option.some.inj hb).symm, rfl, rfl⟩
      · intro hb
        exact Option.noConfusion hb
      · intro hall hsz
        have := hall pool (List.get?_mem h1)
        omega
  | none =>
    cases hc : (na_ofi_mem_pool_create E w na_ofi_msg_get_max_unexpected_size
        NA_OFI_MEM_BLOCK_COUNT).2 with
    | none => exact absurd hc (hnew hf)
    | some pool =>
      obtain ⟨w1, node, rest, ⟨cs, hw1⟩, h2, h3⟩ :=
        na_ofi_mem_pool_alloc_new E size mr_hdl fuel w pool hf hc
      obtain ⟨_, hbs, hl⟩ := (na_ofi_mem_pool_create_inv E w na_ofi_msg_get_max_unexpected_size
        NA_OFI_MEM_BLOCK_COUNT).2 pool hc
      have hlen : pool.node_list.length = NA_OFI_MEM_BLOCK_COUNT := by
        rw [hl, List.length_map, List.length_range]
      have hget : (w.buf_pool ++ [pool]).get? w.buf_pool.length = some pool := by
        rw [List.get?_eq_getElem?, List.getElem?_append_right (le_refl _)]
        simp
      by_cases hs : size > pool.block_size
      · rw [if_pos hs] at h3
        refine ⟨_, none, mr_hdl, w.buf_pool ++ [pool], h3, Or.inr ⟨pool, rfl, hbs, hlen, rfl⟩, rfl, ?_, ?_, ?_,
          hfree _⟩
        · intro b hb
          exact Option.noConfusion hb
        · intro _
          exact ⟨rfl, _, pool, hget, hs⟩
        · intro _ _
          rfl
      · rw [if_neg hs] at h3
        refine ⟨_, _, _, w.buf_pool ++ [pool], h3, Or.inr ⟨pool, rfl, hbs, hlen, rfl⟩,
          map_block_size_set _ _ _ _ hget, ?_, ?_, ?_, hfree _⟩
        · intro b hb
          exact ⟨_, pool, node, rest, hget, by omega, h2, (Option.some.inj hb).symm, rfl, rfl⟩
        · intro hb
          exact Option.noConfusion hb
        · intro _ hsz
          rw [hbs] at hs
          exact absurd hsz hs


/-- C23, witness: a request of 64 bytes in the world after initialization,
which has no pool yet. -/
theorem na_ofi_mem_pool_alloc_block_size_witness :
    ∃ w1 blk m pools,
      na_ofi_mem_pool_alloc env_ok 64 none (0 + 1) (world_of NA_OFI_PROV_SOCKETS [])
        = .ok (w1, blk, m) ∧
      (pools = (world_of NA_OFI_PROV_SOCKETS []).buf_pool ∨
        ∃ pool, (na_ofi_mem_pool_create env_ok (world_of NA_OFI_PROV_SOCKETS [])
            na_ofi_msg_get_max_unexpected_size NA_OFI_MEM_BLOCK_COUNT).2 = some pool ∧
          pool.block_size = NA_OFI_UNEXPECTED_SIZE ∧
          pool.node_list.length = NA_OFI_MEM_BLOCK_COUNT ∧
          pools = (world_of NA_OFI_PROV_SOCKETS []).buf_pool ++ [pool]) ∧
      w1.buf_pool.map (fun p => p.block_size) = pools.map (fun p => p.block_size) ∧
      (∀ b, blk = some b → ∃ i pool node rest, pools.get? i = some pool ∧
        64 ≤ pool.block_size ∧ pool.node_list = node :: rest ∧
        b = node + offsetof_na_ofi_mem_node_block ∧ m = pool.mr_hdl ∧
        w1.buf_pool = pools.set i { pool with node_list := rest }) ∧
      (blk = none → w1.buf_pool = pools ∧
        ∃ i pool, pools.get? i = some pool ∧ 64 > pool.block_size) ∧
      ((∀ p, p ∈ (world_of NA_OFI_PROV_SOCKETS []).buf_pool →
          p.block_size = NA_OFI_UNEXPECTED_SIZE) →
        64 > NA_OFI_UNEXPECTED_SIZE → blk = none) ∧
      (∀ ptr h, (na_ofi_mem_pool_free w1 ptr h).buf_pool.map (fun p => p.block_size)
        = w1.buf_pool.map (fun p => p.block_size)) :=
  na_ofi_mem_pool_alloc_block_size env_ok (world_of NA_OFI_PROV_SOCKETS []) 64 none 0
    (fun _ h => Option.noConfusion h)

/-! ### Provider names -/

/-- The result of the table scan, case by case. -/
theorem na_ofi_prov_name_to_type_eq (s : String) :
    na_ofi_prov_name_to_type s = .ok
      (if s = "" then NA_OFI_PROV_NULL
       else if s = "sockets" then NA_OFI_PROV_SOCKETS
       else if s = "tcp;ofi_rxm" ∨ s = "tcp" then NA_OFI_PROV_TCP
       else if s = "psm2" then NA_OFI_PROV_PSM2
       else if s = "verbs;ofi_rxm" ∨ s = "verbs" then NA_OFI_PROV_VERBS
       else if s = "gni" then NA_OFI_PROV_GNI
       else NA_OFI_PROV_NULL) := by
  unfold na_ofi_prov_name_to_type prov_types_from_zero
  simp only [prov_name_scan, na_ofi_prov_name, na_ofi_prov_alt_name]
  by_cases h0 : s = ""
  · subst h0; rfl
  by_cases h1 : s = "sockets"
  · subst h1; rfl
  by_cases h2 : s = "tcp;ofi_rxm"
  · subst h2; rfl
  by_cases h2a : s = "tcp"
  · subst h2a; rfl
  by_cases h3 : s = "psm2"
  · subst h3; rfl
  by_cases h4 : s = "verbs;ofi_rxm"
  · subst h4; rfl
  by_cases h4a : s = "verbs"
  · subst h4a; rfl
  by_cases h5 : s = "gni"
  · subst h5; rfl
  have e0 : ¬ "" = s := fun h => h0 h.symm
  have e1 : ¬ "sockets" = s := fun h => h1 h.symm
  have e2 : ¬ "tcp;ofi_rxm" = s := fun h => h2 h.symm
  have e2a : ¬ "tcp" = s := fun h => h2a h.symm
  have e3 : ¬ "psm2" = s := fun h => h3 h.symm
  have e4 : ¬ "verbs;ofi_rxm" = s := fun h => h4 h.symm
  have e4a : ¬ "verbs" = s := fun h => h4a h.symm
  have e5 : ¬ "gni" = s := fun h => h5 h.symm
  simp [h0, h1, h2, h2a, h3, h4, h4a, h5, e0, e1, e2, e2a, e3, e4, e4a, e5, bind, Except.bind,
    pure, Except.pure]

/-- C24: `na_ofi_prov_name_to_type` recognises a provider by canonical name or
alias and nothing else. It never reads past the `NA_OFI_PROV_MAX` entry (the
scan returns, for every string); every entry but the sentinel is found by its
canonical name, and by its alias when that is not empty (`"tcp"`, `"verbs"`);
the empty string and every string that is neither the canonical name nor the
non-empty alias of a provider give `NA_OFI_PROV_NULL`. -/
theorem na_ofi_prov_name_to_type_table (s : String) :
    (∃ P, na_ofi_prov_name_to_type s = .ok P ∧ P ≠ NA_OFI_PROV_MAX) ∧
    (∀ P, P ≠ NA_OFI_PROV_MAX → na_ofi_prov_name_to_type (na_ofi_prov_name P) = .ok P) ∧
    (∀ P, na_ofi_prov_alt_name P ≠ "" →
      na_ofi_prov_name_to_type (na_ofi_prov_alt_name P) = .ok P) ∧
    na_ofi_prov_name_to_type "" = .ok NA_OFI_PROV_NULL ∧
    ((∀ P, s ≠ na_ofi_prov_name P ∧ (na_ofi_prov_alt_name P = "" ∨ s ≠ na_ofi_prov_alt_name P)) →
      na_ofi_prov_name_to_type s = .ok NA_OFI_PROV_NULL) ∧
    (∀ P, na_ofi_prov_name_to_type s = .ok P → P ≠ NA_OFI_PROV_NULL →
      s = na_ofi_prov_name P ∨ (na_ofi_prov_alt_name P ≠ "" ∧ s = na_ofi_prov_alt_name P)) := by
  refine ⟨?_, ?_, ?_, by rfl, ?_, ?_⟩
  · rw [na_ofi_prov_name_to_type_eq]
    refine ⟨_, rfl, ?_⟩
    repeat' split
    all_goals decide
  · intro P hP
    cases P
    all_goals first | exact absurd rfl hP | rfl
  · intro P hP
    cases P
    all_goals first | exact absurd rfl hP | rfl
  · intro h
    rw [na_ofi_prov_name_to_type_eq]
    have h1 := (h NA_OFI_PROV_SOCKETS).1
    have h2 := (h NA_OFI_PROV_TCP)
    have h3 := (h NA_OFI_PROV_PSM2).1
    have h4 := (h NA_OFI_PROV_VERBS)
    have h5 := (h NA_OFI_PROV_GNI).1
    have h2b : s ≠ "tcp" := h2.2.resolve_left (by decide)
    have h4b : s ≠ "verbs" := h4.2.resolve_left (by decide)
    simp only [na_ofi_prov_name] at h1 h2 h3 h4 h5
    simp [h1, h2.1, h3, h4.1, h5, h2b, h4b]
  · intro P hP hn
    rw [na_ofi_prov_name_to_type_eq] at hP
    have hP := Except.ok.inj hP
    subst hP
    by_cases h0 : s = ""
    · simp [h0] at hn
    by_cases h1 : s = "sockets"
    · subst h1; left; rfl
    by_cases h2 : s = "tcp;ofi_rxm"
    · subst h2; left; rfl
    by_cases h2a : s = "tcp"
    · subst h2a; right; exact ⟨by decide, rfl⟩
    by_cases h3 : s = "psm2"
    · subst h3; left; rfl
    by_cases h4 : s = "verbs;ofi_rxm"
    · subst h4; left; rfl
    by_cases h4a : s = "verbs"
    · subst h4a; right; exact ⟨by decide, rfl⟩
    by_cases h5 : s = "gni"
    · subst h5; left; rfl
    simp [h0, h1, h2, h2a, h3, h4, h4a, h5] at hn

/-! ### Progress: frame lemmas -/

theorem progress_state_log (w : World) (c : Call) (h1 : c.is_fi_wait = false)
    (h2 : c.is_cq_readfrom = false) : (w.log c).progress_state = w.progress_state := by
  simp only [World.progress_state, World.log, fi_waits, cq_reads, List.countP_cons, h1, h2,
    Bool.false_eq_true, if_false, Nat.add_zero]

theorem alloc_progress_state (E : Env) (w : World) (n : Nat) :
    (alloc E w n).1.progress_state = w.progress_state :=
  progress_state_log w _ rfl rfl

theorem close_fid_progress_state (E : Env) (w : World) (present : Bool) (fid : Fid) :
    (close_fid E w present fid).1.progress_state = w.progress_state := by
  unfold close_fid
  split
  · exact progress_state_log w _ rfl rfl
  · rfl

theorem na_ofi_domain_close_progress_state (E : Env) (w : World) :
    (na_ofi_domain_close E w).1.progress_state = w.progress_state := by
  unfold na_ofi_domain_close
  dsimp only
  have hf : ∀ (w1 : World) (d : na_ofi_domain),
      ({ w1 with domain := d } : World).progress_state = w1.progress_state := fun _ _ => rfl
  repeat' split
  all_goals simp only [hf, close_fid_progress_state]

theorem na_ofi_addr_ht_remove_progress_state (E : Env) (w : World) (fi_addr addr_key : Nat) :
    (na_ofi_addr_ht_remove E w fi_addr addr_key).1.progress_state = w.progress_state := by
  unfold na_ofi_addr_ht_remove
  dsimp only
  repeat' split
  all_goals rfl

theorem na_ofi_addr_decref_progress_state (E : Env) (w w1 : World) (p : Nat)
    (h : na_ofi_addr_decref E w p = .ok w1) : w1.progress_state = w.progress_state := by
  unfold na_ofi_addr_decref World.get_addr at h
  simp only [bind, Except.bind, pure, Except.pure] at h
  repeat' split at h
  all_goals first
    | exact Except.noConfusion h
    | (have h := (Except.ok.inj h).symm
       subst h
       first
         | rfl
         | (show (na_ofi_domain_close E _).1.progress_state = _
            rw [na_ofi_domain_close_progress_state]
            first
              | rfl
              | (rw [na_ofi_addr_ht_remove_progress_state]; rfl)))

theorem na_ofi_addr_addref_progress_state (w w1 : World) (p : Nat)
    (h : na_ofi_addr_addref w p = .ok w1) : w1.progress_state = w.progress_state := by
  unfold na_ofi_addr_addref World.get_addr at h
  simp only [bind, Except.bind, pure, Except.pure] at h
  repeat' split at h
  all_goals first
    | exact Except.noConfusion h
    | (have h := (Except.ok.inj h).symm
       subst h
       rfl)

theorem na_ofi_addr_alloc_progress_state (E : Env) (w : World) :
    (na_ofi_addr_alloc E w).1.progress_state = w.progress_state := by
  unfold na_ofi_addr_alloc
  simp only [alloc]
  split
  · exact progress_state_log w _ rfl rfl
  · exact progress_state_log w _ rfl rfl


theorem na_ofi_av_insert_progress_state (E : Env) (w : World) (addr : List Nat)
    (len fi : Nat) (r : World × na_return_t × Nat)
    (h : na_ofi_av_insert E w addr len fi = .ok r) : r.1.progress_state = w.progress_state := by
  unfold na_ofi_av_insert na_ofi_av_insert_tail at h
  simp only [bind, Except.bind, pure, Except.pure] at h
  repeat' split at h
  all_goals first
    | exact Except.noConfusion h
    | (have h := (Except.ok.inj h).symm
       subst h
       rfl)

theorem na_ofi_addr_ht_lookup_progress_state (E : Env) (w : World) (fmt : Nat)
    (addr : List Nat) (len fi : Nat) (r : World × na_return_t × Nat × Nat)
    (h : na_ofi_addr_ht_lookup E w fmt addr len fi = .ok r) :
    r.1.progress_state = w.progress_state := by
  unfold na_ofi_addr_ht_lookup at h
  simp only [bind, Except.bind, pure, Except.pure] at h
  split at h
  · exact Except.noConfusion h
  split at h
  · have h := (Except.ok.inj h).symm
    subst h
    rfl
  split at h
  · have h := (Except.ok.inj h).symm
    subst h
    rfl
  split at h
  · exact Except.noConfusion h
  rename_i ri hins
  have hi := na_ofi_av_insert_progress_state E w addr len fi ri hins
  obtain ⟨wi, rc, fa⟩ := ri
  simp only [alloc, hg_hash_table_insert, World.log] at h
  repeat' split at h
  all_goals
    have h := (Except.ok.inj h).symm
    subst h
    exact Eq.trans (b := wi.progress_state) rfl hi

theorem na_cb_completion_add_progress_state (E : Env) (w : World) (context : Option Nat)
    (op : Nat) :
    fi_waits (na_cb_completion_add E w context op).1.calls = fi_waits w.calls ∧
    cq_reads (na_cb_completion_add E w context op).1.calls = cq_reads w.calls ∧
    (na_cb_completion_add E w context op).1.ctxs = w.ctxs ∧
    (na_cb_completion_add E w context op).1.queues = w.queues ∧
    ((na_cb_completion_add E w context op).1.completions = w.completions ∨
      (na_cb_completion_add E w context op).1.completions = op :: w.completions) := by
  unfold na_cb_completion_add
  dsimp only
  split
  · exact ⟨rfl, rfl, rfl, rfl, Or.inr rfl⟩
  · exact ⟨rfl, rfl, rfl, rfl, Or.inl rfl⟩

/-- What `na_ofi_complete` leaves alone when it returns: it waits on nothing,
reads no completion queue, changes no context and no queue, and adds at most
the operation to the completion queue of the NA layer. -/
theorem na_ofi_complete_progress_state (E : Env) (w : World) (op : Nat) (op_ret : na_return_t)
    (r : World × na_return_t) (h : na_ofi_complete E w op op_ret = .ok r) :
    fi_waits r.1.calls = fi_waits w.calls ∧ cq_reads r.1.calls = cq_reads w.calls ∧
    r.1.ctxs = w.ctxs ∧ r.1.queues = w.queues ∧
    (r.1.completions = w.completions ∨ r.1.completions = op :: w.completions) := by
  unfold na_ofi_complete at h
  simp only [bind, Except.bind, pure, Except.pure] at h
  split at h
  · exact Except.noConfusion h
  rename_i o ho
  generalize hx : na_ofi_complete_info _ = x at h
  have hc : fi_waits (na_ofi_complete_add E (w.set_op op (some x.1)) op x).1.calls
        = fi_waits w.calls ∧
      cq_reads (na_ofi_complete_add E (w.set_op op (some x.1)) op x).1.calls
        = cq_reads w.calls ∧
      (na_ofi_complete_add E (w.set_op op (some x.1)) op x).1.ctxs = w.ctxs ∧
      (na_ofi_complete_add E (w.set_op op (some x.1)) op x).1.queues = w.queues ∧
      ((na_ofi_complete_add E (w.set_op op (some x.1)) op x).1.completions = w.completions ∨
        (na_ofi_complete_add E (w.set_op op (some x.1)) op x).1.completions
          = op :: w.completions) := by
    unfold na_ofi_complete_add
    split
    · exact ⟨rfl, rfl, rfl, rfl, Or.inl rfl⟩
    · exact na_cb_completion_add_progress_state E (w.set_op op (some x.1)) x.1.context op
  generalize na_ofi_complete_add E (w.set_op op (some x.1)) op x = c at hc h
  split at h
  · split at h
    · exact Except.noConfusion h
    · rename_i w2 hdec
      have hd := na_ofi_addr_decref_progress_state E c.1 w2 _ hdec
      have h := (Except.ok.inj h).symm
      subst h
      simp only [World.progress_state, Prod.mk.injEq] at hd
      obtain ⟨h1, h2, h3, h4, h5⟩ := hd
      exact ⟨h1.trans hc.1, h2.trans hc.2.1, h3.trans hc.2.2.1, h4.trans hc.2.2.2.1,
        by rw [h5]; exact hc.2.2.2.2⟩
  · have h := (Except.ok.inj h).symm
    subst h
    exact hc

theorem get_ctx_ok {w : World} {p : Nat} {c : na_ofi_context} (h : w.get_ctx p = .ok c) :
    w.ctxs p = some c := by
  unfold World.get_ctx at h
  split at h
  · rename_i c1 hc
    rw [hc, Except.ok.inj h]
  · exact Except.noConfusion h

theorem get_op_ok {w : World} {p : Nat} {o : na_ofi_op_id} (h : w.get_op p = .ok o) :
    w.ops p = some o := by
  unfold World.get_op at h
  split at h
  · rename_i c1 hc
    rw [hc, Except.ok.inj h]
  · exact Except.noConfusion h

theorem get_queue_ok {w : World} {p : Option Nat} {r : Nat × List Nat}
    (h : w.get_queue p = .ok r) : p = some r.1 ∧ w.queues r.1 = some r.2 := by
  unfold World.get_queue at h
  split at h
  · exact Except.noConfusion h
  · split at h
    · rename_i q _ l hl
      have h := (Except.ok.inj h).symm
      subst h
      exact ⟨rfl, hl⟩
    · exact Except.noConfusion h

theorem hg_queue_remove_ok {l l1 : List Nat} {op : Nat} (h : hg_queue_remove l op = .ok l1) :
    op ∈ l ∧ l1 = l.erase op := by
  unfold hg_queue_remove at h
  split at h
  · rename_i hm
    exact ⟨hm, (Except.ok.inj h).symm⟩
  · exact Except.noConfusion h

theorem na_ofi_msg_unexpected_op_remove_inv (w w1 : World) (context op : Nat)
    (h : na_ofi_msg_unexpected_op_remove w context op = .ok w1) :
    ∃ ctx q l, w.ctxs context = some ctx ∧ ctx.unexpected_op_queue = some q ∧
      w.queues q = some l ∧ op ∈ l ∧ w1 = w.set_queue q (l.erase op) := by
  unfold na_ofi_msg_unexpected_op_remove at h
  simp only [bind, Except.bind, pure, Except.pure] at h
  repeat' split at h
  all_goals first
    | exact Except.noConfusion h
    | skip
  rename_i _ ctx hctx _ ql hq _ l1 hl1
  obtain ⟨h1, h2⟩ := get_queue_ok hq
  obtain ⟨h3, h4⟩ := hg_queue_remove_ok hl1
  subst h4
  exact ⟨ctx, ql.1, ql.2, get_ctx_ok hctx, h1, h2, h3, (Except.ok.inj h).symm⟩


theorem except_bind_ok {ε α β : Type} {x : Except ε α} {f : α → Except ε β} {b : β}
    (h : x >>= f = .ok b) : ∃ a, x = .ok a ∧ f a = .ok b := by
  cases x with
  | error e => exact Except.noConfusion h
  | ok a => exact ⟨a, rfl, h⟩

/-- What `na_ofi_cq_process_recv_unexpected_event` does to the queues when it
returns: it waits on nothing, reads no completion queue and adds no
completion; on success the operation has been removed from the unexpected-op
queue of the context, otherwise the queues are as before. -/
theorem na_ofi_cq_process_recv_unexpected_event_inv (E : Env) (w : World) (context op : Nat)
    (src_addr : Nat) (src_err_addr : Option (List Nat)) (src_err_addrlen tag len : Nat)
    (r : World × na_return_t)
    (h : na_ofi_cq_process_recv_unexpected_event E w context op src_addr src_err_addr
      src_err_addrlen tag len = .ok r) :
    fi_waits r.1.calls = fi_waits w.calls ∧ cq_reads r.1.calls = cq_reads w.calls ∧
    r.1.ctxs = w.ctxs ∧ r.1.completions = w.completions ∧
    ((r.2 ≠ NA_SUCCESS ∧ r.1.queues = w.queues) ∨
     (r.2 = NA_SUCCESS ∧ ∃ ctx q l, w.ctxs context = some ctx ∧
        ctx.unexpected_op_queue = some q ∧ w.queues q = some l ∧ op ∈ l ∧
        r.1.queues = Function.update w.queues q (some (l.erase op)))) := by
  unfold na_ofi_cq_process_recv_unexpected_event at h
  obtain ⟨o, ho, h⟩ := except_bind_ok h
  split at h
  · have h := (Except.ok.inj h).symm
    subst h
    exact ⟨rfl, rfl, rfl, rfl, Or.inl ⟨by simp, rfl⟩⟩
  split at h
  · have h := (Except.ok.inj h).symm
    subst h
    exact ⟨rfl, rfl, rfl, rfl, Or.inl ⟨by simp, rfl⟩⟩
  have ha := na_ofi_addr_alloc_progress_state E w
  split at h
  · rename_i w1 hw1
    have h := (Except.ok.inj h).symm
    subst h
    rw [hw1] at ha
    simp only [World.progress_state, Prod.mk.injEq] at ha
    exact ⟨ha.1, ha.2.1, ha.2.2.1, ha.2.2.2.2, Or.inl ⟨by simp, ha.2.2.2.1⟩⟩
  rename_i w1 p hw1
  rw [hw1] at ha
  simp only at ha
  obtain ⟨a, hga, h⟩ := except_bind_ok h
  have hjp : ∀ r0 : World × na_return_t, r0.1.progress_state = w.progress_state →
      (if r0.2 ≠ NA_SUCCESS then
          na_ofi_addr_decref E r0.1 p >>= fun w2 => pure (w2, r0.2)
        else
          na_ofi_addr_addref r0.1 p >>= fun w2 =>
            na_ofi_msg_unexpected_op_remove
              (w2.set_op op (some { o with addr := some p, tag := tag % 2 ^ 32, msg_size := len }))
              context op >>= fun w4 => pure (w4, NA_SUCCESS)) = .ok r →
      fi_waits r.1.calls = fi_waits w.calls ∧ cq_reads r.1.calls = cq_reads w.calls ∧
      r.1.ctxs = w.ctxs ∧ r.1.completions = w.completions ∧
      ((r.2 ≠ NA_SUCCESS ∧ r.1.queues = w.queues) ∨
       (r.2 = NA_SUCCESS ∧ ∃ ctx q l, w.ctxs context = some ctx ∧
          ctx.unexpected_op_queue = some q ∧ w.queues q = some l ∧ op ∈ l ∧
          r.1.queues = Function.update w.queues q (some (l.erase op)))) := by
    intro r0 h0 h
    split at h
    · rename_i hret
      obtain ⟨w2, hw2, h⟩ := except_bind_ok h
      have h := (Except.ok.inj h).symm
      subst h
      have hd := (na_ofi_addr_decref_progress_state E r0.1 w2 p hw2).trans h0
      simp only [World.progress_state, Prod.mk.injEq] at hd
      exact ⟨hd.1, hd.2.1, hd.2.2.1, hd.2.2.2.2, Or.inl ⟨hret, hd.2.2.2.1⟩⟩
    · obtain ⟨w2, hw2, h⟩ := except_bind_ok h
      obtain ⟨w4, hw4, h⟩ := except_bind_ok h
      have h := (Except.ok.inj h).symm
      subst h
      have hd := (na_ofi_addr_addref_progress_state r0.1 w2 p hw2).trans h0
      simp only [World.progress_state, Prod.mk.injEq] at hd
      obtain ⟨ctx, q, l, h1, h2, h3, h4, h5⟩ :=
        na_ofi_msg_unexpected_op_remove_inv _ w4 context op hw4
      subst h5
      simp only [World.set_op] at h1 h3
      rw [hd.2.2.1] at h1
      rw [hd.2.2.2.1] at h3
      refine ⟨hd.1, hd.2.1, hd.2.2.1, hd.2.2.2.2, Or.inr ⟨rfl, ctx, q, l, h1, h2, h3, h4, ?_⟩⟩
      simp only [World.set_queue, World.set_op, hd.2.2.2.1]
  dsimp only at h
  split at h
  · obtain ⟨y, hy, h⟩ := except_bind_ok h
    have hy := (Except.ok.inj hy).symm
    subst hy
    exact hjp _ ha h
  split at h
  · obtain ⟨l, hl, h⟩ := except_bind_ok h
    obtain ⟨y, hy, h⟩ := except_bind_ok h
    have hy := (Except.ok.inj hy).symm
    subst hy
    refine hjp _ ?_ h
    exact Eq.trans (b := l.1.progress_state) rfl
      ((na_ofi_addr_ht_lookup_progress_state E w1 _ _ _ _ l hl).trans ha)
  split at h
  · obtain ⟨l, hl, h⟩ := except_bind_ok h
    obtain ⟨y, hy, h⟩ := except_bind_ok h
    have hy := (Except.ok.inj hy).symm
    subst hy
    refine hjp _ ?_ h
    exact Eq.trans (b := l.1.progress_state) rfl
      ((na_ofi_addr_ht_lookup_progress_state E w1 _ _ _ _ l hl).trans ha)
  · obtain ⟨y, hy, h⟩ := except_bind_ok h
    have hy := (Except.ok.inj hy).symm
    subst hy
    exact hjp _ ha h

theorem na_ofi_cq_process_send_event_inv (w : World) (op : Nat) (o : na_ofi_op_id)
    (ho : w.ops op = some o) (h : na_ofi_cq_process_send_event w op = .ok NA_SUCCESS) :
    o.type = NA_CB_SEND_EXPECTED ∨ o.type = NA_CB_SEND_UNEXPECTED := by
  unfold na_ofi_cq_process_send_event at h
  obtain ⟨o1, ho1, h⟩ := except_bind_ok h
  have := get_op_ok ho1
  rw [ho] at this
  have := Option.some.inj this
  subst this
  split at h
  · exact absurd (Except.ok.inj h) (by decide)
  · rename_i hn
    by_contra hc
    exact hn ⟨fun h1 => hc (Or.inl h1), fun h2 => hc (Or.inr h2)⟩

theorem na_ofi_cq_process_rma_event_inv (w : World) (op : Nat) (o : na_ofi_op_id)
    (ho : w.ops op = some o) (h : na_ofi_cq_process_rma_event w op = .ok NA_SUCCESS) :
    o.type = NA_CB_PUT ∨ o.type = NA_CB_GET := by
  unfold na_ofi_cq_process_rma_event at h
  obtain ⟨o1, ho1, h⟩ := except_bind_ok h
  have := get_op_ok ho1
  rw [ho] at this
  have := Option.some.inj this
  subst this
  split at h
  · exact absurd (Except.ok.inj h) (by decide)
  · rename_i hn
    by_contra hc
    exact hn ⟨fun h1 => hc (Or.inl h1), fun h2 => hc (Or.inr h2)⟩

theorem na_ofi_cq_process_recv_expected_event_inv (w : World) (op tag len : Nat)
    (r : World × na_return_t) (h : na_ofi_cq_process_recv_expected_event w op tag len = .ok r) :
    r.1.progress_state = w.progress_state ∧
    (r.2 = NA_SUCCESS → ∀ o, w.ops op = some o → o.type = NA_CB_RECV_EXPECTED) := by
  unfold na_ofi_cq_process_recv_expected_event at h
  obtain ⟨o1, ho1, h⟩ := except_bind_ok h
  have ho1 := get_op_ok ho1
  split at h
  · have h := (Except.ok.inj h).symm
    subst h
    exact ⟨rfl, fun hr => na_return_t.noConfusion hr⟩
  split at h
  · have h := (Except.ok.inj h).symm
    subst h
    exact ⟨rfl, fun hr => na_return_t.noConfusion hr⟩
  · rename_i hty _
    have h := (Except.ok.inj h).symm
    subst h
    refine ⟨rfl, fun _ o ho => ?_⟩
    rw [ho1] at ho
    have := Option.some.inj ho
    subst this
    exact not_not.mp hty

/-- What the dispatch of an event does when it returns: it waits on nothing,
reads no completion queue and adds no completion; the queues change only by
the removal of the operation from the unexpected-op queue of the context,
which has taken place when the dispatch of an event for an unexpected receive
succeeds. -/
theorem na_ofi_cq_dispatch_event_inv (E : Env) (w : World) (context op : Nat)
    (cq_event : fi_cq_tagged_entry) (src_addr : Nat) (src_err_addr : Option (List Nat))
    (src_err_addrlen : Nat) (r : World × na_return_t)
    (h : na_ofi_cq_dispatch_event E w context op cq_event src_addr src_err_addr
      src_err_addrlen = .ok r) :
    fi_waits r.1.calls = fi_waits w.calls ∧ cq_reads r.1.calls = cq_reads w.calls ∧
    r.1.ctxs = w.ctxs ∧ r.1.completions = w.completions ∧
    (r.1.queues = w.queues ∨ ∃ ctx q l, w.ctxs context = some ctx ∧
        ctx.unexpected_op_queue = some q ∧ w.queues q = some l ∧ op ∈ l ∧
        r.1.queues = Function.update w.queues q (some (l.erase op))) ∧
    (r.2 = NA_SUCCESS → ∀ o, w.ops op = some o → o.type = NA_CB_RECV_UNEXPECTED →
      ∃ ctx q l, w.ctxs context = some ctx ∧
        ctx.unexpected_op_queue = some q ∧ w.queues q = some l ∧ op ∈ l ∧
        r.1.queues = Function.update w.queues q (some (l.erase op))) := by
  unfold na_ofi_cq_dispatch_event at h
  split at h
  · obtain ⟨ret, hret, h⟩ := except_bind_ok h
    have h := (Except.ok.inj h).symm
    subst h
    refine ⟨rfl, rfl, rfl, rfl, Or.inl rfl, fun hr o ho hty => ?_⟩
    simp only at hr
    subst hr
    rcases na_ofi_cq_process_send_event_inv w op o ho hret with h1 | h1 <;>
      rw [hty] at h1 <;> exact absurd h1 (by decide)
  split at h
  · split at h
    · obtain ⟨hp, hs⟩ := na_ofi_cq_process_recv_expected_event_inv w op _ _ r h
      simp only [World.progress_state, Prod.mk.injEq] at hp
      refine ⟨hp.1, hp.2.1, hp.2.2.1, hp.2.2.2.2, Or.inl hp.2.2.2.1, fun hr o ho hty => ?_⟩
      have := hs hr o ho
      rw [hty] at this
      exact absurd this (by decide)
    · obtain ⟨h1, h2, h3, h4, h5⟩ :=
        na_ofi_cq_process_recv_unexpected_event_inv E w context op _ _ _ _ _ r h
      refine ⟨h1, h2, h3, h4, ?_, fun hr _ _ _ => ?_⟩
      · rcases h5 with ⟨_, hq⟩ | ⟨_, hq⟩
        · exact Or.inl hq
        · exact Or.inr hq
      · rcases h5 with ⟨hn, _⟩ | ⟨_, hq⟩
        · exact absurd hr hn
        · exact hq
  split at h
  · obtain ⟨ret, hret, h⟩ := except_bind_ok h
    have h := (Except.ok.inj h).symm
    subst h
    refine ⟨rfl, rfl, rfl, rfl, Or.inl rfl, fun hr o ho hty => ?_⟩
    simp only at hr
    subst hr
    rcases na_ofi_cq_process_rma_event_inv w op o ho hret with h1 | h1 <;>
      rw [hty] at h1 <;> exact absurd h1 (by decide)
  · have h := (Except.ok.inj h).symm
    subst h
    exact ⟨rfl, rfl, rfl, rfl, Or.inl rfl, fun hr => na_return_t.noConfusion hr⟩


/-- What `na_ofi_cq_process_event` does when it returns: it waits on nothing
and reads no completion queue; it adds at most the operation of the event to
the completion queue of the NA layer, and when it does so for an unexpected
receive, the operation has been removed from the unexpected-op queue of the
context. -/
theorem na_ofi_cq_process_event_inv (E : Env) (w : World) (context : Nat)
    (cq_event : fi_cq_tagged_entry) (src_addr : Nat) (src_err_addr : Option (List Nat))
    (src_err_addrlen : Nat) (r : World × na_return_t)
    (h : na_ofi_cq_process_event E w context cq_event src_addr src_err_addr
      src_err_addrlen = .ok r) :
    fi_waits r.1.calls = fi_waits w.calls ∧ cq_reads r.1.calls = cq_reads w.calls ∧
    r.1.ctxs = w.ctxs ∧
    (cq_event.op_context = none → r.1.completions = w.completions ∧ r.1.queues = w.queues) ∧
    (∀ op, cq_event.op_context = some op →
      (r.1.completions = w.completions ∨ r.1.completions = op :: w.completions) ∧
      (r.1.queues = w.queues ∨ ∃ ctx q l, w.ctxs context = some ctx ∧
        ctx.unexpected_op_queue = some q ∧ w.queues q = some l ∧ op ∈ l ∧
        r.1.queues = Function.update w.queues q (some (l.erase op))) ∧
      (∀ o, w.ops op = some o → o.type = NA_CB_RECV_UNEXPECTED →
        r.1.completions = op :: w.completions →
        ∃ ctx q l, w.ctxs context = some ctx ∧
          ctx.unexpected_op_queue = some q ∧ w.queues q = some l ∧ op ∈ l ∧
          r.1.queues = Function.update w.queues q (some (l.erase op)))) := by
  unfold na_ofi_cq_process_event at h
  split at h
  · rename_i hn
    have h := (Except.ok.inj h).symm
    subst h
    refine ⟨rfl, rfl, rfl, fun _ => ⟨rfl, rfl⟩, fun op hop => ?_⟩
    rw [hn] at hop
    exact Option.noConfusion hop
  rename_i op hop
  obtain ⟨o, ho, h⟩ := except_bind_ok h
  have hnocons : ∀ (l : List Nat), l = op :: l → False := by
    intro l hl
    have := congrArg List.length hl
    simp at this
  have hsome : ∀ P : Nat → Prop, P op → ∀ op1, cq_event.op_context = some op1 → P op1 := by
    intro P hP op1 h1
    rw [hop] at h1
    rw [← Option.some.inj h1]
    exact hP
  split at h
  · have h := (Except.ok.inj h).symm
    subst h
    refine ⟨rfl, rfl, rfl, fun hn => ?_, hsome _ ⟨Or.inl rfl, Or.inl rfl, fun _ _ _ hc => ?_⟩⟩
    · rw [hop] at hn
      exact Option.noConfusion hn
    · exact (hnocons _ hc).elim
  obtain ⟨rd, hrd, h⟩ := except_bind_ok h
  obtain ⟨d1, d2, d3, d4, d5, d6⟩ :=
    na_ofi_cq_dispatch_event_inv E w context op cq_event _ _ _ rd hrd
  split at h
  · have h := (Except.ok.inj h).symm
    subst h
    refine ⟨d1, d2, d3, fun hn => ?_, hsome _ ⟨Or.inl d4, d5, fun _ _ _ hc => ?_⟩⟩
    · rw [hop] at hn
      exact Option.noConfusion hn
    · rw [d4] at hc
      exact (hnocons _ hc).elim
  · rename_i hs
    have hs : rd.2 = NA_SUCCESS := not_not.mp hs
    obtain ⟨c1, c2, c3, c4, c5⟩ := na_ofi_complete_progress_state E rd.1 op rd.2 r h
    refine ⟨c1.trans d1, c2.trans d2, c3.trans d3, fun hn => ?_, hsome _ ⟨?_, ?_, ?_⟩⟩
    · rw [hop] at hn
      exact Option.noConfusion hn
    · rw [d4] at c5
      exact c5
    · rw [c4]
      exact d5
    · intro o1 ho1 hty _
      rw [c4]
      exact d6 hs o1 ho1 hty

/-- What the `FI_ECANCELED` case of `na_ofi_cq_read` does when it returns: it
waits on nothing and reads no completion queue; it adds at most the operation
to the completion queue of the NA layer, and an unexpected receive has then
been removed from the unexpected-op queue of the context. -/
theorem na_ofi_cq_read_canceled_inv (E : Env) (w : World) (context : Nat)
    (op_context : Option Nat) (r : World × na_return_t)
    (h : na_ofi_cq_read_canceled E w context op_context = .ok r) :
    fi_waits r.1.calls = fi_waits w.calls ∧ cq_reads r.1.calls = cq_reads w.calls ∧
    r.1.ctxs = w.ctxs ∧
    (op_context = none → r.1.completions = w.completions ∧ r.1.queues = w.queues) ∧
    (∀ op, op_context = some op →
      (r.1.completions = w.completions ∨ r.1.completions = op :: w.completions) ∧
      (r.1.queues = w.queues ∨ ∃ ctx q l, w.ctxs context = some ctx ∧
        ctx.unexpected_op_queue = some q ∧ w.queues q = some l ∧ op ∈ l ∧
        r.1.queues = Function.update w.queues q (some (l.erase op))) ∧
      (∀ o, w.ops op = some o → o.type = NA_CB_RECV_UNEXPECTED →
        r.1.completions = op :: w.completions →
        ∃ ctx q l, w.ctxs context = some ctx ∧
          ctx.unexpected_op_queue = some q ∧ w.queues q = some l ∧ op ∈ l ∧
          r.1.queues = Function.update w.queues q (some (l.erase op)))) := by
  unfold na_ofi_cq_read_canceled at h
  split at h
  · have h := (Except.ok.inj h).symm
    subst h
    exact ⟨rfl, rfl, rfl, fun _ => ⟨rfl, rfl⟩, fun op hop => Option.noConfusion hop⟩
  rename_i op
  obtain ⟨o, ho, h⟩ := except_bind_ok h
  have ho := get_op_ok ho
  have hnocons : ∀ (l : List Nat), l = op :: l → False := by
    intro l hl
    have := congrArg List.length hl
    simp at this
  have hsome : ∀ P : Nat → Prop, P op → ∀ op1, some op = some op1 → P op1 := by
    intro P hP op1 h1
    rw [← Option.some.inj h1]
    exact hP
  split at h
  · have h := (Except.ok.inj h).symm
    subst h
    exact ⟨rfl, rfl, rfl, fun hn => Option.noConfusion hn,
      hsome _ ⟨Or.inl rfl, Or.inl rfl, fun _ _ _ hc => (hnocons _ hc).elim⟩⟩
  split at h
  · have h := (Except.ok.inj h).symm
    subst h
    exact ⟨rfl, rfl, rfl, fun hn => Option.noConfusion hn,
      hsome _ ⟨Or.inl rfl, Or.inl rfl, fun _ _ _ hc => (hnocons _ hc).elim⟩⟩
  dsimp only at h
  split at h
  · rename_i hty
    obtain ⟨w1, hw1, h⟩ := except_bind_ok h
    obtain ⟨c1, c2, c3, c4, c5⟩ := na_ofi_complete_progress_state E w1 op NA_CANCELED r h
    obtain ⟨ctx, q, l, h1, h2, h3, h4, h5⟩ := na_ofi_msg_unexpected_op_remove_inv w w1 context op hw1
    subst h5
    have hq : r.1.queues = Function.update w.queues q (some (l.erase op)) := by
      rw [c4]
      rfl
    exact ⟨c1, c2, c3, fun hn => Option.noConfusion hn,
      hsome _ ⟨c5, Or.inr ⟨ctx, q, l, h1, h2, h3, h4, hq⟩,
        fun _ _ _ _ => ⟨ctx, q, l, h1, h2, h3, h4, hq⟩⟩⟩
  · rename_i hty
    obtain ⟨w1, hw1, h⟩ := except_bind_ok h
    obtain ⟨c1, c2, c3, c4, c5⟩ := na_ofi_complete_progress_state E w1 op NA_CANCELED r h
    have hw1 := (Except.ok.inj hw1).symm
    subst hw1
    refine ⟨c1, c2, c3, fun hn => Option.noConfusion hn,
      hsome _ ⟨c5, Or.inl c4, fun o1 ho1 hty1 _ => ?_⟩⟩
    rw [ho] at ho1
    rw [← Option.some.inj ho1] at hty1
    exact absurd hty1 hty

/-- The `na_ofi_msg_recv_unexpected` when the fabric answers the post with a
result other than `-FI_EAGAIN`: with a non-zero answer the call returns
`NA_PROTOCOL_ERROR` and the queue of the context is the queue with the
operation appended and removed again; with the answer 0 it returns
`NA_SUCCESS` and the operation is at the tail of the queue. Nothing is added
to the completion queue. -/
theorem na_ofi_msg_recv_unexpected_post (E : Env) (fuel : Nat) (w : World)
    (context callback arg buf buf_size plugin_data op q : Nat)
    (ctx : na_ofi_context) (o : na_ofi_op_id) (l : List Nat)
    (hctx : w.ctxs context = some ctx) (hq : ctx.unexpected_op_queue = some q)
    (hl : w.queues q = some l) (ho : w.ops op = some o) (ho0 : 0 < o.refcount)
    (ho1 : o.refcount + 1 < 2 ^ 31)
    (h1 : E.fabric_post w.calls (Call.fi_trecv ctx.fi_rx buf buf_size plugin_data
      FI_ADDR_UNSPEC 1 NA_OFI_UNEXPECTED_TAG_IGNORE op) ≠ -FI_EAGAIN) :
    ∃ w1 ret, na_ofi_msg_recv_unexpected E (fuel + 1) w context callback arg buf buf_size
        plugin_data (some op) = .ok (w1, ret) ∧
      w1.completions = w.completions ∧ w1.ctxs = w.ctxs ∧
      (E.fabric_post w.calls (Call.fi_trecv ctx.fi_rx buf buf_size plugin_data
          FI_ADDR_UNSPEC 1 NA_OFI_UNEXPECTED_TAG_IGNORE op) ≠ 0 →
        ret = NA_PROTOCOL_ERROR ∧
        w1.queues = Function.update w.queues q (some ((l ++ [op]).erase op))) ∧
      (E.fabric_post w.calls (Call.fi_trecv ctx.fi_rx buf buf_size plugin_data
          FI_ADDR_UNSPEC 1 NA_OFI_UNEXPECTED_TAG_IGNORE op) = 0 →
        ret = NA_SUCCESS ∧ w1.queues = Function.update w.queues q (some (l ++ [op]))) := by
  have hgc : w.get_ctx context = .ok ctx := by simp only [World.get_ctx, hctx]
  have kpost : ∀ (W : World) (c : Call), W.calls = w.calls →
      E.fabric_post w.calls c ≠ -FI_EAGAIN →
      post_retry E context c (fuel + 1) W = .ok (W.log c, E.fabric_post w.calls c) := by
    intro W c hW hc
    have := post_retry_once E context c fuel W (by rw [hW]; exact hc)
    rw [hW] at this; exact this
  have kpush : ∀ W : World, W.ctxs = w.ctxs → W.queues = w.queues →
      na_ofi_msg_unexpected_op_push W context op = .ok (W.set_queue q (l ++ [op])) := by
    intro W h1 h2
    unfold na_ofi_msg_unexpected_op_push
    simp only [World.get_ctx, World.get_queue, h1, h2, hctx, hq, hl, bind, Except.bind, pure,
      Except.pure]
  unfold na_ofi_msg_recv_unexpected
  simp only [hgc, bind, Except.bind, na_ofi_op_id_addref_ok ho ho0 ho1,
    get_op_set_op, set_op_set_op]
  rw [kpush]
  swap
  · rfl
  swap
  · rfl
  simp only []
  rw [kpost]
  swap
  · rfl
  swap
  · exact h1
  simp only []
  by_cases h0 : E.fabric_post w.calls (Call.fi_trecv ctx.fi_rx buf buf_size plugin_data
      FI_ADDR_UNSPEC 1 NA_OFI_UNEXPECTED_TAG_IGNORE op) = 0
  · simp only [h0, ne_eq, not_true_eq_false, if_false, pure, Except.pure]
    exact ⟨_, _, rfl, rfl, rfl, fun h => False.elim h, fun _ => ⟨rfl, rfl⟩⟩
  · simp only [h0, ne_eq, not_false_eq_true, if_true]
    have krem : ∀ W : World, W.ctxs = w.ctxs →
        W.queues = Function.update w.queues q (some (l ++ [op])) →
        na_ofi_msg_unexpected_op_remove W context op
          = .ok (W.set_queue q ((l ++ [op]).erase op)) := by
      intro W h1 h2
      unfold na_ofi_msg_unexpected_op_remove hg_queue_remove
      simp only [World.get_ctx, World.get_queue, h1, h2, hctx, hq, Function.update_same, bind,
        Except.bind, pure, Except.pure, List.mem_append, List.mem_singleton, or_true, if_true]
    rw [krem]
    swap
    · rfl
    swap
    · rfl
    simp only []
    rw [na_ofi_op_id_decref_more (o := { o with
        context := some context, type := NA_CB_RECV_UNEXPECTED, callback := callback,
        arg := arg, addr := none, status := 0, buf := buf, buf_size := buf_size,
        refcount := o.refcount + 1 })]
    swap
    · show Function.update _ _ _ _ = _
      rw [Function.update_same]
    swap
    · show (1 : Int) < o.refcount + 1
      omega
    swap
    · exact ho1
    refine ⟨_, _, rfl, rfl, rfl, fun _ => ⟨rfl, ?_⟩, fun h => False.elim h⟩
    simp only [World.set_op, World.set_queue, World.log, Function.update_idem]

/-! ### Progress without timeout -/

theorem cq_reads_cons_readfrom (cq count : Nat) (cs : List Call) :
    cq_reads (Call.fi_cq_readfrom cq count :: cs) = cq_reads cs + 1 := by
  simp only [cq_reads, List.countP_cons, Call.is_cq_readfrom, if_true]

/-- When `na_ofi_cq_read` returns it has made one `fi_cq_readfrom` call and no
`fi_wait` call. -/
theorem na_ofi_cq_read_calls (E : Env) (w : World) (context max_count : Nat)
    (src_err_addr : Option (List Nat)) (src_err_addrlen : Nat) (r : World × CqRead)
    (h : na_ofi_cq_read E w context max_count src_err_addr src_err_addrlen = .ok r) :
    fi_waits r.1.calls = fi_waits w.calls ∧ cq_reads r.1.calls = cq_reads w.calls + 1 := by
  unfold na_ofi_cq_read at h
  obtain ⟨ctx, hctx, h⟩ := except_bind_ok h
  simp only [alloc, World.log] at h
  split at h
  · split at h
    · exact Except.noConfusion h
    · have h := (Except.ok.inj h).symm
      subst h
      exact ⟨rfl, Eq.trans (b := cq_reads (Call.fi_cq_readfrom ctx.fi_cq max_count :: w.calls)) rfl
        (cq_reads_cons_readfrom _ _ _)⟩
  split at h
  · have h := (Except.ok.inj h).symm
    subst h
    exact ⟨rfl, Eq.trans (b := cq_reads (Call.fi_cq_readfrom ctx.fi_cq max_count :: w.calls)) rfl
        (cq_reads_cons_readfrom _ _ _)⟩
  split at h
  · have h := (Except.ok.inj h).symm
    subst h
    exact ⟨rfl, Eq.trans (b := cq_reads (Call.fi_cq_readfrom ctx.fi_cq max_count :: w.calls)) rfl
        (cq_reads_cons_readfrom _ _ _)⟩
  split at h
  · have h := (Except.ok.inj h).symm
    subst h
    exact ⟨rfl, Eq.trans (b := cq_reads (Call.fi_cq_readfrom ctx.fi_cq max_count :: w.calls)) rfl
        (cq_reads_cons_readfrom _ _ _)⟩
  split at h
  · obtain ⟨c, hc, h⟩ := except_bind_ok h
    have h := (Except.ok.inj h).symm
    subst h
    obtain ⟨c1, c2, _⟩ := na_ofi_cq_read_canceled_inv E _ context _ c hc
    exact ⟨c1, c2.trans (Eq.trans (b := cq_reads (Call.fi_cq_readfrom ctx.fi_cq max_count :: w.calls))
      rfl (cq_reads_cons_readfrom _ _ _))⟩
  split at h
  · split at h
    · have h := (Except.ok.inj h).symm
      subst h
      exact ⟨rfl, Eq.trans (b := cq_reads (Call.fi_cq_readfrom ctx.fi_cq max_count :: w.calls)) rfl
        (cq_reads_cons_readfrom _ _ _)⟩
    · obtain ⟨m, hm, h⟩ := except_bind_ok h
      split at h
      · have h := (Except.ok.inj h).symm
        subst h
        exact ⟨rfl, Eq.trans (b := cq_reads (Call.fi_cq_readfrom ctx.fi_cq max_count :: w.calls)) rfl
        (cq_reads_cons_readfrom _ _ _)⟩
      · have h := (Except.ok.inj h).symm
        subst h
        exact ⟨rfl, Eq.trans (b := cq_reads (Call.fi_cq_readfrom ctx.fi_cq max_count :: w.calls)) rfl
        (cq_reads_cons_readfrom _ _ _)⟩
  split at h
  · have h := (Except.ok.inj h).symm
    subst h
    exact ⟨rfl, Eq.trans (b := cq_reads (Call.fi_cq_readfrom ctx.fi_cq max_count :: w.calls)) rfl
        (cq_reads_cons_readfrom _ _ _)⟩
  · have h := (Except.ok.inj h).symm
    subst h
    exact ⟨rfl, Eq.trans (b := cq_reads (Call.fi_cq_readfrom ctx.fi_cq max_count :: w.calls)) rfl
        (cq_reads_cons_readfrom _ _ _)⟩

/-- When the loop over the events read returns, no `fi_wait` and no
`fi_cq_readfrom` call has been made. -/
theorem na_ofi_progress_events_calls (E : Env) (context : Nat)
    (src_err_addr : Option (List Nat)) (src_err_addrlen : Nat)
    (events : List (fi_cq_tagged_entry × Nat)) :
    ∀ (w : World) (r : World × na_return_t),
    na_ofi_progress_events E context src_err_addr src_err_addrlen w events = .ok r →
    fi_waits r.1.calls = fi_waits w.calls ∧ cq_reads r.1.calls = cq_reads w.calls := by
  induction events with
  | nil =>
    intro w r h
    have h := (Except.ok.inj h).symm
    subst h
    exact ⟨rfl, rfl⟩
  | cons e rest ih =>
    intro w r h
    obtain ⟨ev, src⟩ := e
    unfold na_ofi_progress_events at h
    obtain ⟨r1, hr1, h⟩ := except_bind_ok h
    obtain ⟨p1, p2, _⟩ := na_ofi_cq_process_event_inv E w context ev src _ _ r1 hr1
    split at h
    · have h := (Except.ok.inj h).symm
      subst h
      exact ⟨p1, p2⟩
    · obtain ⟨q1, q2⟩ := ih r1.1 r h
      exact ⟨q1.trans p1, q2.trans p2⟩

/-- With timeout 0, `na_ofi_progress` is one pass of its loop, for every fuel
of at least one pass. -/
theorem na_ofi_progress_eq_once (E : Env) (fuel : Nat) (w : World) (context : Nat) :
    na_ofi_progress E (fuel + 1) w context 0 = progress_once E w context := by
  unfold na_ofi_progress na_ofi_progress_loop progress_once na_ofi_progress_head
  simp only [if_true, pure, Except.pure, bind, Except.bind]
  cases hr : na_ofi_cq_read E w context NA_OFI_CQ_EVENT_NUM
      (some (List.replicate NA_OFI_CQ_MAX_ERR_DATA_SIZE 0)) NA_OFI_CQ_MAX_ERR_DATA_SIZE with
  | error e => rfl
  | ok r =>
    simp only [ne_eq, not_true_eq_false, if_false, Nat.cast_zero, zero_div, le_refl, if_true,
      gt_iff_lt, lt_self_iff_false, false_and]
    split_ifs
    all_goals first
      | rfl
      | (simp only [ite_self]
         cases na_ofi_progress_events E context r.2.src_err_addr r.2.src_err_addrlen r.1
             r.2.events with
         | error e => rfl
         | ok v => rfl)


/-- The loop over the events returns `NA_SUCCESS` exactly when every event was
processed with `NA_SUCCESS`, and then in the state after the last event. -/
theorem na_ofi_progress_events_success (E : Env) (context : Nat)
    (src_err_addr : Option (List Nat)) (src_err_addrlen : Nat)
    (events : List (fi_cq_tagged_entry × Nat)) :
    ∀ (w w2 : World),
    na_ofi_progress_events E context src_err_addr src_err_addrlen w events
        = .ok (w2, NA_SUCCESS) ↔
      events_processed E context src_err_addr src_err_addrlen w events = some w2 := by
  induction events with
  | nil =>
    intro w w2
    simp only [na_ofi_progress_events, events_processed, List.foldlM_nil, pure, Except.pure,
      Except.ok.injEq, Prod.mk.injEq, and_true, Option.some.injEq]
  | cons e rest ih =>
    intro w w2
    obtain ⟨ev, src⟩ := e
    unfold na_ofi_progress_events events_processed
    rw [List.foldlM_cons]
    cases hp : na_ofi_cq_process_event E w context ev src src_err_addr src_err_addrlen with
    | error x =>
      simp only [bind, Except.bind, Option.bind, reduceCtorEq]
    | ok r =>
      obtain ⟨w1, ret⟩ := r
      by_cases hret : ret = NA_SUCCESS
      · subst hret
        simp only [bind, Except.bind, Option.bind, ne_eq, not_true_eq_false, if_false]
        exact ih w1 w2
      · simp only [bind, Except.bind, Option.bind, ne_eq, hret, not_false_eq_true, if_true,
          pure, Except.pure, Except.ok.injEq, Prod.mk.injEq]
        constructor
        · intro h
          exact h.2.elim
        · intro h
          cases ret <;> first | exact absurd rfl hret | exact Option.noConfusion h

/-- C25: with timeout 0, for every state of the completion queue and every
fuel of at least one pass, `na_ofi_progress` is one pass of its loop
(`progress_once`), so it never runs out of fuel. Whenever it returns it has
made no `fi_wait` call and exactly one `fi_cq_readfrom` call, the one of its
single `na_ofi_cq_read`. For every result `c` of that read: when the read
fails, `na_ofi_progress` returns its code; when it succeeds without events,
`na_ofi_progress` returns `NA_TIMEOUT`; when it yields events,
`na_ofi_progress` returns `NA_SUCCESS` in the state `w2` exactly when every
event in turn was processed by `na_ofi_cq_process_event` with `NA_SUCCESS` and
`w2` is the state after the last of them (`events_processed`). -/
theorem na_ofi_progress_timeout_zero (E : Env) (fuel : Nat) (w : World) (context : Nat) :
    na_ofi_progress E (fuel + 1) w context 0 = progress_once E w context ∧
    (∀ r, na_ofi_progress E (fuel + 1) w context 0 = .ok r →
      fi_waits r.1.calls = fi_waits w.calls ∧ cq_reads r.1.calls = cq_reads w.calls + 1 ∧
      ∃ c, na_ofi_cq_read E w context NA_OFI_CQ_EVENT_NUM
          (some (List.replicate NA_OFI_CQ_MAX_ERR_DATA_SIZE 0)) NA_OFI_CQ_MAX_ERR_DATA_SIZE
          = .ok c ∧
        cq_reads c.1.calls = cq_reads w.calls + 1 ∧
        (c.2.ret ≠ NA_SUCCESS → r = (c.1, c.2.ret)) ∧
        (c.2.ret = NA_SUCCESS → c.2.events = [] → r = (c.1, NA_TIMEOUT)) ∧
        (c.2.ret = NA_SUCCESS → c.2.events ≠ [] →
          na_ofi_progress_events E context c.2.src_err_addr c.2.src_err_addrlen c.1 c.2.events
            = .ok r)) ∧
    (∀ c, na_ofi_cq_read E w context NA_OFI_CQ_EVENT_NUM
        (some (List.replicate NA_OFI_CQ_MAX_ERR_DATA_SIZE 0)) NA_OFI_CQ_MAX_ERR_DATA_SIZE
        = .ok c →
      (c.2.ret ≠ NA_SUCCESS → na_ofi_progress E (fuel + 1) w context 0 = .ok (c.1, c.2.ret)) ∧
      (c.2.ret = NA_SUCCESS → c.2.events = [] →
        na_ofi_progress E (fuel + 1) w context 0 = .ok (c.1, NA_TIMEOUT)) ∧
      (c.2.ret = NA_SUCCESS → c.2.events ≠ [] → ∀ w2,
        (na_ofi_progress E (fuel + 1) w context 0 = .ok (w2, NA_SUCCESS) ↔
          events_processed E context c.2.src_err_addr c.2.src_err_addrlen c.1 c.2.events
            = some w2))) := by
  refine ⟨na_ofi_progress_eq_once E fuel w context, ?_, ?_⟩
  · intro r h
    rw [na_ofi_progress_eq_once] at h
    unfold progress_once at h
    obtain ⟨c, hc, h⟩ := except_bind_ok h
    obtain ⟨c1, c2⟩ := na_ofi_cq_read_calls E w context _ _ _ c hc
    split at h
    · rename_i hret
      have h := (Except.ok.inj h).symm
      subst h
      exact ⟨c1, c2, c, hc, c2, fun _ => rfl, fun hs => absurd hs hret,
        fun hs => absurd hs hret⟩
    rename_i hret
    have hret : c.2.ret = NA_SUCCESS := not_not.mp hret
    split at h
    · rename_i hev
      have h := (Except.ok.inj h).symm
      subst h
      exact ⟨c1, c2, c, hc, c2, fun hn => absurd hret hn, fun _ _ => rfl,
        fun _ hne => absurd hev hne⟩
    · rename_i hev
      obtain ⟨p1, p2⟩ := na_ofi_progress_events_calls E context _ _ _ c.1 r h
      exact ⟨p1.trans c1, p2.trans c2, c, hc, c2, fun hn => absurd hret hn,
        fun _ he => absurd he hev, fun _ _ => h⟩
  · intro c hc
    rw [na_ofi_progress_eq_once]
    unfold progress_once
    simp only [hc, bind, Except.bind, pure, Except.pure]
    refine ⟨fun hr => ?_, fun hr he => ?_, fun hr he w2 => ?_⟩
    · simp only [ne_eq, hr, not_false_eq_true, if_true]
    · simp only [ne_eq, hr, not_true_eq_false, if_false, he, if_true]
    · simp only [ne_eq, hr, not_true_eq_false, if_false, he]
      exact na_ofi_progress_events_success E context _ _ _ c.1 w2

/-- C25, witness: in `world_posted_recv_unexpected` a read that yields the
receive event of the posted operation ID 0: `na_ofi_progress` with timeout 0
returns `NA_SUCCESS` exactly in the state in which the event is processed (the
operation completed, taken from the queue and enqueued for its callback);
with an empty completion queue it returns `NA_TIMEOUT`. -/
theorem na_ofi_progress_timeout_zero_witness :
    na_ofi_cq_read env_cq_event world_posted_recv_unexpected 0 NA_OFI_CQ_EVENT_NUM
        (some (List.replicate NA_OFI_CQ_MAX_ERR_DATA_SIZE 0)) NA_OFI_CQ_MAX_ERR_DATA_SIZE
      = .ok (world_posted_recv_unexpected.log (Call.fi_cq_readfrom 3 16),
          ⟨NA_SUCCESS, [(sample_recv_event, 7)],
            some (List.replicate NA_OFI_CQ_MAX_ERR_DATA_SIZE 0), 0⟩) ∧
    (∀ w2,
      (na_ofi_progress env_cq_event (0 + 1) world_posted_recv_unexpected 0 0
          = .ok (w2, NA_SUCCESS) ↔
        events_processed env_cq_event 0 (some (List.replicate NA_OFI_CQ_MAX_ERR_DATA_SIZE 0)) 0
          (world_posted_recv_unexpected.log (Call.fi_cq_readfrom 3 16))
          [(sample_recv_event, 7)] = some w2)) ∧
    (events_processed env_cq_event 0 (some (List.replicate NA_OFI_CQ_MAX_ERR_DATA_SIZE 0)) 0
        (world_posted_recv_unexpected.log (Call.fi_cq_readfrom 3 16))
        [(sample_recv_event, 7)]).map
        (fun w2 => (w2.completions, w2.queues 0, (w2.ops 0).map (fun o => o.status), w2.calls))
      = some ([0], some [], some 1,
          [Call.na_cb_completion_add (some 0) 0, Call.alloc 56, Call.fi_cq_readfrom 3 16,
           Call.fi_trecv 1 0 64 0 FI_ADDR_UNSPEC 1 NA_OFI_UNEXPECTED_TAG_IGNORE 0]) ∧
    (progress_once env_cq_event world_posted_recv_unexpected 0).map
        (fun r => (r.2, r.1.completions, r.1.queues 0)) = .ok (NA_SUCCESS, [0], some []) ∧
    (progress_once env_ok world_posted_recv_unexpected 0).map
        (fun r => (r.2, r.1.completions, r.1.queues 0)) = .ok (NA_TIMEOUT, [], some [0]) :=
  ⟨rfl,
    ((na_ofi_progress_timeout_zero env_cq_event 0 world_posted_recv_unexpected 0).2.2
      (world_posted_recv_unexpected.log (Call.fi_cq_readfrom 3 16),
        ⟨NA_SUCCESS, [(sample_recv_event, 7)],
          some (List.replicate NA_OFI_CQ_MAX_ERR_DATA_SIZE 0), 0⟩) rfl).2.2 rfl (by decide),
    by decide, by decide, by decide⟩

/-! ### Race between the two locks of the address cache -/

/-- C26: race reconciliation in `na_ofi_addr_ht_lookup`. When the first lookup
(read lock) misses, `na_ofi_av_insert` succeeds with handle `fa`, and the
lookup under the write lock finds the key mapped to `v` by another thread,
the function calls `fi_av_remove` on `fa` as its next and last outside call
and leaves the hash table as the other thread left it (the key still mapped
to `v`); when that removal succeeds it returns `NA_SUCCESS` with the handle
`v` of the table, and `NA_PROTOCOL_ERROR` when it fails. -/
theorem na_ofi_addr_ht_lookup_race (E : Env) (w w1 : World) (addr_format : Nat)
    (addr : List Nat) (addrlen fi_addr key fa v : Nat)
    (hkey : na_ofi_addr_to_key addr_format addr addrlen = .ok key) (hk0 : key ≠ 0)
    (hmiss : hg_hash_table_lookup w.domain.addr_ht key = none)
    (hins : na_ofi_av_insert E w addr addrlen fi_addr = .ok (w1, NA_SUCCESS, fa))
    (hrace : hg_hash_table_lookup (E.race w1.calls w1.domain.addr_ht) key = some v) :
    ∃ w2 ret out,
      na_ofi_addr_ht_lookup E w addr_format addr addrlen fi_addr = .ok (w2, ret, out, key) ∧
      w2.calls = Call.fi_av_remove fa :: w1.calls ∧
      w2.domain.addr_ht = E.race w1.calls w1.domain.addr_ht ∧
      hg_hash_table_lookup w2.domain.addr_ht key = some v ∧
      (E.fi_av_remove w1.calls fa = 0 → ret = NA_SUCCESS ∧ out = v) ∧
      (E.fi_av_remove w1.calls fa ≠ 0 → ret = NA_PROTOCOL_ERROR) := by
  unfold na_ofi_addr_ht_lookup
  simp only [hkey, bind, Except.bind, pure, Except.pure, hk0, if_false, hmiss, hins]
  simp only [ne_eq, not_true_eq_false, if_false, hrace]
  by_cases hr : E.fi_av_remove w1.calls fa = 0
  · refine ⟨(({ w1 with domain := { w1.domain with
      addr_ht := E.race w1.calls w1.domain.addr_ht } } : World).log (Call.fi_av_remove fa)), NA_SUCCESS, v, ?_, rfl, rfl, hrace, fun _ => ⟨rfl, rfl⟩, fun h => absurd hr h⟩
    simp [hr, World.log]
  · refine ⟨(({ w1 with domain := { w1.domain with
      addr_ht := E.race w1.calls w1.domain.addr_ht } } : World).log (Call.fi_av_remove fa)), NA_PROTOCOL_ERROR, fa, ?_, rfl, rfl, hrace, fun h => absurd h hr, fun _ => rfl⟩
    simp [hr, World.log]

/-- C26, witness: a PSM2 domain with an empty table, the address of 127.0.0.1
port 4000, and another thread that maps its key to handle 9 in between. -/
theorem na_ofi_addr_ht_lookup_race_witness :
    ∃ w2 ret out,
      na_ofi_addr_ht_lookup env_race (world_of NA_OFI_PROV_PSM2 []) FI_ADDR_PSMX2
        sample_sin_addr 16 0 = .ok (w2, ret, out, 72058139498815503) ∧
      w2.calls = Call.fi_av_remove 7 :: [Call.fi_av_insert
        (some [1, 2, 3, 4, 5, 6, 7, 8, 9, 10, 11, 12, 13, 14, 15, 16]),
        Call.fi_getinfo "127.0.0.1" "4000"] ∧
      w2.domain.addr_ht = [(72058139498815503, 9)] ∧
      hg_hash_table_lookup w2.domain.addr_ht 72058139498815503 = some 9 ∧
      (env_race.fi_av_remove [Call.fi_av_insert
        (some [1, 2, 3, 4, 5, 6, 7, 8, 9, 10, 11, 12, 13, 14, 15, 16]),
        Call.fi_getinfo "127.0.0.1" "4000"] 7 = 0 → ret = NA_SUCCESS ∧ out = 9) ∧
      (env_race.fi_av_remove [Call.fi_av_insert
        (some [1, 2, 3, 4, 5, 6, 7, 8, 9, 10, 11, 12, 13, 14, 15, 16]),
        Call.fi_getinfo "127.0.0.1" "4000"] 7 ≠ 0 → ret = NA_PROTOCOL_ERROR) :=
  na_ofi_addr_ht_lookup_race env_race (world_of NA_OFI_PROV_PSM2 [])
    ((world_of NA_OFI_PROV_PSM2 []).log (Call.fi_getinfo "127.0.0.1" "4000") |>.log
      (Call.fi_av_insert (some [1, 2, 3, 4, 5, 6, 7, 8, 9, 10, 11, 12, 13, 14, 15, 16])))
    FI_ADDR_PSMX2 sample_sin_addr 16 0 72058139498815503 7 9
    (by decide) (by decide) (by rfl) (by rfl) (by rfl)

/-! ### Reference counts of the lookup with callback -/

/-- C28 (fails in the code): `na_ofi_addr_lookup` of `psm2://127.0.0.1:4000` on
a fresh operation ID. When the NA layer refuses the completion,
`na_ofi_complete` has already dropped the extra reference (2 to 1) before it
returns the error, and the `error:` path then decrements twice more: the first
releases the address, the second reads the released address
(`Fault.use_after_free`). When the completion is accepted the call returns
`NA_SUCCESS` and the address handed to the callback has reference count 1. -/
theorem na_ofi_addr_lookup_enqueue_failure_use_after_free :
    (na_ofi_addr_lookup env_completion_fails (world_with NA_OFI_PROV_PSM2 fresh_op [])
        0 0 0 "psm2://127.0.0.1:4000" (some 0)).map (fun r => r.2)
      = .error Fault.use_after_free ∧
    (na_ofi_addr_lookup env_ok (world_with NA_OFI_PROV_PSM2 fresh_op [])
        0 0 0 "psm2://127.0.0.1:4000" (some 0)).map
        (fun r => (r.2, (r.1.ops 0).map (fun o => o.cb_lookup_addr),
          (r.1.addrs 1).map (fun a => a.refcount), r.1.completions))
      = .ok (NA_SUCCESS, some (some 1), some 1, [0]) := by
  constructor
  · decide
  · decide

/-! ### Length of the URI -/

section

set_option maxRecDepth 100000

/-- C29 (fails in the code): for the PSM2 endpoint opened for the host name
`10.0.0.1:<long_service>`, whose service string of 112 characters
`na_ofi_initialize` takes from the host name as it is, the URI
`psm2://10.0.0.1:<long_service>` needs exactly `NA_OFI_MAX_URI_LEN` = 128
characters; `na_ofi_get_uri` returns `NA_SUCCESS` with the 127 characters that
fit the buffer, the last `0` of the service cut off, instead of `NA_OVERFLOW`,
and `na_ofi_get_ep_addr` stores the cut URI as the URI of the endpoint's own
address. With one character more the URI is rejected with `NA_OVERFLOW`. -/
theorem na_ofi_get_uri_truncates_at_max_len :
    host_name_service_str ("10.0.0.1:" ++ long_service) = some long_service ∧
    long_service.length = 112 ∧
    world_long_service.endpoint.src_node = "10.0.0.1" ∧
    world_long_service.endpoint.src_service = long_service ∧
    ("psm2://10.0.0.1:" ++ long_service).length = NA_OFI_MAX_URI_LEN ∧
    (na_ofi_get_uri env_ok world_long_service []).2 =
      (NA_SUCCESS, some ("psm2://10.0.0.1:" ++ String.mk (List.replicate 108 (Char.ofNat 48))
        ++ "400")) ∧
    ("psm2://10.0.0.1:" ++ String.mk (List.replicate 108 (Char.ofNat 48)) ++ "400").length = 127 ∧
    (na_ofi_get_ep_addr env_ok world_long_service).map
        (fun r => (r.2.1, (r.2.2.bind r.1.addrs).bind (fun a => a.uri))) =
      .ok (NA_SUCCESS, some ("psm2://10.0.0.1:" ++ String.mk (List.replicate 108 (Char.ofNat 48))
        ++ "400")) ∧
    (na_ofi_get_uri env_ok
        { world_long_service with endpoint :=
            { world_long_service.endpoint with src_service := "0" ++ long_service } } []).2 =
      (NA_OVERFLOW, none) := by
  refine ⟨by rfl, by rfl, by rfl, by rfl, by rfl, ?_, by rfl, ?_, ?_⟩
  · rfl
  · rfl
  · rfl

end

/-! ### Layout of a memory pool -/

/-- The address of a node when the size of the pool does not overflow. -/
theorem na_ofi_mem_node_at_eq (base block_size block_count i : Nat) (hi : i < block_count)
    (hsize : block_size * block_count + sizeof_na_ofi_mem_pool
      + block_count * offsetof_na_ofi_mem_node_block < 2 ^ 64) :
    na_ofi_mem_node_at base block_size i =
      base + sizeof_na_ofi_mem_pool + i * (offsetof_na_ofi_mem_node_block + block_size) := by
  unfold na_ofi_mem_node_at
  have h1 : i * (offsetof_na_ofi_mem_node_block + block_size)
      ≤ block_count * (offsetof_na_ofi_mem_node_block + block_size) :=
    Nat.mul_le_mul_right _ (by omega)
  have h2 : block_count * (offsetof_na_ofi_mem_node_block + block_size)
      = block_size * block_count + block_count * offsetof_na_ofi_mem_node_block := by ring
  have h3 : offsetof_na_ofi_mem_node_block + block_size
      ≤ block_count * (offsetof_na_ofi_mem_node_block + block_size) :=
    Nat.le_mul_of_pos_left _ (by omega)
  rw [Nat.mod_eq_of_lt (by omega : offsetof_na_ofi_mem_node_block + block_size < 2 ^ 64),
    Nat.mod_eq_of_lt (by omega)]

/-- C30: layout of the slab of `na_ofi_mem_pool_create` when the pool size does
not overflow. The slab of `pool_size` bytes is what the allocator returned;
the free list holds `block_count` nodes, node `i` at offset
`sizeof(pool) + i * (offsetof(node, block) + block_size)`; the block of node
`i` (the `block_size` bytes from its `block` member on) lies after the pool
header and inside the slab, does not overlap the queue-entry header of any
node, and is disjoint from the block of every other node. The node that
`na_ofi_mem_pool_free` recovers from a pointer returned by
`na_ofi_mem_pool_alloc` and pushes back is the node that was popped. -/
theorem na_ofi_mem_pool_layout (E : Env) (w w1 : World) (block_size block_count : Nat)
    (pool : na_ofi_mem_pool)
    (hsize : block_size * block_count + sizeof_na_ofi_mem_pool
      + block_count * offsetof_na_ofi_mem_node_block < 2 ^ 64)
    (hcreate : na_ofi_mem_pool_create E w block_size block_count = (w1, some pool)) :
    E.hg_mem_aligned_alloc w.calls E.hg_mem_get_page_size
      (block_size * block_count + sizeof_na_ofi_mem_pool
        + block_count * offsetof_na_ofi_mem_node_block) = some pool.base ∧
    pool.node_list.length = block_count ∧
    (∀ i, i < block_count →
      pool.node_list.get? i = some (na_ofi_mem_node_at pool.base block_size i) ∧
      na_ofi_mem_node_at pool.base block_size i =
        pool.base + sizeof_na_ofi_mem_pool + i * (offsetof_na_ofi_mem_node_block + block_size) ∧
      pool.base + sizeof_na_ofi_mem_pool ≤ na_ofi_mem_node_at pool.base block_size i ∧
      na_ofi_mem_node_at pool.base block_size i + offsetof_na_ofi_mem_node_block + block_size
        ≤ pool.base + (block_size * block_count + sizeof_na_ofi_mem_pool
          + block_count * offsetof_na_ofi_mem_node_block) ∧
      ∀ j, j < block_count →
        (na_ofi_mem_node_at pool.base block_size j + offsetof_na_ofi_mem_node_block
            ≤ na_ofi_mem_node_at pool.base block_size i + offsetof_na_ofi_mem_node_block ∨
          na_ofi_mem_node_at pool.base block_size i + offsetof_na_ofi_mem_node_block + block_size
            ≤ na_ofi_mem_node_at pool.base block_size j) ∧
        (j ≠ i →
          na_ofi_mem_node_at pool.base block_size j + offsetof_na_ofi_mem_node_block + block_size
            ≤ na_ofi_mem_node_at pool.base block_size i + offsetof_na_ofi_mem_node_block ∨
          na_ofi_mem_node_at pool.base block_size i + offsetof_na_ofi_mem_node_block + block_size
            ≤ na_ofi_mem_node_at pool.base block_size j + offsetof_na_ofi_mem_node_block)) ∧
    (∀ size mr_hdl fuel (W W1 : World) ptr m,
      na_ofi_mem_pool_alloc E size mr_hdl (fuel + 1) W = .ok (W1, some ptr, m) →
      ∃ pools i p node rest, (pools = W.buf_pool ∨ ∃ q, pools = W.buf_pool ++ [q]) ∧
        pools.get? i = some p ∧ p.node_list = node :: rest ∧
        W1.buf_pool = pools.set i { p with node_list := rest } ∧
        ptr = node + offsetof_na_ofi_mem_node_block ∧
        na_ofi_mem_node_of ptr = node ∧
        (na_ofi_mem_pool_free W1 ptr m).buf_pool = push_to_pool node m W1.buf_pool) := by
  have hc2 : (na_ofi_mem_pool_create E w block_size block_count).2 = some pool := by rw [hcreate]
  obtain ⟨hbase, _, hl⟩ := (na_ofi_mem_pool_create_inv E w block_size block_count).2 pool hc2
  have hps : na_ofi_mem_pool_size block_size block_count =
      block_size * block_count + sizeof_na_ofi_mem_pool
        + block_count * offsetof_na_ofi_mem_node_block := Nat.mod_eq_of_lt hsize
  rw [hps] at hbase
  refine ⟨hbase, by rw [hl, List.length_map, List.length_range], ?_, ?_⟩
  · intro i hi
    have hi_eq := na_ofi_mem_node_at_eq pool.base block_size block_count i hi hsize
    have hmul : ∀ a b : Nat, a < b →
        a * (offsetof_na_ofi_mem_node_block + block_size)
          + (offsetof_na_ofi_mem_node_block + block_size)
          ≤ b * (offsetof_na_ofi_mem_node_block + block_size) := by
      intro a b hab
      calc a * (offsetof_na_ofi_mem_node_block + block_size)
            + (offsetof_na_ofi_mem_node_block + block_size)
          = (a + 1) * (offsetof_na_ofi_mem_node_block + block_size) := by ring
        _ ≤ b * (offsetof_na_ofi_mem_node_block + block_size) :=
          Nat.mul_le_mul_right _ (by omega)
    have hexp : block_count * (offsetof_na_ofi_mem_node_block + block_size)
        = block_size * block_count + block_count * offsetof_na_ofi_mem_node_block := by ring
    refine ⟨?_, hi_eq, by omega, ?_, ?_⟩
    · rw [hl, List.get?_eq_getElem?, List.getElem?_map, List.getElem?_range hi]
      rfl
    · have := hmul i block_count hi
      omega
    · intro j hj
      have hj_eq := na_ofi_mem_node_at_eq pool.base block_size block_count j hj hsize
      rw [hi_eq, hj_eq]
      rcases Nat.lt_trichotomy j i with hlt | heq | hgt
      · have := hmul j i hlt
        exact ⟨Or.inl (by omega), fun _ => Or.inl (by omega)⟩
      · subst heq
        exact ⟨Or.inl (le_refl _), fun h => absurd rfl h⟩
      · have := hmul i j hgt
        exact ⟨Or.inr (by omega), fun _ => Or.inr (by omega)⟩
  · intro size mr_hdl fuel W W1 ptr m h
    obtain ⟨pools, i, p, node, rest, h1, h2, h3, _, _, h6, h7⟩ :=
      na_ofi_mem_pool_alloc_popped E size mr_hdl fuel W W1 ptr m h
    have hnode : na_ofi_mem_node_of ptr = node := by
      rw [h7]
      unfold na_ofi_mem_node_of
      omega
    refine ⟨pools, i, p, node, rest, h1, h2, h3, h6, h7, hnode, ?_⟩
    unfold na_ofi_mem_pool_free
    rw [hnode]


/-- C30, witness: the pool of 256 blocks of 4096 bytes that
`na_ofi_mem_pool_alloc` creates, in the world after initialization. -/
theorem na_ofi_mem_pool_layout_witness :
    env_ok.hg_mem_aligned_alloc (world_of NA_OFI_PROV_SOCKETS []).calls
      env_ok.hg_mem_get_page_size
      (4096 * 256 + sizeof_na_ofi_mem_pool + 256 * offsetof_na_ofi_mem_node_block)
      = some sample_pool.base ∧
    sample_pool.node_list.length = 256 ∧
    (∀ i, i < 256 →
      sample_pool.node_list.get? i = some (na_ofi_mem_node_at sample_pool.base 4096 i) ∧
      na_ofi_mem_node_at sample_pool.base 4096 i =
        sample_pool.base + sizeof_na_ofi_mem_pool + i * (offsetof_na_ofi_mem_node_block + 4096) ∧
      sample_pool.base + sizeof_na_ofi_mem_pool ≤ na_ofi_mem_node_at sample_pool.base 4096 i ∧
      na_ofi_mem_node_at sample_pool.base 4096 i + offsetof_na_ofi_mem_node_block + 4096
        ≤ sample_pool.base + (4096 * 256 + sizeof_na_ofi_mem_pool
          + 256 * offsetof_na_ofi_mem_node_block) ∧
      ∀ j, j < 256 →
        (na_ofi_mem_node_at sample_pool.base 4096 j + offsetof_na_ofi_mem_node_block
            ≤ na_ofi_mem_node_at sample_pool.base 4096 i + offsetof_na_ofi_mem_node_block ∨
          na_ofi_mem_node_at sample_pool.base 4096 i + offsetof_na_ofi_mem_node_block + 4096
            ≤ na_ofi_mem_node_at sample_pool.base 4096 j) ∧
        (j ≠ i →
          na_ofi_mem_node_at sample_pool.base 4096 j + offsetof_na_ofi_mem_node_block + 4096
            ≤ na_ofi_mem_node_at sample_pool.base 4096 i + offsetof_na_ofi_mem_node_block ∨
          na_ofi_mem_node_at sample_pool.base 4096 i + offsetof_na_ofi_mem_node_block + 4096
            ≤ na_ofi_mem_node_at sample_pool.base 4096 j + offsetof_na_ofi_mem_node_block)) ∧
    (∀ size mr_hdl fuel (W W1 : World) ptr m,
      na_ofi_mem_pool_alloc env_ok size mr_hdl (fuel + 1) W = .ok (W1, some ptr, m) →
      ∃ pools i p node rest, (pools = W.buf_pool ∨ ∃ q, pools = W.buf_pool ++ [q]) ∧
        pools.get? i = some p ∧ p.node_list = node :: rest ∧
        W1.buf_pool = pools.set i { p with node_list := rest } ∧
        ptr = node + offsetof_na_ofi_mem_node_block ∧
        na_ofi_mem_node_of ptr = node ∧
        (na_ofi_mem_pool_free W1 ptr m).buf_pool = push_to_pool node m W1.buf_pool) :=
  na_ofi_mem_pool_layout env_ok (world_of NA_OFI_PROV_SOCKETS [])
    (na_ofi_mem_pool_create env_ok (world_of NA_OFI_PROV_SOCKETS []) 4096 256).1 4096 256
    sample_pool (by decide) (by rfl)

/-! ### Operations: what the address functions leave alone -/

theorem na_ofi_addr_decref_op_state (E : Env) (w w1 : World) (p : Nat)
    (h : na_ofi_addr_decref E w p = .ok w1) : w1.op_state = w.op_state := by
  unfold na_ofi_addr_decref World.get_addr at h
  simp only [bind, Except.bind, pure, Except.pure] at h
  repeat' split at h
  all_goals first
    | exact Except.noConfusion h
    | (have h := (Except.ok.inj h).symm
       subst h
       first
         | rfl
         | (show (na_ofi_domain_close E _).1.op_state = _
            rw [na_ofi_domain_close_op_state]
            first
              | rfl
              | (rw [na_ofi_addr_ht_remove_op_state]; rfl)))

theorem na_ofi_addr_addref_op_state (w w1 : World) (p : Nat)
    (h : na_ofi_addr_addref w p = .ok w1) : w1.op_state = w.op_state := by
  unfold na_ofi_addr_addref World.get_addr at h
  simp only [bind, Except.bind, pure, Except.pure] at h
  repeat' split at h
  all_goals first
    | exact Except.noConfusion h
    | (have h := (Except.ok.inj h).symm
       subst h
       rfl)

theorem na_ofi_addr_alloc_op_state (E : Env) (w : World) :
    (na_ofi_addr_alloc E w).1.op_state = w.op_state := by
  unfold na_ofi_addr_alloc
  simp only [alloc]
  split <;> rfl

theorem na_ofi_av_insert_op_state (E : Env) (w : World) (addr : List Nat)
    (len fi : Nat) (r : World × na_return_t × Nat)
    (h : na_ofi_av_insert E w addr len fi = .ok r) : r.1.op_state = w.op_state := by
  unfold na_ofi_av_insert na_ofi_av_insert_tail at h
  simp only [bind, Except.bind, pure, Except.pure] at h
  repeat' split at h
  all_goals first
    | exact Except.noConfusion h
    | (have h := (Except.ok.inj h).symm
       subst h
       rfl)

theorem na_ofi_addr_ht_lookup_op_state (E : Env) (w : World) (fmt : Nat)
    (addr : List Nat) (len fi : Nat) (r : World × na_return_t × Nat × Nat)
    (h : na_ofi_addr_ht_lookup E w fmt addr len fi = .ok r) :
    r.1.op_state = w.op_state := by
  unfold na_ofi_addr_ht_lookup at h
  simp only [bind, Except.bind, pure, Except.pure] at h
  split at h
  · exact Except.noConfusion h
  split at h
  · have h := (Except.ok.inj h).symm
    subst h
    rfl
  split at h
  · have h := (Except.ok.inj h).symm
    subst h
    rfl
  split at h
  · exact Except.noConfusion h
  rename_i ri hins
  have hi := na_ofi_av_insert_op_state E w addr len fi ri hins
  obtain ⟨wi, rc, fa⟩ := ri
  simp only [alloc, hg_hash_table_insert, World.log] at h
  repeat' split at h
  all_goals
    have h := (Except.ok.inj h).symm
    subst h
    exact Eq.trans (b := wi.op_state) rfl hi

theorem ops_map_of_ops {α : Type} (g : na_ofi_op_id → α) {w w1 : World} (h : w1.ops = w.ops)
    (p : Nat) : (w1.ops p).map g = (w.ops p).map g := by
  rw [h]

theorem ops_map_set_op {α : Type} (g : na_ofi_op_id → α) (w : World) (op : Nat)
    (o o1 : na_ofi_op_id) (ho : w.ops op = some o) (h : g o1 = g o) (p : Nat) :
    ((w.set_op op (some o1)).ops p).map g = (w.ops p).map g := by
  unfold World.set_op
  by_cases hp : p = op
  · subst hp
    simp only [Function.update_same, ho, Option.map_some', h]
  · simp only [Function.update_noteq hp]

/-- The `na_ofi_complete` changes the type and the reference count of no
operation ID, and no field of an operation ID other than the one it completes. -/
theorem na_ofi_complete_fields (E : Env) (w : World) (op : Nat) (op_ret : na_return_t)
    (r : World × na_return_t) (h : na_ofi_complete E w op op_ret = .ok r) :
    (∀ p, (r.1.ops p).map (fun o => (o.type, o.refcount))
      = (w.ops p).map (fun o => (o.type, o.refcount))) ∧
    (∀ p, p ≠ op → r.1.ops p = w.ops p) := by
  unfold na_ofi_complete at h
  obtain ⟨o, ho, h⟩ := except_bind_ok h
  have ho := get_op_ok ho
  dsimp only at h
  generalize hx : na_ofi_complete_info _ = x at h
  have hxr : (fun o : na_ofi_op_id => (o.type, o.refcount)) x.1
      = (fun o : na_ofi_op_id => (o.type, o.refcount)) o := by
    rw [← hx]
    have hf := na_ofi_complete_info_fields { o with
      status := o.status ||| NA_OFI_OP_COMPLETED,
      ret := if (o.status ||| NA_OFI_OP_COMPLETED) &&& NA_OFI_OP_CANCELED ≠ 0 then
          (if op_ret = NA_SUCCESS then NA_CANCELED else op_ret) else op_ret }
    simp only [hf.2.2.1, hf.2.2.2.2.1]
  have hc : (na_ofi_complete_add E (w.set_op op (some x.1)) op x).1.ops
      = (w.set_op op (some x.1)).ops := by
    unfold na_ofi_complete_add
    split
    · rfl
    · exact (na_cb_completion_add_frame E (w.set_op op (some x.1)) x.1.context op).1
  have hoth : ∀ p, p ≠ op → (w.set_op op (some x.1)).ops p = w.ops p := by
    intro p hp
    simp only [World.set_op, Function.update_noteq hp]
  generalize na_ofi_complete_add E (w.set_op op (some x.1)) op x = c at hc h
  split at h
  · obtain ⟨w2, hdec, h⟩ := except_bind_ok h
    have h := (Except.ok.inj h).symm
    subst h
    have hd := congrArg (fun s => s.1) (na_ofi_addr_decref_op_state E c.1 w2 _ hdec)
    simp only [World.op_state] at hd
    refine ⟨fun p => ?_, fun p hp => ?_⟩
    · show (w2.ops p).map _ = _
      rw [hd, hc]
      exact ops_map_set_op _ w op o x.1 ho hxr p
    · show w2.ops p = _
      rw [hd, hc]
      exact hoth p hp
  · have h := (Except.ok.inj h).symm
    subst h
    refine ⟨fun p => ?_, fun p hp => ?_⟩
    · rw [hc]
      exact ops_map_set_op _ w op o x.1 ho hxr p
    · rw [hc]
      exact hoth p hp

theorem na_ofi_msg_unexpected_op_remove_ops (w w1 : World) (context op : Nat)
    (h : na_ofi_msg_unexpected_op_remove w context op = .ok w1) : w1.ops = w.ops := by
  obtain ⟨ctx, q, l, -, -, -, -, h5⟩ := na_ofi_msg_unexpected_op_remove_inv w w1 context op h
  subst h5
  rfl

theorem na_ofi_cq_process_recv_unexpected_event_fields (E : Env) (w : World) (context op : Nat)
    (src_addr : Nat) (src_err_addr : Option (List Nat)) (src_err_addrlen tag len : Nat)
    (r : World × na_return_t)
    (h : na_ofi_cq_process_recv_unexpected_event E w context op src_addr src_err_addr
      src_err_addrlen tag len = .ok r) (p : Nat) :
    (r.1.ops p).map (fun o => (o.type, o.status, o.refcount)) = (w.ops p).map (fun o => (o.type, o.status, o.refcount)) := by
  unfold na_ofi_cq_process_recv_unexpected_event at h
  obtain ⟨o, ho, h⟩ := except_bind_ok h
  have ho := get_op_ok ho
  split at h
  · have h := (Except.ok.inj h).symm
    subst h
    rfl
  split at h
  · have h := (Except.ok.inj h).symm
    subst h
    rfl
  have ha := congrArg (fun s => s.1) (na_ofi_addr_alloc_op_state E w)
  simp only [World.op_state] at ha
  split at h
  · rename_i w1 hw1
    have h := (Except.ok.inj h).symm
    subst h
    rw [hw1] at ha
    exact ops_map_of_ops _ ha p
  rename_i w1 pa hw1
  rw [hw1] at ha
  simp only at ha
  obtain ⟨a, hga, h⟩ := except_bind_ok h
  have hjp : ∀ r0 : World × na_return_t, r0.1.ops = w.ops →
      (if r0.2 ≠ NA_SUCCESS then
          na_ofi_addr_decref E r0.1 pa >>= fun w2 => pure (w2, r0.2)
        else
          na_ofi_addr_addref r0.1 pa >>= fun w2 =>
            na_ofi_msg_unexpected_op_remove
              (w2.set_op op (some { o with addr := some pa, tag := tag % 2 ^ 32, msg_size := len }))
              context op >>= fun w4 => pure (w4, NA_SUCCESS)) = .ok r →
      (r.1.ops p).map (fun o => (o.type, o.status, o.refcount)) = (w.ops p).map (fun o => (o.type, o.status, o.refcount)) := by
    intro r0 h0 h
    split at h
    · obtain ⟨w2, hw2, h⟩ := except_bind_ok h
      have h := (Except.ok.inj h).symm
      subst h
      have hd := congrArg (fun s => s.1) (na_ofi_addr_decref_op_state E r0.1 w2 pa hw2)
      simp only [World.op_state] at hd
      exact ops_map_of_ops _ (hd.trans h0) p
    · obtain ⟨w2, hw2, h⟩ := except_bind_ok h
      obtain ⟨w4, hw4, h⟩ := except_bind_ok h
      have h := (Except.ok.inj h).symm
      subst h
      have hd := congrArg (fun s => s.1) (na_ofi_addr_addref_op_state r0.1 w2 pa hw2)
      simp only [World.op_state] at hd
      have h4 := na_ofi_msg_unexpected_op_remove_ops _ w4 context op hw4
      show (w4.ops p).map _ = _
      rw [h4]
      have hw2o : w2.ops op = some o := by rw [hd, h0]; exact ho
      have k := ops_map_set_op (fun o : na_ofi_op_id => (o.type, o.status, o.refcount)) w2 op o
        { o with addr := some pa, tag := tag % 2 ^ 32, msg_size := len } hw2o rfl p
      exact k.trans (by rw [hd, h0])
  dsimp only at h
  split at h
  · obtain ⟨y, hy, h⟩ := except_bind_ok h
    have hy := (Except.ok.inj hy).symm
    subst hy
    exact hjp _ ha h
  split at h
  · obtain ⟨l, hl, h⟩ := except_bind_ok h
    obtain ⟨y, hy, h⟩ := except_bind_ok h
    have hy := (Except.ok.inj hy).symm
    subst hy
    refine hjp _ ?_ h
    have hlo := congrArg (fun s => s.1) (na_ofi_addr_ht_lookup_op_state E w1 _ _ _ _ l hl)
    simp only [World.op_state] at hlo
    exact Eq.trans (b := l.1.ops) rfl (hlo.trans ha)
  split at h
  · obtain ⟨l, hl, h⟩ := except_bind_ok h
    obtain ⟨y, hy, h⟩ := except_bind_ok h
    have hy := (Except.ok.inj hy).symm
    subst hy
    refine hjp _ ?_ h
    have hlo := congrArg (fun s => s.1) (na_ofi_addr_ht_lookup_op_state E w1 _ _ _ _ l hl)
    simp only [World.op_state] at hlo
    exact Eq.trans (b := l.1.ops) rfl (hlo.trans ha)
  · obtain ⟨y, hy, h⟩ := except_bind_ok h
    have hy := (Except.ok.inj hy).symm
    subst hy
    exact hjp _ ha h

theorem na_ofi_cq_process_recv_expected_event_fields (w : World) (op tag len : Nat)
    (r : World × na_return_t) (h : na_ofi_cq_process_recv_expected_event w op tag len = .ok r)
    (p : Nat) :
    (r.1.ops p).map (fun o => (o.type, o.status, o.refcount)) = (w.ops p).map (fun o => (o.type, o.status, o.refcount)) := by
  unfold na_ofi_cq_process_recv_expected_event at h
  obtain ⟨o1, ho1, h⟩ := except_bind_ok h
  have ho1 := get_op_ok ho1
  split at h
  · have h := (Except.ok.inj h).symm
    subst h
    rfl
  split at h
  · have h := (Except.ok.inj h).symm
    subst h
    rfl
  · have h := (Except.ok.inj h).symm
    subst h
    exact ops_map_set_op (fun o : na_ofi_op_id => (o.type, o.status, o.refcount)) w op o1
      { o1 with msg_size := len } ho1 rfl p

theorem na_ofi_cq_dispatch_event_fields (E : Env) (w : World) (context op : Nat)
    (cq_event : fi_cq_tagged_entry) (src_addr : Nat) (src_err_addr : Option (List Nat))
    (src_err_addrlen : Nat) (r : World × na_return_t)
    (h : na_ofi_cq_dispatch_event E w context op cq_event src_addr src_err_addr
      src_err_addrlen = .ok r) (p : Nat) :
    (r.1.ops p).map (fun o => (o.type, o.status, o.refcount)) = (w.ops p).map (fun o => (o.type, o.status, o.refcount)) := by
  unfold na_ofi_cq_dispatch_event at h
  split at h
  · obtain ⟨ret, hret, h⟩ := except_bind_ok h
    have h := (Except.ok.inj h).symm
    subst h
    rfl
  split at h
  · split at h
    · exact na_ofi_cq_process_recv_expected_event_fields w op _ _ r h p
    · exact na_ofi_cq_process_recv_unexpected_event_fields E w context op _ _ _ _ _ r h p
  split at h
  · obtain ⟨ret, hret, h⟩ := except_bind_ok h
    have h := (Except.ok.inj h).symm
    subst h
    rfl
  · have h := (Except.ok.inj h).symm
    subst h
    rfl

theorem ops_map_type_refcount {w w1 : World} {p : Nat}
    (h : (w1.ops p).map (fun o => (o.type, o.status, o.refcount))
      = (w.ops p).map (fun o => (o.type, o.status, o.refcount))) :
    (w1.ops p).map (fun o => (o.type, o.refcount))
      = (w.ops p).map (fun o => (o.type, o.refcount)) := by
  have := congrArg (Option.map (fun t : na_cb_type_t × Nat × Int => (t.1, t.2.2))) h
  simpa only [Option.map_map] using this

/-- The `na_ofi_cq_process_event` changes the type and the reference count of
no operation ID. -/
theorem na_ofi_cq_process_event_fields (E : Env) (w : World) (context : Nat)
    (cq_event : fi_cq_tagged_entry) (src_addr : Nat) (src_err_addr : Option (List Nat))
    (src_err_addrlen : Nat) (r : World × na_return_t)
    (h : na_ofi_cq_process_event E w context cq_event src_addr src_err_addr
      src_err_addrlen = .ok r) (p : Nat) :
    (r.1.ops p).map (fun o => (o.type, o.refcount)) = (w.ops p).map (fun o => (o.type, o.refcount)) := by
  unfold na_ofi_cq_process_event at h
  split at h
  · have h := (Except.ok.inj h).symm
    subst h
    rfl
  rename_i op hop
  obtain ⟨o, ho, h⟩ := except_bind_ok h
  split at h
  · have h := (Except.ok.inj h).symm
    subst h
    rfl
  obtain ⟨rd, hrd, h⟩ := except_bind_ok h
  have hd := ops_map_type_refcount
    (na_ofi_cq_dispatch_event_fields E w context op cq_event _ _ _ rd hrd p)
  split at h
  · have h := (Except.ok.inj h).symm
    subst h
    exact hd
  · exact ((na_ofi_complete_fields E rd.1 op rd.2 r h).1 p).trans hd

theorem na_ofi_cq_read_canceled_fields (E : Env) (w : World) (context : Nat)
    (op_context : Option Nat) (r : World × na_return_t)
    (h : na_ofi_cq_read_canceled E w context op_context = .ok r) (p : Nat) :
    (r.1.ops p).map (fun o => (o.type, o.refcount)) = (w.ops p).map (fun o => (o.type, o.refcount)) := by
  unfold na_ofi_cq_read_canceled at h
  split at h
  · have h := (Except.ok.inj h).symm
    subst h
    rfl
  rename_i op
  obtain ⟨o, ho, h⟩ := except_bind_ok h
  split at h
  · have h := (Except.ok.inj h).symm
    subst h
    rfl
  split at h
  · have h := (Except.ok.inj h).symm
    subst h
    rfl
  dsimp only at h
  split at h
  · obtain ⟨w1, hw1, h⟩ := except_bind_ok h
    have h1 := na_ofi_msg_unexpected_op_remove_ops w w1 context op hw1
    exact ((na_ofi_complete_fields E w1 op NA_CANCELED r h).1 p).trans (ops_map_of_ops _ h1 p)
  · obtain ⟨w1, hw1, h⟩ := except_bind_ok h
    have hw1 := Except.ok.inj hw1
    subst hw1
    exact (na_ofi_complete_fields E w op NA_CANCELED r h).1 p

/-! ### The loop around a post: what the progress passes keep -/

theorem na_ofi_cq_read_keeps (E : Env) (P : World → World → Prop)
    (htrans : ∀ w1 w2 w3, P w1 w2 → P w2 w3 → P w1 w3)
    (hcalls : ∀ (w : World) (cs : List Call), P w { w with calls := cs })
    (hcanc : ∀ (w : World) (context : Nat) (opc : Option Nat) (r : World × na_return_t),
      na_ofi_cq_read_canceled E w context opc = .ok r → P w r.1)
    (w : World) (context max_count : Nat)
    (src_err_addr : Option (List Nat)) (src_err_addrlen : Nat) (r : World × CqRead)
    (h : na_ofi_cq_read E w context max_count src_err_addr src_err_addrlen = .ok r) :
    P w r.1 := by
  unfold na_ofi_cq_read at h
  obtain ⟨ctx, hctx, h⟩ := except_bind_ok h
  simp only [alloc, World.log] at h
  split at h
  · split at h
    · exact Except.noConfusion h
    · have h := (Except.ok.inj h).symm
      subst h
      exact hcalls _ _
  split at h
  · have h := (Except.ok.inj h).symm
    subst h
    exact hcalls _ _
  split at h
  · have h := (Except.ok.inj h).symm
    subst h
    exact hcalls _ _
  split at h
  · have h := (Except.ok.inj h).symm
    subst h
    exact hcalls _ _
  split at h
  · obtain ⟨c, hc, h⟩ := except_bind_ok h
    have h := (Except.ok.inj h).symm
    subst h
    exact htrans _ _ _ (hcalls _ _) (hcanc _ context _ c hc)
  split at h
  · split at h
    · have h := (Except.ok.inj h).symm
      subst h
      exact hcalls _ _
    · obtain ⟨m, hm, h⟩ := except_bind_ok h
      split at h
      · have h := (Except.ok.inj h).symm
        subst h
        exact hcalls _ _
      · have h := (Except.ok.inj h).symm
        subst h
        exact hcalls _ _
  split at h
  · have h := (Except.ok.inj h).symm
    subst h
    exact hcalls _ _
  · have h := (Except.ok.inj h).symm
    subst h
    exact hcalls _ _

theorem na_ofi_progress_events_keeps (E : Env) (P : World → World → Prop)
    (hrefl : ∀ w, P w w) (htrans : ∀ w1 w2 w3, P w1 w2 → P w2 w3 → P w1 w3)
    (hev : ∀ (w : World) (context : Nat) (ev : fi_cq_tagged_entry) (src : Nat)
      (sea : Option (List Nat)) (sel : Nat) (r : World × na_return_t),
      na_ofi_cq_process_event E w context ev src sea sel = .ok r → P w r.1)
    (context : Nat)
    (src_err_addr : Option (List Nat)) (src_err_addrlen : Nat)
    (events : List (fi_cq_tagged_entry × Nat)) :
    ∀ (w : World) (r : World × na_return_t),
    na_ofi_progress_events E context src_err_addr src_err_addrlen w events = .ok r →
    P w r.1 := by
  induction events with
  | nil =>
    intro w r h
    have h := (Except.ok.inj h).symm
    subst h
    exact hrefl _
  | cons e rest ih =>
    intro w r h
    obtain ⟨ev, src⟩ := e
    unfold na_ofi_progress_events at h
    obtain ⟨r1, hr1, h⟩ := except_bind_ok h
    have p1 := hev w context ev src _ _ r1 hr1
    split at h
    · have h := (Except.ok.inj h).symm
      subst h
      exact p1
    · exact htrans _ _ _ p1 (ih r1.1 r h)

theorem progress_once_keeps (E : Env) (P : World → World → Prop)
    (hrefl : ∀ w, P w w) (htrans : ∀ w1 w2 w3, P w1 w2 → P w2 w3 → P w1 w3)
    (hcalls : ∀ (w : World) (cs : List Call), P w { w with calls := cs })
    (hcanc : ∀ (w : World) (context : Nat) (opc : Option Nat) (r : World × na_return_t),
      na_ofi_cq_read_canceled E w context opc = .ok r → P w r.1)
    (hev : ∀ (w : World) (context : Nat) (ev : fi_cq_tagged_entry) (src : Nat)
      (sea : Option (List Nat)) (sel : Nat) (r : World × na_return_t),
      na_ofi_cq_process_event E w context ev src sea sel = .ok r → P w r.1)
    (w : World) (context : Nat) (r : World × na_return_t)
    (h : progress_once E w context = .ok r) : P w r.1 := by
  unfold progress_once at h
  obtain ⟨c, hc, h⟩ := except_bind_ok h
  have p1 := na_ofi_cq_read_keeps E P htrans hcalls hcanc w context _ _ _ c hc
  split at h
  · have h := (Except.ok.inj h).symm
    subst h
    exact p1
  split at h
  · have h := (Except.ok.inj h).symm
    subst h
    exact p1
  · exact htrans _ _ _ p1
      (na_ofi_progress_events_keeps E P hrefl htrans hev context _ _ _ c.1 r h)

theorem post_retry_keeps (E : Env) (P : World → World → Prop)
    (hrefl : ∀ w, P w w) (htrans : ∀ w1 w2 w3, P w1 w2 → P w2 w3 → P w1 w3)
    (hcalls : ∀ (w : World) (cs : List Call), P w { w with calls := cs })
    (hcanc : ∀ (w : World) (context : Nat) (opc : Option Nat) (r : World × na_return_t),
      na_ofi_cq_read_canceled E w context opc = .ok r → P w r.1)
    (hev : ∀ (w : World) (context : Nat) (ev : fi_cq_tagged_entry) (src : Nat)
      (sea : Option (List Nat)) (sel : Nat) (r : World × na_return_t),
      na_ofi_cq_process_event E w context ev src sea sel = .ok r → P w r.1)
    (context : Nat) (c : Call) :
    ∀ (fuel : Nat) (w : World) (r : World × Int),
    post_retry E context c fuel w = .ok r → P w r.1 := by
  intro fuel
  induction fuel with
  | zero =>
    intro w r h
    exact Except.noConfusion h
  | succ n ih =>
    intro w r h
    unfold post_retry at h
    dsimp only at h
    split at h
    · rw [na_ofi_progress_eq_once] at h
      obtain ⟨p, hp, h⟩ := except_bind_ok h
      have p1 := progress_once_keeps E P hrefl htrans hcalls hcanc hev _ context p hp
      exact htrans _ _ _ (htrans _ _ _ (hcalls _ _) p1) (ih p.1 r h)
    · have h := (Except.ok.inj h).symm
      subst h
      exact hcalls _ _

/-- The loop around a post ends with an answer other than `-FI_EAGAIN`. -/
theorem post_retry_answer (E : Env) (context : Nat) (c : Call) :
    ∀ (fuel : Nat) (w : World) (r : World × Int),
    post_retry E context c fuel w = .ok r → r.2 ≠ -FI_EAGAIN := by
  intro fuel
  induction fuel with
  | zero =>
    intro w r h
    exact Except.noConfusion h
  | succ n ih =>
    intro w r h
    unfold post_retry at h
    dsimp only at h
    split at h
    · obtain ⟨p, hp, h⟩ := except_bind_ok h
      exact ih p.1 r h
    · rename_i hne
      have h := (Except.ok.inj h).symm
      subst h
      exact hne

/-- One more round of the loop around a post: after the answer `-FI_EAGAIN`
one pass of progress runs and the post is repeated. -/
theorem post_retry_again (E : Env) (context : Nat) (c : Call) (fuel : Nat) (w : World)
    (p : World × na_return_t) (h1 : E.fabric_post w.calls c = -FI_EAGAIN)
    (hp : progress_once E (w.log c) context = .ok p) :
    post_retry E context c (fuel + 1) w = post_retry E context c fuel p.1 := by
  rw [post_retry]
  simp only [h1, if_true, na_ofi_progress_eq_once, hp, bind, Except.bind]

/-- A result of the loop around a post does not depend on the fuel: with more
fuel the loop ends in the same state with the same answer. -/
theorem post_retry_fuel_mono (E : Env) (context : Nat) (c : Call) :
    ∀ (fuel : Nat) (w : World) (r : World × Int),
    post_retry E context c fuel w = .ok r →
    ∀ k, post_retry E context c (fuel + k) w = .ok r := by
  intro fuel
  induction fuel with
  | zero =>
    intro w r h
    exact Except.noConfusion h
  | succ n ih =>
    intro w r h k
    have hk : n + 1 + k = (n + k) + 1 := by omega
    rw [hk]
    unfold post_retry at h ⊢
    dsimp only at h ⊢
    split at h
    · rename_i h1
      rw [na_ofi_progress_eq_once] at h
      obtain ⟨p, hp, h⟩ := except_bind_ok h
      simp only [h1, if_true, na_ofi_progress_eq_once, hp, bind, Except.bind]
      exact ih p.1 r h k
    · rename_i h1
      simp only [h1, if_false]
      exact h

/-- The loop around a post changes the type and the reference count of no
operation ID. -/
theorem post_retry_fields (E : Env) (context : Nat) (c : Call) (fuel : Nat) (w : World)
    (r : World × Int) (h : post_retry E context c fuel w = .ok r) (p : Nat) :
    (r.1.ops p).map (fun o => (o.type, o.refcount)) = (w.ops p).map (fun o => (o.type, o.refcount)) :=
  post_retry_keeps E
    (fun w w1 => ∀ p, (w1.ops p).map (fun o => (o.type, o.refcount)) = (w.ops p).map (fun o => (o.type, o.refcount)))
    (fun _ _ => rfl) (fun _ _ _ h1 h2 p => (h2 p).trans (h1 p)) (fun _ _ _ => rfl)
    (fun w context opc r h p => na_ofi_cq_read_canceled_fields E w context opc r h p)
    (fun w context ev src sea sel r h p =>
      na_ofi_cq_process_event_fields E w context ev src sea sel r h p)
    context c fuel w r h p

/-- The loop around a post changes no context, and a queue only by removing
operations from it. -/
theorem post_retry_queues (E : Env) (context : Nat) (c : Call) (fuel : Nat) (w : World)
    (r : World × Int) (h : post_retry E context c fuel w = .ok r) :
    r.1.ctxs = w.ctxs ∧
    ∀ q l, w.queues q = some l → ∃ l1, r.1.queues q = some l1 ∧ l1.Sublist l := by
  have hq : ∀ (w w1 : World),
      (w1.queues = w.queues ∨ ∃ q l op, w.queues q = some l ∧
        w1.queues = Function.update w.queues q (some (l.erase op))) →
      ∀ q l, w.queues q = some l → ∃ l1, w1.queues q = some l1 ∧ l1.Sublist l := by
    intro w w1 hh q l hl
    rcases hh with hh | ⟨q1, l1, op, h3, h5⟩
    · rw [hh]; exact ⟨l, hl, List.Sublist.refl l⟩
    · rw [h5]
      by_cases hqq : q = q1
      · subst hqq
        rw [hl] at h3
        have h3 := Option.some.inj h3
        subst h3
        exact ⟨_, by rw [Function.update_same], List.erase_sublist _ _⟩
      · exact ⟨l, by rw [Function.update_noteq hqq]; exact hl, List.Sublist.refl l⟩
  refine post_retry_keeps E
    (fun w w1 => w1.ctxs = w.ctxs ∧
      ∀ q l, w.queues q = some l → ∃ l1, w1.queues q = some l1 ∧ l1.Sublist l)
    (fun _ => ⟨rfl, fun q l hl => ⟨l, hl, List.Sublist.refl l⟩⟩) ?_
    (fun _ _ => ⟨rfl, fun q l hl => ⟨l, hl, List.Sublist.refl l⟩⟩) ?_ ?_ context c fuel w r h
  · intro w1 w2 w3 h12 h23
    refine ⟨h23.1.trans h12.1, fun q l hl => ?_⟩
    obtain ⟨l1, hl1, hs1⟩ := h12.2 q l hl
    obtain ⟨l2, hl2, hs2⟩ := h23.2 q l1 hl1
    exact ⟨l2, hl2, hs2.trans hs1⟩
  · intro w context opc r h
    obtain ⟨-, -, hc, hnone, hsome⟩ := na_ofi_cq_read_canceled_inv E w context opc r h
    refine ⟨hc, hq w r.1 ?_⟩
    cases opc with
    | none => exact Or.inl (hnone rfl).2
    | some op =>
      rcases (hsome op rfl).2.1 with hh | ⟨ctx, q, l, -, -, h3, -, h5⟩
      · exact Or.inl hh
      · exact Or.inr ⟨q, l, op, h3, h5⟩
  · intro w context ev src sea sel r h
    obtain ⟨-, -, hc, hnone, hsome⟩ := na_ofi_cq_process_event_inv E w context ev src sea sel r h
    refine ⟨hc, hq w r.1 ?_⟩
    cases hop : ev.op_context with
    | none => exact Or.inl (hnone hop).2
    | some op =>
      rcases (hsome op hop).2.1 with hh | ⟨ctx, q, l, -, -, h3, -, h5⟩
      · exact Or.inl hh
      · exact Or.inr ⟨q, l, op, h3, h5⟩

/-! ### Error paths of the post functions, after any number of retries -/

/-- The operation ID that entered the loop around the post is still there when
the loop ends, with the type and the reference count it entered with. -/
theorem post_retry_op (E : Env) (context : Nat) (c : Call) (fuel : Nat) (w w5 : World)
    (rc : Int) (op : Nat) (o : na_ofi_op_id) (ho : w.ops op = some o)
    (h : post_retry E context c fuel w = .ok (w5, rc)) :
    ∃ o5, w5.ops op = some o5 ∧ o5.refcount = o.refcount ∧ o5.type = o.type := by
  have hr := post_retry_fields E context c fuel w (w5, rc) h op
  rw [ho] at hr
  cases h5 : w5.ops op with
  | none => rw [h5] at hr; exact Option.noConfusion hr
  | some o5 =>
    rw [h5] at hr
    have hr := Option.some.inj hr
    exact ⟨o5, rfl, congrArg Prod.snd hr, congrArg Prod.fst hr⟩

/-- The `na_ofi_msg_recv_unexpected` on every path on which the loop around
its post ends. -/
theorem na_ofi_msg_recv_unexpected_retry (E : Env) (fuel : Nat) (w : World)
    (context callback arg buf buf_size plugin_data op q : Nat)
    (ctx : na_ofi_context) (o : na_ofi_op_id) (l : List Nat)
    (hctx : w.ctxs context = some ctx) (hq : ctx.unexpected_op_queue = some q)
    (hl : w.queues q = some l) (ho : w.ops op = some o) (ho0 : 0 < o.refcount)
    (ho1 : o.refcount + 1 < 2 ^ 31) (w5 : World) (rc : Int)
    (hpost : post_retry E context (Call.fi_trecv ctx.fi_rx buf buf_size plugin_data
        FI_ADDR_UNSPEC 1 NA_OFI_UNEXPECTED_TAG_IGNORE op) fuel
      ((w.set_op op (some { o with
          context := some context, type := NA_CB_RECV_UNEXPECTED, callback := callback,
          arg := arg, addr := none, status := 0, buf := buf, buf_size := buf_size,
          refcount := o.refcount + 1 })).set_queue q (l ++ [op])) = .ok (w5, rc)) :
    ∃ l5, w5.queues q = some l5 ∧ l5.Sublist (l ++ [op]) ∧ w5.ctxs = w.ctxs ∧
      (rc = 0 → na_ofi_msg_recv_unexpected E fuel w context callback arg buf buf_size
          plugin_data (some op) = .ok (w5, NA_SUCCESS)) ∧
      (rc ≠ 0 → op ∈ l5 →
        ∃ w1, na_ofi_msg_recv_unexpected E fuel w context callback arg buf buf_size
            plugin_data (some op) = .ok (w1, NA_PROTOCOL_ERROR) ∧
          w1.queues = Function.update w5.queues q (some (l5.erase op)) ∧
          w1.completions = w5.completions ∧ w1.ctxs = w.ctxs) ∧
      (rc ≠ 0 → op ∉ l5 →
        na_ofi_msg_recv_unexpected E fuel w context callback arg buf buf_size
            plugin_data (some op) = .error Fault.null_deref) := by
  have hgc : w.get_ctx context = .ok ctx := by simp only [World.get_ctx, hctx]
  obtain ⟨o5, ho5, ho5r, -⟩ := post_retry_op E context _ fuel _ w5 rc op _
    (by simp only [World.set_queue, World.set_op, Function.update_same]; rfl) hpost
  have ho5r : o5.refcount = o.refcount + 1 := ho5r
  obtain ⟨hc5, hq5⟩ := post_retry_queues E context _ fuel _ (w5, rc) hpost
  have hc5 : w5.ctxs = w.ctxs := hc5
  obtain ⟨l5, hl5, hs5⟩ := hq5 q (l ++ [op])
    (by simp only [World.set_queue, Function.update_same])
  have hl5 : w5.queues q = some l5 := hl5
  refine ⟨l5, hl5, hs5, hc5, ?_, ?_, ?_⟩
  all_goals
    have key : ∀ W : World, W = ((w.set_op op (some { o with
          context := some context, type := NA_CB_RECV_UNEXPECTED, callback := callback,
          arg := arg, addr := none, status := 0, buf := buf, buf_size := buf_size,
          refcount := o.refcount + 1 })).set_queue q (l ++ [op])) →
        post_retry E context (Call.fi_trecv ctx.fi_rx buf buf_size plugin_data
          FI_ADDR_UNSPEC 1 NA_OFI_UNEXPECTED_TAG_IGNORE op) fuel W = .ok (w5, rc) := by
      intro W hW
      rw [hW]
      exact hpost
    have kpush : ∀ W : World, W.ctxs = w.ctxs → W.queues = w.queues →
        na_ofi_msg_unexpected_op_push W context op = .ok (W.set_queue q (l ++ [op])) := by
      intro W h1 h2
      unfold na_ofi_msg_unexpected_op_push
      simp only [World.get_ctx, World.get_queue, h1, h2, hctx, hq, hl, bind, Except.bind, pure,
        Except.pure]
  · intro h0
    unfold na_ofi_msg_recv_unexpected
    simp only [hgc, bind, Except.bind, na_ofi_op_id_addref_ok ho ho0 ho1,
      get_op_set_op, set_op_set_op]
    rw [kpush]
    swap
    · rfl
    swap
    · rfl
    simp only []
    rw [key]
    swap
    · rfl
    simp only [h0, ne_eq, not_true_eq_false, if_false, pure, Except.pure]
  · intro h0 hmem
    unfold na_ofi_msg_recv_unexpected
    simp only [hgc, bind, Except.bind, na_ofi_op_id_addref_ok ho ho0 ho1,
      get_op_set_op, set_op_set_op]
    rw [kpush]
    swap
    · rfl
    swap
    · rfl
    simp only []
    rw [key]
    swap
    · rfl
    simp only [h0, ne_eq, not_false_eq_true, if_true]
    have krem : na_ofi_msg_unexpected_op_remove w5 context op
          = .ok (w5.set_queue q (l5.erase op)) := by
      unfold na_ofi_msg_unexpected_op_remove hg_queue_remove
      simp only [World.get_ctx, World.get_queue, hc5, hl5, hctx, hq, bind,
        Except.bind, pure, Except.pure, hmem, if_true]
    rw [krem]
    simp only []
    rw [na_ofi_op_id_decref_more (o := o5)]
    swap
    · exact ho5
    swap
    · omega
    swap
    · omega
    exact ⟨_, rfl, rfl, rfl, hc5⟩
  · intro h0 hmem
    unfold na_ofi_msg_recv_unexpected
    simp only [hgc, bind, Except.bind, na_ofi_op_id_addref_ok ho ho0 ho1,
      get_op_set_op, set_op_set_op]
    rw [kpush]
    swap
    · rfl
    swap
    · rfl
    simp only []
    rw [key]
    swap
    · rfl
    simp only [h0, ne_eq, not_false_eq_true, if_true]
    have krem : na_ofi_msg_unexpected_op_remove w5 context op
          = .error Fault.null_deref := by
      unfold na_ofi_msg_unexpected_op_remove hg_queue_remove
      simp only [World.get_ctx, World.get_queue, hc5, hl5, hctx, hq, bind,
        Except.bind, pure, Except.pure, hmem, if_false]
    rw [krem]

/-! ### Reference counts after a failed post -/

/-- The invariant goes over to a state whose queues are parts of the old
queues, when the operations in them are still posted unexpected receives. -/
theorem queue_inv_sub (w w1 : World) (hinv : queue_inv w)
    (hq : ∀ q l1, w1.queues q = some l1 → ∃ l, w.queues q = some l ∧ l1.Sublist l)
    (h2 : ∀ q l p, w1.queues q = some l → p ∈ l →
      ∃ o, w1.ops p = some o ∧ o.status &&& NA_OFI_OP_COMPLETED = 0 ∧
        o.type = NA_CB_RECV_UNEXPECTED) : queue_inv w1 := by
  obtain ⟨i1, -, i3⟩ := hinv
  refine ⟨fun q l1 hl1 => ?_, h2, fun q1 q2 l1 l2 p h1 h2 hp1 hp2 => ?_⟩
  · obtain ⟨l, hl, hs⟩ := hq q l1 hl1
    exact (i1 q l hl).sublist hs
  · obtain ⟨m1, hm1, hs1⟩ := hq q1 l1 h1
    obtain ⟨m2, hm2, hs2⟩ := hq q2 l2 h2
    exact i3 q1 q2 m1 m2 p hm1 hm2 (hs1.subset hp1) (hs2.subset hp2)

/-- Queues that are the old ones, or the old ones with one operation erased
from one of them, are parts of the old queues. -/
theorem queues_sub_of_erase (w w1 : World)
    (h : w1.queues = w.queues ∨ ∃ q l op, w.queues q = some l ∧
      w1.queues = Function.update w.queues q (some (l.erase op))) :
    ∀ q l1, w1.queues q = some l1 → ∃ l, w.queues q = some l ∧ l1.Sublist l := by
  intro q l1 hl1
  rcases h with h | ⟨q0, l0, op, h0, h1⟩
  · rw [h] at hl1
    exact ⟨l1, hl1, List.Sublist.refl l1⟩
  · rw [h1] at hl1
    by_cases hqq : q = q0
    · subst hqq
      rw [Function.update_same] at hl1
      have hl1 := Option.some.inj hl1
      subst hl1
      exact ⟨l0, h0, List.erase_sublist _ _⟩
    · rw [Function.update_noteq hqq] at hl1
      exact ⟨l1, hl1, List.Sublist.refl l1⟩

/-- An operation whose type and status are unchanged is still a posted
unexpected receive. -/
theorem posted_of_fields (w w1 : World) (p : Nat)
    (hf : (w1.ops p).map (fun o => (o.type, o.status, o.refcount))
      = (w.ops p).map (fun o => (o.type, o.status, o.refcount)))
    (h : ∃ o, w.ops p = some o ∧ o.status &&& NA_OFI_OP_COMPLETED = 0 ∧
      o.type = NA_CB_RECV_UNEXPECTED) :
    ∃ o, w1.ops p = some o ∧ o.status &&& NA_OFI_OP_COMPLETED = 0 ∧
      o.type = NA_CB_RECV_UNEXPECTED := by
  obtain ⟨o, ho, hs, ht⟩ := h
  rw [ho] at hf
  cases h1 : w1.ops p with
  | none => rw [h1] at hf; exact Option.noConfusion hf
  | some o1 =>
    rw [h1] at hf
    have hf := Option.some.inj hf
    have e1 : o1.type = o.type := congrArg Prod.fst hf
    have e2 : o1.status = o.status := congrArg (fun t => t.2.1) hf
    exact ⟨o1, rfl, by rw [e2]; exact hs, by rw [e1]; exact ht⟩

/-- The dispatch of an event keeps the invariant of the queues, and when it
succeeds the operation of the event is in no queue any more. -/
theorem na_ofi_cq_dispatch_event_queue_inv (E : Env) (w : World) (context op : Nat)
    (cq_event : fi_cq_tagged_entry) (src_addr : Nat) (src_err_addr : Option (List Nat))
    (src_err_addrlen : Nat) (r : World × na_return_t) (o : na_ofi_op_id)
    (ho : w.ops op = some o)
    (h : na_ofi_cq_dispatch_event E w context op cq_event src_addr src_err_addr
      src_err_addrlen = .ok r) (hinv : queue_inv w) :
    queue_inv r.1 ∧ (r.2 = NA_SUCCESS → ∀ q l, r.1.queues q = some l → op ∉ l) := by
  obtain ⟨-, -, -, -, hqs, hrem⟩ := na_ofi_cq_dispatch_event_inv E w context op cq_event
    src_addr src_err_addr src_err_addrlen r h
  have hf := na_ofi_cq_dispatch_event_fields E w context op cq_event src_addr src_err_addr
    src_err_addrlen r h
  have hsub : ∀ q l1, r.1.queues q = some l1 → ∃ l, w.queues q = some l ∧ l1.Sublist l := by
    apply queues_sub_of_erase
    rcases hqs with hqs | ⟨ctx, q, l, -, -, h3, -, h5⟩
    · exact Or.inl hqs
    · exact Or.inr ⟨q, l, op, h3, h5⟩
  refine ⟨queue_inv_sub w r.1 hinv hsub fun q l1 p hl1 hp => ?_, fun hs q l1 hl1 hmem => ?_⟩
  · obtain ⟨l, hl, hs⟩ := hsub q l1 hl1
    exact posted_of_fields w r.1 p (hf p) (hinv.2.1 q l p hl (hs.subset hp))
  · obtain ⟨l, hl, hsl⟩ := hsub q l1 hl1
    obtain ⟨o1, ho1, -, hty⟩ := hinv.2.1 q l op hl (hsl.subset hmem)
    rw [ho] at ho1
    have ho1 := Option.some.inj ho1
    subst ho1
    obtain ⟨ctx, q0, l0, -, -, h3, h4, h5⟩ := hrem hs o ho hty
    have hq0 : q = q0 := hinv.2.2 q q0 l l0 op hl h3 (hsl.subset hmem) h4
    subst hq0
    rw [h5, Function.update_same] at hl1
    have hl1 := Option.some.inj hl1
    subst hl1
    exact (hinv.1 q l0 h3).not_mem_erase hmem

/-- The `na_ofi_complete` of an operation that is in no queue keeps the
invariant of the queues. -/
theorem na_ofi_complete_queue_inv (E : Env) (w : World) (op : Nat) (op_ret : na_return_t)
    (r : World × na_return_t) (h : na_ofi_complete E w op op_ret = .ok r)
    (hinv : queue_inv w) (hout : ∀ q l, w.queues q = some l → op ∉ l) : queue_inv r.1 := by
  have hq := (na_ofi_complete_progress_state E w op op_ret r h).2.2.2.1
  have hoth := (na_ofi_complete_fields E w op op_ret r h).2
  refine queue_inv_sub w r.1 hinv (fun q l1 hl1 => ⟨l1, by rw [← hq]; exact hl1,
    List.Sublist.refl l1⟩) fun q l p hl hp => ?_
  rw [hq] at hl
  have hne : p ≠ op := fun hpe => hout q l hl (hpe ▸ hp)
  rw [hoth p hne]
  exact hinv.2.1 q l p hl hp

/-- The `na_ofi_cq_process_event` keeps the invariant of the queues. -/
theorem na_ofi_cq_process_event_queue_inv (E : Env) (w : World) (context : Nat)
    (cq_event : fi_cq_tagged_entry) (src_addr : Nat) (src_err_addr : Option (List Nat))
    (src_err_addrlen : Nat) (r : World × na_return_t)
    (h : na_ofi_cq_process_event E w context cq_event src_addr src_err_addr
      src_err_addrlen = .ok r) (hinv : queue_inv w) : queue_inv r.1 := by
  unfold na_ofi_cq_process_event at h
  split at h
  · have h := (Except.ok.inj h).symm
    subst h
    exact hinv
  rename_i op hop
  obtain ⟨o, ho, h⟩ := except_bind_ok h
  have ho := get_op_ok ho
  split at h
  · have h := (Except.ok.inj h).symm
    subst h
    exact hinv
  obtain ⟨rd, hrd, h⟩ := except_bind_ok h
  obtain ⟨hd1, hd2⟩ := na_ofi_cq_dispatch_event_queue_inv E w context op cq_event _ _ _ rd o ho
    hrd hinv
  split at h
  · have h := (Except.ok.inj h).symm
    subst h
    exact hd1
  · rename_i hs
    exact na_ofi_complete_queue_inv E rd.1 op rd.2 r h hd1 (hd2 (not_not.mp hs))

/-- The `FI_ECANCELED` case of `na_ofi_cq_read` keeps the invariant of the queues. -/
theorem na_ofi_cq_read_canceled_queue_inv (E : Env) (w : World) (context : Nat)
    (op_context : Option Nat) (r : World × na_return_t)
    (h : na_ofi_cq_read_canceled E w context op_context = .ok r) (hinv : queue_inv w) :
    queue_inv r.1 := by
  unfold na_ofi_cq_read_canceled at h
  split at h
  · have h := (Except.ok.inj h).symm
    subst h
    exact hinv
  rename_i op
  obtain ⟨o, ho, h⟩ := except_bind_ok h
  have ho := get_op_ok ho
  split at h
  · have h := (Except.ok.inj h).symm
    subst h
    exact hinv
  split at h
  · have h := (Except.ok.inj h).symm
    subst h
    exact hinv
  dsimp only at h
  split at h
  · rename_i hty
    obtain ⟨w1, hw1, h⟩ := except_bind_ok h
    obtain ⟨ctx, q0, l0, -, -, h3, h4, h5⟩ :=
      na_ofi_msg_unexpected_op_remove_inv w w1 context op hw1
    subst h5
    have hsub : ∀ q l1, (w.set_queue q0 (l0.erase op)).queues q = some l1 →
        ∃ l, w.queues q = some l ∧ l1.Sublist l :=
      queues_sub_of_erase w _ (Or.inr ⟨q0, l0, op, h3, rfl⟩)
    have hinv1 : queue_inv (w.set_queue q0 (l0.erase op)) :=
      queue_inv_sub w _ hinv hsub fun q l1 p hl1 hp => by
        obtain ⟨l, hl, hs⟩ := hsub q l1 hl1
        exact hinv.2.1 q l p hl (hs.subset hp)
    refine na_ofi_complete_queue_inv E _ op NA_CANCELED r h hinv1 fun q l1 hl1 hmem => ?_
    obtain ⟨l, hl, hsl⟩ := hsub q l1 hl1
    have hq0 : q = q0 := hinv.2.2 q q0 l l0 op hl h3 (hsl.subset hmem) h4
    subst hq0
    simp only [World.set_queue, Function.update_same] at hl1
    have hl1 := Option.some.inj hl1
    subst hl1
    exact (hinv.1 q l0 h3).not_mem_erase hmem
  · rename_i hty
    obtain ⟨w1, hw1, h⟩ := except_bind_ok h
    have hw1 := Except.ok.inj hw1
    subst hw1
    refine na_ofi_complete_queue_inv E w op NA_CANCELED r h hinv fun q l hl hmem => ?_
    obtain ⟨o1, ho1, -, hty1⟩ := hinv.2.1 q l op hl hmem
    rw [ho] at ho1
    have ho1 := Option.some.inj ho1
    subst ho1
    exact hty hty1

theorem queue_inv_calls (w : World) (cs : List Call) (h : queue_inv w) :
    queue_inv { w with calls := cs } := h

/-- Writing an operation ID that is in no queue keeps the invariant. -/
theorem queue_inv_set_op_out (w : World) (op : Nat) (x : Option na_ofi_op_id)
    (hinv : queue_inv w) (hout : ∀ q l, w.queues q = some l → op ∉ l) :
    queue_inv (w.set_op op x) := by
  refine queue_inv_sub w _ hinv (fun q l1 hl1 => ⟨l1, hl1, List.Sublist.refl l1⟩)
    fun q l p hl hp => ?_
  have hne : p ≠ op := fun hpe => hout q l hl (hpe ▸ hp)
  simp only [World.set_op, Function.update_noteq hne]
  exact hinv.2.1 q l p hl hp

/-- Writing fields of an operation ID other than its type, and a status that is
not completed if it was not, keeps the invariant. -/
theorem queue_inv_set_op_fields (w : World) (op : Nat) (o o1 : na_ofi_op_id)
    (hinv : queue_inv w) (ho : w.ops op = some o) (hty : o1.type = o.type)
    (hst : o.status &&& NA_OFI_OP_COMPLETED = 0 → o1.status &&& NA_OFI_OP_COMPLETED = 0) :
    queue_inv (w.set_op op (some o1)) := by
  refine queue_inv_sub w _ hinv (fun q l1 hl1 => ⟨l1, hl1, List.Sublist.refl l1⟩)
    fun q l p hl hp => ?_
  obtain ⟨o2, ho2, hs2, ht2⟩ := hinv.2.1 q l p hl hp
  by_cases hpe : p = op
  · subst hpe
    rw [ho] at ho2
    have ho2 := Option.some.inj ho2
    subst ho2
    exact ⟨o1, by simp only [World.set_op, Function.update_same], hst hs2, by rw [hty]; exact ht2⟩
  · exact ⟨o2, by simp only [World.set_op, Function.update_noteq hpe]; exact ho2, hs2, ht2⟩

/-- Taking an operation from the queue it is in keeps the invariant and leaves
the operation in no queue. -/
theorem queue_inv_erase (w : World) (q op : Nat) (l : List Nat) (hinv : queue_inv w)
    (hl : w.queues q = some l) (hmem : op ∈ l) :
    queue_inv (w.set_queue q (l.erase op)) ∧
    ∀ q1 l1, (w.set_queue q (l.erase op)).queues q1 = some l1 → op ∉ l1 := by
  have hsub : ∀ q1 l1, (w.set_queue q (l.erase op)).queues q1 = some l1 →
      ∃ l0, w.queues q1 = some l0 ∧ l1.Sublist l0 :=
    queues_sub_of_erase w _ (Or.inr ⟨q, l, op, hl, rfl⟩)
  refine ⟨queue_inv_sub w _ hinv hsub fun q1 l1 p hl1 hp => ?_, fun q1 l1 hl1 hm => ?_⟩
  · obtain ⟨l0, hl0, hs⟩ := hsub q1 l1 hl1
    exact hinv.2.1 q1 l0 p hl0 (hs.subset hp)
  · obtain ⟨l0, hl0, hs⟩ := hsub q1 l1 hl1
    have hq0 : q1 = q := hinv.2.2 q1 q l0 l op hl0 hl (hs.subset hm) hmem
    subst hq0
    simp only [World.set_queue, Function.update_same] at hl1
    have hl1 := Option.some.inj hl1
    subst hl1
    exact (hinv.1 q1 l hl).not_mem_erase hm

/-- Appending an operation that is completed, hence in no queue, as a posted
unexpected receive keeps the invariant. -/
theorem queue_inv_push (w : World) (q op : Nat) (l : List Nat) (o o1 : na_ofi_op_id)
    (hinv : queue_inv w) (hl : w.queues q = some l) (ho : w.ops op = some o)
    (hdone : o.status &&& NA_OFI_OP_COMPLETED ≠ 0)
    (hst : o1.status &&& NA_OFI_OP_COMPLETED = 0) (hty : o1.type = NA_CB_RECV_UNEXPECTED) :
    queue_inv ((w.set_op op (some o1)).set_queue q (l ++ [op])) ∧
    ∀ q1 l1, w.queues q1 = some l1 → op ∉ l1 := by
  have hout : ∀ q1 l1, w.queues q1 = some l1 → op ∉ l1 := by
    intro q1 l1 hl1 hm
    obtain ⟨o2, ho2, hs2, -⟩ := hinv.2.1 q1 l1 op hl1 hm
    rw [ho] at ho2
    have ho2 := Option.some.inj ho2
    subst ho2
    exact hdone hs2
  refine ⟨⟨fun q1 l1 hl1 => ?_, fun q1 l1 p hl1 hp => ?_, fun q1 q2 l1 l2 p h1 h2 hp1 hp2 => ?_⟩,
    hout⟩
  · by_cases hqq : q1 = q
    · subst hqq
      simp only [World.set_queue, Function.update_same] at hl1
      have hl1 := Option.some.inj hl1
      subst hl1
      rw [List.nodup_append]
      refine ⟨hinv.1 q1 l hl, List.nodup_singleton op, ?_⟩
      intro a ha hb
      rw [List.mem_singleton] at hb
      subst hb
      exact hout q1 l hl ha
    · simp only [World.set_queue, World.set_op, Function.update_noteq hqq] at hl1
      exact hinv.1 q1 l1 hl1
  · have hmem : p = op ∨ ∃ l0, w.queues q1 = some l0 ∧ p ∈ l0 := by
      by_cases hqq : q1 = q
      · subst hqq
        simp only [World.set_queue, Function.update_same] at hl1
        have hl1 := Option.some.inj hl1
        subst hl1
        rcases List.mem_append.mp hp with hp | hp
        · exact Or.inr ⟨l, hl, hp⟩
        · exact Or.inl (List.mem_singleton.mp hp)
      · simp only [World.set_queue, World.set_op, Function.update_noteq hqq] at hl1
        exact Or.inr ⟨l1, hl1, hp⟩
    rcases hmem with hpe | ⟨l0, hl0, hp0⟩
    · subst hpe
      exact ⟨o1, by simp only [World.set_queue, World.set_op, Function.update_same], hst, hty⟩
    · have hne : p ≠ op := fun hpe => hout q1 l0 hl0 (hpe ▸ hp0)
      obtain ⟨o2, ho2, hs2, ht2⟩ := hinv.2.1 q1 l0 p hl0 hp0
      exact ⟨o2, by simp only [World.set_queue, World.set_op, Function.update_noteq hne]; exact ho2,
        hs2, ht2⟩
  · have key : ∀ q0 l0, ((w.set_op op (some o1)).set_queue q (l ++ [op])).queues q0 = some l0 →
        p ∈ l0 → (p = op ∧ q0 = q) ∨ (p ≠ op ∧ ∃ m, w.queues q0 = some m ∧ p ∈ m) := by
      intro q0 l0 h0 hp0
      by_cases hqq : q0 = q
      · subst hqq
        simp only [World.set_queue, Function.update_same] at h0
        have h0 := Option.some.inj h0
        subst h0
        rcases List.mem_append.mp hp0 with hp0 | hp0
        · exact Or.inr ⟨fun hpe => hout q0 l hl (hpe ▸ hp0), l, hl, hp0⟩
        · exact Or.inl ⟨List.mem_singleton.mp hp0, rfl⟩
      · simp only [World.set_queue, World.set_op, Function.update_noteq hqq] at h0
        exact Or.inr ⟨fun hpe => hout q0 l0 h0 (hpe ▸ hp0), l0, h0, hp0⟩
    rcases key q1 l1 h1 hp1 with ⟨e1, k1⟩ | ⟨n1, m1, hm1, hpm1⟩
    · rcases key q2 l2 h2 hp2 with ⟨e2, k2⟩ | ⟨n2, -⟩
      · rw [k1, k2]
      · exact absurd e1 n2
    · rcases key q2 l2 h2 hp2 with ⟨e2, k2⟩ | ⟨n2, m2, hm2, hpm2⟩
      · exact absurd e2 n1
      · exact hinv.2.2 q1 q2 m1 m2 p hm1 hm2 hpm1 hpm2

/-- The `na_ofi_cancel` keeps the invariant of the queues. -/
theorem na_ofi_cancel_queue_inv (E : Env) (w : World) (context op_id : Nat)
    (r : World × na_return_t) (h : na_ofi_cancel E w context op_id = .ok r)
    (hinv : queue_inv w) : queue_inv r.1 := by
  unfold na_ofi_cancel at h
  obtain ⟨o, ho, h⟩ := except_bind_ok h
  have ho := get_op_ok ho
  have hinv1 : queue_inv (w.set_op op_id (some { o with status := NA_OFI_OP_CANCELED })) :=
    queue_inv_set_op_fields w op_id o { o with status := NA_OFI_OP_CANCELED } hinv ho rfl
      (fun _ => by show NA_OFI_OP_CANCELED &&& NA_OFI_OP_COMPLETED = 0; decide)
  simp only [bind, Except.bind, pure, Except.pure, World.log] at h
  repeat' split at h
  all_goals first
    | exact Except.noConfusion h
    | (have h := (Except.ok.inj h).symm
       subst h
       first | exact hinv | exact hinv1)

/-- The wait of `na_ofi_progress` changes the log only. -/
theorem na_ofi_progress_wait_calls (E : Env) (wait_hdl : Nat) (ms : Int) :
    ∀ (n : Nat) (w : World),
    ∃ cs, (na_ofi_progress_wait E wait_hdl ms n w).1 = { w with calls := cs } := by
  intro n
  induction n with
  | zero =>
    intro w
    exact ⟨_, rfl⟩
  | succ n ih =>
    intro w
    unfold na_ofi_progress_wait
    dsimp only
    split
    · obtain ⟨cs, h⟩ := ih (w.log (Call.fi_wait wait_hdl ms))
      rw [h]
      exact ⟨cs, rfl⟩
    · exact ⟨_, rfl⟩

/-- The head of the loop body of `na_ofi_progress` changes the log only. -/
theorem na_ofi_progress_head_calls (E : Env) (w : World) (context timeout : Nat)
    (remaining : Rat) (r : World × Rat × Option (Option na_return_t))
    (h : na_ofi_progress_head E w context timeout remaining = .ok r) :
    ∃ cs, r.1 = { w with calls := cs } := by
  unfold na_ofi_progress_head at h
  split at h
  · have h := (Except.ok.inj h).symm
    subst h
    exact ⟨w.calls, rfl⟩
  obtain ⟨ctx, hctx, h⟩ := except_bind_ok h
  dsimp only at h
  split at h
  · have h := (Except.ok.inj h).symm
    subst h
    exact ⟨_, rfl⟩
  rename_i wait_hdl hwait
  obtain ⟨cs, hcs⟩ := na_ofi_progress_wait_calls E wait_hdl (remaining * 1000).floor
    NA_OFI_MAX_EINTR_RETRY (w.log Call.hg_time_get_current)
  split at h
  · exact Except.noConfusion h
  simp only [bind, Except.bind, pure, Except.pure] at h
  repeat' split at h
  all_goals first
    | exact Except.noConfusion h
    | (have h := (Except.ok.inj h).symm
       subst h
       dsimp only
       rw [hcs]
       exact ⟨cs, rfl⟩)

/-- What the events and the canceled operations of a CQ read keep, every call
of `na_ofi_progress` keeps. -/
theorem na_ofi_progress_loop_keeps (E : Env) (P : World → World → Prop)
    (hrefl : ∀ w, P w w) (htrans : ∀ w1 w2 w3, P w1 w2 → P w2 w3 → P w1 w3)
    (hcalls : ∀ (w : World) (cs : List Call), P w { w with calls := cs })
    (hcanc : ∀ (w : World) (context : Nat) (opc : Option Nat) (r : World × na_return_t),
      na_ofi_cq_read_canceled E w context opc = .ok r → P w r.1)
    (hev : ∀ (w : World) (context : Nat) (ev : fi_cq_tagged_entry) (src : Nat)
      (sea : Option (List Nat)) (sel : Nat) (r : World × na_return_t),
      na_ofi_cq_process_event E w context ev src sea sel = .ok r → P w r.1)
    (context timeout : Nat) :
    ∀ (fuel : Nat) (w : World) (remaining : Rat) (ret : na_return_t) (r : World × na_return_t),
    na_ofi_progress_loop E context timeout fuel w remaining ret = .ok r → P w r.1 := by
  intro fuel
  induction fuel with
  | zero =>
    intro w remaining ret r h
    exact Except.noConfusion h
  | succ n ih =>
    intro w remaining ret r h
    unfold na_ofi_progress_loop at h
    obtain ⟨hd, hhd, h⟩ := except_bind_ok h
    obtain ⟨cs, hcs⟩ := na_ofi_progress_head_calls E w context timeout remaining hd hhd
    have p0 : P w hd.1 := by rw [hcs]; exact hcalls w cs
    split at h
    · have h := (Except.ok.inj h).symm
      subst h
      exact p0
    · have h := (Except.ok.inj h).symm
      subst h
      exact p0
    obtain ⟨c, hc, h⟩ := except_bind_ok h
    have p1 : P w c.1 :=
      htrans _ _ _ p0 (na_ofi_cq_read_keeps E P htrans hcalls hcanc hd.1 context _ _ _ c hc)
    split at h
    · have h := (Except.ok.inj h).symm
      subst h
      exact p1
    by_cases htz : timeout = 0
    · subst htz
      simp only [ne_eq, not_true_eq_false, if_false] at h
      split at h
      · repeat' split at h
        all_goals first
          | (have h := (Except.ok.inj h).symm
             subst h
             exact p1)
          | exact htrans _ _ _ p1 (ih _ _ _ r h)
      · obtain ⟨p, hp, h⟩ := except_bind_ok h
        have p2 : P w p.1 := htrans _ _ _ p1
          (na_ofi_progress_events_keeps E P hrefl htrans hev context _ _ _ c.1 p hp)
        repeat' split at h
        all_goals first
          | (have h := (Except.ok.inj h).symm
             subst h
             exact p2)
          | exact htrans _ _ _ p2 (ih _ _ _ r h)
    · simp only [ne_eq, htz, not_false_eq_true, if_true] at h
      have p1 : P w (c.1.log Call.hg_time_get_current) := htrans _ _ _ p1 (hcalls _ _)
      split at h
      · repeat' split at h
        all_goals first
          | (have h := (Except.ok.inj h).symm
             subst h
             exact p1)
          | exact htrans _ _ _ p1 (ih _ _ _ r h)
      · obtain ⟨p, hp, h⟩ := except_bind_ok h
        have p2 : P w p.1 := htrans _ _ _ p1
          (na_ofi_progress_events_keeps E P hrefl htrans hev context _ _ _ _ p hp)
        repeat' split at h
        all_goals first
          | (have h := (Except.ok.inj h).symm
             subst h
             exact p2)
          | exact htrans _ _ _ p2 (ih _ _ _ r h)

/-- The `na_ofi_progress` keeps the invariant of the queues, with every
timeout. -/
theorem na_ofi_progress_queue_inv (E : Env) (fuel : Nat) (w : World) (context timeout : Nat)
    (r : World × na_return_t) (h : na_ofi_progress E fuel w context timeout = .ok r)
    (hinv : queue_inv w) : queue_inv r.1 :=
  na_ofi_progress_loop_keeps E (fun w w1 => queue_inv w → queue_inv w1)
    (fun _ h => h) (fun _ _ _ h1 h2 h => h2 (h1 h)) (fun _ _ h => h)
    (fun w context opc r h hi => na_ofi_cq_read_canceled_queue_inv E w context opc r h hi)
    (fun w context ev src sea sel r h hi =>
      na_ofi_cq_process_event_queue_inv E w context ev src sea sel r h hi)
    context timeout fuel w _ _ r h hinv

/-- The loop around a post keeps the invariant of the queues. -/
theorem post_retry_queue_inv (E : Env) (context : Nat) (c : Call) (fuel : Nat) (w : World)
    (r : World × Int) (h : post_retry E context c fuel w = .ok r)
    (hinv : queue_inv w) : queue_inv r.1 :=
  post_retry_keeps E (fun w w1 => queue_inv w → queue_inv w1)
    (fun _ h => h) (fun _ _ _ h1 h2 h => h2 (h1 h)) (fun _ _ h => h)
    (fun w context opc r h hi => na_ofi_cq_read_canceled_queue_inv E w context opc r h hi)
    (fun w context ev src sea sel r h hi =>
      na_ofi_cq_process_event_queue_inv E w context ev src sea sel r h hi)
    context c fuel w r h hinv

/-- What `na_ofi_op_id_addref` does when it returns. -/
theorem na_ofi_op_id_addref_inv (w w1 : World) (p : Nat)
    (h : na_ofi_op_id_addref w p = .ok w1) :
    ∃ o, w.ops p = some o ∧
      w1 = w.set_op p (some { o with refcount := wrap32 (o.refcount + 1) }) := by
  unfold na_ofi_op_id_addref at h
  obtain ⟨o, ho, h⟩ := except_bind_ok h
  split at h
  · exact Except.noConfusion h
  · exact ⟨o, get_op_ok ho, (Except.ok.inj h).symm⟩

/-- What `na_ofi_op_id_decref` does when it returns: it writes the operation ID
only. -/
theorem na_ofi_op_id_decref_inv (w w1 : World) (p : Nat)
    (h : na_ofi_op_id_decref w (some p) = .ok w1) : ∃ x, w1 = w.set_op p x := by
  unfold na_ofi_op_id_decref at h
  simp only [bind, Except.bind, pure, Except.pure] at h
  repeat' split at h
  all_goals first
    | exact Except.noConfusion h
    | exact ⟨_, (Except.ok.inj h).symm⟩

/-- What `na_ofi_msg_unexpected_op_push` does when it returns. -/
theorem na_ofi_msg_unexpected_op_push_inv (w w1 : World) (context op : Nat)
    (h : na_ofi_msg_unexpected_op_push w context op = .ok w1) :
    ∃ ctx q l, w.ctxs context = some ctx ∧ ctx.unexpected_op_queue = some q ∧
      w.queues q = some l ∧ w1 = w.set_queue q (l ++ [op]) := by
  unfold na_ofi_msg_unexpected_op_push at h
  obtain ⟨ctx, hctx, h⟩ := except_bind_ok h
  obtain ⟨ql, hq, h⟩ := except_bind_ok h
  obtain ⟨h1, h2⟩ := get_queue_ok hq
  exact ⟨ctx, ql.1, ql.2, get_ctx_ok hctx, h1, h2, (Except.ok.inj h).symm⟩

/-- The `na_ofi_msg_recv_unexpected` keeps the invariant of the queues on every
path on which it returns, when the operation ID it is given is completed. -/
theorem na_ofi_msg_recv_unexpected_queue_inv (E : Env) (fuel : Nat) (w : World)
    (context callback arg buf buf_size plugin_data op : Nat) (o : na_ofi_op_id)
    (r : World × na_return_t) (ho : w.ops op = some o)
    (hdone : o.status &&& NA_OFI_OP_COMPLETED ≠ 0)
    (h : na_ofi_msg_recv_unexpected E fuel w context callback arg buf buf_size plugin_data
      (some op) = .ok r) (hinv : queue_inv w) : queue_inv r.1 := by
  unfold na_ofi_msg_recv_unexpected at h
  obtain ⟨ctx, hctx, h⟩ := except_bind_ok h
  dsimp only at h
  obtain ⟨w1, hw1, h⟩ := except_bind_ok h
  obtain ⟨o0, ho0, hw1⟩ := na_ofi_op_id_addref_inv w w1 op hw1
  rw [ho] at ho0
  have ho0 := Option.some.inj ho0
  subst ho0
  subst hw1
  obtain ⟨o1, ho1, h⟩ := except_bind_ok h
  obtain ⟨w3, hw3, h⟩ := except_bind_ok h
  obtain ⟨ctx3, q, l, -, -, hl, hw3⟩ := na_ofi_msg_unexpected_op_push_inv _ w3 context op hw3
  have hl : w.queues q = some l := hl
  subst hw3
  obtain ⟨p5, hp5, h⟩ := except_bind_ok h
  have hinv3 := (queue_inv_push w q op l o
    { o1 with
      context := some context, type := NA_CB_RECV_UNEXPECTED, callback := callback,
      arg := arg, addr := none, status := 0, buf := buf, buf_size := buf_size }
    hinv hl ho hdone (by show (0 : Nat) &&& NA_OFI_OP_COMPLETED = 0; decide) rfl).1
  have hinv3 : queue_inv ((((w.set_op op
      (some { o with refcount := wrap32 (o.refcount + 1) })).set_op op (some { o1 with
        context := some context, type := NA_CB_RECV_UNEXPECTED, callback := callback,
        arg := arg, addr := none, status := 0, buf := buf,
        buf_size := buf_size }))).set_queue q (l ++ [op])) := by
    simp only [World.set_op, World.set_queue, Function.update_idem] at hinv3 ⊢
    exact hinv3
  have hinv5 := post_retry_queue_inv E context _ fuel _ p5 hp5 hinv3
  split at h
  · obtain ⟨w4, hw4, h⟩ := except_bind_ok h
    obtain ⟨w5, hw5, h⟩ := except_bind_ok h
    have h := (Except.ok.inj h).symm
    subst h
    obtain ⟨ctx5, q5, l5, -, -, hl5, hm5, hw4⟩ :=
      na_ofi_msg_unexpected_op_remove_inv p5.1 w4 context op hw4
    subst hw4
    obtain ⟨hinv4, hout4⟩ := queue_inv_erase p5.1 q5 op l5 hinv5 hl5 hm5
    obtain ⟨x, hx⟩ := na_ofi_op_id_decref_inv _ w5 op hw5
    subst hx
    exact queue_inv_set_op_out _ op x hinv4 hout4
  · have h := (Except.ok.inj h).symm
    subst h
    exact hinv5

/-- The queues of `w1` are parts of the queues of `w`. -/
theorem post_retry_queues_part (E : Env) (context : Nat) (c : Call) (fuel : Nat) (w : World)
    (r : World × Int) (h : post_retry E context c fuel w = .ok r) :
    ∀ q l1, r.1.queues q = some l1 → ∃ l, w.queues q = some l ∧ l1.Sublist l :=
  post_retry_keeps E
    (fun w w1 => ∀ q l1, w1.queues q = some l1 → ∃ l, w.queues q = some l ∧ l1.Sublist l)
    (fun _ q l1 h => ⟨l1, h, List.Sublist.refl l1⟩)
    (fun _ _ _ h1 h2 q l3 h3 => by
      obtain ⟨l2, hl2, s2⟩ := h2 q l3 h3
      obtain ⟨l1, hl1, s1⟩ := h1 q l2 hl2
      exact ⟨l1, hl1, s2.trans s1⟩)
    (fun _ _ q l1 h => ⟨l1, h, List.Sublist.refl l1⟩)
    (fun w context opc r h => by
      obtain ⟨-, -, -, hn, hs⟩ := na_ofi_cq_read_canceled_inv E w context opc r h
      apply queues_sub_of_erase
      cases opc with
      | none => exact Or.inl (hn rfl).2
      | some op =>
        rcases (hs op rfl).2.1 with hq | ⟨ctx, q, l, -, -, h3, -, h5⟩
        · exact Or.inl hq
        · exact Or.inr ⟨q, l, op, h3, h5⟩)
    (fun w context ev src sea sel r h => by
      obtain ⟨-, -, -, hn, hs⟩ := na_ofi_cq_process_event_inv E w context ev src sea sel r h
      apply queues_sub_of_erase
      cases hop : ev.op_context with
      | none => exact Or.inl (hn hop).2
      | some op =>
        rcases (hs op hop).2.1 with hq | ⟨ctx, q, l, -, -, h3, -, h5⟩
        · exact Or.inl hq
        · exact Or.inr ⟨q, l, op, h3, h5⟩)
    context c fuel w r h

theorem queue_out_of_completed (w : World) (op : Nat) (o : na_ofi_op_id)
    (hinv : queue_inv w) (ho : w.ops op = some o)
    (hdone : o.status &&& NA_OFI_OP_COMPLETED ≠ 0) : queue_out op w := by
  refine ⟨hinv, fun q l hl hm => ?_⟩
  obtain ⟨o2, ho2, hs2, -⟩ := hinv.2.1 q l op hl hm
  rw [ho] at ho2
  have ho2 := Option.some.inj ho2
  subst ho2
  exact hdone hs2

theorem queue_out_set_op (w : World) (op : Nat) (x : Option na_ofi_op_id)
    (h : queue_out op w) : queue_out op (w.set_op op x) :=
  ⟨queue_inv_set_op_out w op x h.1 h.2, h.2⟩

theorem queue_out_op_state (w w1 : World) (op : Nat) (hs : w1.op_state = w.op_state)
    (h : queue_out op w) : queue_out op w1 := by
  simp only [World.op_state, Prod.mk.injEq] at hs
  obtain ⟨h1, -, -, h4, -⟩ := hs
  unfold queue_out queue_inv
  rw [h1, h4]
  exact h

theorem queue_out_post_retry (E : Env) (context : Nat) (c : Call) (fuel : Nat) (w : World)
    (r : World × Int) (op : Nat) (h : post_retry E context c fuel w = .ok r)
    (hq : queue_out op w) : queue_out op r.1 := by
  refine ⟨post_retry_queue_inv E context c fuel w r h hq.1, fun q l1 hl1 hm => ?_⟩
  obtain ⟨l, hl, hs⟩ := post_retry_queues_part E context c fuel w r h q l1 hl1
  exact hq.2 q l hl (hs.subset hm)

/-- The tail that the posts with a peer address share: the undo of the two
increments when the post failed. -/
theorem queue_out_undo (E : Env) (w w5 w6 : World) (op peer : Nat)
    (h5 : na_ofi_addr_decref E w peer = .ok w5)
    (h6 : na_ofi_op_id_decref w5 (some op) = .ok w6) (hq : queue_out op w) :
    queue_inv w6 := by
  have k5 := queue_out_op_state w w5 op (na_ofi_addr_decref_op_state E w w5 peer h5) hq
  obtain ⟨x, hx⟩ := na_ofi_op_id_decref_inv w5 w6 op h6
  subst hx
  exact (queue_out_set_op w5 op x k5).1

/-- The `na_ofi_msg_send_unexpected` keeps the invariant of the queues on every path on which it
returns, when the operation ID it is given is completed. -/
theorem na_ofi_msg_send_unexpected_queue_inv (E : Env) (fuel : Nat) (w : World)
    (context callback arg buf buf_size plugin_data dest_addr dest_id tag : Nat) (op : Nat) (o : na_ofi_op_id)
    (r : World × na_return_t) (ho : w.ops op = some o)
    (hdone : o.status &&& NA_OFI_OP_COMPLETED ≠ 0)
    (h : na_ofi_msg_send_unexpected E fuel w context callback arg buf buf_size plugin_data dest_addr dest_id tag (some op) = .ok r)
    (hinv : queue_inv w) : queue_inv r.1 := by
  have k0 := queue_out_of_completed w op o hinv ho hdone
  unfold na_ofi_msg_send_unexpected at h
  obtain ⟨ctx, hctx, h⟩ := except_bind_ok h
  try dsimp only at h
  obtain ⟨w1, hw1, h⟩ := except_bind_ok h
  obtain ⟨o0, -, hw1⟩ := na_ofi_op_id_addref_inv w w1 op hw1
  subst hw1
  have k1 := queue_out_set_op w op (some { o0 with refcount := wrap32 (o0.refcount + 1) }) k0
  obtain ⟨o1, ho1, h⟩ := except_bind_ok h
  obtain ⟨w3, hw3, h⟩ := except_bind_ok h
  have k3 := queue_out_op_state _ w3 op (na_ofi_addr_addref_op_state _ w3 _ hw3)
    (queue_out_set_op _ op _ k1)
  obtain ⟨o3, ho3, h⟩ := except_bind_ok h
  obtain ⟨a, ha, h⟩ := except_bind_ok h
  obtain ⟨p5, hp5, h⟩ := except_bind_ok h
  have k5 := queue_out_post_retry E context _ fuel _ p5 op hp5 (queue_out_set_op _ op _ k3)
  split at h
  · obtain ⟨w5, hw5, h⟩ := except_bind_ok h
    obtain ⟨w6, hw6, h⟩ := except_bind_ok h
    have h := (Except.ok.inj h).symm
    subst h
    exact queue_out_undo E p5.1 w5 w6 op _ hw5 hw6 k5
  · have h := (Except.ok.inj h).symm
    subst h
    exact k5.1

/-- The `na_ofi_msg_send_expected` keeps the invariant of the queues on every path on which it
returns, when the operation ID it is given is completed. -/
theorem na_ofi_msg_send_expected_queue_inv (E : Env) (fuel : Nat) (w : World)
    (context callback arg buf buf_size plugin_data dest_addr dest_id tag : Nat) (op : Nat) (o : na_ofi_op_id)
    (r : World × na_return_t) (ho : w.ops op = some o)
    (hdone : o.status &&& NA_OFI_OP_COMPLETED ≠ 0)
    (h : na_ofi_msg_send_expected E fuel w context callback arg buf buf_size plugin_data dest_addr dest_id tag (some op) = .ok r)
    (hinv : queue_inv w) : queue_inv r.1 := by
  have k0 := queue_out_of_completed w op o hinv ho hdone
  unfold na_ofi_msg_send_expected at h
  obtain ⟨ctx, hctx, h⟩ := except_bind_ok h
  try dsimp only at h
  obtain ⟨w1, hw1, h⟩ := except_bind_ok h
  obtain ⟨o0, -, hw1⟩ := na_ofi_op_id_addref_inv w w1 op hw1
  subst hw1
  have k1 := queue_out_set_op w op (some { o0 with refcount := wrap32 (o0.refcount + 1) }) k0
  obtain ⟨o1, ho1, h⟩ := except_bind_ok h
  obtain ⟨w3, hw3, h⟩ := except_bind_ok h
  have k3 := queue_out_op_state _ w3 op (na_ofi_addr_addref_op_state _ w3 _ hw3)
    (queue_out_set_op _ op _ k1)
  obtain ⟨o3, ho3, h⟩ := except_bind_ok h
  obtain ⟨a, ha, h⟩ := except_bind_ok h
  obtain ⟨p5, hp5, h⟩ := except_bind_ok h
  have k5 := queue_out_post_retry E context _ fuel _ p5 op hp5 (queue_out_set_op _ op _ k3)
  split at h
  · obtain ⟨w5, hw5, h⟩ := except_bind_ok h
    obtain ⟨w6, hw6, h⟩ := except_bind_ok h
    have h := (Except.ok.inj h).symm
    subst h
    exact queue_out_undo E p5.1 w5 w6 op _ hw5 hw6 k5
  · have h := (Except.ok.inj h).symm
    subst h
    exact k5.1

/-- The `na_ofi_msg_recv_expected` keeps the invariant of the queues on every path on which it
returns, when the operation ID it is given is completed. -/
theorem na_ofi_msg_recv_expected_queue_inv (E : Env) (fuel : Nat) (w : World)
    (context callback arg buf buf_size plugin_data source_addr source_id tag : Nat) (op : Nat) (o : na_ofi_op_id)
    (r : World × na_return_t) (ho : w.ops op = some o)
    (hdone : o.status &&& NA_OFI_OP_COMPLETED ≠ 0)
    (h : na_ofi_msg_recv_expected E fuel w context callback arg buf buf_size plugin_data source_addr source_id tag (some op) = .ok r)
    (hinv : queue_inv w) : queue_inv r.1 := by
  have k0 := queue_out_of_completed w op o hinv ho hdone
  unfold na_ofi_msg_recv_expected at h
  obtain ⟨ctx, hctx, h⟩ := except_bind_ok h
  try dsimp only at h
  obtain ⟨w1, hw1, h⟩ := except_bind_ok h
  obtain ⟨o0, -, hw1⟩ := na_ofi_op_id_addref_inv w w1 op hw1
  subst hw1
  have k1 := queue_out_set_op w op (some { o0 with refcount := wrap32 (o0.refcount + 1) }) k0
  obtain ⟨o1, ho1, h⟩ := except_bind_ok h
  obtain ⟨w3, hw3, h⟩ := except_bind_ok h
  have k3 := queue_out_op_state _ w3 op (na_ofi_addr_addref_op_state _ w3 _ hw3)
    (queue_out_set_op _ op _ k1)
  obtain ⟨o3, ho3, h⟩ := except_bind_ok h
  obtain ⟨a, ha, h⟩ := except_bind_ok h
  obtain ⟨p5, hp5, h⟩ := except_bind_ok h
  have k5 := queue_out_post_retry E context _ fuel _ p5 op hp5 (queue_out_set_op _ op _ k3)
  split at h
  · obtain ⟨w5, hw5, h⟩ := except_bind_ok h
    obtain ⟨w6, hw6, h⟩ := except_bind_ok h
    have h := (Except.ok.inj h).symm
    subst h
    exact queue_out_undo E p5.1 w5 w6 op _ hw5 hw6 k5
  · have h := (Except.ok.inj h).symm
    subst h
    exact k5.1

/-- The `na_ofi_put` keeps the invariant of the queues on every path on which it
returns, when the operation ID it is given is completed. -/
theorem na_ofi_put_queue_inv (E : Env) (fuel : Nat) (w : World)
    (context callback arg : Nat)
    (local_mem_handle : na_ofi_mem_handle) (local_offset : Nat)
    (remote_mem_handle : na_ofi_mem_handle)
    (remote_offset length remote_addr remote_id : Nat) (op : Nat) (o : na_ofi_op_id)
    (r : World × na_return_t) (ho : w.ops op = some o)
    (hdone : o.status &&& NA_OFI_OP_COMPLETED ≠ 0)
    (h : na_ofi_put E fuel w context callback arg local_mem_handle local_offset
      remote_mem_handle remote_offset length remote_addr remote_id (some op) = .ok r)
    (hinv : queue_inv w) : queue_inv r.1 := by
  have k0 := queue_out_of_completed w op o hinv ho hdone
  unfold na_ofi_put at h
  obtain ⟨ctx, hctx, h⟩ := except_bind_ok h
  try dsimp only at h
  obtain ⟨d, hd, h⟩ := except_bind_ok h
  obtain ⟨a, ha, h⟩ := except_bind_ok h
  try dsimp only at h
  obtain ⟨w1, hw1, h⟩ := except_bind_ok h
  obtain ⟨o0, -, hw1⟩ := na_ofi_op_id_addref_inv w w1 op hw1
  subst hw1
  have k1 := queue_out_set_op w op (some { o0 with refcount := wrap32 (o0.refcount + 1) }) k0
  obtain ⟨o1, ho1, h⟩ := except_bind_ok h
  obtain ⟨w3, hw3, h⟩ := except_bind_ok h
  have k3 := queue_out_op_state _ w3 op (na_ofi_addr_addref_op_state _ w3 _ hw3)
    (queue_out_set_op _ op _ k1)
  obtain ⟨o3, ho3, h⟩ := except_bind_ok h
  obtain ⟨p5, hp5, h⟩ := except_bind_ok h
  have k5 := queue_out_post_retry E context _ fuel _ p5 op hp5 (queue_out_set_op _ op _ k3)
  split at h
  · obtain ⟨w5, hw5, h⟩ := except_bind_ok h
    obtain ⟨w6, hw6, h⟩ := except_bind_ok h
    have h := (Except.ok.inj h).symm
    subst h
    exact queue_out_undo E p5.1 w5 w6 op _ hw5 hw6 k5
  · have h := (Except.ok.inj h).symm
    subst h
    exact k5.1

/-- The `na_ofi_get` keeps the invariant of the queues on every path on which it
returns, when the operation ID it is given is completed. -/
theorem na_ofi_get_queue_inv (E : Env) (fuel : Nat) (w : World)
    (context callback arg : Nat)
    (local_mem_handle : na_ofi_mem_handle) (local_offset : Nat)
    (remote_mem_handle : na_ofi_mem_handle)
    (remote_offset length remote_addr remote_id : Nat) (op : Nat) (o : na_ofi_op_id)
    (r : World × na_return_t) (ho : w.ops op = some o)
    (hdone : o.status &&& NA_OFI_OP_COMPLETED ≠ 0)
    (h : na_ofi_get E fuel w context callback arg local_mem_handle local_offset
      remote_mem_handle remote_offset length remote_addr remote_id (some op) = .ok r)
    (hinv : queue_inv w) : queue_inv r.1 := by
  have k0 := queue_out_of_completed w op o hinv ho hdone
  unfold na_ofi_get at h
  obtain ⟨ctx, hctx, h⟩ := except_bind_ok h
  try dsimp only at h
  obtain ⟨d, hd, h⟩ := except_bind_ok h
  obtain ⟨a, ha, h⟩ := except_bind_ok h
  try dsimp only at h
  obtain ⟨w1, hw1, h⟩ := except_bind_ok h
  obtain ⟨o0, -, hw1⟩ := na_ofi_op_id_addref_inv w w1 op hw1
  subst hw1
  have k1 := queue_out_set_op w op (some { o0 with refcount := wrap32 (o0.refcount + 1) }) k0
  obtain ⟨o1, ho1, h⟩ := except_bind_ok h
  obtain ⟨w3, hw3, h⟩ := except_bind_ok h
  have k3 := queue_out_op_state _ w3 op (na_ofi_addr_addref_op_state _ w3 _ hw3)
    (queue_out_set_op _ op _ k1)
  obtain ⟨o3, ho3, h⟩ := except_bind_ok h
  obtain ⟨p5, hp5, h⟩ := except_bind_ok h
  have k5 := queue_out_post_retry E context _ fuel _ p5 op hp5 (queue_out_set_op _ op _ k3)
  split at h
  · obtain ⟨w5, hw5, h⟩ := except_bind_ok h
    obtain ⟨w6, hw6, h⟩ := except_bind_ok h
    have h := (Except.ok.inj h).symm
    subst h
    exact queue_out_undo E p5.1 w5 w6 op _ hw5 hw6 k5
  · have h := (Except.ok.inj h).symm
    subst h
    exact k5.1

theorem assert_completed_ok (w : World) (op : Nat) (u : Unit)
    (h : assert_completed w op = .ok u) :
    ∃ o, w.ops op = some o ∧ o.status &&& NA_OFI_OP_COMPLETED ≠ 0 := by
  unfold assert_completed at h
  obtain ⟨o, ho, h⟩ := except_bind_ok h
  split at h
  · exact Except.noConfusion h
  · rename_i hs
    exact ⟨o, get_op_ok ho, hs⟩

/-- A world whose queues are all empty has the invariant of the queues. -/
theorem queue_inv_of_empty (w : World) (h : ∀ q l, w.queues q = some l → l = []) :
    queue_inv w := by
  refine ⟨fun q l hl => ?_, fun q l p hl hp => ?_, fun q1 q2 l1 l2 p h1 _ hp1 _ => ?_⟩
  · rw [h q l hl]
    exact List.nodup_nil
  · rw [h q l hl] at hp
    exact absurd hp (List.not_mem_nil p)
  · rw [h q1 l1 h1] at hp1
    exact absurd hp1 (List.not_mem_nil p)

/-- Every call of a caller that posts completed operation IDs only keeps the
invariant of the queues. -/
theorem queue_call_queue_inv (E : Env) (fuel : Nat) (w w1 : World) (c : QueueCall)
    (h : queue_call E fuel w c = .ok w1) (hinv : queue_inv w) : queue_inv w1 := by
  cases c with
  | msg_send_unexpected context callback arg buf buf_size plugin_data dest_addr dest_id tag op =>
    unfold queue_call at h
    obtain ⟨u, hu, h⟩ := except_bind_ok h
    obtain ⟨o, ho, hdone⟩ := assert_completed_ok w op u hu
    obtain ⟨r, hr, h⟩ := except_bind_ok h
    have h := (Except.ok.inj h).symm
    subst h
    exact na_ofi_msg_send_unexpected_queue_inv E fuel w context callback arg buf buf_size
      plugin_data dest_addr dest_id tag op o r ho hdone hr hinv
  | msg_recv_unexpected context callback arg buf buf_size plugin_data op =>
    unfold queue_call at h
    obtain ⟨u, hu, h⟩ := except_bind_ok h
    obtain ⟨o, ho, hdone⟩ := assert_completed_ok w op u hu
    obtain ⟨r, hr, h⟩ := except_bind_ok h
    have h := (Except.ok.inj h).symm
    subst h
    exact na_ofi_msg_recv_unexpected_queue_inv E fuel w context callback arg buf buf_size
      plugin_data op o r ho hdone hr hinv
  | msg_send_expected context callback arg buf buf_size plugin_data dest_addr dest_id tag op =>
    unfold queue_call at h
    obtain ⟨u, hu, h⟩ := except_bind_ok h
    obtain ⟨o, ho, hdone⟩ := assert_completed_ok w op u hu
    obtain ⟨r, hr, h⟩ := except_bind_ok h
    have h := (Except.ok.inj h).symm
    subst h
    exact na_ofi_msg_send_expected_queue_inv E fuel w context callback arg buf buf_size
      plugin_data dest_addr dest_id tag op o r ho hdone hr hinv
  | msg_recv_expected context callback arg buf buf_size plugin_data source_addr source_id tag
      op =>
    unfold queue_call at h
    obtain ⟨u, hu, h⟩ := except_bind_ok h
    obtain ⟨o, ho, hdone⟩ := assert_completed_ok w op u hu
    obtain ⟨r, hr, h⟩ := except_bind_ok h
    have h := (Except.ok.inj h).symm
    subst h
    exact na_ofi_msg_recv_expected_queue_inv E fuel w context callback arg buf buf_size
      plugin_data source_addr source_id tag op o r ho hdone hr hinv
  | put context callback arg local_mem_handle local_offset remote_mem_handle remote_offset
      length remote_addr remote_id op =>
    unfold queue_call at h
    obtain ⟨u, hu, h⟩ := except_bind_ok h
    obtain ⟨o, ho, hdone⟩ := assert_completed_ok w op u hu
    obtain ⟨r, hr, h⟩ := except_bind_ok h
    have h := (Except.ok.inj h).symm
    subst h
    exact na_ofi_put_queue_inv E fuel w context callback arg local_mem_handle local_offset
      remote_mem_handle remote_offset length remote_addr remote_id op o r ho hdone hr hinv
  | get context callback arg local_mem_handle local_offset remote_mem_handle remote_offset
      length remote_addr remote_id op =>
    unfold queue_call at h
    obtain ⟨u, hu, h⟩ := except_bind_ok h
    obtain ⟨o, ho, hdone⟩ := assert_completed_ok w op u hu
    obtain ⟨r, hr, h⟩ := except_bind_ok h
    have h := (Except.ok.inj h).symm
    subst h
    exact na_ofi_get_queue_inv E fuel w context callback arg local_mem_handle local_offset
      remote_mem_handle remote_offset length remote_addr remote_id op o r ho hdone hr hinv
  | cancel context op =>
    unfold queue_call at h
    obtain ⟨r, hr, h⟩ := except_bind_ok h
    have h := (Except.ok.inj h).symm
    subst h
    exact na_ofi_cancel_queue_inv E w context op r hr hinv
  | progress context timeout =>
    unfold queue_call at h
    obtain ⟨r, hr, h⟩ := except_bind_ok h
    have h := (Except.ok.inj h).symm
    subst h
    exact na_ofi_progress_queue_inv E fuel w context timeout r hr hinv

/-- Every sequence of such calls keeps the invariant of the queues. -/
theorem queue_calls_queue_inv (E : Env) (fuel : Nat) (cs : List QueueCall) :
    ∀ (w w1 : World), queue_calls E fuel w cs = .ok w1 → queue_inv w → queue_inv w1 := by
  induction cs with
  | nil =>
    intro w w1 h hinv
    have h := (Except.ok.inj h).symm
    subst h
    exact hinv
  | cons c cs ih =>
    intro w w1 h hinv
    unfold queue_calls at h
    obtain ⟨w2, hw2, h⟩ := except_bind_ok h
    exact ih w2 w1 h (queue_call_queue_inv E fuel w w2 c hw2 hinv)

/-! ### The unexpected-op queue -/

/-- The post functions of `na_ofi.c` do not read the status of the operation
ID they are given (the assertion that it is completed is the caller's, see
`assert_completed`): a second `na_ofi_msg_recv_unexpected` of operation ID 0 of
`world_posted_recv_unexpected`, which is posted and queued, returns
`NA_SUCCESS` with the operation in the queue twice, and the receive event that
then completes the operation removes one of the two entries. -/
theorem na_ofi_msg_recv_unexpected_posted_twice :
    world_posted_recv_unexpected.queues 0 = some [0] ∧
    (world_posted_recv_unexpected.ops 0).map (fun o => o.status) = some 0 ∧
    assert_completed world_posted_recv_unexpected 0 = .error Fault.assert_fail ∧
    (na_ofi_msg_recv_unexpected env_ok 1 world_posted_recv_unexpected
        0 0 0 0 64 0 (some 0)).map (fun r => (r.2, r.1.queues 0, r.1.completions))
      = .ok (NA_SUCCESS, some [0, 0], []) ∧
    ((na_ofi_msg_recv_unexpected env_ok 1 world_posted_recv_unexpected
        0 0 0 0 64 0 (some 0)).bind
        (fun r => na_ofi_cq_process_event env_ok r.1 0 sample_recv_event 7 none 0)).map
        (fun r => (r.2, r.1.queues 0, r.1.completions))
      = .ok (NA_SUCCESS, some [0], [0]) := by
  refine ⟨by decide, by decide, by decide, by decide, by decide⟩

/-- C27 does not hold as stated: a post that fails does not on every path
leave the unexpected-op queue of the context as it was before the call. In
`world_queued_and_fresh` (the world after `na_ofi_op_create` and a successful
`na_ofi_msg_recv_unexpected` of operation ID 0) the queue of context 0 holds
operation ID 0, and operation ID 1 is fresh, hence completed. The fabric
answers the `fi_trecv` of operation ID 1 with `-FI_EAGAIN`; the
`na_ofi_progress` of the retry loop reads the receive event of operation ID 0,
takes operation ID 0 from the queue and enqueues its completion; the second
`fi_trecv` is answered with `-FI_EIO`. The call returns `NA_PROTOCOL_ERROR`
with operation ID 1 removed again, and the queue is empty, not `[0]`. -/
theorem na_ofi_msg_recv_unexpected_queue_differs :
    world_queued_and_fresh.queues 0 = some [0] ∧
    (world_queued_and_fresh.ops 1).map (fun o => o.status) = some NA_OFI_OP_COMPLETED ∧
    world_queued_and_fresh.completions = [] ∧
    (na_ofi_msg_recv_unexpected (env_busy sample_recv_event 7) 2 world_queued_and_fresh
        0 0 0 0 64 0 (some 1)).map (fun r => (r.2, r.1.queues 0, r.1.completions, r.1.calls))
      = .ok (NA_PROTOCOL_ERROR, some [], [0],
          [Call.fi_trecv 1 0 64 0 FI_ADDR_UNSPEC 1 NA_OFI_UNEXPECTED_TAG_IGNORE 1,
           Call.na_cb_completion_add (some 0) 0, Call.alloc 56, Call.fi_cq_readfrom 3 16,
           Call.fi_trecv 1 0 64 0 FI_ADDR_UNSPEC 1 NA_OFI_UNEXPECTED_TAG_IGNORE 1,
           Call.fi_trecv 1 0 64 0 FI_ADDR_UNSPEC 1 NA_OFI_UNEXPECTED_TAG_IGNORE 0,
           Call.alloc 160]) := by
  refine ⟨by decide, by decide, by decide, ?_⟩
  unfold na_ofi_msg_recv_unexpected
  simp only [post_retry, na_ofi_progress_eq_once]
  rfl

/-- C27, amended. On a live context with its unexpected-op queue `l`, for an
operation ID `op`:

* whenever `na_ofi_cq_process_event` (a regular receive event) or the
  `FI_ECANCELED` case of `na_ofi_cq_read` returns having enqueued the
  completion of the unexpected receive `op`, the operation was in the queue
  and has been removed from it;
* when the fabric answers the first `fi_trecv` of `na_ofi_msg_recv_unexpected`
  with a result other than `-FI_EAGAIN`, the call returns and adds no
  completion; after a non-zero answer it returns `NA_PROTOCOL_ERROR` and, for
  an operation that was not in the queue, all queues are as before the call;
  after the answer 0 the operation is at the tail of the queue;
* on every path on which the loop around the `fi_trecv` of
  `na_ofi_msg_recv_unexpected` ends (any number of `-FI_EAGAIN` answers, each
  followed by a `na_ofi_progress` with timeout 0), the answer `rc` that ends it
  is not `-FI_EAGAIN` and the queue `l5` the loop leaves is a part of
  `l ++ [op]`; with `rc = 0` the call returns `NA_SUCCESS` in that world; with
  `rc ≠ 0` and `op` still in `l5` it returns `NA_PROTOCOL_ERROR` with `op`
  removed again and no completion added, the queue being `l5` without `op`, a
  part of `l`, and the queues being those before the call when the progress
  passes changed none; with `rc ≠ 0` and `op` no longer in `l5` the removal
  runs off the end of the queue;
* the loop itself: an answer other than `-FI_EAGAIN` ends it, after
  `-FI_EAGAIN` it goes on from the world the progress pass returns, and the
  world and the answer it ends with do not depend on the fuel;
* `queue_inv`, which says that no operation is in a queue twice or in two
  queues and that every queued operation is an unexpected receive without the
  `COMPLETED` bit, holds in every world with empty queues and is kept by every
  sequence of posts, cancels and progress calls of a caller that posts
  completed operation IDs only (`queue_calls`); it gives the `l.Nodup` and
  `op ∉ l` that the other parts ask for. -/
theorem unexpected_op_queue_invariant (E : Env) (fuel : Nat) (w : World)
    (context op q : Nat) (ctx : na_ofi_context) (l : List Nat) (o : na_ofi_op_id)
    (hctx : w.ctxs context = some ctx) (hq : ctx.unexpected_op_queue = some q)
    (hl : w.queues q = some l) (ho : w.ops op = some o) :
    (o.type = NA_CB_RECV_UNEXPECTED →
      ∀ (cq_event : fi_cq_tagged_entry) (src_addr : Nat) (src_err_addr : Option (List Nat))
        (src_err_addrlen : Nat) (r : World × na_return_t),
      cq_event.op_context = some op →
      na_ofi_cq_process_event E w context cq_event src_addr src_err_addr src_err_addrlen
        = .ok r →
      (r.1.completions = w.completions ∨ r.1.completions = op :: w.completions) ∧
      (r.1.completions = op :: w.completions →
        op ∈ l ∧ r.1.queues = Function.update w.queues q (some (l.erase op)) ∧
        (l.Nodup → op ∉ l.erase op))) ∧
    (o.type = NA_CB_RECV_UNEXPECTED →
      ∀ r : World × na_return_t, na_ofi_cq_read_canceled E w context (some op) = .ok r →
      (r.1.completions = w.completions ∨ r.1.completions = op :: w.completions) ∧
      (r.1.completions = op :: w.completions →
        op ∈ l ∧ r.1.queues = Function.update w.queues q (some (l.erase op)) ∧
        (l.Nodup → op ∉ l.erase op))) ∧
    (0 < o.refcount → o.refcount + 1 < 2 ^ 31 →
      ∀ callback arg buf buf_size plugin_data : Nat,
      E.fabric_post w.calls (Call.fi_trecv ctx.fi_rx buf buf_size plugin_data
        FI_ADDR_UNSPEC 1 NA_OFI_UNEXPECTED_TAG_IGNORE op) ≠ -FI_EAGAIN →
      ∃ w1 ret, na_ofi_msg_recv_unexpected E (fuel + 1) w context callback arg buf buf_size
          plugin_data (some op) = .ok (w1, ret) ∧
        w1.completions = w.completions ∧
        (E.fabric_post w.calls (Call.fi_trecv ctx.fi_rx buf buf_size plugin_data
            FI_ADDR_UNSPEC 1 NA_OFI_UNEXPECTED_TAG_IGNORE op) ≠ 0 →
          ret = NA_PROTOCOL_ERROR ∧ (op ∉ l → w1.queues = w.queues)) ∧
        (E.fabric_post w.calls (Call.fi_trecv ctx.fi_rx buf buf_size plugin_data
            FI_ADDR_UNSPEC 1 NA_OFI_UNEXPECTED_TAG_IGNORE op) = 0 →
          ret = NA_SUCCESS ∧ w1.queues = Function.update w.queues q (some (l ++ [op])) ∧
          (l.Nodup → op ∉ l → (l ++ [op]).Nodup))) ∧
    (0 < o.refcount → o.refcount + 1 < 2 ^ 31 →
      ∀ (callback arg buf buf_size plugin_data : Nat) (w5 : World) (rc : Int),
      post_retry E context (Call.fi_trecv ctx.fi_rx buf buf_size plugin_data
          FI_ADDR_UNSPEC 1 NA_OFI_UNEXPECTED_TAG_IGNORE op) fuel
        ((w.set_op op (some { o with
            context := some context, type := NA_CB_RECV_UNEXPECTED, callback := callback,
            arg := arg, addr := none, status := 0, buf := buf, buf_size := buf_size,
            refcount := o.refcount + 1 })).set_queue q (l ++ [op])) = .ok (w5, rc) →
      rc ≠ -FI_EAGAIN ∧
      ∃ l5, w5.queues q = some l5 ∧ l5.Sublist (l ++ [op]) ∧
        (l.Nodup → op ∉ l → l5.Nodup) ∧
        (rc = 0 → na_ofi_msg_recv_unexpected E fuel w context callback arg buf buf_size
            plugin_data (some op) = .ok (w5, NA_SUCCESS)) ∧
        (rc ≠ 0 → op ∈ l5 →
          ∃ w1, na_ofi_msg_recv_unexpected E fuel w context callback arg buf buf_size
              plugin_data (some op) = .ok (w1, NA_PROTOCOL_ERROR) ∧
            w1.queues = Function.update w5.queues q (some (l5.erase op)) ∧
            w1.completions = w5.completions ∧
            (l.Nodup → op ∉ l →
              op ∉ l5.erase op ∧ (l5.erase op).Nodup ∧ (l5.erase op).Sublist l) ∧
            (w5.queues = Function.update w.queues q (some (l ++ [op])) → op ∉ l →
              w1.queues = w.queues)) ∧
        (rc ≠ 0 → op ∉ l5 →
          na_ofi_msg_recv_unexpected E fuel w context callback arg buf buf_size
              plugin_data (some op) = .error Fault.null_deref)) ∧
    (∀ (W : World) (c : Call), E.fabric_post W.calls c ≠ -FI_EAGAIN →
      post_retry E context c (fuel + 1) W = .ok (W.log c, E.fabric_post W.calls c)) ∧
    (∀ (W : World) (c : Call) (p : World × na_return_t),
      E.fabric_post W.calls c = -FI_EAGAIN →
      na_ofi_progress E (fuel + 1) (W.log c) context 0 = .ok p →
      post_retry E context c (fuel + 1) W = post_retry E context c fuel p.1) ∧
    (∀ (W : World) (c : Call) (r : World × Int) (k : Nat),
      post_retry E context c fuel W = .ok r → post_retry E context c (fuel + k) W = .ok r) ∧
    (queue_inv w → l.Nodup ∧ (o.status &&& NA_OFI_OP_COMPLETED ≠ 0 → op ∉ l)) ∧
    (∀ (cs : List QueueCall) (W W1 : World),
      queue_calls E fuel W cs = .ok W1 → queue_inv W → queue_inv W1) ∧
    (∀ W : World, (∀ q l, W.queues q = some l → l = []) → queue_inv W) := by
  have hfix : ∀ (W : World), (∃ ctx1 q1 l1, w.ctxs context = some ctx1 ∧
      ctx1.unexpected_op_queue = some q1 ∧ w.queues q1 = some l1 ∧ op ∈ l1 ∧
      W.queues = Function.update w.queues q1 (some (l1.erase op))) →
      op ∈ l ∧ W.queues = Function.update w.queues q (some (l.erase op)) ∧
      (l.Nodup → op ∉ l.erase op) := by
    intro W ⟨ctx1, q1, l1, h1, h2, h3, h4, h5⟩
    rw [hctx] at h1
    have h1 := Option.some.inj h1
    subst h1
    rw [hq] at h2
    have h2 := Option.some.inj h2
    subst h2
    rw [hl] at h3
    have h3 := Option.some.inj h3
    subst h3
    exact ⟨h4, h5, fun hn => hn.not_mem_erase⟩
  refine ⟨?_, ?_, ?_, ?_, ?_, ?_, ?_, ?_, ?_, ?_⟩
  · intro hty cq_event src_addr src_err_addr src_err_addrlen r hop h
    obtain ⟨_, _, _, _, hop2⟩ := na_ofi_cq_process_event_inv E w context cq_event src_addr
      src_err_addr src_err_addrlen r h
    obtain ⟨k1, _, k3⟩ := hop2 op hop
    exact ⟨k1, fun hc => hfix r.1 (k3 o ho hty hc)⟩
  · intro hty r h
    obtain ⟨_, _, _, _, hop2⟩ := na_ofi_cq_read_canceled_inv E w context (some op) r h
    obtain ⟨k1, _, k3⟩ := hop2 op rfl
    exact ⟨k1, fun hc => hfix r.1 (k3 o ho hty hc)⟩
  · intro ho0 ho1 callback arg buf buf_size plugin_data h1
    obtain ⟨w1, ret, hr, hc, _, hne, heq⟩ := na_ofi_msg_recv_unexpected_post E fuel w context
      callback arg buf buf_size plugin_data op q ctx o l hctx hq hl ho ho0 ho1 h1
    refine ⟨w1, ret, hr, hc, fun h0 => ⟨(hne h0).1, fun hnot => ?_⟩,
      fun h0 => ⟨(heq h0).1, (heq h0).2, fun hn hnot => ?_⟩⟩
    · rw [(hne h0).2, List.erase_append_right _ hnot, List.erase_cons_head, List.append_nil,
        ← hl, Function.update_eq_self]
    · rw [List.nodup_append]
      refine ⟨hn, List.nodup_singleton op, ?_⟩
      intro a ha hb
      rw [List.mem_singleton] at hb
      subst hb
      exact hnot ha
  · intro ho0 ho1 callback arg buf buf_size plugin_data w5 rc hpost
    obtain ⟨l5, hl5, hs5, -, hok, herr, hflt⟩ := na_ofi_msg_recv_unexpected_retry E fuel w context
      callback arg buf buf_size plugin_data op q ctx o l hctx hq hl ho ho0 ho1 w5 rc hpost
    have hnd : l.Nodup → op ∉ l → (l ++ [op]).Nodup := by
      intro hn hnot
      rw [List.nodup_append]
      refine ⟨hn, List.nodup_singleton op, ?_⟩
      intro a ha hb
      rw [List.mem_singleton] at hb
      subst hb
      exact hnot ha
    have her : op ∉ l → (l ++ [op]).erase op = l := by
      intro hnot
      rw [List.erase_append_right _ hnot, List.erase_cons_head, List.append_nil]
    refine ⟨post_retry_answer E context _ fuel _ _ hpost, l5, hl5, hs5,
      fun hn hnot => (hnd hn hnot).sublist hs5, hok, fun h0 hmem => ?_, hflt⟩
    obtain ⟨w1, hr, hq1, hc1, -⟩ := herr h0 hmem
    refine ⟨w1, hr, hq1, hc1, fun hn hnot => ?_, fun h5 hnot => ?_⟩
    · have hn5 : l5.Nodup := (hnd hn hnot).sublist hs5
      refine ⟨hn5.not_mem_erase, hn5.sublist (List.erase_sublist _ _), ?_⟩
      have := hs5.erase op
      rw [her hnot] at this
      exact this
    · have h55 : l5 = l ++ [op] := by
        have := congrFun h5 q
        rw [hl5, Function.update_same] at this
        exact Option.some.inj this
      rw [hq1, h5, h55, her hnot, Function.update_idem, ← hl, Function.update_eq_self]
  · intro W c h
    exact post_retry_once E context c fuel W h
  · intro W c p h1 hp
    rw [na_ofi_progress_eq_once] at hp
    exact post_retry_again E context c fuel W p h1 hp
  · intro W c r k h
    exact post_retry_fuel_mono E context c fuel W r h k
  · intro hinv
    refine ⟨hinv.1 q l hl, fun hdone hm => ?_⟩
    obtain ⟨o2, ho2, hs2, -⟩ := hinv.2.1 q l op hl hm
    rw [ho] at ho2
    have ho2 := Option.some.inj ho2
    subst ho2
    exact hdone hs2
  · intro cs W W1 h hinv
    exact queue_calls_queue_inv E fuel cs W W1 h hinv
  · intro W h
    exact queue_inv_of_empty W h

/-- C27, amended, witness: in `world_queued_and_fresh` the post of the fresh
operation ID 1 that is answered `-FI_EAGAIN`, then (after the progress pass
that completes operation ID 0) `-FI_EIO`; the invariant of the queues there
and after a sequence of calls; a receive event and a canceled entry for the
posted operation of `world_posted_recv_unexpected`. -/
theorem unexpected_op_queue_invariant_witness :
    (world_queued_and_fresh.ctxs 0 = some ⟨1, 1, 3, none, some 0, 0⟩ ∧
      world_queued_and_fresh.queues 0 = some [0] ∧
      world_queued_and_fresh.ops 1 = some fresh_op ∧
      (0 : Int) < fresh_op.refcount ∧ fresh_op.refcount + 1 < 2 ^ 31) ∧
    (∃ w5,
      post_retry (env_busy sample_recv_event 7) 0
          (Call.fi_trecv 1 0 64 0 FI_ADDR_UNSPEC 1 NA_OFI_UNEXPECTED_TAG_IGNORE 1) 2
          ((world_queued_and_fresh.set_op 1 (some { fresh_op with
              context := some 0, type := NA_CB_RECV_UNEXPECTED, callback := 0,
              arg := 0, addr := none, status := 0, buf := 0, buf_size := 64,
              refcount := 1 + 1 })).set_queue 0 ([0] ++ [1])) = .ok (w5, -5) ∧
      w5.queues 0 = some [1] ∧ w5.completions = [0] ∧
      ∃ w1, na_ofi_msg_recv_unexpected (env_busy sample_recv_event 7) 2
          world_queued_and_fresh 0 0 0 0 64 0 (some 1) = .ok (w1, NA_PROTOCOL_ERROR) ∧
        w1.queues = Function.update w5.queues 0 (some (([1] : List Nat).erase 1)) ∧
        w1.completions = w5.completions ∧
        (([0] : List Nat).Nodup → 1 ∉ ([0] : List Nat) →
          1 ∉ ([1] : List Nat).erase 1 ∧ (([1] : List Nat).erase 1).Nodup ∧
          (([1] : List Nat).erase 1).Sublist [0]) ∧
        (w5.queues = Function.update world_queued_and_fresh.queues 0 (some ([0] ++ [1])) →
          1 ∉ ([0] : List Nat) → w1.queues = world_queued_and_fresh.queues)) ∧
    (queue_inv world_queued_and_fresh ∧ ([0] : List Nat).Nodup ∧ 1 ∉ ([0] : List Nat)) ∧
    (∃ W1, queue_calls (env_busy sample_recv_event 7) 2 world_queued_and_fresh
        [QueueCall.msg_recv_unexpected 0 0 0 0 64 0 1, QueueCall.cancel 0 0,
         QueueCall.progress 0 0] = .ok W1 ∧
      (W1.queues 0, W1.completions) = (some [], [0]) ∧ queue_inv W1) ∧
    (na_ofi_cq_process_event env_ok world_posted_recv_unexpected 0 sample_recv_event 7 none 0).map
      (fun r => (r.2, r.1.completions, r.1.queues 0)) = .ok (NA_SUCCESS, [0], some []) ∧
    (na_ofi_cq_read env_cq_canceled
        (match na_ofi_cancel env_ok world_posted_recv_unexpected 0 0 with
          | .ok r => r.1
          | .error _ => world_posted_recv_unexpected) 0 NA_OFI_CQ_EVENT_NUM none 0).map
      (fun r => (r.2.ret, r.1.completions, r.1.queues 0)) = .ok (NA_SUCCESS, [0], some []) := by
  obtain ⟨⟨w5, rc⟩, hx, hf⟩ := except_map_ok
    (f := fun r : World × Int => (r.2, r.1.queues 0, r.1.completions))
    (x := post_retry (env_busy sample_recv_event 7) 0
          (Call.fi_trecv 1 0 64 0 FI_ADDR_UNSPEC 1 NA_OFI_UNEXPECTED_TAG_IGNORE 1) 2
          ((world_queued_and_fresh.set_op 1 (some { fresh_op with
              context := some 0, type := NA_CB_RECV_UNEXPECTED, callback := 0,
              arg := 0, addr := none, status := 0, buf := 0, buf_size := 64,
              refcount := 1 + 1 })).set_queue 0 ([0] ++ [1])))
    (b := ((-5 : Int), some [1], [0]))
    (by simp only [post_retry, na_ofi_progress_eq_once]; rfl)
  have hrc : rc = -5 := congrArg Prod.fst hf
  have hq5 : w5.queues 0 = some [1] := congrArg (fun t => t.2.1) hf
  have hc5 : w5.completions = [0] := congrArg (fun t => t.2.2) hf
  subst hrc
  have T := unexpected_op_queue_invariant (env_busy sample_recv_event 7) 2
    world_queued_and_fresh 0 1 0 ⟨1, 1, 3, none, some 0, 0⟩ [0] fresh_op rfl rfl rfl rfl
  have T0 := unexpected_op_queue_invariant env_ok 1
    world_queued_and_fresh 0 1 0 ⟨1, 1, 3, none, some 0, 0⟩ [0] fresh_op rfl rfl rfl rfl
  obtain ⟨-, l5, hl5, -, -, -, herr, -⟩ := T.2.2.2.1 (by decide) (by decide) 0 0 0 64 0 w5 (-5) hx
  have h5 : l5 = [1] := by
    rw [hq5] at hl5
    exact (Option.some.inj hl5).symm
  subst h5
  have hbase : queue_inv (na_ofi_op_create env_ok (world_with NA_OFI_PROV_SOCKETS fresh_op [])).1 :=
    T0.2.2.2.2.2.2.2.2.2 _ (by
      intro q l h
      change (if q = 0 then some ([] : List Nat) else none) = some l at h
      split at h
      · exact (Option.some.inj h).symm
      · exact Option.noConfusion h)
  have hinv : queue_inv world_queued_and_fresh :=
    T0.2.2.2.2.2.2.2.2.1 [QueueCall.msg_recv_unexpected 0 0 0 0 64 0 0]
      (na_ofi_op_create env_ok (world_with NA_OFI_PROV_SOCKETS fresh_op [])).1
      world_queued_and_fresh (by rfl) hbase
  obtain ⟨W1, hW1, hW1f⟩ := except_map_ok
    (f := fun r : World => (r.queues 0, r.completions))
    (x := queue_calls (env_busy sample_recv_event 7) 2 world_queued_and_fresh
        [QueueCall.msg_recv_unexpected 0 0 0 0 64 0 1, QueueCall.cancel 0 0,
         QueueCall.progress 0 0])
    (b := (some [], [0]))
    (by simp only [queue_calls, queue_call, na_ofi_msg_recv_unexpected, post_retry,
          na_ofi_progress_eq_once]; rfl)
  exact ⟨⟨rfl, rfl, rfl, by decide, by decide⟩, ⟨w5, hx, hq5, hc5, herr (by decide) (by decide)⟩,
    ⟨hinv, (T.2.2.2.2.2.2.2.1 hinv).1, (T.2.2.2.2.2.2.2.1 hinv).2 (by decide)⟩,
    ⟨W1, hW1, hW1f, T.2.2.2.2.2.2.2.2.1 _ _ _ hW1 hinv⟩,
    by decide, by decide⟩

end NaOfi
